import Mathlib

/-!
# SplineC2CT: Bloch-phase assignment kernels

A shallow embedding of `src/QMCWaveFunctions/BsplineFactory/SplineC2CT.cpp`.

* `RealType` is an arbitrary commutative ring `R` (exact arithmetic; rounding is
  outside the model), `ComplexT` is `Cplx R`.
* `Vector`/`std::vector` buffers are lists; a read or write outside a buffer makes
  the embedded function return `none` (each loop body first checks that its reads are
  inside their buffers, `reads_*`, and then computes from the entries, `*_val`).
* `int` arguments are integers, `size_t` values are naturals; the conversions that
  the C++ comparison `last > kPointsSize` and the loop header
  `for (size_t j = first; j < last; ++j)` perform are explicit (`toSizeT`, `toInt`).
* `qmcplusplus::sincos` (CPU/math.hpp) is a parameter `sincos : R → R × R`
  returning the pair `(s, c)`.
* The rotation (`applyRotation`, `storeParamsBeforeRotation`) works on `RotationSet`,
  the members of the class that it uses; `applyRotation` gives the object as the call
  leaves it together with the failure that ended the call, if one did; its argument
  `NDEBUG` says whether the macro is defined, and an `assert` that fails is such a failure
  in a build that keeps assertions and no statement at all otherwise.
* The archive (`hdf_archive`) and the atomic-region engine of
  `src/QMCWaveFunctions/BsplineFactory/HybridRepCplx.h` (`HybridRepCenterOrbitals`) are
  outside the sources: their operations are parameters of the embedded functions.
* A call that can abort (`APP_ABORT`) ends in an `Outcome`: returned, aborted with a
  diagnostic, or undefined (an access outside a buffer).
* `src/QMCWaveFunctions/ElectronGas/FreeParticleBuilder.cpp`: `createSPOSetFromXML` is
  embedded from the orbital count and the twist that the XML attributes give to the k-point
  list that is handed to the orbital set; a `throw` is a `BuildFailure`.
* The blend `interpolate_buffer_v` of `HybridRepCenterOrbitals` is a parameter of the
  embedded `HybridRepCplx` functions; for the continuity of the blend at the factor one it
  is modelled from the spec, with the smoothing factor as the blend weight.
-/

namespace qmcplusplus

/-! ## Scalars -/

/-- The type `ComplexT = std::complex<RealType>`: a real and an imaginary part. -/
@[ext]
structure Cplx (R : Type) where
  re : R
  im : R
deriving DecidableEq, Repr

namespace Cplx

variable {R : Type} [CommRing R]

instance : Zero (Cplx R) := ⟨⟨0, 0⟩⟩
instance : Add (Cplx R) := ⟨fun a b => ⟨a.re + b.re, a.im + b.im⟩⟩
instance : Sub (Cplx R) := ⟨fun a b => ⟨a.re - b.re, a.im - b.im⟩⟩
instance : Neg (Cplx R) := ⟨fun a => ⟨-a.re, -a.im⟩⟩
instance : Mul (Cplx R) := ⟨fun a b => ⟨a.re * b.re - a.im * b.im, a.re * b.im + a.im * b.re⟩⟩

/-- The embedding of a real scalar. -/
def ofReal (x : R) : Cplx R := ⟨x, 0⟩

/-- The imaginary unit. -/
def I : Cplx R := ⟨0, 1⟩

end Cplx

/-! ## Integer conversions -/

/-- Conversion of an `int` to `size_t` (64 bit): the value modulo `2^64`. -/
def toSizeT (x : Int) : Nat := (x % 2 ^ 64).toNat

/-- Conversion of a `size_t` to `int` (32 bit, two's complement). -/
def toInt (n : Nat) : Int := ((n : Int) + 2 ^ 31) % 2 ^ 32 - 2 ^ 31

/-! ## Buffers and loops -/

/-- Assignment `xs[i] = v` into a buffer; `none` when `i` is outside the buffer. -/
def store {α : Type} (xs : List α) (i : Nat) (v : α) : Option (List α) :=
  if i < xs.length then some (xs.set i v) else none

/-- The iterations `j, j+1, ..., j+n-1` of a loop body over a state. -/
def forLoop {σ : Type} (body : Nat → σ → Option σ) : Nat → Nat → σ → Option σ
  | 0, _, s => some s
  | n + 1, j, s => (body j s).bind (forLoop body n (j + 1))

/-- The loop `for (size_t j = first; j < last; ++j) body`. -/
def forRange {σ : Type} (first last : Nat) (body : Nat → σ → Option σ) (s : σ) : Option σ :=
  forLoop body (last - first) first s

/-! ## contraction_helper.hpp -/

section Helpers

variable {R : Type} [CommRing R]

/-- Modelled from the spec: `v_m_v` of contraction_helper.hpp (not among the sources),
the bilinear form `g1ᵀ · H · g2` of the symmetric matrix `H` given by its six
independent components. -/
def v_m_v (h00 h01 h02 h11 h12 h22 g1x g1y g1z g2x g2y g2z : R) : R :=
  g1x * g2x * h00 + g1x * g2y * h01 + g1x * g2z * h02 + g1y * g2x * h01 + g1y * g2y * h11 +
    g1y * g2z * h12 + g1z * g2x * h02 + g1z * g2y * h12 + g1z * g2z * h22

/-- Modelled from the spec: `SymTrace` of contraction_helper.hpp (not among the sources),
the Cartesian-transformed trace of the Hessian: the six independent components weighted
by the six entries of `gg`. -/
def SymTrace (h00 h01 h02 h11 h12 h22 : R) (gg : Fin 6 → R) : R :=
  h00 * gg 0 + h01 * gg 1 + h02 * gg 2 + h11 * gg 3 + h12 * gg 4 + h22 * gg 5

/-- Modelled from the spec: `t3_contract` of contraction_helper.hpp (not among the sources),
the trilinear contraction of the symmetric third-derivative tensor, given by its ten
independent components, with the three vectors `g1`, `g2`, `g3`. -/
def t3_contract (h000 h001 h002 h011 h012 h022 h111 h112 h122 h222
    g1x g1y g1z g2x g2y g2z g3x g3y g3z : R) : R :=
  h000 * (g1x * g2x * g3x) +
  h001 * (g1x * g2x * g3y + g1x * g2y * g3x + g1y * g2x * g3x) +
  h002 * (g1x * g2x * g3z + g1x * g2z * g3x + g1z * g2x * g3x) +
  h011 * (g1x * g2y * g3y + g1y * g2x * g3y + g1y * g2y * g3x) +
  h012 * (g1x * g2y * g3z + g1x * g2z * g3y + g1y * g2x * g3z + g1y * g2z * g3x +
          g1z * g2x * g3y + g1z * g2y * g3x) +
  h022 * (g1x * g2z * g3z + g1z * g2x * g3z + g1z * g2z * g3x) +
  h111 * (g1y * g2y * g3y) +
  h112 * (g1y * g2y * g3z + g1y * g2z * g3y + g1z * g2y * g3y) +
  h122 * (g1y * g2z * g3z + g1z * g2y * g3z + g1z * g2z * g3y) +
  h222 * (g1z * g2z * g3z)

end Helpers

/-! ## The orbital set -/

/-- The members of `SplineC2CT<T>` that the assignment kernels use. -/
structure SplineC2CT (R : Type) where
  /-- The value `kPoints.size()`. -/
  kPointsSize : Nat
  /-- The first orbital index this set handles. -/
  first_spo : Nat
  /-- The end of the orbital index range this set handles. -/
  last_spo : Nat
  /-- The tensor `PrimLattice.G`, by flat index `0..8`. -/
  G : Nat → R
  /-- The tensor `GGt`, by flat index `0..8`. -/
  GGt : Nat → R
  /-- The arrays `myKcart.data(0..2)`. -/
  myKcart : Fin 3 → List R
  /-- The array `mKK`. -/
  mKK : List R
  /-- The scratch array `myV`. -/
  myV : List R
  /-- The scratch arrays `myG.data(0..2)`. -/
  myG : Fin 3 → List R
  /-- The scratch arrays `myH.data(0..5)`. -/
  myH : Fin 6 → List R
  /-- The scratch arrays `mygH.data(0..9)`. -/
  mygH : Fin 10 → List R
  /-- The scratch array `myL`. -/
  myL : List R

section Kernels

variable {R : Type} [CommRing R]

/-- The entry `xs[i]` of a buffer (zero outside the buffer). -/
def rd (xs : List R) (i : Nat) : R := xs.getD i 0

/-- The statement `last = last > kPointsSize ? kPointsSize : last;` where `last` is an
`int` and `kPointsSize` a `size_t`, so that the comparison is made in `size_t`. -/
def protect_last (kPointsSize : Nat) (last : Int) : Int :=
  if toSizeT last > kPointsSize then toInt kPointsSize else last

/-- The statement
`last = last < 0 ? kPointsSize : (last > kPointsSize ? kPointsSize : last);`
of `assign_vghgh`. -/
def protect_last_vghgh (kPointsSize : Nat) (last : Int) : Int :=
  if last < 0 then toInt kPointsSize
  else (if toSizeT last > kPointsSize then toInt kPointsSize else last)

/-- All the reads of the body of the loop of `assign_v` at orbital `j` are inside their
buffers. -/
def reads_v (S : SplineC2CT R) (myV : List R) (j : Nat) : Prop :=
  (∀ a : Fin 3, j < (S.myKcart a).length) ∧
  2 * j + 1 < myV.length

instance (S : SplineC2CT R) (myV : List R) (j : Nat) : Decidable (reads_v S myV j) := by
  unfold reads_v; infer_instance

/-- The value that the body of the loop of `assign_v` computes at orbital `j` and stores
into `psi[j + first_spo]`. -/
def assign_v_val (sincos : R → R × R) (S : SplineC2CT R) (r : Fin 3 → R) (myV : List R)
    (j : Nat) : Cplx R :=
  let x := r 0
  let y := r 1
  let z := r 2
  let kx_j := rd (S.myKcart 0) j
  let ky_j := rd (S.myKcart 1) j
  let kz_j := rd (S.myKcart 2) j
  let val_r := rd myV (2 * j)
  let val_i := rd myV (2 * j + 1)
  let sc := sincos (-(x * kx_j + y * ky_j + z * kz_j))
  let s := sc.1
  let c := sc.2
  ⟨val_r * c - val_i * s, val_i * c + val_r * s⟩

/-- The body of the loop of `assign_v` at orbital `j`: `none` when a read is outside its
buffer. -/
def assign_v_at (sincos : R → R × R) (S : SplineC2CT R) (r : Fin 3 → R) (myV : List R)
    (j : Nat) : Option (Cplx R) :=
  if reads_v S myV j then some (assign_v_val sincos S r myV j) else none

/-- The function `SplineC2CT<T>::assign_v`. -/
def assign_v (sincos : R → R × R) (S : SplineC2CT R) (r : Fin 3 → R) (myV : List R)
    (psi : List (Cplx R)) (first last : Int) : Option (List (Cplx R)) :=
  let kPointsSize := S.kPointsSize
  let last := protect_last kPointsSize last
  forRange (toSizeT first) (toSizeT last)
    (fun j psi => do
      let v ← assign_v_at sincos S r myV j
      store psi (j + S.first_spo) v)
    psi

/-- All the reads of the body of the loop of `assign_vgl` at orbital `j` are inside their
buffers. -/
def reads_vgl (S : SplineC2CT R) (j : Nat) : Prop :=
  (∀ a : Fin 3, j < (S.myKcart a).length) ∧
  2 * j + 1 < S.myV.length ∧
  (∀ a : Fin 3, 2 * j + 1 < (S.myG a).length) ∧
  (∀ a : Fin 6, 2 * j + 1 < (S.myH a).length) ∧
  j < S.mKK.length

instance (S : SplineC2CT R) (j : Nat) : Decidable (reads_vgl S j) := by
  unfold reads_vgl; infer_instance

/-- The values that the body of the loop of `assign_vgl` computes at orbital `j` and stores
into `psi`, `dpsi` and `d2psi` at `j + first_spo`. -/
def assign_vgl_val (sincos : R → R × R) (S : SplineC2CT R) (r : Fin 3 → R) (j : Nat) :
    Cplx R × (Fin 3 → Cplx R) × Cplx R :=
  let two : R := 2
  let g00 := S.G 0
  let g01 := S.G 1
  let g02 := S.G 2
  let g10 := S.G 3
  let g11 := S.G 4
  let g12 := S.G 5
  let g20 := S.G 6
  let g21 := S.G 7
  let g22 := S.G 8
  let x := r 0
  let y := r 1
  let z := r 2
  let symGG : Fin 6 → R :=
    ![S.GGt 0, S.GGt 1 + S.GGt 3, S.GGt 2 + S.GGt 6, S.GGt 4, S.GGt 5 + S.GGt 7, S.GGt 8]
  let jr := j <<< 1
  let ji := jr + 1
  let k0_j := rd (S.myKcart 0) j
  let k1_j := rd (S.myKcart 1) j
  let k2_j := rd (S.myKcart 2) j
  let myV_jr := rd S.myV jr
  let myV_ji := rd S.myV ji
  let g0_jr := rd (S.myG 0) jr
  let g1_jr := rd (S.myG 1) jr
  let g2_jr := rd (S.myG 2) jr
  let g0_ji := rd (S.myG 0) ji
  let g1_ji := rd (S.myG 1) ji
  let g2_ji := rd (S.myG 2) ji
  let h00_jr := rd (S.myH 0) jr
  let h01_jr := rd (S.myH 1) jr
  let h02_jr := rd (S.myH 2) jr
  let h11_jr := rd (S.myH 3) jr
  let h12_jr := rd (S.myH 4) jr
  let h22_jr := rd (S.myH 5) jr
  let h00_ji := rd (S.myH 0) ji
  let h01_ji := rd (S.myH 1) ji
  let h02_ji := rd (S.myH 2) ji
  let h11_ji := rd (S.myH 3) ji
  let h12_ji := rd (S.myH 4) ji
  let h22_ji := rd (S.myH 5) ji
  let mKK_j := rd S.mKK j
  let kX := k0_j
  let kY := k1_j
  let kZ := k2_j
  let val_r := myV_jr
  let val_i := myV_ji
  let sc := sincos (-(x * kX + y * kY + z * kZ))
  let s := sc.1
  let c := sc.2
  let dX_r := g00 * g0_jr + g01 * g1_jr + g02 * g2_jr
  let dY_r := g10 * g0_jr + g11 * g1_jr + g12 * g2_jr
  let dZ_r := g20 * g0_jr + g21 * g1_jr + g22 * g2_jr
  let dX_i := g00 * g0_ji + g01 * g1_ji + g02 * g2_ji
  let dY_i := g10 * g0_ji + g11 * g1_ji + g12 * g2_ji
  let dZ_i := g20 * g0_ji + g21 * g1_ji + g22 * g2_ji
  let gX_r := dX_r + val_i * kX
  let gY_r := dY_r + val_i * kY
  let gZ_r := dZ_r + val_i * kZ
  let gX_i := dX_i - val_r * kX
  let gY_i := dY_i - val_r * kY
  let gZ_i := dZ_i - val_r * kZ
  let lcart_r := SymTrace h00_jr h01_jr h02_jr h11_jr h12_jr h22_jr symGG
  let lcart_i := SymTrace h00_ji h01_ji h02_ji h11_ji h12_ji h22_ji symGG
  let lap_r := lcart_r + mKK_j * val_r + two * (kX * dX_i + kY * dY_i + kZ * dZ_i)
  let lap_i := lcart_i + mKK_j * val_i - two * (kX * dX_r + kY * dY_r + kZ * dZ_r)
  let psi_out : Cplx R := ⟨c * val_r - s * val_i, c * val_i + s * val_r⟩
  let dpsi_0 : Cplx R := ⟨c * gX_r - s * gX_i, c * gX_i + s * gX_r⟩
  let dpsi_1 : Cplx R := ⟨c * gY_r - s * gY_i, c * gY_i + s * gY_r⟩
  let dpsi_2 : Cplx R := ⟨c * gZ_r - s * gZ_i, c * gZ_i + s * gZ_r⟩
  let d2psi_out : Cplx R := ⟨c * lap_r - s * lap_i, c * lap_i + s * lap_r⟩
  (psi_out, ![dpsi_0, dpsi_1, dpsi_2], d2psi_out)

/-- The body of the loop of `assign_vgl` at orbital `j`: `none` when a read is outside its
buffer. -/
def assign_vgl_at (sincos : R → R × R) (S : SplineC2CT R) (r : Fin 3 → R) (j : Nat) :
    Option (Cplx R × (Fin 3 → Cplx R) × Cplx R) :=
  if reads_vgl S j then some (assign_vgl_val sincos S r j) else none

/-- The function `SplineC2CT<T>::assign_vgl`. -/
def assign_vgl (sincos : R → R × R) (S : SplineC2CT R) (r : Fin 3 → R)
    (psi : List (Cplx R)) (dpsi : List (Fin 3 → Cplx R)) (d2psi : List (Cplx R))
    (first last : Int) : Option (List (Cplx R) × List (Fin 3 → Cplx R) × List (Cplx R)) :=
  let kPointsSize := S.kPointsSize
  let last := protect_last kPointsSize last
  forRange (toSizeT first) (toSizeT last)
    (fun j out => do
      let v ← assign_vgl_at sincos S r j
      let psiIndex := j + S.first_spo
      let psi ← store out.1 psiIndex v.1
      let dpsi ← store out.2.1 psiIndex v.2.1
      let d2psi ← store out.2.2 psiIndex v.2.2
      pure (psi, dpsi, d2psi))
    (psi, dpsi, d2psi)

/-- All the reads of the body of the loop of `assign_vgl_from_l` at orbital `j` are inside their
buffers. -/
def reads_vgl_from_l (S : SplineC2CT R) (j : Nat) : Prop :=
  (∀ a : Fin 3, j < (S.myKcart a).length) ∧
  2 * j + 1 < S.myV.length ∧
  (∀ a : Fin 3, 2 * j + 1 < (S.myG a).length) ∧
  2 * j + 1 < S.myL.length ∧
  j < S.mKK.length

instance (S : SplineC2CT R) (j : Nat) : Decidable (reads_vgl_from_l S j) := by
  unfold reads_vgl_from_l; infer_instance

/-- The values that the body of the loop of `assign_vgl_from_l` computes at orbital `j` and stores
into `psi`, `dpsi` and `d2psi` at `j + first_spo`. -/
def assign_vgl_from_l_val (sincos : R → R × R) (S : SplineC2CT R) (r : Fin 3 → R) (j : Nat) :
    Cplx R × (Fin 3 → Cplx R) × Cplx R :=
  let two : R := 2
  let x := r 0
  let y := r 1
  let z := r 2
  let jr := j <<< 1
  let ji := jr + 1
  let k0_j := rd (S.myKcart 0) j
  let k1_j := rd (S.myKcart 1) j
  let k2_j := rd (S.myKcart 2) j
  let myV_jr := rd S.myV jr
  let myV_ji := rd S.myV ji
  let g0_jr := rd (S.myG 0) jr
  let g1_jr := rd (S.myG 1) jr
  let g2_jr := rd (S.myG 2) jr
  let g0_ji := rd (S.myG 0) ji
  let g1_ji := rd (S.myG 1) ji
  let g2_ji := rd (S.myG 2) ji
  let myL_jr := rd S.myL jr
  let myL_ji := rd S.myL ji
  let mKK_j := rd S.mKK j
  let kX := k0_j
  let kY := k1_j
  let kZ := k2_j
  let val_r := myV_jr
  let val_i := myV_ji
  let sc := sincos (-(x * kX + y * kY + z * kZ))
  let s := sc.1
  let c := sc.2
  let dX_r := g0_jr
  let dY_r := g1_jr
  let dZ_r := g2_jr
  let dX_i := g0_ji
  let dY_i := g1_ji
  let dZ_i := g2_ji
  let gX_r := dX_r + val_i * kX
  let gY_r := dY_r + val_i * kY
  let gZ_r := dZ_r + val_i * kZ
  let gX_i := dX_i - val_r * kX
  let gY_i := dY_i - val_r * kY
  let gZ_i := dZ_i - val_r * kZ
  let lap_r := myL_jr + mKK_j * val_r + two * (kX * dX_i + kY * dY_i + kZ * dZ_i)
  let lap_i := myL_ji + mKK_j * val_i - two * (kX * dX_r + kY * dY_r + kZ * dZ_r)
  let psi_out : Cplx R := ⟨c * val_r - s * val_i, c * val_i + s * val_r⟩
  let dpsi_0 : Cplx R := ⟨c * gX_r - s * gX_i, c * gX_i + s * gX_r⟩
  let dpsi_1 : Cplx R := ⟨c * gY_r - s * gY_i, c * gY_i + s * gY_r⟩
  let dpsi_2 : Cplx R := ⟨c * gZ_r - s * gZ_i, c * gZ_i + s * gZ_r⟩
  let d2psi_out : Cplx R := ⟨c * lap_r - s * lap_i, c * lap_i + s * lap_r⟩
  (psi_out, ![dpsi_0, dpsi_1, dpsi_2], d2psi_out)

/-- The body of the loop of `assign_vgl_from_l` at orbital `j`: `none` when a read is outside its
buffer. -/
def assign_vgl_from_l_at (sincos : R → R × R) (S : SplineC2CT R) (r : Fin 3 → R) (j : Nat) :
    Option (Cplx R × (Fin 3 → Cplx R) × Cplx R) :=
  if reads_vgl_from_l S j then some (assign_vgl_from_l_val sincos S r j) else none

/-- The function `SplineC2CT<T>::assign_vgl_from_l`; `N = last_spo - first_spo` is a
`size_t` difference. -/
def assign_vgl_from_l (sincos : R → R × R) (S : SplineC2CT R) (r : Fin 3 → R)
    (psi : List (Cplx R)) (dpsi : List (Fin 3 → Cplx R)) (d2psi : List (Cplx R)) :
    Option (List (Cplx R) × List (Fin 3 → Cplx R) × List (Cplx R)) :=
  let N := (S.last_spo + 2 ^ 64 - S.first_spo) % 2 ^ 64
  forRange 0 N
    (fun j out => do
      let v ← assign_vgl_from_l_at sincos S r j
      let psiIndex := j + S.first_spo
      let psi ← store out.1 psiIndex v.1
      let dpsi ← store out.2.1 psiIndex v.2.1
      let d2psi ← store out.2.2 psiIndex v.2.2
      pure (psi, dpsi, d2psi))
    (psi, dpsi, d2psi)

/-- All the reads of the body of the loop of `assign_vgh` at orbital `j` are inside their
buffers. -/
def reads_vgh (S : SplineC2CT R) (j : Nat) : Prop :=
  (∀ a : Fin 3, j < (S.myKcart a).length) ∧
  2 * j + 1 < S.myV.length ∧
  (∀ a : Fin 3, 2 * j + 1 < (S.myG a).length) ∧
  (∀ a : Fin 6, 2 * j + 1 < (S.myH a).length)

instance (S : SplineC2CT R) (j : Nat) : Decidable (reads_vgh S j) := by
  unfold reads_vgh; infer_instance

/-- The values that the body of the loop of `assign_vgh` computes at orbital `j` and stores
into `psi`, `dpsi` and `grad_grad_psi` at `j + first_spo`. -/
def assign_vgh_val (sincos : R → R × R) (S : SplineC2CT R) (r : Fin 3 → R) (j : Nat) :
    Cplx R × (Fin 3 → Cplx R) × (Fin 9 → Cplx R) :=
  let g00 := S.G 0
  let g01 := S.G 1
  let g02 := S.G 2
  let g10 := S.G 3
  let g11 := S.G 4
  let g12 := S.G 5
  let g20 := S.G 6
  let g21 := S.G 7
  let g22 := S.G 8
  let x := r 0
  let y := r 1
  let z := r 2
  let jr := j <<< 1
  let ji := jr + 1
  let k0_j := rd (S.myKcart 0) j
  let k1_j := rd (S.myKcart 1) j
  let k2_j := rd (S.myKcart 2) j
  let myV_jr := rd S.myV jr
  let myV_ji := rd S.myV ji
  let g0_jr := rd (S.myG 0) jr
  let g1_jr := rd (S.myG 1) jr
  let g2_jr := rd (S.myG 2) jr
  let g0_ji := rd (S.myG 0) ji
  let g1_ji := rd (S.myG 1) ji
  let g2_ji := rd (S.myG 2) ji
  let h00_jr := rd (S.myH 0) jr
  let h01_jr := rd (S.myH 1) jr
  let h02_jr := rd (S.myH 2) jr
  let h11_jr := rd (S.myH 3) jr
  let h12_jr := rd (S.myH 4) jr
  let h22_jr := rd (S.myH 5) jr
  let h00_ji := rd (S.myH 0) ji
  let h01_ji := rd (S.myH 1) ji
  let h02_ji := rd (S.myH 2) ji
  let h11_ji := rd (S.myH 3) ji
  let h12_ji := rd (S.myH 4) ji
  let h22_ji := rd (S.myH 5) ji
  let kX := k0_j
  let kY := k1_j
  let kZ := k2_j
  let val_r := myV_jr
  let val_i := myV_ji
  let sc := sincos (-(x * kX + y * kY + z * kZ))
  let s := sc.1
  let c := sc.2
  let dX_r := g00 * g0_jr + g01 * g1_jr + g02 * g2_jr
  let dY_r := g10 * g0_jr + g11 * g1_jr + g12 * g2_jr
  let dZ_r := g20 * g0_jr + g21 * g1_jr + g22 * g2_jr
  let dX_i := g00 * g0_ji + g01 * g1_ji + g02 * g2_ji
  let dY_i := g10 * g0_ji + g11 * g1_ji + g12 * g2_ji
  let dZ_i := g20 * g0_ji + g21 * g1_ji + g22 * g2_ji
  let gX_r := dX_r + val_i * kX
  let gY_r := dY_r + val_i * kY
  let gZ_r := dZ_r + val_i * kZ
  let gX_i := dX_i - val_r * kX
  let gY_i := dY_i - val_r * kY
  let gZ_i := dZ_i - val_r * kZ
  let psi_out : Cplx R := ⟨c * val_r - s * val_i, c * val_i + s * val_r⟩
  let dpsi_0 : Cplx R := ⟨c * gX_r - s * gX_i, c * gX_i + s * gX_r⟩
  let dpsi_1 : Cplx R := ⟨c * gY_r - s * gY_i, c * gY_i + s * gY_r⟩
  let dpsi_2 : Cplx R := ⟨c * gZ_r - s * gZ_i, c * gZ_i + s * gZ_r⟩
  let h_xx_r := v_m_v h00_jr h01_jr h02_jr h11_jr h12_jr h22_jr g00 g01 g02 g00 g01 g02 + kX *
      (gX_i + dX_i)
  let h_xy_r := v_m_v h00_jr h01_jr h02_jr h11_jr h12_jr h22_jr g00 g01 g02 g10 g11 g12 + kX *
      (gY_i + dY_i)
  let h_xz_r := v_m_v h00_jr h01_jr h02_jr h11_jr h12_jr h22_jr g00 g01 g02 g20 g21 g22 + kX *
      (gZ_i + dZ_i)
  let h_yx_r := v_m_v h00_jr h01_jr h02_jr h11_jr h12_jr h22_jr g10 g11 g12 g00 g01 g02 + kY *
      (gX_i + dX_i)
  let h_yy_r := v_m_v h00_jr h01_jr h02_jr h11_jr h12_jr h22_jr g10 g11 g12 g10 g11 g12 + kY *
      (gY_i + dY_i)
  let h_yz_r := v_m_v h00_jr h01_jr h02_jr h11_jr h12_jr h22_jr g10 g11 g12 g20 g21 g22 + kY *
      (gZ_i + dZ_i)
  let h_zx_r := v_m_v h00_jr h01_jr h02_jr h11_jr h12_jr h22_jr g20 g21 g22 g00 g01 g02 + kZ *
      (gX_i + dX_i)
  let h_zy_r := v_m_v h00_jr h01_jr h02_jr h11_jr h12_jr h22_jr g20 g21 g22 g10 g11 g12 + kZ *
      (gY_i + dY_i)
  let h_zz_r := v_m_v h00_jr h01_jr h02_jr h11_jr h12_jr h22_jr g20 g21 g22 g20 g21 g22 + kZ *
      (gZ_i + dZ_i)
  let h_xx_i := v_m_v h00_ji h01_ji h02_ji h11_ji h12_ji h22_ji g00 g01 g02 g00 g01 g02 - kX *
      (gX_r + dX_r)
  let h_xy_i := v_m_v h00_ji h01_ji h02_ji h11_ji h12_ji h22_ji g00 g01 g02 g10 g11 g12 - kX *
      (gY_r + dY_r)
  let h_xz_i := v_m_v h00_ji h01_ji h02_ji h11_ji h12_ji h22_ji g00 g01 g02 g20 g21 g22 - kX *
      (gZ_r + dZ_r)
  let h_yx_i := v_m_v h00_ji h01_ji h02_ji h11_ji h12_ji h22_ji g10 g11 g12 g00 g01 g02 - kY *
      (gX_r + dX_r)
  let h_yy_i := v_m_v h00_ji h01_ji h02_ji h11_ji h12_ji h22_ji g10 g11 g12 g10 g11 g12 - kY *
      (gY_r + dY_r)
  let h_yz_i := v_m_v h00_ji h01_ji h02_ji h11_ji h12_ji h22_ji g10 g11 g12 g20 g21 g22 - kY *
      (gZ_r + dZ_r)
  let h_zx_i := v_m_v h00_ji h01_ji h02_ji h11_ji h12_ji h22_ji g20 g21 g22 g00 g01 g02 - kZ *
      (gX_r + dX_r)
  let h_zy_i := v_m_v h00_ji h01_ji h02_ji h11_ji h12_ji h22_ji g20 g21 g22 g10 g11 g12 - kZ *
      (gY_r + dY_r)
  let h_zz_i := v_m_v h00_ji h01_ji h02_ji h11_ji h12_ji h22_ji g20 g21 g22 g20 g21 g22 - kZ *
      (gZ_r + dZ_r)
  let gg_0 : Cplx R := ⟨c * h_xx_r - s * h_xx_i, c * h_xx_i + s * h_xx_r⟩
  let gg_1 : Cplx R := ⟨c * h_xy_r - s * h_xy_i, c * h_xy_i + s * h_xy_r⟩
  let gg_2 : Cplx R := ⟨c * h_xz_r - s * h_xz_i, c * h_xz_i + s * h_xz_r⟩
  let gg_3 : Cplx R := ⟨c * h_yx_r - s * h_yx_i, c * h_yx_i + s * h_yx_r⟩
  let gg_4 : Cplx R := ⟨c * h_yy_r - s * h_yy_i, c * h_yy_i + s * h_yy_r⟩
  let gg_5 : Cplx R := ⟨c * h_yz_r - s * h_yz_i, c * h_yz_i + s * h_yz_r⟩
  let gg_6 : Cplx R := ⟨c * h_zx_r - s * h_zx_i, c * h_zx_i + s * h_zx_r⟩
  let gg_7 : Cplx R := ⟨c * h_zy_r - s * h_zy_i, c * h_zy_i + s * h_zy_r⟩
  let gg_8 : Cplx R := ⟨c * h_zz_r - s * h_zz_i, c * h_zz_i + s * h_zz_r⟩
  (psi_out, ![dpsi_0, dpsi_1, dpsi_2],
    ![gg_0, gg_1, gg_2, gg_3, gg_4, gg_5, gg_6, gg_7, gg_8])

/-- The body of the loop of `assign_vgh` at orbital `j`: `none` when a read is outside its
buffer. -/
def assign_vgh_at (sincos : R → R × R) (S : SplineC2CT R) (r : Fin 3 → R) (j : Nat) :
    Option (Cplx R × (Fin 3 → Cplx R) × (Fin 9 → Cplx R)) :=
  if reads_vgh S j then some (assign_vgh_val sincos S r j) else none

/-- The function `SplineC2CT<T>::assign_vgh`. -/
def assign_vgh (sincos : R → R × R) (S : SplineC2CT R) (r : Fin 3 → R)
    (psi : List (Cplx R)) (dpsi : List (Fin 3 → Cplx R)) (grad_grad_psi : List (Fin 9 → Cplx R))
    (first last : Int) :
    Option (List (Cplx R) × List (Fin 3 → Cplx R) × List (Fin 9 → Cplx R)) :=
  let kPointsSize := S.kPointsSize
  let last := protect_last kPointsSize last
  forRange (toSizeT first) (toSizeT last)
    (fun j out => do
      let v ← assign_vgh_at sincos S r j
      let psiIndex := j + S.first_spo
      let psi ← store out.1 psiIndex v.1
      let dpsi ← store out.2.1 psiIndex v.2.1
      let grad_grad_psi ← store out.2.2 psiIndex v.2.2
      pure (psi, dpsi, grad_grad_psi))
    (psi, dpsi, grad_grad_psi)

/-- All the reads of the body of the loop of `assign_vghgh` at orbital `j` are inside their
buffers. -/
def reads_vghgh (S : SplineC2CT R) (j : Nat) : Prop :=
  (∀ a : Fin 3, j < (S.myKcart a).length) ∧
  2 * j + 1 < S.myV.length ∧
  (∀ a : Fin 3, 2 * j + 1 < (S.myG a).length) ∧
  (∀ a : Fin 6, 2 * j + 1 < (S.myH a).length) ∧
  (∀ a : Fin 10, 2 * j + 1 < (S.mygH a).length)

instance (S : SplineC2CT R) (j : Nat) : Decidable (reads_vghgh S j) := by
  unfold reads_vghgh; infer_instance

/-- The values that the body of the loop of `assign_vghgh` computes at orbital `j` and stores
into `psi`, `dpsi`, `grad_grad_psi` and `grad_grad_grad_psi` at `j + first_spo`. -/
def assign_vghgh_val (sincos : R → R × R) (S : SplineC2CT R) (r : Fin 3 → R) (j : Nat) :
    Cplx R × (Fin 3 → Cplx R) × (Fin 9 → Cplx R) × (Fin 3 → Fin 9 → Cplx R) :=
  let g00 := S.G 0
  let g01 := S.G 1
  let g02 := S.G 2
  let g10 := S.G 3
  let g11 := S.G 4
  let g12 := S.G 5
  let g20 := S.G 6
  let g21 := S.G 7
  let g22 := S.G 8
  let x := r 0
  let y := r 1
  let z := r 2
  let jr := j <<< 1
  let ji := jr + 1
  let k0_j := rd (S.myKcart 0) j
  let k1_j := rd (S.myKcart 1) j
  let k2_j := rd (S.myKcart 2) j
  let myV_jr := rd S.myV jr
  let myV_ji := rd S.myV ji
  let g0_jr := rd (S.myG 0) jr
  let g1_jr := rd (S.myG 1) jr
  let g2_jr := rd (S.myG 2) jr
  let g0_ji := rd (S.myG 0) ji
  let g1_ji := rd (S.myG 1) ji
  let g2_ji := rd (S.myG 2) ji
  let h00_jr := rd (S.myH 0) jr
  let h01_jr := rd (S.myH 1) jr
  let h02_jr := rd (S.myH 2) jr
  let h11_jr := rd (S.myH 3) jr
  let h12_jr := rd (S.myH 4) jr
  let h22_jr := rd (S.myH 5) jr
  let h00_ji := rd (S.myH 0) ji
  let h01_ji := rd (S.myH 1) ji
  let h02_ji := rd (S.myH 2) ji
  let h11_ji := rd (S.myH 3) ji
  let h12_ji := rd (S.myH 4) ji
  let h22_ji := rd (S.myH 5) ji
  let gh000_jr := rd (S.mygH 0) jr
  let gh001_jr := rd (S.mygH 1) jr
  let gh002_jr := rd (S.mygH 2) jr
  let gh011_jr := rd (S.mygH 3) jr
  let gh012_jr := rd (S.mygH 4) jr
  let gh022_jr := rd (S.mygH 5) jr
  let gh111_jr := rd (S.mygH 6) jr
  let gh112_jr := rd (S.mygH 7) jr
  let gh122_jr := rd (S.mygH 8) jr
  let gh222_jr := rd (S.mygH 9) jr
  let gh000_ji := rd (S.mygH 0) ji
  let gh001_ji := rd (S.mygH 1) ji
  let gh002_ji := rd (S.mygH 2) ji
  let gh011_ji := rd (S.mygH 3) ji
  let gh012_ji := rd (S.mygH 4) ji
  let gh022_ji := rd (S.mygH 5) ji
  let gh111_ji := rd (S.mygH 6) ji
  let gh112_ji := rd (S.mygH 7) ji
  let gh122_ji := rd (S.mygH 8) ji
  let gh222_ji := rd (S.mygH 9) ji
  let kX := k0_j
  let kY := k1_j
  let kZ := k2_j
  let val_r := myV_jr
  let val_i := myV_ji
  let sc := sincos (-(x * kX + y * kY + z * kZ))
  let s := sc.1
  let c := sc.2
  let dX_r := g00 * g0_jr + g01 * g1_jr + g02 * g2_jr
  let dY_r := g10 * g0_jr + g11 * g1_jr + g12 * g2_jr
  let dZ_r := g20 * g0_jr + g21 * g1_jr + g22 * g2_jr
  let dX_i := g00 * g0_ji + g01 * g1_ji + g02 * g2_ji
  let dY_i := g10 * g0_ji + g11 * g1_ji + g12 * g2_ji
  let dZ_i := g20 * g0_ji + g21 * g1_ji + g22 * g2_ji
  let gX_r := dX_r + val_i * kX
  let gY_r := dY_r + val_i * kY
  let gZ_r := dZ_r + val_i * kZ
  let gX_i := dX_i - val_r * kX
  let gY_i := dY_i - val_r * kY
  let gZ_i := dZ_i - val_r * kZ
  let psi_out : Cplx R := ⟨c * val_r - s * val_i, c * val_i + s * val_r⟩
  let dpsi_0 : Cplx R := ⟨c * gX_r - s * gX_i, c * gX_i + s * gX_r⟩
  let dpsi_1 : Cplx R := ⟨c * gY_r - s * gY_i, c * gY_i + s * gY_r⟩
  let dpsi_2 : Cplx R := ⟨c * gZ_r - s * gZ_i, c * gZ_i + s * gZ_r⟩
  let f_xx_r := v_m_v h00_jr h01_jr h02_jr h11_jr h12_jr h22_jr g00 g01 g02 g00 g01 g02
  let f_xy_r := v_m_v h00_jr h01_jr h02_jr h11_jr h12_jr h22_jr g00 g01 g02 g10 g11 g12
  let f_xz_r := v_m_v h00_jr h01_jr h02_jr h11_jr h12_jr h22_jr g00 g01 g02 g20 g21 g22
  let f_yy_r := v_m_v h00_jr h01_jr h02_jr h11_jr h12_jr h22_jr g10 g11 g12 g10 g11 g12
  let f_yz_r := v_m_v h00_jr h01_jr h02_jr h11_jr h12_jr h22_jr g10 g11 g12 g20 g21 g22
  let f_zz_r := v_m_v h00_jr h01_jr h02_jr h11_jr h12_jr h22_jr g20 g21 g22 g20 g21 g22
  let f_xx_i := v_m_v h00_ji h01_ji h02_ji h11_ji h12_ji h22_ji g00 g01 g02 g00 g01 g02
  let f_xy_i := v_m_v h00_ji h01_ji h02_ji h11_ji h12_ji h22_ji g00 g01 g02 g10 g11 g12
  let f_xz_i := v_m_v h00_ji h01_ji h02_ji h11_ji h12_ji h22_ji g00 g01 g02 g20 g21 g22
  let f_yy_i := v_m_v h00_ji h01_ji h02_ji h11_ji h12_ji h22_ji g10 g11 g12 g10 g11 g12
  let f_yz_i := v_m_v h00_ji h01_ji h02_ji h11_ji h12_ji h22_ji g10 g11 g12 g20 g21 g22
  let f_zz_i := v_m_v h00_ji h01_ji h02_ji h11_ji h12_ji h22_ji g20 g21 g22 g20 g21 g22
  let h_xx_r := f_xx_r + 2 * kX * dX_i - kX * kX * val_r
  let h_xy_r := f_xy_r + (kX * dY_i + kY * dX_i) - kX * kY * val_r
  let h_xz_r := f_xz_r + (kX * dZ_i + kZ * dX_i) - kX * kZ * val_r
  let h_yy_r := f_yy_r + 2 * kY * dY_i - kY * kY * val_r
  let h_yz_r := f_yz_r + (kY * dZ_i + kZ * dY_i) - kY * kZ * val_r
  let h_zz_r := f_zz_r + 2 * kZ * dZ_i - kZ * kZ * val_r
  let h_xx_i := f_xx_i - 2 * kX * dX_r - kX * kX * val_i
  let h_xy_i := f_xy_i - (kX * dY_r + kY * dX_r) - kX * kY * val_i
  let h_xz_i := f_xz_i - (kX * dZ_r + kZ * dX_r) - kX * kZ * val_i
  let h_yy_i := f_yy_i - 2 * kY * dY_r - kY * kY * val_i
  let h_yz_i := f_yz_i - (kZ * dY_r + kY * dZ_r) - kZ * kY * val_i
  let h_zz_i := f_zz_i - 2 * kZ * dZ_r - kZ * kZ * val_i
  let gg_0 : Cplx R := ⟨c * h_xx_r - s * h_xx_i, c * h_xx_i + s * h_xx_r⟩
  let gg_1 : Cplx R := ⟨c * h_xy_r - s * h_xy_i, c * h_xy_i + s * h_xy_r⟩
  let gg_2 : Cplx R := ⟨c * h_xz_r - s * h_xz_i, c * h_xz_i + s * h_xz_r⟩
  let gg_3 : Cplx R := ⟨c * h_xy_r - s * h_xy_i, c * h_xy_i + s * h_xy_r⟩
  let gg_4 : Cplx R := ⟨c * h_yy_r - s * h_yy_i, c * h_yy_i + s * h_yy_r⟩
  let gg_5 : Cplx R := ⟨c * h_yz_r - s * h_yz_i, c * h_yz_i + s * h_yz_r⟩
  let gg_6 : Cplx R := ⟨c * h_xz_r - s * h_xz_i, c * h_xz_i + s * h_xz_r⟩
  let gg_7 : Cplx R := ⟨c * h_yz_r - s * h_yz_i, c * h_yz_i + s * h_yz_r⟩
  let gg_8 : Cplx R := ⟨c * h_zz_r - s * h_zz_i, c * h_zz_i + s * h_zz_r⟩
  let f3_xxx_r := t3_contract gh000_jr gh001_jr gh002_jr gh011_jr gh012_jr gh022_jr gh111_jr
      gh112_jr gh122_jr gh222_jr g00 g01 g02 g00 g01 g02 g00 g01 g02
  let f3_xxy_r := t3_contract gh000_jr gh001_jr gh002_jr gh011_jr gh012_jr gh022_jr gh111_jr
      gh112_jr gh122_jr gh222_jr g00 g01 g02 g00 g01 g02 g10 g11 g12
  let f3_xxz_r := t3_contract gh000_jr gh001_jr gh002_jr gh011_jr gh012_jr gh022_jr gh111_jr
      gh112_jr gh122_jr gh222_jr g00 g01 g02 g00 g01 g02 g20 g21 g22
  let f3_xyy_r := t3_contract gh000_jr gh001_jr gh002_jr gh011_jr gh012_jr gh022_jr gh111_jr
      gh112_jr gh122_jr gh222_jr g00 g01 g02 g10 g11 g12 g10 g11 g12
  let f3_xyz_r := t3_contract gh000_jr gh001_jr gh002_jr gh011_jr gh012_jr gh022_jr gh111_jr
      gh112_jr gh122_jr gh222_jr g00 g01 g02 g10 g11 g12 g20 g21 g22
  let f3_xzz_r := t3_contract gh000_jr gh001_jr gh002_jr gh011_jr gh012_jr gh022_jr gh111_jr
      gh112_jr gh122_jr gh222_jr g00 g01 g02 g20 g21 g22 g20 g21 g22
  let f3_yyy_r := t3_contract gh000_jr gh001_jr gh002_jr gh011_jr gh012_jr gh022_jr gh111_jr
      gh112_jr gh122_jr gh222_jr g10 g11 g12 g10 g11 g12 g10 g11 g12
  let f3_yyz_r := t3_contract gh000_jr gh001_jr gh002_jr gh011_jr gh012_jr gh022_jr gh111_jr
      gh112_jr gh122_jr gh222_jr g10 g11 g12 g10 g11 g12 g20 g21 g22
  let f3_yzz_r := t3_contract gh000_jr gh001_jr gh002_jr gh011_jr gh012_jr gh022_jr gh111_jr
      gh112_jr gh122_jr gh222_jr g10 g11 g12 g20 g21 g22 g20 g21 g22
  let f3_zzz_r := t3_contract gh000_jr gh001_jr gh002_jr gh011_jr gh012_jr gh022_jr gh111_jr
      gh112_jr gh122_jr gh222_jr g20 g21 g22 g20 g21 g22 g20 g21 g22
  let f3_xxx_i := t3_contract gh000_ji gh001_ji gh002_ji gh011_ji gh012_ji gh022_ji gh111_ji
      gh112_ji gh122_ji gh222_ji g00 g01 g02 g00 g01 g02 g00 g01 g02
  let f3_xxy_i := t3_contract gh000_ji gh001_ji gh002_ji gh011_ji gh012_ji gh022_ji gh111_ji
      gh112_ji gh122_ji gh222_ji g00 g01 g02 g00 g01 g02 g10 g11 g12
  let f3_xxz_i := t3_contract gh000_ji gh001_ji gh002_ji gh011_ji gh012_ji gh022_ji gh111_ji
      gh112_ji gh122_ji gh222_ji g00 g01 g02 g00 g01 g02 g20 g21 g22
  let f3_xyy_i := t3_contract gh000_ji gh001_ji gh002_ji gh011_ji gh012_ji gh022_ji gh111_ji
      gh112_ji gh122_ji gh222_ji g00 g01 g02 g10 g11 g12 g10 g11 g12
  let f3_xyz_i := t3_contract gh000_ji gh001_ji gh002_ji gh011_ji gh012_ji gh022_ji gh111_ji
      gh112_ji gh122_ji gh222_ji g00 g01 g02 g10 g11 g12 g20 g21 g22
  let f3_xzz_i := t3_contract gh000_ji gh001_ji gh002_ji gh011_ji gh012_ji gh022_ji gh111_ji
      gh112_ji gh122_ji gh222_ji g00 g01 g02 g20 g21 g22 g20 g21 g22
  let f3_yyy_i := t3_contract gh000_ji gh001_ji gh002_ji gh011_ji gh012_ji gh022_ji gh111_ji
      gh112_ji gh122_ji gh222_ji g10 g11 g12 g10 g11 g12 g10 g11 g12
  let f3_yyz_i := t3_contract gh000_ji gh001_ji gh002_ji gh011_ji gh012_ji gh022_ji gh111_ji
      gh112_ji gh122_ji gh222_ji g10 g11 g12 g10 g11 g12 g20 g21 g22
  let f3_yzz_i := t3_contract gh000_ji gh001_ji gh002_ji gh011_ji gh012_ji gh022_ji gh111_ji
      gh112_ji gh122_ji gh222_ji g10 g11 g12 g20 g21 g22 g20 g21 g22
  let f3_zzz_i := t3_contract gh000_ji gh001_ji gh002_ji gh011_ji gh012_ji gh022_ji gh111_ji
      gh112_ji gh122_ji gh222_ji g20 g21 g22 g20 g21 g22 g20 g21 g22
  let gh_xxx_r := f3_xxx_r + 3 * kX * f_xx_i - 3 * kX * kX * dX_r - kX * kX * kX * val_i
  let gh_xxx_i := f3_xxx_i - 3 * kX * f_xx_r - 3 * kX * kX * dX_i + kX * kX * kX * val_r
  let gh_xxy_r := f3_xxy_r + (kY * f_xx_i + 2 * kX * f_xy_i) - (kX * kX * dY_r + 2 * kX * kY *
      dX_r) - kX * kX * kY * val_i
  let gh_xxy_i := f3_xxy_i - (kY * f_xx_r + 2 * kX * f_xy_r) - (kX * kX * dY_i + 2 * kX * kY *
      dX_i) + kX * kX * kY * val_r
  let gh_xxz_r := f3_xxz_r + (kZ * f_xx_i + 2 * kX * f_xz_i) - (kX * kX * dZ_r + 2 * kX * kZ *
      dX_r) - kX * kX * kZ * val_i
  let gh_xxz_i := f3_xxz_i - (kZ * f_xx_r + 2 * kX * f_xz_r) - (kX * kX * dZ_i + 2 * kX * kZ *
      dX_i) + kX * kX * kZ * val_r
  let gh_xyy_r := f3_xyy_r + (2 * kY * f_xy_i + kX * f_yy_i) - (2 * kX * kY * dY_r + kY * kY *
      dX_r) - kX * kY * kY * val_i
  let gh_xyy_i := f3_xyy_i - (2 * kY * f_xy_r + kX * f_yy_r) - (2 * kX * kY * dY_i + kY * kY *
      dX_i) + kX * kY * kY * val_r
  let gh_xyz_r := f3_xyz_r + (kX * f_yz_i + kY * f_xz_i + kZ * f_xy_i) - (kX * kY * dZ_r + kY * kZ
      * dX_r + kZ * kX * dY_r) - kX * kY * kZ * val_i
  let gh_xyz_i := f3_xyz_i - (kX * f_yz_r + kY * f_xz_r + kZ * f_xy_r) - (kX * kY * dZ_i + kY * kZ
      * dX_i + kZ * kX * dY_i) + kX * kY * kZ * val_r
  let gh_xzz_r := f3_xzz_r + (2 * kZ * f_xz_i + kX * f_zz_i) - (2 * kX * kZ * dZ_r + kZ * kZ *
      dX_r) - kX * kZ * kZ * val_i
  let gh_xzz_i := f3_xzz_i - (2 * kZ * f_xz_r + kX * f_zz_r) - (2 * kX * kZ * dZ_i + kZ * kZ *
      dX_i) + kX * kZ * kZ * val_r
  let gh_yyy_r := f3_yyy_r + 3 * kY * f_yy_i - 3 * kY * kY * dY_r - kY * kY * kY * val_i
  let gh_yyy_i := f3_yyy_i - 3 * kY * f_yy_r - 3 * kY * kY * dY_i + kY * kY * kY * val_r
  let gh_yyz_r := f3_yyz_r + (kZ * f_yy_i + 2 * kY * f_yz_i) - (kY * kY * dZ_r + 2 * kY * kZ *
      dY_r) - kY * kY * kZ * val_i
  let gh_yyz_i := f3_yyz_i - (kZ * f_yy_r + 2 * kY * f_yz_r) - (kY * kY * dZ_i + 2 * kY * kZ *
      dY_i) + kY * kY * kZ * val_r
  let gh_yzz_r := f3_yzz_r + (2 * kZ * f_yz_i + kY * f_zz_i) - (2 * kY * kZ * dZ_r + kZ * kZ *
      dY_r) - kY * kZ * kZ * val_i
  let gh_yzz_i := f3_yzz_i - (2 * kZ * f_yz_r + kY * f_zz_r) - (2 * kY * kZ * dZ_i + kZ * kZ *
      dY_i) + kY * kZ * kZ * val_r
  let gh_zzz_r := f3_zzz_r + 3 * kZ * f_zz_i - 3 * kZ * kZ * dZ_r - kZ * kZ * kZ * val_i
  let gh_zzz_i := f3_zzz_i - 3 * kZ * f_zz_r - 3 * kZ * kZ * dZ_i + kZ * kZ * kZ * val_r
  let ggg_0_0 : Cplx R := ⟨c * gh_xxx_r - s * gh_xxx_i, c * gh_xxx_i + s * gh_xxx_r⟩
  let ggg_0_1 : Cplx R := ⟨c * gh_xxy_r - s * gh_xxy_i, c * gh_xxy_i + s * gh_xxy_r⟩
  let ggg_0_2 : Cplx R := ⟨c * gh_xxz_r - s * gh_xxz_i, c * gh_xxz_i + s * gh_xxz_r⟩
  let ggg_0_3 : Cplx R := ⟨c * gh_xxy_r - s * gh_xxy_i, c * gh_xxy_i + s * gh_xxy_r⟩
  let ggg_0_4 : Cplx R := ⟨c * gh_xyy_r - s * gh_xyy_i, c * gh_xyy_i + s * gh_xyy_r⟩
  let ggg_0_5 : Cplx R := ⟨c * gh_xyz_r - s * gh_xyz_i, c * gh_xyz_i + s * gh_xyz_r⟩
  let ggg_0_6 : Cplx R := ⟨c * gh_xxz_r - s * gh_xxz_i, c * gh_xxz_i + s * gh_xxz_r⟩
  let ggg_0_7 : Cplx R := ⟨c * gh_xyz_r - s * gh_xyz_i, c * gh_xyz_i + s * gh_xyz_r⟩
  let ggg_0_8 : Cplx R := ⟨c * gh_xzz_r - s * gh_xzz_i, c * gh_xzz_i + s * gh_xzz_r⟩
  let ggg_1_0 : Cplx R := ⟨c * gh_xxy_r - s * gh_xxy_i, c * gh_xxy_i + s * gh_xxy_r⟩
  let ggg_1_1 : Cplx R := ⟨c * gh_xyy_r - s * gh_xyy_i, c * gh_xyy_i + s * gh_xyy_r⟩
  let ggg_1_2 : Cplx R := ⟨c * gh_xyz_r - s * gh_xyz_i, c * gh_xyz_i + s * gh_xyz_r⟩
  let ggg_1_3 : Cplx R := ⟨c * gh_xyy_r - s * gh_xyy_i, c * gh_xyy_i + s * gh_xyy_r⟩
  let ggg_1_4 : Cplx R := ⟨c * gh_yyy_r - s * gh_yyy_i, c * gh_yyy_i + s * gh_yyy_r⟩
  let ggg_1_5 : Cplx R := ⟨c * gh_yyz_r - s * gh_yyz_i, c * gh_yyz_i + s * gh_yyz_r⟩
  let ggg_1_6 : Cplx R := ⟨c * gh_xyz_r - s * gh_xyz_i, c * gh_xyz_i + s * gh_xyz_r⟩
  let ggg_1_7 : Cplx R := ⟨c * gh_yyz_r - s * gh_yyz_i, c * gh_yyz_i + s * gh_yyz_r⟩
  let ggg_1_8 : Cplx R := ⟨c * gh_yzz_r - s * gh_yzz_i, c * gh_yzz_i + s * gh_yzz_r⟩
  let ggg_2_0 : Cplx R := ⟨c * gh_xxz_r - s * gh_xxz_i, c * gh_xxz_i + s * gh_xxz_r⟩
  let ggg_2_1 : Cplx R := ⟨c * gh_xyz_r - s * gh_xyz_i, c * gh_xyz_i + s * gh_xyz_r⟩
  let ggg_2_2 : Cplx R := ⟨c * gh_xzz_r - s * gh_xzz_i, c * gh_xzz_i + s * gh_xzz_r⟩
  let ggg_2_3 : Cplx R := ⟨c * gh_xyz_r - s * gh_xyz_i, c * gh_xyz_i + s * gh_xyz_r⟩
  let ggg_2_4 : Cplx R := ⟨c * gh_yyz_r - s * gh_yyz_i, c * gh_yyz_i + s * gh_yyz_r⟩
  let ggg_2_5 : Cplx R := ⟨c * gh_yzz_r - s * gh_yzz_i, c * gh_yzz_i + s * gh_yzz_r⟩
  let ggg_2_6 : Cplx R := ⟨c * gh_xzz_r - s * gh_xzz_i, c * gh_xzz_i + s * gh_xzz_r⟩
  let ggg_2_7 : Cplx R := ⟨c * gh_yzz_r - s * gh_yzz_i, c * gh_yzz_i + s * gh_yzz_r⟩
  let ggg_2_8 : Cplx R := ⟨c * gh_zzz_r - s * gh_zzz_i, c * gh_zzz_i + s * gh_zzz_r⟩
  (psi_out, ![dpsi_0, dpsi_1, dpsi_2],
    ![gg_0, gg_1, gg_2, gg_3, gg_4, gg_5, gg_6, gg_7, gg_8],
    ![![ggg_0_0, ggg_0_1, ggg_0_2, ggg_0_3, ggg_0_4, ggg_0_5, ggg_0_6, ggg_0_7, ggg_0_8],
      ![ggg_1_0, ggg_1_1, ggg_1_2, ggg_1_3, ggg_1_4, ggg_1_5, ggg_1_6, ggg_1_7, ggg_1_8],
      ![ggg_2_0, ggg_2_1, ggg_2_2, ggg_2_3, ggg_2_4, ggg_2_5, ggg_2_6, ggg_2_7, ggg_2_8]])

/-- The body of the loop of `assign_vghgh` at orbital `j`: `none` when a read is outside its
buffer. -/
def assign_vghgh_at (sincos : R → R × R) (S : SplineC2CT R) (r : Fin 3 → R) (j : Nat) :
    Option (Cplx R × (Fin 3 → Cplx R) × (Fin 9 → Cplx R) × (Fin 3 → Fin 9 → Cplx R)) :=
  if reads_vghgh S j then some (assign_vghgh_val sincos S r j) else none

/-- The function `SplineC2CT<T>::assign_vghgh`. -/
def assign_vghgh (sincos : R → R × R) (S : SplineC2CT R) (r : Fin 3 → R)
    (psi : List (Cplx R)) (dpsi : List (Fin 3 → Cplx R)) (grad_grad_psi : List (Fin 9 → Cplx R))
    (grad_grad_grad_psi : List (Fin 3 → Fin 9 → Cplx R)) (first last : Int) :
    Option (List (Cplx R) × List (Fin 3 → Cplx R) × List (Fin 9 → Cplx R) ×
      List (Fin 3 → Fin 9 → Cplx R)) :=
  let kPointsSize := S.kPointsSize
  let last := protect_last_vghgh kPointsSize last
  forRange (toSizeT first) (toSizeT last)
    (fun j out => do
      let v ← assign_vghgh_at sincos S r j
      let psiIndex := j + S.first_spo
      let psi ← store out.1 psiIndex v.1
      let dpsi ← store out.2.1 psiIndex v.2.1
      let grad_grad_psi ← store out.2.2.1 psiIndex v.2.2.1
      let grad_grad_grad_psi ← store out.2.2.2 psiIndex v.2.2.2
      pure (psi, dpsi, grad_grad_psi, grad_grad_grad_psi))
    (psi, dpsi, grad_grad_psi, grad_grad_grad_psi)

/-! ## evaluateValue -/

/-- Modelled from the spec: the spline table behind `SplineInst`
(spline2/MultiBspline.hpp is not among the sources): a number of real channels and the
interpolated value of each channel at a reduced coordinate. -/
structure MultiBspline (R : Type) where
  /-- The total channel count. -/
  num_splines : Nat
  /-- The interpolated value of a channel at a reduced coordinate. -/
  value : (Fin 3 → R) → Nat → R

/-- Modelled from the spec: `spline2::evaluate3d` (spline2/MultiBsplineEval.hpp is not
among the sources) writes the interpolated value of exactly the channels in
`[first, last)` into the buffer, indexed by absolute channel number; `last` is clamped to
the total channel count. -/
def evaluate3d (spline : MultiBspline R) (ru : Fin 3 → R) (vals : List R) (first last : Int) :
    Option (List R) :=
  let last := if last > spline.num_splines then (spline.num_splines : Int) else last
  forRange first.toNat last.toNat (fun i vals => store vals i (spline.value ru i)) vals

/-- The body of the parallel region of `SplineC2CT<T>::evaluateValue`, as run by the
thread to which `FairDivideAligned` gives the channels `[first, last)`; the state is the
orbital set (with its scratch `myV`) and the output `psi`. -/
def evaluateValue_body (sincos : R → R × R) (spline : MultiBspline R) (r ru : Fin 3 → R)
    (first last : Int) (st : SplineC2CT R × List (Cplx R)) :
    Option (SplineC2CT R × List (Cplx R)) := do
  let myV ← evaluate3d spline ru st.1.myV first last
  let S := { st.1 with myV := myV }
  let psi ← assign_v sincos S r S.myV st.2 (Int.tdiv first 2) (Int.tdiv last 2)
  pure (S, psi)

/-- The function `SplineC2CT<T>::evaluateValue` at the position `r = P.activeR(iat)`: the
bodies of the threads are run one after the other, in the order of the list `shares` of
their channel ranges. `toUnit_floor` stands for `PrimLattice.toUnit_floor`. -/
def evaluateValue (sincos : R → R × R) (spline : MultiBspline R)
    (toUnit_floor : (Fin 3 → R) → (Fin 3 → R)) (S : SplineC2CT R) (r : Fin 3 → R)
    (psi : List (Cplx R)) (shares : List (Int × Int)) :
    Option (SplineC2CT R × List (Cplx R)) :=
  let ru := toUnit_floor r
  shares.foldlM (fun st sh => evaluateValue_body sincos spline r ru sh.1 sh.2 st) (S, psi)

end Kernels

/-! ## Specification vocabulary -/

/-- The buffer `ys` is the buffer `xs` with the entries at the indices `lo ≤ i < hi`
replaced by the values `val i`. -/
def Upd {α : Type} (val : Nat → Option α) (lo hi : Nat) (xs ys : List α) : Prop :=
  ys.length = xs.length ∧ ∀ i, ys[i]? = if lo ≤ i ∧ i < hi then val i else xs[i]?

section Vocabulary

variable {R : Type} [CommRing R]

/-- The orbital index `j` satisfies `first <= j < min(last, kPoints.size())`. -/
def InRange (first last : Int) (kPointsSize : Nat) (j : Nat) : Prop :=
  first ≤ (j : Int) ∧ (j : Int) < min last (kPointsSize : Int)

instance (first last : Int) (kPointsSize j : Nat) : Decidable (InRange first last kPointsSize j) := by
  unfold InRange; infer_instance

/-- The raw complex value `myV[2j] + i myV[2j+1]` of orbital `j`. -/
def psi_raw (myV : List R) (j : Nat) : Cplx R := ⟨rd myV (2 * j), rd myV (2 * j + 1)⟩

/-- The k-vector of orbital `j`. -/
def kvec (S : SplineC2CT R) (j : Nat) (a : Fin 3) : R := rd (S.myKcart a) j

/-- The phase factor `c + i s` with `(s, c) = sincos(-(r . k_j))`. -/
def blochPhase (sincos : R → R × R) (S : SplineC2CT R) (r : Fin 3 → R) (j : Nat) : Cplx R :=
  ⟨(sincos (-(r 0 * kvec S j 0 + r 1 * kvec S j 1 + r 2 * kvec S j 2))).2,
   (sincos (-(r 0 * kvec S j 0 + r 1 * kvec S j 1 + r 2 * kvec S j 2))).1⟩

/-- The raw reduced-coordinate gradient `myG_b[2j] + i myG_b[2j+1]`. -/
def rawGrad (S : SplineC2CT R) (j : Nat) (b : Fin 3) : Cplx R :=
  ⟨rd (S.myG b) (2 * j), rd (S.myG b) (2 * j + 1)⟩

/-- The Cartesian raw gradient `D_a = sum_b G(3a+b) * (myG_b[2j] + i myG_b[2j+1])`. -/
def cartGrad (S : SplineC2CT R) (j : Nat) (a : Fin 3) : Cplx R :=
  Cplx.ofReal (S.G (3 * a.val)) * rawGrad S j 0 +
    Cplx.ofReal (S.G (3 * a.val + 1)) * rawGrad S j 1 +
    Cplx.ofReal (S.G (3 * a.val + 2)) * rawGrad S j 2

/-- The array `symGG` of `assign_vgl`. -/
def symGG (S : SplineC2CT R) : Fin 6 → R :=
  ![S.GGt 0, S.GGt 1 + S.GGt 3, S.GGt 2 + S.GGt 6, S.GGt 4, S.GGt 5 + S.GGt 7, S.GGt 8]

/-- The `SymTrace` of the raw Hessian channels (real and imaginary) against `symGG`. -/
def rawLap (S : SplineC2CT R) (j : Nat) : Cplx R :=
  ⟨SymTrace (rd (S.myH 0) (2 * j)) (rd (S.myH 1) (2 * j)) (rd (S.myH 2) (2 * j))
      (rd (S.myH 3) (2 * j)) (rd (S.myH 4) (2 * j)) (rd (S.myH 5) (2 * j)) (symGG S),
   SymTrace (rd (S.myH 0) (2 * j + 1)) (rd (S.myH 1) (2 * j + 1)) (rd (S.myH 2) (2 * j + 1))
      (rd (S.myH 3) (2 * j + 1)) (rd (S.myH 4) (2 * j + 1)) (rd (S.myH 5) (2 * j + 1))
      (symGG S)⟩

/-- The product `k_j . D` of the k-vector with the Cartesian raw gradient. -/
def kDotGrad (S : SplineC2CT R) (j : Nat) : Cplx R :=
  Cplx.ofReal (kvec S j 0) * cartGrad S j 0 + Cplx.ofReal (kvec S j 1) * cartGrad S j 1 +
    Cplx.ofReal (kvec S j 2) * cartGrad S j 2

/-- The square `k_j . k_j` of the k-vector. -/
def kSq (S : SplineC2CT R) (j : Nat) : R :=
  kvec S j 0 * kvec S j 0 + kvec S j 1 * kvec S j 1 + kvec S j 2 * kvec S j 2

/-- The raw Hessian contracted twice with the lattice tensor,
`F_ab = v_m_v(raw Hessian; row a of G, row b of G)`, real and imaginary channel. -/
def cartHess (S : SplineC2CT R) (j : Nat) (a b : Fin 3) : Cplx R :=
  ⟨v_m_v (rd (S.myH 0) (2 * j)) (rd (S.myH 1) (2 * j)) (rd (S.myH 2) (2 * j))
      (rd (S.myH 3) (2 * j)) (rd (S.myH 4) (2 * j)) (rd (S.myH 5) (2 * j))
      (S.G (3 * a.val)) (S.G (3 * a.val + 1)) (S.G (3 * a.val + 2))
      (S.G (3 * b.val)) (S.G (3 * b.val + 1)) (S.G (3 * b.val + 2)),
   v_m_v (rd (S.myH 0) (2 * j + 1)) (rd (S.myH 1) (2 * j + 1)) (rd (S.myH 2) (2 * j + 1))
      (rd (S.myH 3) (2 * j + 1)) (rd (S.myH 4) (2 * j + 1)) (rd (S.myH 5) (2 * j + 1))
      (S.G (3 * a.val)) (S.G (3 * a.val + 1)) (S.G (3 * a.val + 2))
      (S.G (3 * b.val)) (S.G (3 * b.val + 1)) (S.G (3 * b.val + 2))⟩

/-- The `t3_contract` of one channel `ch` of the raw third-derivative tensor with the rows
`a`, `b`, `c` of `G`. -/
def t3_rows (S : SplineC2CT R) (ch : Nat) (a b c : Fin 3) : R :=
  t3_contract (rd (S.mygH 0) ch) (rd (S.mygH 1) ch) (rd (S.mygH 2) ch) (rd (S.mygH 3) ch)
    (rd (S.mygH 4) ch) (rd (S.mygH 5) ch) (rd (S.mygH 6) ch) (rd (S.mygH 7) ch)
    (rd (S.mygH 8) ch) (rd (S.mygH 9) ch)
    (S.G (3 * a.val)) (S.G (3 * a.val + 1)) (S.G (3 * a.val + 2))
    (S.G (3 * b.val)) (S.G (3 * b.val + 1)) (S.G (3 * b.val + 2))
    (S.G (3 * c.val)) (S.G (3 * c.val + 1)) (S.G (3 * c.val + 2))

/-- The raw third-derivative tensor contracted with three rows of `G`, real and imaginary
channel. -/
def cartGGG (S : SplineC2CT R) (j : Nat) (a b c : Fin 3) : Cplx R :=
  ⟨t3_rows S (2 * j) a b c, t3_rows S (2 * j + 1) a b c⟩

/-- The second derivative of the phase-modulated field,
`(c + i s) * (F_ab - i k_a D_b - i k_b D_a - k_a k_b psi_raw)`. -/
def phaseHess (sincos : R → R × R) (S : SplineC2CT R) (r : Fin 3 → R) (j : Nat)
    (a b : Fin 3) : Cplx R :=
  blochPhase sincos S r j *
    (cartHess S j a b - Cplx.I * Cplx.ofReal (kvec S j a) * cartGrad S j b
      - Cplx.I * Cplx.ofReal (kvec S j b) * cartGrad S j a
      - Cplx.ofReal (kvec S j a * kvec S j b) * psi_raw S.myV j)

/-- The third derivative of the phase-modulated field,
`(c + i s) * [T_abc - i (k_a F_bc + k_b F_ac + k_c F_ab)
  - (k_a k_b D_c + k_a k_c D_b + k_b k_c D_a) + i k_a k_b k_c psi_raw]`. -/
def phaseGGG (sincos : R → R × R) (S : SplineC2CT R) (r : Fin 3 → R) (j : Nat)
    (a b c : Fin 3) : Cplx R :=
  blochPhase sincos S r j *
    (cartGGG S j a b c
      - Cplx.I * (Cplx.ofReal (kvec S j a) * cartHess S j b c
          + Cplx.ofReal (kvec S j b) * cartHess S j a c
          + Cplx.ofReal (kvec S j c) * cartHess S j a b)
      - (Cplx.ofReal (kvec S j a * kvec S j b) * cartGrad S j c
          + Cplx.ofReal (kvec S j a * kvec S j c) * cartGrad S j b
          + Cplx.ofReal (kvec S j b * kvec S j c) * cartGrad S j a)
      + Cplx.I * Cplx.ofReal (kvec S j a * kvec S j b * kvec S j c) * psi_raw S.myV j)

/-- The second state of the comparison of `assign_vgl_from_l` with `assign_vgl`: the same
`myV`, `myG` replaced by its Cartesian transform `G * myG`, and
`myL[ch] = SymTrace(myH[ch], symGG)` for every channel `ch` of `myV`. -/
def cartesianState (S : SplineC2CT R) : SplineC2CT R :=
  { S with
    myG := fun a => (List.range S.myV.length).map (fun ch =>
      S.G (3 * a.val) * rd (S.myG 0) ch + S.G (3 * a.val + 1) * rd (S.myG 1) ch
        + S.G (3 * a.val + 2) * rd (S.myG 2) ch)
    myL := (List.range S.myV.length).map (fun ch =>
      SymTrace (rd (S.myH 0) ch) (rd (S.myH 1) ch) (rd (S.myH 2) ch) (rd (S.myH 3) ch)
        (rd (S.myH 4) ch) (rd (S.myH 5) ch) (symGG S)) }

/-- The orbital `j` is processed by a kernel called with the `int` arguments `first` and
`last`: `first` is not negative and `first <= j < min(last, kPoints.size())`, where a
negative `last` stands for `kPoints.size()`. -/
def Processed (first last : Int) (kPointsSize : Nat) (j : Nat) : Prop :=
  0 ≤ first ∧ first ≤ (j : Int) ∧
    (j : Int) < (if last < 0 then (kPointsSize : Int) else min last (kPointsSize : Int))

instance (first last : Int) (kPointsSize j : Nat) :
    Decidable (Processed first last kPointsSize j) := by
  unfold Processed; infer_instance

/-- The output index `i` is `first_spo + j` for a processed orbital `j`. -/
def Written (S : SplineC2CT R) (first last : Int) (i : Nat) : Prop :=
  S.first_spo ≤ i ∧ Processed first last S.kPointsSize (i - S.first_spo)

instance (S : SplineC2CT R) (first last : Int) (i : Nat) : Decidable (Written S first last i) := by
  unfold Written; infer_instance

/-- The scratch buffers and the k-vector arrays of the orbital set hold `kPoints.size()`
orbitals (two channels per orbital in the scratch buffers). -/
def WellSized (S : SplineC2CT R) : Prop :=
  (∀ a : Fin 3, S.kPointsSize ≤ (S.myKcart a).length) ∧
  S.kPointsSize ≤ S.mKK.length ∧
  2 * S.kPointsSize ≤ S.myV.length ∧
  (∀ a : Fin 3, 2 * S.kPointsSize ≤ (S.myG a).length) ∧
  (∀ a : Fin 6, 2 * S.kPointsSize ≤ (S.myH a).length) ∧
  (∀ a : Fin 10, 2 * S.kPointsSize ≤ (S.mygH a).length)

instance (S : SplineC2CT R) : Decidable (WellSized S) := by
  unfold WellSized; infer_instance

/-- The list of channel ranges `[first_t, last_t)` is a split of `[a, b)` into contiguous
slices with even end points, listed in increasing order. -/
def IsSplit (a b : Int) : List (Int × Int) → Prop
  | [] => a = b
  | sh :: rest => sh.1 = a ∧ a ≤ sh.2 ∧ sh.2 % 2 = 0 ∧ IsSplit sh.2 b rest

/-- Whether a list of channel ranges is a split can be computed. -/
def decIsSplit : (L : List (Int × Int)) → (a b : Int) → Decidable (IsSplit a b L)
  | [], a, b => by unfold IsSplit; infer_instance
  | sh :: rest, a, b =>
    have := decIsSplit rest sh.2 b
    by unfold IsSplit; infer_instance

instance (L : List (Int × Int)) (a b : Int) : Decidable (IsSplit a b L) := decIsSplit L a b

/-- The orbital `j` lies in the orbital range `[first_t / 2, min(last_t / 2, kPoints.size()))`
of one of the channel ranges of the list. -/
def Covered (L : List (Int × Int)) (kPointsSize : Nat) (j : Nat) : Prop :=
  ∃ sh ∈ L, sh.1 ≤ 2 * (j : Int) ∧ 2 * (j : Int) < sh.2 ∧ j < kPointsSize

instance (L : List (Int × Int)) (kPointsSize j : Nat) : Decidable (Covered L kPointsSize j) := by
  unfold Covered; infer_instance

/-- The value of orbital `j` at the position `r`: the phase factor applied to the
interpolated values of the channels `2j` and `2j + 1` at the reduced coordinate `ru`. -/
def orbitalValue (sincos : R → R × R) (spline : MultiBspline R) (S : SplineC2CT R)
    (r ru : Fin 3 → R) (j : Nat) : Cplx R :=
  assign_v_val sincos S r ((List.range (2 * j + 2)).map (spline.value ru)) j

/-- The flat index `3a + b` of the entry `(a, b)` of a `Tensor<_, 3>`. -/
def idx9 (a b : Fin 3) : Fin 9 := ⟨3 * a.val + b.val, by omega⟩

end Vocabulary

/-! ## Sample data -/

/-- A small orbital set over the integers: two orbitals, owned from global index 1 on. -/
def sampleSet : SplineC2CT Int where
  kPointsSize := 2
  first_spo := 1
  last_spo := 3
  G := fun i => if i % 4 = 0 then 1 else if i = 1 then 2 else 0
  GGt := fun i => if i % 4 = 0 then 1 else if i = 1 then 2 else 0
  myKcart := ![[1, 0], [2, 1], [0, 3]]
  mKK := [-5, -10]
  myV := [1, 2, 3, 4]
  myG := ![[1, 0, 2, 1], [0, 1, 1, 1], [3, 0, 0, 2]]
  myH := ![[1, 2, 0, 1], [0, 1, 1, 0], [2, 0, 0, 1], [1, 1, 1, 1], [0, 3, 1, 0], [1, 0, 2, 2]]
  mygH := ![[1, 0, 0, 1], [0, 1, 1, 0], [2, 0, 0, 1], [1, 1, 1, 1], [0, 3, 1, 0], [1, 0, 2, 2],
    [1, 2, 0, 1], [0, 1, 1, 0], [1, 0, 1, 1], [0, 2, 1, 0]]
  myL := [1, 2, 3, 4]

/-- A stand-in for `sincos` on the integers, `(s, c) = (t, 1 - t)`. -/
def sampleSincos : Int → Int × Int := fun t => (t, 1 - t)

/-- A sample position. -/
def sampleR : Fin 3 → Int := ![1, 1, 1]

/-- An output buffer of four complex zeros. -/
def samplePsi : List (Cplx Int) := [0, 0, 0, 0]

/-- An output buffer of four zero gradients. -/
def sampleDpsi : List (Fin 3 → Cplx Int) := [0, 0, 0, 0]

/-- An output buffer of four zero Hessians. -/
def sampleGG : List (Fin 9 → Cplx Int) := [0, 0, 0, 0]

/-- An output buffer of four zero third-derivative tensors. -/
def sampleGGG : List (Fin 3 → Fin 9 → Cplx Int) := [0, 0, 0, 0]

/-- One orbital on the unit cubic lattice (`G` the identity) with `k = (1, 0, 0)`, raw value
zero, raw Hessian zero, and raw gradient zero except for the imaginary channel of its
y-component, which is one. -/
def offDiagSet : SplineC2CT Int where
  kPointsSize := 1
  first_spo := 0
  last_spo := 1
  G := fun i => if i % 4 = 0 then 1 else 0
  GGt := fun i => if i % 4 = 0 then 1 else 0
  myKcart := ![[1], [0], [0]]
  mKK := [-1]
  myV := [0, 0]
  myG := ![[0, 0], [0, 1], [0, 0]]
  myH := ![[0, 0], [0, 0], [0, 0], [0, 0], [0, 0], [0, 0]]
  mygH := ![[0, 0], [0, 0], [0, 0], [0, 0], [0, 0], [0, 0], [0, 0], [0, 0], [0, 0], [0, 0]]
  myL := [0, 0]

/-- The value `(s, c) = (0, 1)` of `sincos` at angle zero. -/
def sincosZero : Int → Int × Int := fun _ => (0, 1)

/-- The origin. -/
def originR : Fin 3 → Int := ![0, 0, 0]

/-- A spline table with four channels whose interpolated values are `c + 1` for channel
`c`. -/
def sampleSpline : MultiBspline Int where
  num_splines := 4
  value := fun _ c => (c : Int) + 1

/-! ## The ring of complex scalars -/

namespace Cplx
variable {R : Type} [CommRing R]

/-- The complex number one. -/
instance : One (Cplx R) := ⟨⟨1, 0⟩⟩

/-- The complex scalars over a commutative ring form a commutative ring. -/
instance : CommRing (Cplx R) where
  add := (· + ·)
  zero := 0
  neg := Neg.neg
  sub := (· - ·)
  mul := (· * ·)
  one := 1
  add_assoc a b c := Cplx.ext (add_assoc _ _ _) (add_assoc _ _ _)
  zero_add a := Cplx.ext (zero_add _) (zero_add _)
  add_zero a := Cplx.ext (add_zero _) (add_zero _)
  add_comm a b := Cplx.ext (add_comm _ _) (add_comm _ _)
  neg_add_cancel a := Cplx.ext (neg_add_cancel _) (neg_add_cancel _)
  sub_eq_add_neg a b := Cplx.ext (sub_eq_add_neg _ _) (sub_eq_add_neg _ _)
  nsmul := nsmulRec
  zsmul := zsmulRec
  mul_assoc a b c := Cplx.ext
    (show (a.re * b.re - a.im * b.im) * c.re - (a.re * b.im + a.im * b.re) * c.im
        = a.re * (b.re * c.re - b.im * c.im) - a.im * (b.re * c.im + b.im * c.re) by ring)
    (show (a.re * b.re - a.im * b.im) * c.im + (a.re * b.im + a.im * b.re) * c.re
        = a.re * (b.re * c.im + b.im * c.re) + a.im * (b.re * c.re - b.im * c.im) by ring)
  mul_comm a b := Cplx.ext
    (show a.re * b.re - a.im * b.im = b.re * a.re - b.im * a.im by ring)
    (show a.re * b.im + a.im * b.re = b.re * a.im + b.im * a.re by ring)
  one_mul a := Cplx.ext
    (show 1 * a.re - 0 * a.im = a.re by ring) (show 1 * a.im + 0 * a.re = a.im by ring)
  mul_one a := Cplx.ext
    (show a.re * 1 - a.im * 0 = a.re by ring) (show a.re * 0 + a.im * 1 = a.im by ring)
  zero_mul a := Cplx.ext
    (show 0 * a.re - 0 * a.im = 0 by ring) (show 0 * a.im + 0 * a.re = 0 by ring)
  mul_zero a := Cplx.ext
    (show a.re * 0 - a.im * 0 = 0 by ring) (show a.re * 0 + a.im * 0 = 0 by ring)
  left_distrib a b c := Cplx.ext
    (show a.re * (b.re + c.re) - a.im * (b.im + c.im)
        = a.re * b.re - a.im * b.im + (a.re * c.re - a.im * c.im) by ring)
    (show a.re * (b.im + c.im) + a.im * (b.re + c.re)
        = a.re * b.im + a.im * b.re + (a.re * c.im + a.im * c.re) by ring)
  right_distrib a b c := Cplx.ext
    (show (a.re + b.re) * c.re - (a.im + b.im) * c.im
        = a.re * c.re - a.im * c.im + (b.re * c.re - b.im * c.im) by ring)
    (show (a.re + b.re) * c.im + (a.im + b.im) * c.re
        = a.re * c.im + a.im * c.re + (b.re * c.im + b.im * c.re) by ring)

end Cplx

/-! ## Matrices -/

/-- Modelled from the spec: the type `Matrix<T>` (OhmmsPETE/OhmmsMatrix.h is not among the
sources): a row count, a column count and the entries in row-major order, so that `m[i][j]`
is the entry `i * cols + j` of the storage. -/
structure OhmmsMatrix (α : Type) where
  rows : Nat
  cols : Nat
  data : List α

/-- The entry `m[i][j]` (zero outside the storage). -/
def OhmmsMatrix.entry {α : Type} [Zero α] (m : OhmmsMatrix α) (i j : Nat) : α :=
  m.data.getD (i * m.cols + j) 0

/-- The assignment `m[i][j] = v`; `none` when the entry is outside the storage. -/
def OhmmsMatrix.assign {α : Type} (m : OhmmsMatrix α) (i j : Nat) (v : α) :
    Option (OhmmsMatrix α) :=
  (store m.data (i * m.cols + j) v).map (fun d => { m with data := d })

/-- Modelled from the spec: `Matrix::resize(n, m)` gives the matrix `n` rows and `m` columns;
the entries of the new storage are taken to be zero. -/
def OhmmsMatrix.resize {α : Type} [Zero α] (n m : Nat) : OhmmsMatrix α :=
  ⟨n, m, List.replicate (n * m) 0⟩

/-- The type `ValueMatrix = Matrix<ComplexT>`. -/
abbrev ValueMatrix (R : Type) : Type := OhmmsMatrix (Cplx R)

/-! ## applyRotation and the rotation checkpoint -/

/-- The way a call ends when it does not complete: a failed `assert` on the shape of the
rotation matrix, a failed `assert(coef_copy_ != nullptr)`, an access outside a buffer
(which includes an access through a null `coef_copy_`), or a division by zero. -/
inductive Failure where
  | ShapeMismatch
  | NoCheckpoint
  | OutOfBounds
  | DivisionByZero
deriving DecidableEq, Repr

/-- The fields of the spline object `*SplineInst->getSplinePtr()` that the rotation uses. -/
structure SplineType (R : Type) where
  /-- The coefficient table `coefs`. -/
  coefs : List R
  /-- The number of splines `num_splines` (may include padding). -/
  num_splines : Nat
  /-- The size `coefs_size` of the coefficient table. -/
  coefs_size : Nat

/-- The members of `SplineC2CT<T>` that the rotation and the archive functions use. -/
structure RotationSet (R : Type) where
  /-- The spline object behind `SplineInst`. -/
  spline : SplineType R
  /-- The checkpoint `coef_copy_`; `none` is the null pointer. -/
  coef_copy_ : Option (List R)
  /-- The number of orbitals `OrbitalSetSize`. -/
  OrbitalSetSize : Nat
  /-- The index `MyIndex` of the orbital set. -/
  MyIndex : Nat

section Rotation

variable {R : Type} [CommRing R]

/-- The call `std::copy_n(src, n, dst.begin())`; `none` when `src` or `dst` holds fewer than
`n` entries. -/
def copy_n {α : Type} (src : List α) (n : Nat) (dst : List α) : Option (List α) :=
  if n ≤ src.length ∧ n ≤ dst.length then some (src.take n ++ dst.drop n) else none

/-- The function `SplineC2CT<T>::storeParamsBeforeRotation`:
`coef_copy_ = make_shared<vector<RealType>>(coefs_tot_size)` followed by the copy of the
coefficient table. -/
def storeParamsBeforeRotation (S : RotationSet R) : Except Failure (RotationSet R) :=
  let coefs_tot_size := S.spline.coefs_size
  match copy_n S.spline.coefs coefs_tot_size (List.replicate coefs_tot_size (0 : R)) with
  | none => .error .OutOfBounds
  | some coef_copy => .ok { S with coef_copy_ := some coef_copy }

/-- The reads of the body of the innermost loop of `applyRotation` are inside their
buffers. -/
def reads_rotation (coef_copy : List R) (rot_mat : ValueMatrix R) (Nsplines i j k : Nat) :
    Prop :=
  Nsplines * i + 2 * k + 1 < coef_copy.length ∧ k * rot_mat.cols + j < rot_mat.data.length

instance (coef_copy : List R) (rot_mat : ValueMatrix R) (Nsplines i j k : Nat) :
    Decidable (reads_rotation coef_copy rot_mat Nsplines i j k) := by
  unfold reads_rotation; infer_instance

/-- The body of the innermost loop of `applyRotation` (over `k`): the update of
`(newval_r, newval_i)`. -/
def rotation_accumulate (coef_copy : List R) (rot_mat : ValueMatrix R) (Nsplines i j k : Nat)
    (newval : R × R) : Option (R × R) :=
  if reads_rotation coef_copy rot_mat Nsplines i j k then
    let index := Nsplines * i + 2 * k
    let zr := rd coef_copy index
    let zi := rd coef_copy (index + 1)
    let wr := (rot_mat.entry k j).re
    let wi := (rot_mat.entry k j).im
    some (newval.1 + (zr * wr - zi * wi), newval.2 + (zr * wi + zi * wr))
  else none

/-- The body of the loop of `applyRotation` over `j`: the new value of the coefficient pair
of orbital `j` in the basis row `i`, stored into `spl_coefs`. -/
def rotation_store (coef_copy : List R) (rot_mat : ValueMatrix R)
    (Nsplines OrbitalSetSize i j : Nat) (spl_coefs : List R) : Option (List R) := do
  let cur_elem := Nsplines * i + 2 * j
  let newval ← forRange 0 OrbitalSetSize (rotation_accumulate coef_copy rot_mat Nsplines i j)
    (0, 0)
  let spl_coefs ← store spl_coefs cur_elem newval.1
  store spl_coefs (cur_elem + 1) newval.2

/-- The lines 117-121 of `applyRotation`: with `use_stored_copy` false the checkpoint
receives the current coefficients; otherwise it is left as it is. That the checkpoint exists
is checked by `assert(coef_copy_ != nullptr)` only: in a build that keeps assertions
(`NDEBUG` false) a null checkpoint ends the call there, and with `NDEBUG` defined the copy
goes through the null pointer, which is an access outside a buffer. -/
def rotation_checkpoint (NDEBUG : Bool) (S : RotationSet R) (use_stored_copy : Bool) :
    Except Failure (Option (List R)) :=
  if !use_stored_copy then
    match S.coef_copy_ with
    | none => if NDEBUG then .error .OutOfBounds else .error .NoCheckpoint
    | some coef_copy =>
      match copy_n S.spline.coefs S.spline.coefs_size coef_copy with
      | none => .error .OutOfBounds
      | some coef_copy => .ok (some coef_copy)
  else .ok S.coef_copy_

/-- The function `SplineC2CT<T>::applyRotation`: the object as the call leaves it, and the
failure that ended the call if one did (`none` when the call returns). The argument `NDEBUG`
says whether the macro `NDEBUG` is defined: the two `assert`s on the shape of `rot_mat` and
the `assert(coef_copy_ != nullptr)` end the call when they fail in a build that keeps
assertions (`NDEBUG` false) and are no statements at all when `NDEBUG` is defined, in which
case the call goes on with the matrix as it is. A read through a null `coef_copy_` is a read
outside the (empty) buffer. After an access outside a buffer the object given is the one
that the last completed statement left. -/
def applyRotation (NDEBUG : Bool) (S : RotationSet R) (rot_mat : ValueMatrix R)
    (use_stored_copy : Bool) : RotationSet R × Option Failure :=
  let spl_coefs := S.spline.coefs
  let Nsplines := S.spline.num_splines
  let coefs_tot_size := S.spline.coefs_size
  if Nsplines = 0 then (S, some .DivisionByZero) else
  let basis_set_size := coefs_tot_size / Nsplines
  if NDEBUG = false ∧ S.OrbitalSetSize ≠ rot_mat.rows then (S, some .ShapeMismatch) else
  if NDEBUG = false ∧ S.OrbitalSetSize ≠ rot_mat.cols then (S, some .ShapeMismatch) else
  match rotation_checkpoint NDEBUG S use_stored_copy with
  | .error e => (S, some e)
  | .ok coef_copy_ =>
    match forRange 0 basis_set_size (fun i spl_coefs =>
        forRange 0 S.OrbitalSetSize (fun j spl_coefs =>
          rotation_store (coef_copy_.getD []) rot_mat Nsplines S.OrbitalSetSize i j spl_coefs)
          spl_coefs) spl_coefs with
    | none => ({ S with coef_copy_ := coef_copy_ }, some .OutOfBounds)
    | some spl_coefs =>
      ({ S with spline := { S.spline with coefs := spl_coefs }, coef_copy_ := coef_copy_ }, none)

/-- The complex coefficient `(c[N*i + 2j], c[N*i + 2j + 1])` of orbital `j` in the basis row
`i` of a coefficient table with `N` splines per row. -/
def coefPair (c : List R) (N i j : Nat) : Cplx R := ⟨rd c (N * i + 2 * j), rd c (N * i + 2 * j + 1)⟩

/-- The entry `(i, j)` of `coef_copy x rot_mat`: the sum over `k < OrbitalSetSize` of
`(coef_copy[N*i + 2k] + i coef_copy[N*i + 2k + 1]) * rot_mat[k][j]`. -/
def rotatedCoef (coef_copy : List R) (rot_mat : ValueMatrix R) (N OrbitalSetSize i j : Nat) :
    Cplx R :=
  ∑ k ∈ Finset.range OrbitalSetSize, coefPair coef_copy N i k * rot_mat.entry k j

/-- The real number that the rotation puts at the index `n` of the coefficient table, when
`n` is the index of an orbital coefficient: the real or the imaginary part of an entry of
`coef_copy x rot_mat`. -/
def rotatedAt (coef_copy : List R) (rot_mat : ValueMatrix R) (N OrbitalSetSize n : Nat) : R :=
  if n % N % 2 = 0 then (rotatedCoef coef_copy rot_mat N OrbitalSetSize (n / N) (n % N / 2)).re
  else (rotatedCoef coef_copy rot_mat N OrbitalSetSize (n / N) (n % N / 2)).im

/-- The index `n` of the coefficient table holds an orbital coefficient that the rotation
writes: it lies in one of the `coefs_size / N` basis rows and in the first
`2 * OrbitalSetSize` columns of its row. -/
def IsRotated (S : RotationSet R) (n : Nat) : Prop :=
  n < S.spline.num_splines * (S.spline.coefs_size / S.spline.num_splines) ∧
    n % S.spline.num_splines < 2 * S.OrbitalSetSize

instance (S : RotationSet R) (n : Nat) : Decidable (IsRotated S n) := by
  unfold IsRotated; infer_instance

/-- The orbital set, its checkpoint and the rotation matrix have the sizes that
`applyRotation` relies on: at least one spline, rows that hold the `OrbitalSetSize` complex
coefficients, a table of `coefs_size` entries, and a matrix with `rows * cols` entries. -/
def RotationReady (S : RotationSet R) (rot_mat : ValueMatrix R) : Prop :=
  0 < S.spline.num_splines ∧ 2 * S.OrbitalSetSize ≤ S.spline.num_splines ∧
    S.spline.coefs.length = S.spline.coefs_size ∧
    rot_mat.rows = S.OrbitalSetSize ∧ rot_mat.cols = S.OrbitalSetSize ∧
    rot_mat.data.length = rot_mat.rows * rot_mat.cols

instance (S : RotationSet R) (rot_mat : ValueMatrix R) : Decidable (RotationReady S rot_mat) := by
  unfold RotationReady; infer_instance

/-- The complex conjugate. -/
def Cplx.conj (z : Cplx R) : Cplx R := ⟨z.re, -z.im⟩

/-- The conjugate transpose of a matrix: the entry `[i][j]` is the conjugate of the entry
`[j][i]` of `m`. -/
def OhmmsMatrix.conjTranspose (m : ValueMatrix R) : ValueMatrix R :=
  ⟨m.cols, m.rows, (List.range (m.cols * m.rows)).map
    (fun n => Cplx.conj (m.entry (n % m.rows) (n / m.rows)))⟩

/-- The `n x n` matrix `B` is a right inverse of `A`: the product `A B` is the identity. -/
def IsInverse (n : Nat) (A B : ValueMatrix R) : Prop :=
  ∀ l, l < n → ∀ j, j < n →
    ∑ k ∈ Finset.range n, A.entry l k * B.entry k j = if l = j then 1 else 0

/-- The `n x n` matrix `A` is unitary: its rows are orthonormal. -/
def IsUnitary (n : Nat) (A : ValueMatrix R) : Prop :=
  ∀ l, l < n → ∀ j, j < n →
    ∑ k ∈ Finset.range n, A.entry l k * Cplx.conj (A.entry j k) = if l = j then 1 else 0

instance (n : Nat) (A B : ValueMatrix R) [DecidableEq R] : Decidable (IsInverse n A B) := by
  unfold IsInverse; infer_instance

instance (n : Nat) (A : ValueMatrix R) [DecidableEq R] : Decidable (IsUnitary n A) := by
  unfold IsUnitary; infer_instance

end Rotation

/-! ## Sample data for the rotation -/

/-- A coefficient table of two basis rows, two orbitals and two padding entries per row, with
a checkpoint that differs from it. -/
def sampleRotationSet : RotationSet Int :=
  { spline := { coefs := [1, 2, 3, 4, 9, 9, 5, 6, 7, 8, 9, 9], num_splines := 6, coefs_size := 12 }
    coef_copy_ := some [1, 0, 0, 1, 0, 0, 2, 0, 0, 2, 0, 0]
    OrbitalSetSize := 2
    MyIndex := 0 }

/-- The same table before `storeParamsBeforeRotation` was ever called. -/
def sampleRotationSet0 : RotationSet Int := { sampleRotationSet with coef_copy_ := none }

/-- The unitary matrix with rows `(0, i)` and `(-i, 0)`; it is its own inverse. -/
def sampleRotation : ValueMatrix Int := ⟨2, 2, [⟨0, 0⟩, ⟨0, 1⟩, ⟨0, -1⟩, ⟨0, 0⟩]⟩

/-- A matrix with two rows and three columns. -/
def sampleWideMatrix : ValueMatrix Int := ⟨2, 3, List.replicate 6 ⟨1, 0⟩⟩

/-! ## read_splines and write_splines -/

section Archive

variable {R A : Type}

/-- The function `SplineC2CT<T>::read_splines`: the flag returned and the object afterwards.
The archive `h5f` is of a type `A` that this development does not look into, and its member
`readEntry` is the parameter `readEntry`: from the archive, the table to fill and the entry
name it gives the success flag and the table as the read leaves it. -/
def read_splines (readEntry : A → SplineType R → String → Bool × SplineType R)
    (S : RotationSet R) (h5f : A) : Bool × RotationSet R :=
  let o := "spline_" ++ toString S.MyIndex
  let bigtable := S.spline
  let res := readEntry h5f bigtable o
  (res.1, { S with spline := res.2 })

/-- The function `SplineC2CT<T>::write_splines`: the flag returned and the archive
afterwards. The member `writeEntry` of the archive is the parameter `writeEntry`: from the
archive, the table to store and the entry name it gives the success flag and the archive as
the write leaves it. -/
def write_splines (writeEntry : A → SplineType R → String → Bool × A)
    (S : RotationSet R) (h5f : A) : Bool × A :=
  let o := "spline_" ++ toString S.MyIndex
  let bigtable := S.spline
  writeEntry h5f bigtable o

/-- An archive that keeps what it is given: the law that a successful write of a table under
a name, followed by a read of that name, succeeds and returns the table. -/
def KeepsEntries (readEntry : A → SplineType R → String → Bool × SplineType R)
    (writeEntry : A → SplineType R → String → Bool × A) : Prop :=
  ∀ (a : A) (t t0 : SplineType R) (name : String),
    (writeEntry a t name).1 = true → readEntry (writeEntry a t name).2 t0 name = (true, t)

/-- A sample archive: a list of named tables; `writeEntry` puts the table in front. -/
def sampleWriteEntry (a : List (String × SplineType Int)) (t : SplineType Int) (name : String) :
    Bool × List (String × SplineType Int) :=
  (true, (name, t) :: a)

/-- The `readEntry` of the sample archive: the first table of that name, if there is one. -/
def sampleReadEntry (a : List (String × SplineType Int)) (t0 : SplineType Int) (name : String) :
    Bool × SplineType Int :=
  match a.lookup name with
  | some t => (true, t)
  | none => (false, t0)

end Archive

/-! ## evaluateDetRatios -/

section DetRatios

variable {R : Type} [CommRing R]

/-- Modelled from the spec: `simd::dot(a + off, b + off, n)` (CPU/SIMD/inner_product.hpp is
not among the sources), the sum of the products `a[off + i] * b[off + i]` over `0 <= i < n`;
`none` when an entry is outside its buffer. -/
def simd_dot (a b : List (Cplx R)) (off : Nat) (n : Int) : Option (Cplx R) :=
  forRange 0 n.toNat
    (fun i res =>
      if off + i < a.length ∧ off + i < b.length then
        some (res + rd a (off + i) * rd b (off + i))
      else none)
    0

/-- The object during `evaluateDetRatios`: the kernel members (with the scratch `myV`), the
member `ratios_private`, and the two buffers `psi` and `ratios` of the caller. -/
structure DetRatiosState (R : Type) where
  S : SplineC2CT R
  ratios_private : ValueMatrix R
  psi : List (Cplx R)
  ratios : List (Cplx R)

/-- The statement `const int last_cplx = kPointsSize < last / 2 ? kPointsSize : last / 2;`
where `kPointsSize` is a `size_t`, so that the comparison and the result are in `size_t`. -/
def last_cplx (kPointsSize : Nat) (last : Int) : Int :=
  toInt (if kPointsSize < toSizeT (Int.tdiv last 2) then kPointsSize
    else toSizeT (Int.tdiv last 2))

/-- One iteration of the loop over `iat` in the parallel region of `evaluateDetRatios`, for
the thread `tid` with the share `[first, last)`. -/
def evaluateDetRatios_at (sincos : R → R × R) (spline : MultiBspline R)
    (toUnit_floor : (Fin 3 → R) → (Fin 3 → R)) (VP : List (Fin 3 → R))
    (psiinv : List (Cplx R)) (tid : Nat) (first last : Int) (iat : Nat)
    (st : DetRatiosState R) : Option (DetRatiosState R) :=
  let first_cplx := Int.tdiv first 2
  let last_cplx := last_cplx st.S.kPointsSize last
  match VP[iat]? with
  | none => none
  | some r =>
    let ru := toUnit_floor r
    match evaluate3d spline ru st.S.myV first last with
    | none => none
    | some myV =>
      let S := { st.S with myV := myV }
      match assign_v sincos S r S.myV st.psi first_cplx last_cplx with
      | none => none
      | some psi =>
        if first_cplx < 0 then none else
        match simd_dot psi psiinv first_cplx.toNat (last_cplx - first_cplx) with
        | none => none
        | some d =>
          (st.ratios_private.assign iat tid d).map
            (fun rp => { S := S, ratios_private := rp, psi := psi, ratios := st.ratios })

/-- The body of the parallel region of `evaluateDetRatios` after the resize, for the thread
`tid` with the share `[first, last)` that `FairDivideAligned` gives it. -/
def evaluateDetRatios_body (sincos : R → R × R) (spline : MultiBspline R)
    (toUnit_floor : (Fin 3 → R) → (Fin 3 → R)) (VP : List (Fin 3 → R))
    (psiinv : List (Cplx R)) (tid : Nat) (first last : Int)
    (st : DetRatiosState R) : Option (DetRatiosState R) :=
  forRange 0 VP.length
    (evaluateDetRatios_at sincos spline toUnit_floor VP psiinv tid first last) st

/-- The reduction loop at the end of `evaluateDetRatios`. -/
def evaluateDetRatios_reduce (total : Nat) (ratios_private : ValueMatrix R)
    (ratios : List (Cplx R)) : Option (List (Cplx R)) :=
  forRange 0 total
    (fun iat ratios =>
      (store ratios iat 0).bind
        (forRange 0 ratios_private.cols
          (fun tid ratios =>
            if iat * ratios_private.cols + tid < ratios_private.data.length then
              store ratios iat (rd ratios iat + ratios_private.entry iat tid)
            else none)))
    ratios

/-- The function `SplineC2CT<T>::evaluateDetRatios`. The list `VP` holds the positions
`VP.activeR(iat)`, and `shares` holds the share `[first, last)` of each thread, in the order
of the thread numbers; the thread bodies run one after the other. -/
def evaluateDetRatios (sincos : R → R × R) (spline : MultiBspline R)
    (toUnit_floor : (Fin 3 → R) → (Fin 3 → R)) (st : DetRatiosState R)
    (VP : List (Fin 3 → R)) (psiinv : List (Cplx R)) (shares : List (Int × Int)) :
    Option (DetRatiosState R) :=
  let need_resize := st.ratios_private.rows < VP.length
  let st := if need_resize then
      { st with ratios_private := OhmmsMatrix.resize VP.length shares.length }
    else st
  match shares.enum.foldlM
      (fun st sh => evaluateDetRatios_body sincos spline toUnit_floor VP psiinv sh.1 sh.2.1
        sh.2.2 st) st with
  | none => none
  | some st =>
    (evaluateDetRatios_reduce VP.length st.ratios_private st.ratios).map
      (fun ratios => { st with ratios := ratios })

/-- The sample set with its orbitals at the start of the output (`first_spo = 0`). -/
def sampleSetZero : SplineC2CT Int := { sampleSet with first_spo := 0, last_spo := 2 }

/-- An inverse row of ones. -/
def sampleInv : List (Cplx Int) := [1, 1, 1, 1]

/-- The state of a fresh instance before its first call: no scratch matrix yet. -/
def freshState (S : SplineC2CT Int) : DetRatiosState Int :=
  { S := S, ratios_private := ⟨0, 0, []⟩, psi := samplePsi, ratios := [0] }

end DetRatios

/-! ## HybridRepCplx -/

/-- Modelled from the spec: `Vector::resize(n)` (OhmmsPETE/OhmmsVector.h is not among the
sources) gives the vector the length `n`; the leading entries are kept and new entries are
zero. -/
def resizeVector {α : Type} [Zero α] (v : List α) (n : Nat) : List α :=
  v.take n ++ List.replicate (n - v.length) 0

/-- The class `HybridRepCplx<SPLINEBASE>`: the base `SPLINEBASE` (the spline orbital set),
the base `HYBRIDBASE` (the atomic-region engine, of a type `H` that this development does
not look into) and the members of the class. -/
structure HybridRepCplx (R H : Type) where
  base : SplineC2CT R
  center : H
  psi_AO : List (Cplx R)
  d2psi_AO : List (Cplx R)
  dpsi_AO : List (Fin 3 → Cplx R)
  multi_myV : OhmmsMatrix R

section Hybrid

variable {R H : Type} [LinearOrderedCommRing R]

/-- The function `HybridRepCplx::evaluateValue`. The members of `HYBRIDBASE` are
parameters: `evaluate_v` gives, from the engine, the position and the scratch `myV`, the
engine afterwards, the smoothing factor and the scratch filled with the atomic-region raw
values; `interpolate_buffer_v` gives `psi` after the blend of `psi` and `psi_AO`. -/
def HybridRepCplx.evaluateValue (sincos : R → R × R) (spline : MultiBspline R)
    (toUnit_floor : (Fin 3 → R) → (Fin 3 → R))
    (evaluate_v : H → (Fin 3 → R) → List R → H × R × List R)
    (interpolate_buffer_v : H → List (Cplx R) → List (Cplx R) → List (Cplx R))
    (X : HybridRepCplx R H) (r : Fin 3 → R) (psi : List (Cplx R))
    (shares : List (Int × Int)) : Option (HybridRepCplx R H × List (Cplx R)) :=
  let res := evaluate_v X.center r X.base.myV
  let X := { X with center := res.1, base := { X.base with myV := res.2.2 } }
  let smooth_factor := res.2.1
  let cone : R := 1
  if smooth_factor < 0 then
    (qmcplusplus.evaluateValue sincos spline toUnit_floor X.base r psi shares).map
      (fun st => ({ X with base := st.1 }, st.2))
  else if smooth_factor = cone then
    (assign_v sincos X.base r X.base.myV psi 0 (toInt (X.base.myV.length / 2))).map
      (fun psi => (X, psi))
  else
    let psi_AO := resizeVector X.psi_AO psi.length
    (assign_v sincos X.base r X.base.myV psi_AO 0 (toInt (X.base.myV.length / 2))).bind
      (fun psi_AO =>
        (qmcplusplus.evaluateValue sincos spline toUnit_floor X.base r psi shares).map
          (fun st => ({ X with base := st.1, psi_AO := psi_AO },
            interpolate_buffer_v X.center st.2 psi_AO)))

end Hybrid

/-- A sample atomic-region engine: it returns the smoothing factor it is given and fills the
scratch with tens. -/
def sampleEvaluateV (f : Int) : Unit → (Fin 3 → Int) → List Int → Unit × Int × List Int :=
  fun _ _ myV => ((), f, myV.map (fun _ => 10))

/-- A sample blend: the entrywise sum of the two buffers. -/
def sampleInterpolate : Unit → List (Cplx Int) → List (Cplx Int) → List (Cplx Int) :=
  fun _ psi psi_AO => List.zipWith (fun a b => a + b) psi psi_AO

/-- A sample hybrid set over the sample spline set. -/
def sampleHybrid : HybridRepCplx Int Unit :=
  { base := sampleSet, center := (), psi_AO := [], d2psi_AO := [], dpsi_AO := [],
    multi_myV := ⟨0, 0, []⟩ }

/-! ## The real-only evaluation -/

section RealOnly

variable {R : Type} [CommRing R]

/-- Modelled from the spec: the real-only specialization is not among the sources. The
value that a real-only evaluation takes from the channel `ch`: the raw value. -/
def realValue (S : SplineC2CT R) (ch : Nat) : R := rd S.myV ch

/-- Modelled from the spec: the gradient that a real-only evaluation computes from the
channel `ch`: the row `a` of `G` contracted with the raw gradient. -/
def realGrad (S : SplineC2CT R) (ch : Nat) (a : Fin 3) : R :=
  S.G (3 * a.val) * rd (S.myG 0) ch + S.G (3 * a.val + 1) * rd (S.myG 1) ch +
    S.G (3 * a.val + 2) * rd (S.myG 2) ch

/-- Modelled from the spec: the Laplacian that a real-only evaluation computes from the
channel `ch`: the `SymTrace` of the raw Hessian against `symGG`. -/
def realLap (S : SplineC2CT R) (ch : Nat) : R :=
  SymTrace (rd (S.myH 0) ch) (rd (S.myH 1) ch) (rd (S.myH 2) ch) (rd (S.myH 3) ch)
    (rd (S.myH 4) ch) (rd (S.myH 5) ch) (symGG S)

/-- Modelled from the spec: the Hessian that a real-only evaluation computes from the
channel `ch`: the `v_m_v` contraction of the raw Hessian with the rows `a` and `b` of `G`. -/
def realHess (S : SplineC2CT R) (ch : Nat) (a b : Fin 3) : R :=
  v_m_v (rd (S.myH 0) ch) (rd (S.myH 1) ch) (rd (S.myH 2) ch) (rd (S.myH 3) ch)
    (rd (S.myH 4) ch) (rd (S.myH 5) ch)
    (S.G (3 * a.val)) (S.G (3 * a.val + 1)) (S.G (3 * a.val + 2))
    (S.G (3 * b.val)) (S.G (3 * b.val + 1)) (S.G (3 * b.val + 2))

end RealOnly

/-- The sample set with a zero k-vector and `mKK = 0` for its first orbital. -/
def sampleGammaSet : SplineC2CT Int :=
  { sampleSet with myKcart := ![[0, 1], [0, 1], [0, 3]], mKK := [0, -11] }

/-! ## FreeParticleBuilder -/

/-- The members of `KContainer` that `createSPOSetFromXML` uses: the k-points (of which only
the number is used), their Cartesian vectors, and for each k-point the index of its
opposite. -/
structure KContainer (R : Type) where
  kpts : List (Fin 3 → Int)
  kpts_cart : List (Fin 3 → R)
  minusk : List Int

/-- The ways `createSPOSetFromXML` ends without a result: the `throw` of the real build, a
vector of negative length, and an access outside a vector. -/
inductive BuildFailure where
  | NoTwistForRealOrbitals
  | BadLength
  | OutOfBounds
deriving DecidableEq, Repr

/-- Equality of two outcomes of a call that can fail is decidable. -/
instance {ε α : Type} [DecidableEq ε] [DecidableEq α] : DecidableEq (Except ε α) :=
  fun a b =>
    match a, b with
    | .ok x, .ok y =>
      if h : x = y then isTrue (by rw [h]) else isFalse (fun e => h (Except.ok.inj e))
    | .error x, .error y =>
      if h : x = y then isTrue (by rw [h]) else isFalse (fun e => h (Except.error.inj e))
    | .ok _, .error _ => isFalse (fun e => Except.noConfusion e)
    | .error _, .ok _ => isFalse (fun e => Except.noConfusion e)

/-- The function `FreeParticleBuilder::in_list`. -/
def in_list (j : Int) : List Int → Bool
  | [] => false
  | li :: l => if j = li then true else in_list j l

/-- The variables of the selection loop of the real build: the vectors `kpts` and `mkidx`,
the counter `ik`, and whether the `break` was taken. -/
structure SelectState (R : Type) where
  kpts : List (Fin 3 → R)
  mkidx : List Int
  ik : Nat
  broke : Bool

section Builder

variable {R : Type} [LinearOrderedCommRing R]

/-- The squared magnitude of a vector. -/
def magSq (k : Fin 3 → R) : R := k 0 * k 0 + k 1 * k 1 + k 2 * k 2

/-- The body of the loop `for (int jk = 0; jk < nktot; jk++)` of the real build; after the
`break` nothing more is done. -/
def select_step (klists : KContainer R) (npw : Int) (jk : Nat) (st : SelectState R) :
    Option (SelectState R) :=
  if st.broke then some st else
  match klists.minusk[jk]? with
  | none => none
  | some jmk =>
    if in_list (jk : Int) st.mkidx then some st else
    match klists.kpts_cart[jk]? with
    | none => none
    | some k =>
      (store st.kpts st.ik k).bind (fun kpts =>
        (store st.mkidx st.ik jmk).map (fun mkidx =>
          { kpts := kpts, mkidx := mkidx, ik := st.ik + 1,
            broke := decide (npw ≤ ((st.ik + 1 : Nat) : Int)) }))

/-- The first block under `#ifdef QMC_COMPLEX` of `createSPOSetFromXML`: the value of `npw`,
or the `throw` of the real build. The ceiling of `(norb + 1.0) / 2` is computed in
integers, and the comparison `std::abs(twist[ldim]) > 1e-16` is written without the
division, as `1 < |twist[ldim]| * 10^16`. -/
def createSPOSetFromXML_npw (QMC_COMPLEX : Bool) (norb : Int) (twist : Fin 3 → R) :
    Except BuildFailure Int :=
  if QMC_COMPLEX then .ok norb
  else
    if (List.finRange 3).any (fun ldim => decide (1 < |twist ldim| * 10 ^ 16)) then
      .error .NoTwistForRealOrbitals
    else .ok (-((-(norb + 1)) / 2))

/-- The second block under `#ifdef QMC_COMPLEX` of `createSPOSetFromXML`: the loop that
fills `kpts[1..]`. -/
def createSPOSetFromXML_fill (QMC_COMPLEX : Bool) (tvec : Fin 3 → R) (klists : KContainer R)
    (npw : Int) (kpts : List (Fin 3 → R)) : Option (List (Fin 3 → R)) :=
  if QMC_COMPLEX then
    forRange 1 npw.toNat
      (fun ik kpts =>
        match klists.kpts_cart[ik - 1]? with
        | none => none
        | some k => store kpts ik (tvec + k))
      kpts
  else
    let nktot := klists.kpts.length
    let mkidx := List.replicate npw.toNat (0 : Int)
    (forRange 0 nktot (select_step klists npw)
      { kpts := kpts, mkidx := mkidx, ik := 1, broke := false }).map (fun st => st.kpts)

/-- The function `FreeParticleBuilder::createSPOSetFromXML`, up to the vector `kpts` that it
hands to the orbital set. The attributes `size` and `twist` of the XML node are the
arguments `norb` and `twist`, the lattice function `k_cart` and the k-point lists of the
particle set are the arguments `k_cart` and `klists`, and `QMC_COMPLEX` says which build it
is. -/
def createSPOSetFromXML (QMC_COMPLEX : Bool) (k_cart : (Fin 3 → R) → (Fin 3 → R))
    (norb : Int) (twist : Fin 3 → R) (klists : KContainer R) :
    Except BuildFailure (List (Fin 3 → R)) :=
  let tvec := k_cart twist
  match createSPOSetFromXML_npw QMC_COMPLEX norb twist with
  | .error e => .error e
  | .ok npw =>
    if npw < 0 then .error .BadLength else
    match store (List.replicate npw.toNat (0 : Fin 3 → R)) 0 tvec with
    | none => .error .OutOfBounds
    | some kpts =>
      match createSPOSetFromXML_fill QMC_COMPLEX tvec klists npw kpts with
      | none => .error .OutOfBounds
      | some kpts => .ok kpts

end Builder

/-- A k-list of two opposite vectors of the same magnitude, in units of half a reciprocal
lattice vector. -/
def samplePairList : KContainer Int :=
  { kpts := [![1, 0, 0], ![-1, 0, 0]], kpts_cart := [![2, 0, 0], ![-2, 0, 0]], minusk := [1, 0] }

/-- A k-list of two pairs of opposite vectors. -/
def sampleKLists : KContainer Int :=
  { kpts := [![1, 0, 0], ![-1, 0, 0], ![0, 1, 0], ![0, -1, 0]],
    kpts_cart := [![2, 0, 0], ![-2, 0, 0], ![0, 2, 0], ![0, -2, 0]],
    minusk := [1, 0, 3, 2] }

/-- A twist whose Cartesian vector is half a reciprocal lattice vector along the first
axis. -/
def sampleTwist : Fin 3 → Int := ![1, 0, 0]

/-! ## evaluateVGL and evaluateVGH of the spline set -/

/-- Modelled from the spec: the spline table with its derivatives
(spline2/MultiBspline.hpp is not among the sources): besides the value of each channel at a
reduced coordinate, the three components of its gradient and the six components of its
Hessian. -/
structure MultiBsplineD (R : Type) extends MultiBspline R where
  /-- The gradient component `a` of a channel at a reduced coordinate. -/
  grad : (Fin 3 → R) → Fin 3 → Nat → R
  /-- The Hessian component `a` of a channel at a reduced coordinate. -/
  hess : (Fin 3 → R) → Fin 6 → Nat → R

section SplineVGL

variable {R : Type} [CommRing R]

/-- The channel `i` lies inside the scratch arrays `myV`, `myG` and `myH`. -/
def writes_vgh (S : SplineC2CT R) (i : Nat) : Prop :=
  i < S.myV.length ∧ (∀ a : Fin 3, i < (S.myG a).length) ∧ (∀ a : Fin 6, i < (S.myH a).length)

instance (S : SplineC2CT R) (i : Nat) : Decidable (writes_vgh S i) := by
  unfold writes_vgh; infer_instance

/-- Modelled from the spec: `spline2::evaluate3d_vgh` (spline2/MultiBsplineEval.hpp is not
among the sources) writes the value, the gradient and the Hessian of exactly the channels in
`[first, last)` into `myV`, `myG` and `myH`, indexed by absolute channel number; `last` is
clamped to the total channel count. -/
def evaluate3d_vgh (spline : MultiBsplineD R) (ru : Fin 3 → R) (S : SplineC2CT R)
    (first last : Int) : Option (SplineC2CT R) :=
  let last := if last > spline.num_splines then (spline.num_splines : Int) else last
  forRange first.toNat last.toNat
    (fun i S =>
      if writes_vgh S i then
        some { S with
          myV := S.myV.set i (spline.value ru i)
          myG := fun a => (S.myG a).set i (spline.grad ru a i)
          myH := fun a => (S.myH a).set i (spline.hess ru a i) }
      else none)
    S

/-- The body of the parallel region of `SplineC2CT<T>::evaluateVGL`, as run by the thread to
which `FairDivideAligned` gives the channels `[first, last)`; the state is the orbital set
(with its scratch arrays) and the outputs `psi`, `dpsi`, `d2psi`. -/
def evaluateVGL_body (sincos : R → R × R) (spline : MultiBsplineD R) (r ru : Fin 3 → R)
    (first last : Int)
    (st : SplineC2CT R × List (Cplx R) × List (Fin 3 → Cplx R) × List (Cplx R)) :
    Option (SplineC2CT R × List (Cplx R) × List (Fin 3 → Cplx R) × List (Cplx R)) :=
  (evaluate3d_vgh spline ru st.1 first last).bind (fun S =>
    (assign_vgl sincos S r st.2.1 st.2.2.1 st.2.2.2 (Int.tdiv first 2) (Int.tdiv last 2)).map
      (fun out => (S, out)))

/-- The function `SplineC2CT<T>::evaluateVGL` at the position `r = P.activeR(iat)`: the
bodies of the threads are run one after the other, in the order of the list `shares` of
their channel ranges. -/
def evaluateVGL (sincos : R → R × R) (spline : MultiBsplineD R)
    (toUnit_floor : (Fin 3 → R) → (Fin 3 → R)) (S : SplineC2CT R) (r : Fin 3 → R)
    (psi : List (Cplx R)) (dpsi : List (Fin 3 → Cplx R)) (d2psi : List (Cplx R))
    (shares : List (Int × Int)) :
    Option (SplineC2CT R × List (Cplx R) × List (Fin 3 → Cplx R) × List (Cplx R)) :=
  let ru := toUnit_floor r
  shares.foldlM (fun st sh => evaluateVGL_body sincos spline r ru sh.1 sh.2 st)
    (S, psi, dpsi, d2psi)

/-- The body of the parallel region of `SplineC2CT<T>::evaluateVGH`. -/
def evaluateVGH_body (sincos : R → R × R) (spline : MultiBsplineD R) (r ru : Fin 3 → R)
    (first last : Int)
    (st : SplineC2CT R × List (Cplx R) × List (Fin 3 → Cplx R) × List (Fin 9 → Cplx R)) :
    Option (SplineC2CT R × List (Cplx R) × List (Fin 3 → Cplx R) × List (Fin 9 → Cplx R)) :=
  (evaluate3d_vgh spline ru st.1 first last).bind (fun S =>
    (assign_vgh sincos S r st.2.1 st.2.2.1 st.2.2.2 (Int.tdiv first 2) (Int.tdiv last 2)).map
      (fun out => (S, out)))

/-- The function `SplineC2CT<T>::evaluateVGH` at the position `r = P.activeR(iat)`. -/
def evaluateVGH (sincos : R → R × R) (spline : MultiBsplineD R)
    (toUnit_floor : (Fin 3 → R) → (Fin 3 → R)) (S : SplineC2CT R) (r : Fin 3 → R)
    (psi : List (Cplx R)) (dpsi : List (Fin 3 → Cplx R))
    (grad_grad_psi : List (Fin 9 → Cplx R)) (shares : List (Int × Int)) :
    Option (SplineC2CT R × List (Cplx R) × List (Fin 3 → Cplx R) × List (Fin 9 → Cplx R)) :=
  let ru := toUnit_floor r
  shares.foldlM (fun st sh => evaluateVGH_body sincos spline r ru sh.1 sh.2 st)
    (S, psi, dpsi, grad_grad_psi)

/-- The orbital set with the scratch arrays `myV`, `myG`, `myH` holding the spline values
of the channels of the orbital `j` (and of those before it). -/
def splineScratch (spline : MultiBsplineD R) (S : SplineC2CT R) (ru : Fin 3 → R) (j : Nat) :
    SplineC2CT R :=
  { S with
    myV := (List.range (2 * j + 2)).map (spline.value ru)
    myG := fun a => (List.range (2 * j + 2)).map (spline.grad ru a)
    myH := fun a => (List.range (2 * j + 2)).map (spline.hess ru a) }

/-- The value, gradient and Laplacian of the orbital `j` at the position `r` with reduced
coordinate `ru`: what `assign_vgl` computes from the spline values of its two channels. -/
def orbitalVGL (sincos : R → R × R) (spline : MultiBsplineD R) (S : SplineC2CT R)
    (r ru : Fin 3 → R) (j : Nat) : Cplx R × (Fin 3 → Cplx R) × Cplx R :=
  assign_vgl_val sincos (splineScratch spline S ru j) r j

/-- Two orbital sets with the same orbitals: they differ in the scratch arrays at most. -/
def SameOrbitals (S0 S : SplineC2CT R) : Prop :=
  S0.kPointsSize = S.kPointsSize ∧ S0.first_spo = S.first_spo ∧ S0.last_spo = S.last_spo ∧
    S0.G = S.G ∧ S0.GGt = S.GGt ∧ S0.myKcart = S.myKcart ∧ S0.mKK = S.mKK

/-- The scratch arrays `myV`, `myG`, `myH` of the orbital set hold `n` channels. -/
def ScratchHolds (n : Nat) (S : SplineC2CT R) : Prop :=
  n ≤ S.myV.length ∧ (∀ a : Fin 3, n ≤ (S.myG a).length) ∧ (∀ a : Fin 6, n ≤ (S.myH a).length)

instance (n : Nat) (S : SplineC2CT R) : Decidable (ScratchHolds n S) := by
  unfold ScratchHolds; infer_instance

end SplineVGL

/-! ## HybridRepCplx: the other members -/

/-- How a call that can abort ends: it returns with a state, it aborts with a diagnostic
(the state is the one at the abort), or it makes an access outside a buffer. -/
inductive Outcome (σ : Type) where
  | returned (s : σ)
  | aborted (msg : String) (s : σ)
  | undefined

/-- The rest of a function after a statement: it runs only when the statement returned. -/
def Outcome.andThen {σ : Type} (o : Outcome σ) (f : σ → Outcome σ) : Outcome σ :=
  match o with
  | .returned s => f s
  | .aborted msg s => .aborted msg s
  | .undefined => .undefined

/-- A call that returns or makes an access outside a buffer, as an outcome. -/
def Outcome.ofOption {σ : Type} : Option σ → Outcome σ
  | some s => .returned s
  | none => .undefined

/-- Modelled from the spec: the macro `APP_ABORT(msg)` (not among the sources) prints the
diagnostic `msg` and aborts the run; it never returns. -/
def APP_ABORT {σ : Type} (msg : String) (s : σ) : Outcome σ := .aborted msg s

/-- The type `VirtualParticleSet`: whether the virtual particles are on a sphere around an
ion, and their positions `R[iat]`; `getTotalNum()` is the number of positions, and
`activeR(iat)` is `R[iat]` (a virtual particle set has no active particle). -/
structure VirtualParticleSet (T : Type) where
  isOnSphere : Bool
  R : List (Fin 3 → T)

section HybridMore

variable {R H A : Type} [LinearOrderedCommRing R]

/-- The function `HybridRepCplx::evaluateVGL`. The members of `HYBRIDBASE` are parameters:
`evaluate_vgl` gives, from the engine, the position and the scratch arrays `myV`, `myG`,
`myL`, the engine afterwards, the smoothing factor and the three arrays filled with the
atomic-region values; `interpolate_buffer_vgl` gives `psi`, `dpsi`, `d2psi` after the blend
with `psi_AO`, `dpsi_AO`, `d2psi_AO`. -/
def HybridRepCplx.evaluateVGL (sincos : R → R × R) (spline : MultiBsplineD R)
    (toUnit_floor : (Fin 3 → R) → (Fin 3 → R))
    (evaluate_vgl : H → (Fin 3 → R) → List R × (Fin 3 → List R) × List R →
      H × R × (List R × (Fin 3 → List R) × List R))
    (interpolate_buffer_vgl : H →
      List (Cplx R) × List (Fin 3 → Cplx R) × List (Cplx R) →
      List (Cplx R) × List (Fin 3 → Cplx R) × List (Cplx R) →
      List (Cplx R) × List (Fin 3 → Cplx R) × List (Cplx R))
    (X : HybridRepCplx R H) (r : Fin 3 → R) (psi : List (Cplx R))
    (dpsi : List (Fin 3 → Cplx R)) (d2psi : List (Cplx R)) (shares : List (Int × Int)) :
    Option (HybridRepCplx R H × List (Cplx R) × List (Fin 3 → Cplx R) × List (Cplx R)) :=
  let res := evaluate_vgl X.center r (X.base.myV, X.base.myG, X.base.myL)
  let base := { X.base with myV := res.2.2.1, myG := res.2.2.2.1, myL := res.2.2.2.2 }
  let X := { X with center := res.1, base := base }
  let smooth_factor := res.2.1
  let cone : R := 1
  if smooth_factor < 0 then
    (qmcplusplus.evaluateVGL sincos spline toUnit_floor X.base r psi dpsi d2psi shares).map
      (fun st => ({ X with base := st.1 }, st.2))
  else if smooth_factor = cone then
    (assign_vgl_from_l sincos X.base r psi dpsi d2psi).map (fun out => (X, out))
  else
    let psi_AO := resizeVector X.psi_AO psi.length
    let dpsi_AO := resizeVector X.dpsi_AO psi.length
    let d2psi_AO := resizeVector X.d2psi_AO psi.length
    (assign_vgl_from_l sincos X.base r psi_AO dpsi_AO d2psi_AO).bind
      (fun ao =>
        (qmcplusplus.evaluateVGL sincos spline toUnit_floor X.base r psi dpsi d2psi shares).map
          (fun st =>
            ({ X with base := st.1, psi_AO := ao.1, dpsi_AO := ao.2.1, d2psi_AO := ao.2.2 },
              interpolate_buffer_vgl X.center st.2 ao)))

/-- The row `multi_myV[iat]` seen as a vector of `n` entries, as in
`Vector<ST> myV_one(multi_myV[iat], myV.size())`. -/
def myV_one (multi_myV : OhmmsMatrix R) (iat n : Nat) : List R :=
  (multi_myV.data.drop (iat * multi_myV.cols)).take n

/-- The statement `ratios[iat] = simd::dot(psi.data(), psiinv.data(), psi.size());`. -/
def store_ratio (psi psiinv ratios : List (Cplx R)) (iat : Nat) : Option (List (Cplx R)) :=
  (simd_dot psi psiinv 0 (toInt psi.length)).bind (fun d => store ratios iat d)

/-- One iteration of the loop over `iat` of `HybridRepCplx::evaluateDetRatios` for virtual
particles on a sphere; the state is the object, `psi` and `ratios`. -/
def HybridRepCplx.evaluateDetRatios_sphere (sincos : R → R × R) (spline : MultiBspline R)
    (toUnit_floor : (Fin 3 → R) → (Fin 3 → R))
    (interpolate_buffer_v : H → List (Cplx R) → List (Cplx R) → List (Cplx R))
    (smooth_factor : R) (VP : VirtualParticleSet R) (psiinv : List (Cplx R))
    (shares : List (Int × Int)) (iat : Nat)
    (st : HybridRepCplx R H × List (Cplx R) × List (Cplx R)) :
    Option (HybridRepCplx R H × List (Cplx R) × List (Cplx R)) :=
  (VP.R[iat]?).bind (fun r =>
    (if smooth_factor < 0 then
      (qmcplusplus.evaluateValue sincos spline toUnit_floor st.1.base r st.2.1 shares).map
        (fun o => ({ st.1 with base := o.1 }, o.2))
    else if smooth_factor = 1 then
      (assign_v sincos st.1.base r (myV_one st.1.multi_myV iat st.1.base.myV.length) st.2.1 0
        (toInt (st.1.base.myV.length / 2))).map (fun psi => (st.1, psi))
    else
      (assign_v sincos st.1.base r (myV_one st.1.multi_myV iat st.1.base.myV.length)
        st.1.psi_AO 0 (toInt (st.1.base.myV.length / 2))).bind
        (fun psi_AO =>
          (qmcplusplus.evaluateValue sincos spline toUnit_floor st.1.base r st.2.1 shares).map
            (fun o => ({ st.1 with base := o.1, psi_AO := psi_AO },
              interpolate_buffer_v st.1.center o.2 psi_AO)))).bind
      (fun xp => (store_ratio xp.2 psiinv st.2.2 iat).map (fun ratios => (xp.1, xp.2, ratios))))

/-- One iteration of the loop over `iat` of `HybridRepCplx::evaluateDetRatios` for virtual
particles that are not on a sphere. -/
def HybridRepCplx.evaluateDetRatios_scalar (sincos : R → R × R) (spline : MultiBspline R)
    (toUnit_floor : (Fin 3 → R) → (Fin 3 → R))
    (evaluate_v : H → (Fin 3 → R) → List R → H × R × List R)
    (interpolate_buffer_v : H → List (Cplx R) → List (Cplx R) → List (Cplx R))
    (VP : VirtualParticleSet R) (psiinv : List (Cplx R))
    (shares : List (Int × Int)) (iat : Nat)
    (st : HybridRepCplx R H × List (Cplx R) × List (Cplx R)) :
    Option (HybridRepCplx R H × List (Cplx R) × List (Cplx R)) :=
  (VP.R[iat]?).bind (fun r =>
    (HybridRepCplx.evaluateValue sincos spline toUnit_floor evaluate_v interpolate_buffer_v
      st.1 r st.2.1 shares).bind
      (fun xp => (store_ratio xp.2 psiinv st.2.2 iat).map (fun ratios => (xp.1, xp.2, ratios))))

/-- The statements under `// resize scratch space` of `HybridRepCplx::evaluateDetRatios`:
`psi_AO.resize(psi.size());` and
`if (multi_myV.rows() < VP.getTotalNum()) multi_myV.resize(VP.getTotalNum(), myV.size());`. -/
def HybridRepCplx.resizeScratch (X : HybridRepCplx R H) (VP : VirtualParticleSet R)
    (psi : List (Cplx R)) : HybridRepCplx R H :=
  let X := { X with psi_AO := resizeVector X.psi_AO psi.length }
  if X.multi_myV.rows < VP.R.length then
    { X with multi_myV := OhmmsMatrix.resize VP.R.length X.base.myV.length }
  else X

/-- The function `HybridRepCplx::evaluateDetRatios`. The member `evaluateValuesC2X` of
`HYBRIDBASE` is a parameter: from the engine, the virtual particle set and the matrix
`multi_myV` it gives the engine afterwards, the smoothing factor and the matrix with the
atomic-region raw values of the virtual particle `iat` in its row `iat`. -/
def HybridRepCplx.evaluateDetRatios (sincos : R → R × R) (spline : MultiBspline R)
    (toUnit_floor : (Fin 3 → R) → (Fin 3 → R))
    (evaluate_v : H → (Fin 3 → R) → List R → H × R × List R)
    (evaluateValuesC2X : H → VirtualParticleSet R → OhmmsMatrix R → H × R × OhmmsMatrix R)
    (interpolate_buffer_v : H → List (Cplx R) → List (Cplx R) → List (Cplx R))
    (X : HybridRepCplx R H) (VP : VirtualParticleSet R) (psi psiinv ratios : List (Cplx R))
    (shares : List (Int × Int)) :
    Option (HybridRepCplx R H × List (Cplx R) × List (Cplx R)) :=
  if VP.isOnSphere then
    let X := HybridRepCplx.resizeScratch X VP psi
    let res := evaluateValuesC2X X.center VP X.multi_myV
    let X := { X with center := res.1, multi_myV := res.2.2 }
    forRange 0 VP.R.length
      (HybridRepCplx.evaluateDetRatios_sphere sincos spline toUnit_floor interpolate_buffer_v
        res.2.1 VP psiinv shares)
      (X, psi, ratios)
  else
    forRange 0 VP.R.length
      (HybridRepCplx.evaluateDetRatios_scalar sincos spline toUnit_floor evaluate_v
        interpolate_buffer_v VP psiinv shares)
      (X, psi, ratios)

/-- The function `HybridRepCplx::evaluateVGH`: the macro `APP_ABORT` is its first statement.
The member `evaluate_vgh` of `HYBRIDBASE` is a parameter. -/
def HybridRepCplx.evaluateVGH (sincos : R → R × R) (spline : MultiBsplineD R)
    (toUnit_floor : (Fin 3 → R) → (Fin 3 → R))
    (evaluate_vgh : H → (Fin 3 → R) → List R × (Fin 3 → List R) × (Fin 6 → List R) →
      H × Bool × (List R × (Fin 3 → List R) × (Fin 6 → List R)))
    (X : HybridRepCplx R H) (r : Fin 3 → R) (psi : List (Cplx R))
    (dpsi : List (Fin 3 → Cplx R)) (grad_grad_psi : List (Fin 9 → Cplx R))
    (shares : List (Int × Int)) :
    Outcome (HybridRepCplx R H × List (Cplx R) × List (Fin 3 → Cplx R) ×
      List (Fin 9 → Cplx R)) :=
  (APP_ABORT "HybridRepCplx::evaluate_vgh not implemented!"
    (X, psi, dpsi, grad_grad_psi)).andThen
    (fun st =>
      let res := evaluate_vgh st.1.center r (st.1.base.myV, st.1.base.myG, st.1.base.myH)
      let base := { st.1.base with myV := res.2.2.1, myG := res.2.2.2.1, myH := res.2.2.2.2 }
      let X := { st.1 with center := res.1, base := base }
      if res.2.1 then
        Outcome.ofOption
          ((assign_vgh sincos X.base r st.2.1 st.2.2.1 st.2.2.2 0
            (toInt (X.base.myV.length / 2))).map (fun out => (X, out)))
      else
        Outcome.ofOption
          ((qmcplusplus.evaluateVGH sincos spline toUnit_floor X.base r st.2.1 st.2.2.1 st.2.2.2
            shares).map (fun o => ({ X with base := o.1 }, o.2))))

/-- The function `HybridRepCplx::evaluateVGHGH`: the macro `APP_ABORT` is its only
statement. -/
def HybridRepCplx.evaluateVGHGH (X : HybridRepCplx R H) (psi : List (Cplx R))
    (dpsi : List (Fin 3 → Cplx R)) (grad_grad_psi : List (Fin 9 → Cplx R))
    (grad_grad_grad_psi : List (Fin 3 → Fin 9 → Cplx R)) :
    Outcome (HybridRepCplx R H × List (Cplx R) × List (Fin 3 → Cplx R) ×
      List (Fin 9 → Cplx R) × List (Fin 3 → Fin 9 → Cplx R)) :=
  APP_ABORT "HybridRepCplx::evaluate_vghgh not implemented!"
    (X, psi, dpsi, grad_grad_psi, grad_grad_grad_psi)

end HybridMore

section HybridArchive

variable {R H A : Type}

/-- The function `HybridRepCplx::read_splines`: the flag returned, the engine and the spline
set afterwards. The member `read_splines` of `HYBRIDBASE` is the parameter `readAtomic`;
the operator `&&` evaluates its second operand only when the first is true. -/
def HybridRepCplx.read_splines (readAtomic : A → H → Bool × H)
    (readEntry : A → SplineType R → String → Bool × SplineType R)
    (center : H) (S : RotationSet R) (h5f : A) : Bool × H × RotationSet R :=
  let a := readAtomic h5f center
  if a.1 then
    let s := qmcplusplus.read_splines readEntry S h5f
    (s.1, a.2, s.2)
  else (false, a.2, S)

/-- The function `HybridRepCplx::write_splines`: the flag returned and the archive
afterwards. The member `write_splines` of `HYBRIDBASE` is the parameter `writeAtomic`. -/
def HybridRepCplx.write_splines (writeAtomic : A → H → Bool × A)
    (writeEntry : A → SplineType R → String → Bool × A)
    (center : H) (S : RotationSet R) (h5f : A) : Bool × A :=
  let a := writeAtomic h5f center
  if a.1 then qmcplusplus.write_splines writeEntry S a.2
  else (false, a.2)

end HybridArchive

/-! ## HybridRepCplx: the sequence of values behind the determinant ratios -/

section HybridSequence

variable {R H : Type} [LinearOrderedCommRing R]

/-- The vectors `psi` that `HybridRepCplx::evaluateValue` produces when it is called for the
positions of the list one after the other, on the same object and the same buffer `psi`:
the entry `iat` of the result is `psi` after the call for the position `iat`. This is the
reference that the determinant ratios are compared with. -/
def valueSequence (sincos : R → R × R) (spline : MultiBspline R)
    (toUnit_floor : (Fin 3 → R) → (Fin 3 → R))
    (evaluate_v : H → (Fin 3 → R) → List R → H × R × List R)
    (interpolate_buffer_v : H → List (Cplx R) → List (Cplx R) → List (Cplx R))
    (shares : List (Int × Int)) :
    List (Fin 3 → R) → HybridRepCplx R H → List (Cplx R) → Option (List (List (Cplx R)))
  | [], _, _ => some []
  | r :: rs, X, psi =>
    (HybridRepCplx.evaluateValue sincos spline toUnit_floor evaluate_v interpolate_buffer_v
      X r psi shares).bind
      (fun xp =>
        (valueSequence sincos spline toUnit_floor evaluate_v interpolate_buffer_v shares rs
          xp.1 xp.2).map (fun vals => xp.2 :: vals))

end HybridSequence

/-- The sample spline table with derivatives: the gradient component `a` of channel `c` is
`a + c` and the Hessian component `a` is `a * c`. -/
def sampleSplineD : MultiBsplineD Int :=
  { sampleSpline with
    grad := fun _ a c => (a.val : Int) + c
    hess := fun _ a c => (a.val : Int) * c }

/-- A sample atomic-region engine for `evaluate_vgl`: it returns the smoothing factor it is
given and fills `myV` with tens, `myG` with ones and `myL` with twos. -/
def sampleEvaluateVGL (f : Int) :
    Unit → (Fin 3 → Int) → List Int × (Fin 3 → List Int) × List Int →
      Unit × Int × (List Int × (Fin 3 → List Int) × List Int) :=
  fun _ _ s =>
    ((), f, (s.1.map (fun _ => 10), fun a => (s.2.1 a).map (fun _ => 1),
      s.2.2.map (fun _ => 2)))

/-- The sample spline set after `sampleEvaluateVGL` has filled its scratch arrays. -/
def sampleEngineBase : SplineC2CT Int :=
  { sampleSet with
    myV := [10, 10, 10, 10]
    myG := fun a => (sampleSet.myG a).map (fun _ => 1)
    myL := [2, 2, 2, 2] }

/-- A sample blend of value, gradient and Laplacian: the entrywise sums. -/
def sampleInterpolateVGL :
    Unit → List (Cplx Int) × List (Fin 3 → Cplx Int) × List (Cplx Int) →
      List (Cplx Int) × List (Fin 3 → Cplx Int) × List (Cplx Int) →
      List (Cplx Int) × List (Fin 3 → Cplx Int) × List (Cplx Int) :=
  fun _ sp ao =>
    (List.zipWith (fun u v => u + v) sp.1 ao.1,
      List.zipWith (fun u v => fun a => u a + v a) sp.2.1 ao.2.1,
      List.zipWith (fun u v => u + v) sp.2.2 ao.2.2)

/-- A sample virtual particle set of two positions. -/
def sampleVP (onSphere : Bool) : VirtualParticleSet Int :=
  ⟨onSphere, [sampleR, ![0, 1, 2]]⟩

/-- A sample batched engine that agrees with `sampleEvaluateV`: it returns the smoothing
factor it is given and fills the matrix with tens. -/
def sampleEvaluateValuesC2X (f : Int) :
    Unit → VirtualParticleSet Int → OhmmsMatrix Int → Unit × Int × OhmmsMatrix Int :=
  fun _ _ M => ((), f, { M with data := M.data.map (fun _ => 10) })

section VGLReadyDef

variable {R : Type} [CommRing R]

/-- The buffers of a call of `evaluateVGL` are large enough: the thread shares lie inside
`[0, 2 * psi.size())` and have even bounds, the sizes fit the `int` arithmetic of the loop
headers, the spline table has two channels per orbital, the scratch and k-vector arrays
hold them, `[first_spo, last_spo)` is a range of at most `kPoints.size()` orbitals, and the
three outputs hold the orbitals written. -/
def VGLReady (spline : MultiBsplineD R) (S : SplineC2CT R) (psi : List (Cplx R))
    (dpsi : List (Fin 3 → Cplx R)) (d2psi : List (Cplx R)) (shares : List (Int × Int)) :
    Prop :=
  (∀ sh ∈ shares, 0 ≤ sh.1 ∧ sh.1 ≤ sh.2 ∧ sh.2 ≤ 2 * (psi.length : Int) ∧
    sh.1 % 2 = 0 ∧ sh.2 % 2 = 0) ∧
  psi.length < 2 ^ 30 ∧ S.kPointsSize < 2 ^ 31 ∧
  2 * S.kPointsSize ≤ spline.num_splines ∧ ScratchHolds spline.num_splines S ∧
  (∀ a : Fin 3, S.kPointsSize ≤ (S.myKcart a).length) ∧ S.kPointsSize ≤ S.mKK.length ∧
  2 * S.kPointsSize ≤ S.myL.length ∧
  S.first_spo ≤ S.last_spo ∧ S.last_spo - S.first_spo ≤ S.kPointsSize ∧
  (S.kPointsSize + S.first_spo ≤ psi.length ∧ S.last_spo ≤ psi.length) ∧
  (S.kPointsSize + S.first_spo ≤ dpsi.length ∧ S.last_spo ≤ dpsi.length) ∧
  (S.kPointsSize + S.first_spo ≤ d2psi.length ∧ S.last_spo ≤ d2psi.length)

instance (spline : MultiBsplineD R) (S : SplineC2CT R) (psi : List (Cplx R))
    (dpsi : List (Fin 3 → Cplx R)) (d2psi : List (Cplx R)) (shares : List (Int × Int)) :
    Decidable (VGLReady spline S psi dpsi d2psi shares) := by
  unfold VGLReady; infer_instance

end VGLReadyDef

/-! ## Vocabulary and sample data for the later sections -/

/-- A k-list of one shell of four vectors of the same magnitude, the two opposite pairs
interleaved. -/
def sampleShellList : KContainer Int :=
  { kpts := [![1, 0, 0], ![0, 1, 0], ![-1, 0, 0], ![0, -1, 0]],
    kpts_cart := [![2, 0, 0], ![0, 2, 0], ![-2, 0, 0], ![0, -2, 0]],
    minusk := [2, 3, 0, 1] }

/-- The squared modulus `Re(z)^2 + Im(z)^2` of a complex scalar. -/
def Cplx.normSq {R : Type} [CommRing R] (z : Cplx R) : R := z.re * z.re + z.im * z.im

/-- The pair `(s, c) = (0, 1)` at every angle: with it a kernel stores the real and imaginary
pair it has computed before the rotation by the phase, since `c * A - s * B = A` and
`c * B + s * A = B`. -/
def unitPhase {R : Type} [CommRing R] : R → R × R := fun _ => (0, 1)

/-- A position at which the first sample orbital has the angle `1`, where the stand-in for
`sincos` gives `(s, c) = (1, 0)`. -/
def sampleQuarterR : Fin 3 → Int := ![1, -1, 0]

/-- The sample set with the end of its range moved to 4, so that its range `[1, 4)` is longer
than `kPoints.size() = 2`. -/
def sampleSetLong : SplineC2CT Int := { sampleSet with last_spo := 4 }

/-- The sample table with a checkpoint equal to the table, as `storeParamsBeforeRotation`
leaves it. -/
def sampleRotationSetC0 : RotationSet Int :=
  { sampleRotationSet with coef_copy_ := some [1, 2, 3, 4, 9, 9, 5, 6, 7, 8, 9, 9] }

/-- A second matrix, with rows `(1, 1)` and `(0, 1)`; it does not commute with the first. -/
def sampleShear : ValueMatrix Int := ⟨2, 2, [⟨1, 0⟩, ⟨1, 0⟩, ⟨0, 0⟩, ⟨1, 0⟩]⟩

/-- The identity matrix with two rows. -/
def sampleIdentity : ValueMatrix Int := ⟨2, 2, [⟨1, 0⟩, ⟨0, 0⟩, ⟨0, 0⟩, ⟨1, 0⟩]⟩

/-- Modelled from the spec: `HybridRepCenterOrbitals::interpolate_buffer_v`
(HybridRepCenterOrbitals.h is not among the sources). The smoothing factor `f` is the blend
weight between the atomic value `psi_AO` and the spline value `psi`:
`psi[i] = f * psi_AO[i] + (1 - f) * psi[i]` for every entry of `psi`. -/
def HybridRepCenterOrbitals.interpolate_buffer_v {R : Type} [CommRing R] (f : R)
    (psi psi_AO : List (Cplx R)) : List (Cplx R) :=
  (List.range psi.length).map
    (fun i => Cplx.ofReal f * rd psi_AO i + Cplx.ofReal (1 - f) * rd psi i)

/-- A small orbital set over the rationals: two orbitals, owned from global index 0 on. -/
def sampleSetQ : SplineC2CT ℚ where
  kPointsSize := 2
  first_spo := 0
  last_spo := 2
  G := fun i => if i % 4 = 0 then 1 else 0
  GGt := fun i => if i % 4 = 0 then 1 else 0
  myKcart := ![[1, 0], [2, 1], [0, 3]]
  mKK := [-5, -10]
  myV := [1, 2, 3, 4]
  myG := ![[0, 0, 0, 0], [0, 0, 0, 0], [0, 0, 0, 0]]
  myH := fun _ => [0, 0, 0, 0]
  mygH := fun _ => [0, 0, 0, 0]
  myL := [0, 0, 0, 0]

/-- A spline table over the rationals with four channels whose interpolated values are
`c + 1` for channel `c`. -/
def sampleSplineQ : MultiBspline ℚ where
  num_splines := 4
  value := fun _ c => (c : ℚ) + 1

/-- A sample hybrid set over the rational sample set; its engine state is the blend
weight. -/
def sampleHybridQ : HybridRepCplx ℚ ℚ :=
  { base := sampleSetQ, center := 0, psi_AO := [], d2psi_AO := [], dpsi_AO := [],
    multi_myV := ⟨0, 0, []⟩ }

/-- A sample atomic-region engine over the rationals: it reports the smoothing factor `f`,
keeps it as its state, and fills the scratch with tens. -/
def sampleEngineQ (f : ℚ) : ℚ → (Fin 3 → ℚ) → List ℚ → ℚ × ℚ × List ℚ :=
  fun _ _ _ => (f, f, [10, 10, 10, 10])

/-! ## Facts about the scalar type -/

namespace Cplx

variable {R : Type} [CommRing R]

@[simp] theorem zero_re : (0 : Cplx R).re = 0 := rfl
@[simp] theorem zero_im : (0 : Cplx R).im = 0 := rfl
@[simp] theorem add_re (a b : Cplx R) : (a + b).re = a.re + b.re := rfl
@[simp] theorem add_im (a b : Cplx R) : (a + b).im = a.im + b.im := rfl
@[simp] theorem sub_re (a b : Cplx R) : (a - b).re = a.re - b.re := rfl
@[simp] theorem sub_im (a b : Cplx R) : (a - b).im = a.im - b.im := rfl
@[simp] theorem neg_re (a : Cplx R) : (-a).re = -a.re := rfl
@[simp] theorem neg_im (a : Cplx R) : (-a).im = -a.im := rfl
@[simp] theorem mul_re (a b : Cplx R) : (a * b).re = a.re * b.re - a.im * b.im := rfl
@[simp] theorem mul_im (a b : Cplx R) : (a * b).im = a.re * b.im + a.im * b.re := rfl
@[simp] theorem ofReal_re (x : R) : (ofReal x).re = x := rfl
@[simp] theorem ofReal_im (x : R) : (ofReal x).im = 0 := rfl
@[simp] theorem I_re : (I : Cplx R).re = 0 := rfl
@[simp] theorem I_im : (I : Cplx R).im = 1 := rfl

end Cplx

/-! ## Loops that store one value per iteration -/

section Loops

variable {α β σ τ : Type}

theorem store_eq_some {xs : List α} {i : Nat} {v : α} (h : i < xs.length) :
    store xs i v = some (xs.set i v) := by
  simp [store, h]

theorem store_eq_none {xs : List α} {i : Nat} {v : α} (h : xs.length ≤ i) :
    store xs i v = none := by
  simp [store, Nat.not_lt.mpr h]

/-- A loop invariant that every iteration re-establishes holds when the loop ends, and
the loop does end. -/
theorem forLoop_inv (body : Nat → σ → Option σ) (P : Nat → σ → Prop) :
    ∀ (n j : Nat) (s : σ), P j s →
      (∀ i t, j ≤ i → i < j + n → P i t → ∃ t', body i t = some t' ∧ P (i + 1) t') →
      ∃ s', forLoop body n j s = some s' ∧ P (j + n) s' := by
  intro n
  induction n with
  | zero => intro j s h0 _; exact ⟨s, rfl, by simpa using h0⟩
  | succ n ih =>
    intro j s h0 hstep
    obtain ⟨t, ht, hP⟩ := hstep j s (Nat.le_refl j) (by omega) h0
    obtain ⟨s', hs', hP'⟩ := ih (j + 1) t hP (fun i u h1 h2 hu => hstep i u (by omega) (by omega) hu)
    refine ⟨s', ?_, ?_⟩
    · simp [forLoop, ht, hs']
    · have : j + (n + 1) = j + 1 + n := by omega
      rw [this]; exact hP'

theorem Upd_refl (val : Nat → Option α) (lo : Nat) (xs : List α) : Upd val lo lo xs xs := by
  refine ⟨rfl, fun i => ?_⟩
  have : ¬ (lo ≤ i ∧ i < lo) := by omega
  simp [this]

theorem Upd_step {val : Nat → Option α} {lo hi : Nat} {xs t : List α} {v : α}
    (hU : Upd val lo hi xs t) (hlo : lo ≤ hi) (hv : val hi = some v) (hlen : hi < xs.length) :
    store t hi v = some (t.set hi v) ∧ Upd val lo (hi + 1) xs (t.set hi v) := by
  obtain ⟨hl, hg⟩ := hU
  refine ⟨store_eq_some (by omega), by simp [hl], fun i => ?_⟩
  rw [List.getElem?_set]
  by_cases h : hi = i
  · subst h
    have h1 : lo ≤ hi ∧ hi < hi + 1 := ⟨hlo, by omega⟩
    simp [h1, hv, hl, hlen]
  · rw [if_neg h, hg i]
    by_cases h2 : lo ≤ i ∧ i < hi
    · have h3 : lo ≤ i ∧ i < hi + 1 := ⟨h2.1, by omega⟩
      simp [h2, h3]
    · have h3 : ¬ (lo ≤ i ∧ i < hi + 1) := by omega
      simp [h2, h3]

/-- A loop that stores one value per iteration into one buffer. -/
theorem forLoop_store1 (val : Nat → Option α) (off n j : Nat) (xs : List α)
    (hval : ∀ i, j ≤ i → i < j + n → ∃ v, val i = some v)
    (hlen : ∀ i, j ≤ i → i < j + n → i + off < xs.length) :
    ∃ ys, forLoop (fun i s => (val i).bind (fun v => store s (i + off) v)) n j xs = some ys ∧
      Upd (fun i => val (i - off)) (j + off) (j + n + off) xs ys := by
  have h := forLoop_inv (fun i s => (val i).bind (fun v => store s (i + off) v))
    (fun i t => Upd (fun i => val (i - off)) (j + off) (i + off) xs t) n j xs
    (Upd_refl _ _ _) (by
      intro i t h1 h2 hU
      obtain ⟨v, hv⟩ := hval i h1 h2
      have hs := Upd_step hU (by omega) (by simpa using hv) (hlen i h1 h2)
      refine ⟨t.set (i + off) v, by simp [hv, hs.1], ?_⟩
      have e : i + 1 + off = i + off + 1 := by omega
      beta_reduce; rw [e]; exact hs.2)
  exact h

/-- A loop that stores one value per iteration into each of three buffers. -/
theorem forLoop_store3 {γ V : Type} (val : Nat → Option V) (f1 : V → α) (f2 : V → β)
    (f3 : V → γ) (off n j : Nat) (xs : List α) (ys : List β) (zs : List γ)
    (hval : ∀ i, j ≤ i → i < j + n → ∃ v, val i = some v)
    (hx : ∀ i, j ≤ i → i < j + n → i + off < xs.length)
    (hy : ∀ i, j ≤ i → i < j + n → i + off < ys.length)
    (hz : ∀ i, j ≤ i → i < j + n → i + off < zs.length) :
    ∃ out, forLoop (fun i (s : List α × List β × List γ) => (val i).bind (fun v =>
        (store s.1 (i + off) (f1 v)).bind (fun a =>
        (store s.2.1 (i + off) (f2 v)).bind (fun b =>
        (store s.2.2 (i + off) (f3 v)).bind (fun c => some (a, b, c)))))) n j (xs, ys, zs)
        = some out ∧
      Upd (fun i => (val (i - off)).map f1) (j + off) (j + n + off) xs out.1 ∧
      Upd (fun i => (val (i - off)).map f2) (j + off) (j + n + off) ys out.2.1 ∧
      Upd (fun i => (val (i - off)).map f3) (j + off) (j + n + off) zs out.2.2 := by
  have h := forLoop_inv (fun i (s : List α × List β × List γ) => (val i).bind (fun v =>
        (store s.1 (i + off) (f1 v)).bind (fun a =>
        (store s.2.1 (i + off) (f2 v)).bind (fun b =>
        (store s.2.2 (i + off) (f3 v)).bind (fun c => some (a, b, c))))))
    (fun i t => Upd (fun i => (val (i - off)).map f1) (j + off) (i + off) xs t.1 ∧
      Upd (fun i => (val (i - off)).map f2) (j + off) (i + off) ys t.2.1 ∧
      Upd (fun i => (val (i - off)).map f3) (j + off) (i + off) zs t.2.2) n j (xs, ys, zs)
    ⟨Upd_refl _ _ _, Upd_refl _ _ _, Upd_refl _ _ _⟩ (by
      intro i t h1 h2 hU
      obtain ⟨v, hv⟩ := hval i h1 h2
      have e : i + 1 + off = i + off + 1 := by omega
      have s1 := Upd_step (v := f1 v) hU.1 (by omega) (by simp [hv]) (hx i h1 h2)
      have s2 := Upd_step (v := f2 v) hU.2.1 (by omega) (by simp [hv]) (hy i h1 h2)
      have s3 := Upd_step (v := f3 v) hU.2.2 (by omega) (by simp [hv]) (hz i h1 h2)
      refine ⟨(t.1.set (i + off) (f1 v), t.2.1.set (i + off) (f2 v),
        t.2.2.set (i + off) (f3 v)), by simp [hv, s1.1, s2.1, s3.1], ?_⟩
      beta_reduce; rw [e]; exact ⟨s1.2, s2.2, s3.2⟩)
  exact h

/-- A loop that stores one value per iteration into each of four buffers. -/
theorem forLoop_store4 {γ δ V : Type} (val : Nat → Option V) (f1 : V → α) (f2 : V → β)
    (f3 : V → γ) (f4 : V → δ) (off n j : Nat) (xs : List α) (ys : List β) (zs : List γ)
    (ws : List δ)
    (hval : ∀ i, j ≤ i → i < j + n → ∃ v, val i = some v)
    (hx : ∀ i, j ≤ i → i < j + n → i + off < xs.length)
    (hy : ∀ i, j ≤ i → i < j + n → i + off < ys.length)
    (hz : ∀ i, j ≤ i → i < j + n → i + off < zs.length)
    (hw : ∀ i, j ≤ i → i < j + n → i + off < ws.length) :
    ∃ out, forLoop (fun i (s : List α × List β × List γ × List δ) => (val i).bind (fun v =>
        (store s.1 (i + off) (f1 v)).bind (fun a =>
        (store s.2.1 (i + off) (f2 v)).bind (fun b =>
        (store s.2.2.1 (i + off) (f3 v)).bind (fun c =>
        (store s.2.2.2 (i + off) (f4 v)).bind (fun d => some (a, b, c, d))))))) n j
        (xs, ys, zs, ws) = some out ∧
      Upd (fun i => (val (i - off)).map f1) (j + off) (j + n + off) xs out.1 ∧
      Upd (fun i => (val (i - off)).map f2) (j + off) (j + n + off) ys out.2.1 ∧
      Upd (fun i => (val (i - off)).map f3) (j + off) (j + n + off) zs out.2.2.1 ∧
      Upd (fun i => (val (i - off)).map f4) (j + off) (j + n + off) ws out.2.2.2 := by
  have h := forLoop_inv (fun i (s : List α × List β × List γ × List δ) =>
        (val i).bind (fun v =>
        (store s.1 (i + off) (f1 v)).bind (fun a =>
        (store s.2.1 (i + off) (f2 v)).bind (fun b =>
        (store s.2.2.1 (i + off) (f3 v)).bind (fun c =>
        (store s.2.2.2 (i + off) (f4 v)).bind (fun d => some (a, b, c, d)))))))
    (fun i t => Upd (fun i => (val (i - off)).map f1) (j + off) (i + off) xs t.1 ∧
      Upd (fun i => (val (i - off)).map f2) (j + off) (i + off) ys t.2.1 ∧
      Upd (fun i => (val (i - off)).map f3) (j + off) (i + off) zs t.2.2.1 ∧
      Upd (fun i => (val (i - off)).map f4) (j + off) (i + off) ws t.2.2.2) n j
    (xs, ys, zs, ws)
    ⟨Upd_refl _ _ _, Upd_refl _ _ _, Upd_refl _ _ _, Upd_refl _ _ _⟩ (by
      intro i t h1 h2 hU
      obtain ⟨v, hv⟩ := hval i h1 h2
      have e : i + 1 + off = i + off + 1 := by omega
      have s1 := Upd_step (v := f1 v) hU.1 (by omega) (by simp [hv]) (hx i h1 h2)
      have s2 := Upd_step (v := f2 v) hU.2.1 (by omega) (by simp [hv]) (hy i h1 h2)
      have s3 := Upd_step (v := f3 v) hU.2.2.1 (by omega) (by simp [hv]) (hz i h1 h2)
      have s4 := Upd_step (v := f4 v) hU.2.2.2 (by omega) (by simp [hv]) (hw i h1 h2)
      refine ⟨(t.1.set (i + off) (f1 v), t.2.1.set (i + off) (f2 v),
        t.2.2.1.set (i + off) (f3 v), t.2.2.2.set (i + off) (f4 v)),
        by simp [hv, s1.1, s2.1, s3.1, s4.1], ?_⟩
      beta_reduce; rw [e]; exact ⟨s1.2, s2.2, s3.2, s4.2⟩)
  exact h

end Loops

/-! ## Integer conversions in the loop headers -/

section Conversions
theorem toSizeT_of_nonneg {x : Int} (h0 : 0 ≤ x) (h : x < 2 ^ 31) : toSizeT x = x.toNat := by
  unfold toSizeT
  rw [Int.emod_eq_of_lt h0 (by omega)]

theorem toSizeT_of_neg {x : Int} (h0 : x < 0) (h : -2 ^ 31 ≤ x) :
    toSizeT x = (x + 2 ^ 64).toNat := by
  unfold toSizeT
  congr 1
  omega

theorem toInt_of_lt {n : Nat} (h : n < 2 ^ 31) : toInt n = n := by
  unfold toInt
  omega

/-- The loop bound that `protect_last` leaves. -/
theorem toSizeT_protect_last {kps : Nat} {last : Int} (hk : kps < 2 ^ 31)
    (hl : -2 ^ 31 ≤ last) (hu : last < 2 ^ 31) :
    toSizeT (protect_last kps last) = if last < 0 then kps else min last.toNat kps := by
  unfold protect_last
  by_cases hneg : last < 0
  · have h1 : toSizeT last > kps := by
      rw [toSizeT_of_neg hneg hl]; omega
    rw [if_pos h1, if_pos hneg, toInt_of_lt hk, toSizeT_of_nonneg (by omega) (by omega)]
    simp
  · have h0 : 0 ≤ last := by omega
    rw [if_neg hneg, toSizeT_of_nonneg h0 hu]
    by_cases h1 : last.toNat > kps
    · rw [if_pos h1, toInt_of_lt hk, toSizeT_of_nonneg (by omega) (by omega)]
      simp; omega
    · rw [if_neg h1, toSizeT_of_nonneg h0 hu]; omega

theorem toSizeT_protect_last_vghgh {kps : Nat} {last : Int} (hk : kps < 2 ^ 31)
    (hl : -2 ^ 31 ≤ last) (hu : last < 2 ^ 31) :
    toSizeT (protect_last_vghgh kps last) = if last < 0 then kps else min last.toNat kps := by
  have h := toSizeT_protect_last hk hl hu
  unfold protect_last_vghgh
  unfold protect_last at h
  by_cases hneg : last < 0
  · rw [if_pos hneg, if_pos hneg, toInt_of_lt hk, toSizeT_of_nonneg (by omega) (by omega)]
    simp
  · rw [if_neg hneg]; exact h

end Conversions

/-! ## The loops of the kernels -/

section KernelLoops

variable {R : Type} [CommRing R]
variable {α : Type}

theorem Upd_congr {val val' : Nat → Option α} {lo hi lo' hi' : Nat} {xs ys : List α}
    (h : Upd val lo hi xs ys) (hr : ∀ i, (lo ≤ i ∧ i < hi) ↔ (lo' ≤ i ∧ i < hi'))
    (hv : ∀ i, lo ≤ i → i < hi → val i = val' i) : Upd val' lo' hi' xs ys := by
  refine ⟨h.1, fun i => ?_⟩
  rw [h.2 i]
  by_cases c : lo ≤ i ∧ i < hi
  · rw [if_pos c, if_pos ((hr i).mp c)]; exact hv i c.1 c.2
  · rw [if_neg c, if_neg (fun c' => c ((hr i).mpr c'))]

theorem assign_v_loop (sincos : R → R × R) (S : SplineC2CT R) (r : Fin 3 → R) (myV : List R)
    (psi : List (Cplx R)) (first last : Int) (lo hi : Nat)
    (hlo : toSizeT first = lo) (hhi : toSizeT (protect_last S.kPointsSize last) = hi)
    (hreads : ∀ i, lo ≤ i → i < hi → reads_v S myV i)
    (hpsi : ∀ i, lo ≤ i → i < hi → i + S.first_spo < psi.length) :
    ∃ psi', assign_v sincos S r myV psi first last = some psi' ∧
      Upd (fun i => some (assign_v_val sincos S r myV (i - S.first_spo)))
        (lo + S.first_spo) (hi + S.first_spo) psi psi' := by
  obtain ⟨ys, h1, h2⟩ := forLoop_store1 (assign_v_at sincos S r myV) S.first_spo (hi - lo) lo psi
    (fun i a b => ⟨_, if_pos (hreads i a (by omega))⟩) (fun i a b => hpsi i a (by omega))
  refine ⟨ys, ?_, Upd_congr h2 (fun i => by omega) (fun i a b => ?_)⟩
  · simp only [assign_v, forRange, hlo, hhi]
    exact h1
  · exact if_pos (hreads _ (by omega) (by omega))

theorem assign_vgl_loop (sincos : R → R × R) (S : SplineC2CT R) (r : Fin 3 → R)
    (psi : List (Cplx R)) (dpsi : List (Fin 3 → Cplx R)) (d2psi : List (Cplx R))
    (first last : Int) (lo hi : Nat)
    (hlo : toSizeT first = lo) (hhi : toSizeT (protect_last S.kPointsSize last) = hi)
    (hreads : ∀ i, lo ≤ i → i < hi → reads_vgl S i)
    (hpsi : ∀ i, lo ≤ i → i < hi → i + S.first_spo < psi.length)
    (hdpsi : ∀ i, lo ≤ i → i < hi → i + S.first_spo < dpsi.length)
    (hd2psi : ∀ i, lo ≤ i → i < hi → i + S.first_spo < d2psi.length) :
    ∃ out, assign_vgl sincos S r psi dpsi d2psi first last = some out ∧
      Upd (fun i => some (assign_vgl_val sincos S r (i - S.first_spo)).1)
        (lo + S.first_spo) (hi + S.first_spo) psi out.1 ∧
      Upd (fun i => some (assign_vgl_val sincos S r (i - S.first_spo)).2.1)
        (lo + S.first_spo) (hi + S.first_spo) dpsi out.2.1 ∧
      Upd (fun i => some (assign_vgl_val sincos S r (i - S.first_spo)).2.2)
        (lo + S.first_spo) (hi + S.first_spo) d2psi out.2.2 := by
  obtain ⟨out, h1, h2, h3, h4⟩ := forLoop_store3 (assign_vgl_at sincos S r)
    (fun v => v.1) (fun v => v.2.1) (fun v => v.2.2) S.first_spo (hi - lo) lo psi dpsi d2psi
    (fun i a b => ⟨_, if_pos (hreads i a (by omega))⟩) (fun i a b => hpsi i a (by omega))
    (fun i a b => hdpsi i a (by omega)) (fun i a b => hd2psi i a (by omega))
  have hv : ∀ i, lo + S.first_spo ≤ i → i < lo + (hi - lo) + S.first_spo →
      assign_vgl_at sincos S r (i - S.first_spo) =
        some (assign_vgl_val sincos S r (i - S.first_spo)) :=
    fun i a b => if_pos (hreads _ (by omega) (by omega))
  refine ⟨out, ?_, Upd_congr h2 (fun i => by omega) (fun i a b => by simp [hv i a b]),
    Upd_congr h3 (fun i => by omega) (fun i a b => by simp [hv i a b]),
    Upd_congr h4 (fun i => by omega) (fun i a b => by simp [hv i a b])⟩
  simp only [assign_vgl, forRange, hlo, hhi]
  exact h1

theorem assign_vgl_from_l_loop (sincos : R → R × R) (S : SplineC2CT R) (r : Fin 3 → R)
    (psi : List (Cplx R)) (dpsi : List (Fin 3 → Cplx R)) (d2psi : List (Cplx R)) (N : Nat)
    (hN : (S.last_spo + 2 ^ 64 - S.first_spo) % 2 ^ 64 = N)
    (hreads : ∀ i, i < N → reads_vgl_from_l S i)
    (hpsi : ∀ i, i < N → i + S.first_spo < psi.length)
    (hdpsi : ∀ i, i < N → i + S.first_spo < dpsi.length)
    (hd2psi : ∀ i, i < N → i + S.first_spo < d2psi.length) :
    ∃ out, assign_vgl_from_l sincos S r psi dpsi d2psi = some out ∧
      Upd (fun i => some (assign_vgl_from_l_val sincos S r (i - S.first_spo)).1)
        S.first_spo (N + S.first_spo) psi out.1 ∧
      Upd (fun i => some (assign_vgl_from_l_val sincos S r (i - S.first_spo)).2.1)
        S.first_spo (N + S.first_spo) dpsi out.2.1 ∧
      Upd (fun i => some (assign_vgl_from_l_val sincos S r (i - S.first_spo)).2.2)
        S.first_spo (N + S.first_spo) d2psi out.2.2 := by
  obtain ⟨out, h1, h2, h3, h4⟩ := forLoop_store3 (assign_vgl_from_l_at sincos S r)
    (fun v => v.1) (fun v => v.2.1) (fun v => v.2.2) S.first_spo (N - 0) 0 psi dpsi d2psi
    (fun i a b => ⟨_, if_pos (hreads i (by omega))⟩) (fun i a b => hpsi i (by omega))
    (fun i a b => hdpsi i (by omega)) (fun i a b => hd2psi i (by omega))
  have hv : ∀ i, 0 + S.first_spo ≤ i → i < 0 + (N - 0) + S.first_spo →
      assign_vgl_from_l_at sincos S r (i - S.first_spo) =
        some (assign_vgl_from_l_val sincos S r (i - S.first_spo)) :=
    fun i a b => if_pos (hreads _ (by omega))
  refine ⟨out, ?_, Upd_congr h2 (fun i => by omega) (fun i a b => by simp [hv i a b]),
    Upd_congr h3 (fun i => by omega) (fun i a b => by simp [hv i a b]),
    Upd_congr h4 (fun i => by omega) (fun i a b => by simp [hv i a b])⟩
  simp only [assign_vgl_from_l, forRange, hN]
  exact h1

theorem assign_vgh_loop (sincos : R → R × R) (S : SplineC2CT R) (r : Fin 3 → R)
    (psi : List (Cplx R)) (dpsi : List (Fin 3 → Cplx R)) (grad_grad_psi : List (Fin 9 → Cplx R))
    (first last : Int) (lo hi : Nat)
    (hlo : toSizeT first = lo) (hhi : toSizeT (protect_last S.kPointsSize last) = hi)
    (hreads : ∀ i, lo ≤ i → i < hi → reads_vgh S i)
    (hpsi : ∀ i, lo ≤ i → i < hi → i + S.first_spo < psi.length)
    (hdpsi : ∀ i, lo ≤ i → i < hi → i + S.first_spo < dpsi.length)
    (hgg : ∀ i, lo ≤ i → i < hi → i + S.first_spo < grad_grad_psi.length) :
    ∃ out, assign_vgh sincos S r psi dpsi grad_grad_psi first last = some out ∧
      Upd (fun i => some (assign_vgh_val sincos S r (i - S.first_spo)).1)
        (lo + S.first_spo) (hi + S.first_spo) psi out.1 ∧
      Upd (fun i => some (assign_vgh_val sincos S r (i - S.first_spo)).2.1)
        (lo + S.first_spo) (hi + S.first_spo) dpsi out.2.1 ∧
      Upd (fun i => some (assign_vgh_val sincos S r (i - S.first_spo)).2.2)
        (lo + S.first_spo) (hi + S.first_spo) grad_grad_psi out.2.2 := by
  obtain ⟨out, h1, h2, h3, h4⟩ := forLoop_store3 (assign_vgh_at sincos S r)
    (fun v => v.1) (fun v => v.2.1) (fun v => v.2.2) S.first_spo (hi - lo) lo psi dpsi
    grad_grad_psi
    (fun i a b => ⟨_, if_pos (hreads i a (by omega))⟩) (fun i a b => hpsi i a (by omega))
    (fun i a b => hdpsi i a (by omega)) (fun i a b => hgg i a (by omega))
  have hv : ∀ i, lo + S.first_spo ≤ i → i < lo + (hi - lo) + S.first_spo →
      assign_vgh_at sincos S r (i - S.first_spo) =
        some (assign_vgh_val sincos S r (i - S.first_spo)) :=
    fun i a b => if_pos (hreads _ (by omega) (by omega))
  refine ⟨out, ?_, Upd_congr h2 (fun i => by omega) (fun i a b => by simp [hv i a b]),
    Upd_congr h3 (fun i => by omega) (fun i a b => by simp [hv i a b]),
    Upd_congr h4 (fun i => by omega) (fun i a b => by simp [hv i a b])⟩
  simp only [assign_vgh, forRange, hlo, hhi]
  exact h1

theorem assign_vghgh_loop (sincos : R → R × R) (S : SplineC2CT R) (r : Fin 3 → R)
    (psi : List (Cplx R)) (dpsi : List (Fin 3 → Cplx R)) (grad_grad_psi : List (Fin 9 → Cplx R))
    (grad_grad_grad_psi : List (Fin 3 → Fin 9 → Cplx R))
    (first last : Int) (lo hi : Nat)
    (hlo : toSizeT first = lo) (hhi : toSizeT (protect_last_vghgh S.kPointsSize last) = hi)
    (hreads : ∀ i, lo ≤ i → i < hi → reads_vghgh S i)
    (hpsi : ∀ i, lo ≤ i → i < hi → i + S.first_spo < psi.length)
    (hdpsi : ∀ i, lo ≤ i → i < hi → i + S.first_spo < dpsi.length)
    (hgg : ∀ i, lo ≤ i → i < hi → i + S.first_spo < grad_grad_psi.length)
    (hggg : ∀ i, lo ≤ i → i < hi → i + S.first_spo < grad_grad_grad_psi.length) :
    ∃ out, assign_vghgh sincos S r psi dpsi grad_grad_psi grad_grad_grad_psi first last
        = some out ∧
      Upd (fun i => some (assign_vghgh_val sincos S r (i - S.first_spo)).1)
        (lo + S.first_spo) (hi + S.first_spo) psi out.1 ∧
      Upd (fun i => some (assign_vghgh_val sincos S r (i - S.first_spo)).2.1)
        (lo + S.first_spo) (hi + S.first_spo) dpsi out.2.1 ∧
      Upd (fun i => some (assign_vghgh_val sincos S r (i - S.first_spo)).2.2.1)
        (lo + S.first_spo) (hi + S.first_spo) grad_grad_psi out.2.2.1 ∧
      Upd (fun i => some (assign_vghgh_val sincos S r (i - S.first_spo)).2.2.2)
        (lo + S.first_spo) (hi + S.first_spo) grad_grad_grad_psi out.2.2.2 := by
  obtain ⟨out, h1, h2, h3, h4, h5⟩ := forLoop_store4 (assign_vghgh_at sincos S r)
    (fun v => v.1) (fun v => v.2.1) (fun v => v.2.2.1) (fun v => v.2.2.2) S.first_spo (hi - lo)
    lo psi dpsi grad_grad_psi grad_grad_grad_psi
    (fun i a b => ⟨_, if_pos (hreads i a (by omega))⟩) (fun i a b => hpsi i a (by omega))
    (fun i a b => hdpsi i a (by omega)) (fun i a b => hgg i a (by omega))
    (fun i a b => hggg i a (by omega))
  have hv : ∀ i, lo + S.first_spo ≤ i → i < lo + (hi - lo) + S.first_spo →
      assign_vghgh_at sincos S r (i - S.first_spo) =
        some (assign_vghgh_val sincos S r (i - S.first_spo)) :=
    fun i a b => if_pos (hreads _ (by omega) (by omega))
  refine ⟨out, ?_, Upd_congr h2 (fun i => by omega) (fun i a b => by simp [hv i a b]),
    Upd_congr h3 (fun i => by omega) (fun i a b => by simp [hv i a b]),
    Upd_congr h4 (fun i => by omega) (fun i a b => by simp [hv i a b]),
    Upd_congr h5 (fun i => by omega) (fun i a b => by simp [hv i a b])⟩
  simp only [assign_vghgh, forRange, hlo, hhi]
  exact h1

end KernelLoops

section ValueOnly

variable {R : Type} [CommRing R]
variable {α : Type}

theorem Upd_get_in {f : Nat → α} {off lo hi : Nat} {xs ys : List α}
    (h : Upd (fun i => some (f (i - off))) (lo + off) (hi + off) xs ys) {j : Nat}
    (h1 : lo ≤ j) (h2 : j < hi) : ys[j + off]? = some (f j) := by
  rw [h.2 (j + off), if_pos ⟨by omega, by omega⟩]
  simp only [Nat.add_sub_cancel]

theorem Upd_get_out {val : Nat → Option α} {lo hi : Nat} {xs ys : List α}
    (h : Upd val lo hi xs ys) {i : Nat} (hi : ¬ (lo ≤ i ∧ i < hi)) : ys[i]? = xs[i]? := by
  rw [h.2 i, if_neg hi]

theorem inRange_iff {first last : Int} {kps i : Nat} (hf : 0 ≤ first) (hl : 0 ≤ last) :
    InRange first last kps i ↔ first.toNat ≤ i ∧ i < min last.toNat kps := by
  unfold InRange
  omega

/-- The loop bounds of a call with a non-negative `first` and a non-negative `last`. -/
theorem loop_bounds {kps : Nat} {first last : Int} (hk : kps < 2 ^ 31) (hf : 0 ≤ first)
    (hf' : first < 2 ^ 31) (hl : 0 ≤ last) (hl' : last < 2 ^ 31) :
    toSizeT first = first.toNat ∧ toSizeT (protect_last kps last) = min last.toNat kps ∧
      toSizeT (protect_last_vghgh kps last) = min last.toNat kps := by
  refine ⟨toSizeT_of_nonneg hf hf', ?_, ?_⟩
  · rw [toSizeT_protect_last hk (by omega) hl', if_neg (by omega)]
  · rw [toSizeT_protect_last_vghgh hk (by omega) hl', if_neg (by omega)]

theorem assign_v_val_eq (sincos : R → R × R) (S : SplineC2CT R) (r : Fin 3 → R) (myV : List R)
    (j : Nat) : assign_v_val sincos S r myV j = psi_raw myV j * blochPhase sincos S r j := by
  apply Cplx.ext
  · simp only [assign_v_val, psi_raw, blochPhase, kvec, Cplx.mul_re]
  · simp only [assign_v_val, psi_raw, blochPhase, kvec, Cplx.mul_im]
    ring

/-- C1: for every orbital index `j` with `first <= j < min(last, kPoints.size())`,
`assign_v` returns and the value it has written to `psi[j + first_spo]` is the complex
product `(myV[2j] + i myV[2j+1]) * (c + i s)` with `(s, c) = sincos(-(r . k_j))`; its real
part is `val_r*c - val_i*s` and its imaginary part `val_i*c + val_r*s`. -/
theorem assign_v_value (sincos : R → R × R) (S : SplineC2CT R) (r : Fin 3 → R) (myV : List R)
    (psi : List (Cplx R)) (first last : Int) (j : Nat)
    (hk : S.kPointsSize < 2 ^ 31) (hf : 0 ≤ first) (hl : last < 2 ^ 31)
    (hreads : ∀ i, InRange first last S.kPointsSize i → reads_v S myV i)
    (hpsi : ∀ i, InRange first last S.kPointsSize i → i + S.first_spo < psi.length)
    (hj : InRange first last S.kPointsSize j) :
    ∃ psi' z, assign_v sincos S r myV psi first last = some psi' ∧
      psi'[j + S.first_spo]? = some z ∧
      z = psi_raw myV j * blochPhase sincos S r j ∧
      z.re = rd myV (2 * j) * (blochPhase sincos S r j).re
        - rd myV (2 * j + 1) * (blochPhase sincos S r j).im ∧
      z.im = rd myV (2 * j + 1) * (blochPhase sincos S r j).re
        + rd myV (2 * j) * (blochPhase sincos S r j).im := by
  have hl0 : 0 ≤ last := by unfold InRange at hj; omega
  have hf' : first < 2 ^ 31 := by unfold InRange at hj; omega
  obtain ⟨b1, b2, -⟩ := loop_bounds hk hf hf' hl0 hl
  obtain ⟨psi', h1, h2⟩ := assign_v_loop sincos S r myV psi first last _ _ b1 b2
    (fun i a b => hreads i ((inRange_iff hf hl0).mpr ⟨a, b⟩))
    (fun i a b => hpsi i ((inRange_iff hf hl0).mpr ⟨a, b⟩))
  have hj' := (inRange_iff hf hl0).mp hj
  refine ⟨psi', _, h1, Upd_get_in h2 hj'.1 hj'.2, assign_v_val_eq sincos S r myV j, ?_, ?_⟩
  · simp only [assign_v_val, blochPhase, kvec]
  · simp only [assign_v_val, blochPhase, kvec]

theorem assign_v_value_witness :
    ∃ psi' z, assign_v sampleSincos sampleSet sampleR sampleSet.myV samplePsi 0 5 = some psi' ∧
      psi'[1 + sampleSet.first_spo]? = some z ∧
      z = psi_raw sampleSet.myV 1 * blochPhase sampleSincos sampleSet sampleR 1 ∧
      z.re = rd sampleSet.myV (2 * 1) * (blochPhase sampleSincos sampleSet sampleR 1).re
        - rd sampleSet.myV (2 * 1 + 1) * (blochPhase sampleSincos sampleSet sampleR 1).im ∧
      z.im = rd sampleSet.myV (2 * 1 + 1) * (blochPhase sampleSincos sampleSet sampleR 1).re
        + rd sampleSet.myV (2 * 1) * (blochPhase sampleSincos sampleSet sampleR 1).im :=
  assign_v_value sampleSincos sampleSet sampleR sampleSet.myV samplePsi 0 5 1
    (by decide) (by decide) (by decide)
    (fun i hi => by
      have : i < 2 := by
        have := hi.2; simp only [sampleSet] at this; omega
      interval_cases i <;> decide)
    (fun i hi => by
      have : i < 2 := by
        have := hi.2; simp only [sampleSet] at this; omega
      interval_cases i <;> decide)
    (by decide)

end ValueOnly

section GradientLaplacianValues
variable {R : Type} [CommRing R]

theorem shl_one (j : Nat) : j <<< 1 = 2 * j := by
  rw [Nat.shiftLeft_eq]; omega

theorem assign_vgl_val_psi (sincos : R → R × R) (S : SplineC2CT R) (r : Fin 3 → R) (j : Nat) :
    (assign_vgl_val sincos S r j).1 = assign_v_val sincos S r S.myV j := by
  apply Cplx.ext
  · simp only [assign_vgl_val, assign_v_val, shl_one]; ring
  · simp only [assign_vgl_val, assign_v_val, shl_one]; ring

theorem assign_vgl_val_dpsi (sincos : R → R × R) (S : SplineC2CT R) (r : Fin 3 → R) (j : Nat)
    (a : Fin 3) :
    (assign_vgl_val sincos S r j).2.1 a = blochPhase sincos S r j *
      (cartGrad S j a - Cplx.I * Cplx.ofReal (kvec S j a) * psi_raw S.myV j) := by
  fin_cases a <;> apply Cplx.ext <;>
    simp [assign_vgl_val, blochPhase, cartGrad, rawGrad, kvec, psi_raw, shl_one] <;> ring

theorem assign_vgl_val_d2psi (sincos : R → R × R) (S : SplineC2CT R) (r : Fin 3 → R) (j : Nat)
    (hKK : rd S.mKK j = -(kSq S j)) :
    (assign_vgl_val sincos S r j).2.2 = blochPhase sincos S r j *
      (rawLap S j - Cplx.ofReal (kSq S j) * psi_raw S.myV j
        - Cplx.ofReal 2 * Cplx.I * kDotGrad S j) := by
  apply Cplx.ext <;>
    simp [assign_vgl_val, blochPhase, cartGrad, rawGrad, kvec, psi_raw, shl_one, rawLap,
      kDotGrad, symGG, hKK] <;> ring

end GradientLaplacianValues

section GradientLaplacian
variable {R : Type} [CommRing R]

theorem assign_vgl_inRange (sincos : R → R × R) (S : SplineC2CT R) (r : Fin 3 → R)
    (psi : List (Cplx R)) (dpsi : List (Fin 3 → Cplx R)) (d2psi : List (Cplx R))
    (first last : Int)
    (hk : S.kPointsSize < 2 ^ 31) (hf : 0 ≤ first ∧ first < 2 ^ 31)
    (hl : 0 ≤ last ∧ last < 2 ^ 31)
    (hreads : ∀ i, InRange first last S.kPointsSize i → reads_vgl S i)
    (hpsi : ∀ i, InRange first last S.kPointsSize i → i + S.first_spo < psi.length)
    (hdpsi : ∀ i, InRange first last S.kPointsSize i → i + S.first_spo < dpsi.length)
    (hd2psi : ∀ i, InRange first last S.kPointsSize i → i + S.first_spo < d2psi.length) :
    ∃ out, assign_vgl sincos S r psi dpsi d2psi first last = some out ∧
      Upd (fun i => some (assign_vgl_val sincos S r (i - S.first_spo)).1)
        (first.toNat + S.first_spo) (min last.toNat S.kPointsSize + S.first_spo) psi out.1 ∧
      Upd (fun i => some (assign_vgl_val sincos S r (i - S.first_spo)).2.1)
        (first.toNat + S.first_spo) (min last.toNat S.kPointsSize + S.first_spo) dpsi out.2.1 ∧
      Upd (fun i => some (assign_vgl_val sincos S r (i - S.first_spo)).2.2)
        (first.toNat + S.first_spo) (min last.toNat S.kPointsSize + S.first_spo) d2psi
          out.2.2 := by
  obtain ⟨b1, b2, -⟩ := loop_bounds hk hf.1 hf.2 hl.1 hl.2
  exact assign_vgl_loop sincos S r psi dpsi d2psi first last _ _ b1 b2
    (fun i a b => hreads i ((inRange_iff hf.1 hl.1).mpr ⟨a, b⟩))
    (fun i a b => hpsi i ((inRange_iff hf.1 hl.1).mpr ⟨a, b⟩))
    (fun i a b => hdpsi i ((inRange_iff hf.1 hl.1).mpr ⟨a, b⟩))
    (fun i a b => hd2psi i ((inRange_iff hf.1 hl.1).mpr ⟨a, b⟩))

theorem inRange_bounds {first last : Int} {kps j : Nat} (hj : InRange first last kps j)
    (hl : last < 2 ^ 31) : first < 2 ^ 31 ∧ 0 ≤ last := by
  unfold InRange at hj; omega

theorem sample_inRange {first last : Int} {i : Nat}
    (h : InRange first last sampleSet.kPointsSize i) : i < 2 := by
  have := h.2; simp only [sampleSet] at this; omega

/-- C2: for every `j` in the processed range of `assign_vgl` and every Cartesian component
`a`, the call returns and `dpsi[j + first_spo][a]` equals
`(c + i s) * (D_a - i k_a psi_raw)`, where `psi_raw = myV[2j] + i myV[2j+1]` and
`D_a = sum_b G(3a+b) (myG_b[2j] + i myG_b[2j+1])` is the full contraction of the raw
gradient with the lattice tensor. -/
theorem assign_vgl_gradient (sincos : R → R × R) (S : SplineC2CT R) (r : Fin 3 → R)
    (psi : List (Cplx R)) (dpsi : List (Fin 3 → Cplx R)) (d2psi : List (Cplx R))
    (first last : Int) (j : Nat) (a : Fin 3)
    (hk : S.kPointsSize < 2 ^ 31) (hf : 0 ≤ first) (hl : last < 2 ^ 31)
    (hreads : ∀ i, InRange first last S.kPointsSize i → reads_vgl S i)
    (hpsi : ∀ i, InRange first last S.kPointsSize i → i + S.first_spo < psi.length)
    (hdpsi : ∀ i, InRange first last S.kPointsSize i → i + S.first_spo < dpsi.length)
    (hd2psi : ∀ i, InRange first last S.kPointsSize i → i + S.first_spo < d2psi.length)
    (hj : InRange first last S.kPointsSize j) :
    ∃ out d, assign_vgl sincos S r psi dpsi d2psi first last = some out ∧
      out.2.1[j + S.first_spo]? = some d ∧
      d a = blochPhase sincos S r j *
        (cartGrad S j a - Cplx.I * Cplx.ofReal (kvec S j a) * psi_raw S.myV j) := by
  have hb := inRange_bounds hj hl
  obtain ⟨out, h1, -, h3, -⟩ := assign_vgl_inRange sincos S r psi dpsi d2psi first last hk
    ⟨hf, hb.1⟩ ⟨hb.2, hl⟩ hreads hpsi hdpsi hd2psi
  have hj' := (inRange_iff hf hb.2).mp hj
  exact ⟨out, _, h1, Upd_get_in (f := fun j => (assign_vgl_val sincos S r j).2.1) h3 hj'.1 hj'.2,
    assign_vgl_val_dpsi sincos S r j a⟩

theorem assign_vgl_gradient_witness :
    ∃ out d, assign_vgl sampleSincos sampleSet sampleR samplePsi sampleDpsi samplePsi 0 5
        = some out ∧
      out.2.1[1 + sampleSet.first_spo]? = some d ∧
      d 0 = blochPhase sampleSincos sampleSet sampleR 1 *
        (cartGrad sampleSet 1 0 - Cplx.I * Cplx.ofReal (kvec sampleSet 1 0)
          * psi_raw sampleSet.myV 1) :=
  assign_vgl_gradient sampleSincos sampleSet sampleR samplePsi sampleDpsi samplePsi 0 5 1 0
    (by decide) (by decide) (by decide)
    (fun i hi => by have := sample_inRange hi; interval_cases i <;> decide)
    (fun i hi => by have := sample_inRange hi; interval_cases i <;> decide)
    (fun i hi => by have := sample_inRange hi; interval_cases i <;> decide)
    (fun i hi => by have := sample_inRange hi; interval_cases i <;> decide)
    (by decide)

/-- C3: assuming `mKK[j] = -(k_j . k_j)`, for every `j` in the processed range of
`assign_vgl` the call returns and `d2psi[j + first_spo]` equals
`(c + i s) * (L - |k_j|^2 psi_raw - 2 i (k_j . D))`, where `L` is the `SymTrace` of the raw
Hessian channels against `symGG`, `D` the Cartesian raw gradient and `psi_raw` the raw
complex value. -/
theorem assign_vgl_laplacian (sincos : R → R × R) (S : SplineC2CT R) (r : Fin 3 → R)
    (psi : List (Cplx R)) (dpsi : List (Fin 3 → Cplx R)) (d2psi : List (Cplx R))
    (first last : Int) (j : Nat)
    (hk : S.kPointsSize < 2 ^ 31) (hf : 0 ≤ first) (hl : last < 2 ^ 31)
    (hreads : ∀ i, InRange first last S.kPointsSize i → reads_vgl S i)
    (hpsi : ∀ i, InRange first last S.kPointsSize i → i + S.first_spo < psi.length)
    (hdpsi : ∀ i, InRange first last S.kPointsSize i → i + S.first_spo < dpsi.length)
    (hd2psi : ∀ i, InRange first last S.kPointsSize i → i + S.first_spo < d2psi.length)
    (hj : InRange first last S.kPointsSize j)
    (hKK : rd S.mKK j = -(kSq S j)) :
    ∃ out, assign_vgl sincos S r psi dpsi d2psi first last = some out ∧
      out.2.2[j + S.first_spo]? = some (blochPhase sincos S r j *
        (rawLap S j - Cplx.ofReal (kSq S j) * psi_raw S.myV j
          - Cplx.ofReal 2 * Cplx.I * kDotGrad S j)) := by
  have hb := inRange_bounds hj hl
  obtain ⟨out, h1, -, -, h4⟩ := assign_vgl_inRange sincos S r psi dpsi d2psi first last hk
    ⟨hf, hb.1⟩ ⟨hb.2, hl⟩ hreads hpsi hdpsi hd2psi
  have hj' := (inRange_iff hf hb.2).mp hj
  refine ⟨out, h1, ?_⟩
  rw [Upd_get_in (f := fun j => (assign_vgl_val sincos S r j).2.2) h4 hj'.1 hj'.2,
    assign_vgl_val_d2psi sincos S r j hKK]

theorem assign_vgl_laplacian_witness :
    ∃ out, assign_vgl sampleSincos sampleSet sampleR samplePsi sampleDpsi samplePsi 0 5
        = some out ∧
      out.2.2[1 + sampleSet.first_spo]? = some (blochPhase sampleSincos sampleSet sampleR 1 *
        (rawLap sampleSet 1 - Cplx.ofReal (kSq sampleSet 1) * psi_raw sampleSet.myV 1
          - Cplx.ofReal 2 * Cplx.I * kDotGrad sampleSet 1)) :=
  assign_vgl_laplacian sampleSincos sampleSet sampleR samplePsi sampleDpsi samplePsi 0 5 1
    (by decide) (by decide) (by decide)
    (fun i hi => by have := sample_inRange hi; interval_cases i <;> decide)
    (fun i hi => by have := sample_inRange hi; interval_cases i <;> decide)
    (fun i hi => by have := sample_inRange hi; interval_cases i <;> decide)
    (fun i hi => by have := sample_inRange hi; interval_cases i <;> decide)
    (by decide) (by decide)

end GradientLaplacian

section Hessian
variable {R : Type} [CommRing R]

/-- C4: at one orbital on the unit cubic lattice with `k = (1, 0, 0)` and a raw gradient
whose only non-zero entry is the imaginary y-component, `assign_vgh` writes the Hessian
entries `xy = 2` and `yx = 0`, whereas the second derivative of the phase-modulated field
has `xy = yx = 1` there, which is also what `assign_vghgh` writes. -/
theorem assign_vgh_hessian_offdiag :
    (assign_vgh sincosZero offDiagSet originR [0] [0] [0] 0 1).map
        (fun out => out.2.2.map (fun H => (H (idx9 0 1), H (idx9 1 0))))
      = some [(⟨2, 0⟩, ⟨0, 0⟩)] ∧
    phaseHess sincosZero offDiagSet originR 0 0 1 = ⟨1, 0⟩ ∧
    phaseHess sincosZero offDiagSet originR 0 1 0 = ⟨1, 0⟩ ∧
    (assign_vghgh sincosZero offDiagSet originR [0] [0] [0] [0] 0 1).map
        (fun out => out.2.2.1.map (fun H => (H (idx9 0 1), H (idx9 1 0))))
      = some [(⟨1, 0⟩, ⟨1, 0⟩)] := by
  decide

end Hessian

section ThirdDerivatives
variable {R : Type} [CommRing R]

theorem assign_vghgh_val_ggg_symm (sincos : R → R × R) (S : SplineC2CT R) (r : Fin 3 → R)
    (j : Nat) (a b c : Fin 3) :
    (assign_vghgh_val sincos S r j).2.2.2 a (idx9 b c)
        = (assign_vghgh_val sincos S r j).2.2.2 b (idx9 a c) ∧
    (assign_vghgh_val sincos S r j).2.2.2 a (idx9 b c)
        = (assign_vghgh_val sincos S r j).2.2.2 a (idx9 c b) := by
  fin_cases a <;> fin_cases b <;> fin_cases c <;> exact ⟨rfl, rfl⟩

theorem assign_vghgh_val_gg_symm (sincos : R → R × R) (S : SplineC2CT R) (r : Fin 3 → R)
    (j : Nat) (a b : Fin 3) :
    (assign_vghgh_val sincos S r j).2.2.1 (idx9 a b)
        = (assign_vghgh_val sincos S r j).2.2.1 (idx9 b a) := by
  fin_cases a <;> fin_cases b <;> rfl

theorem v_m_v_symm (h00 h01 h02 h11 h12 h22 g1x g1y g1z g2x g2y g2z : R) :
    v_m_v h00 h01 h02 h11 h12 h22 g1x g1y g1z g2x g2y g2z
      = v_m_v h00 h01 h02 h11 h12 h22 g2x g2y g2z g1x g1y g1z := by
  unfold v_m_v; ring

theorem t3_contract_swap12 (h000 h001 h002 h011 h012 h022 h111 h112 h122 h222
    g1x g1y g1z g2x g2y g2z g3x g3y g3z : R) :
    t3_contract h000 h001 h002 h011 h012 h022 h111 h112 h122 h222
        g1x g1y g1z g2x g2y g2z g3x g3y g3z
      = t3_contract h000 h001 h002 h011 h012 h022 h111 h112 h122 h222
        g2x g2y g2z g1x g1y g1z g3x g3y g3z := by
  unfold t3_contract; ring

theorem t3_contract_swap23 (h000 h001 h002 h011 h012 h022 h111 h112 h122 h222
    g1x g1y g1z g2x g2y g2z g3x g3y g3z : R) :
    t3_contract h000 h001 h002 h011 h012 h022 h111 h112 h122 h222
        g1x g1y g1z g2x g2y g2z g3x g3y g3z
      = t3_contract h000 h001 h002 h011 h012 h022 h111 h112 h122 h222
        g1x g1y g1z g3x g3y g3z g2x g2y g2z := by
  unfold t3_contract; ring

theorem cartHess_symm (S : SplineC2CT R) (j : Nat) (a b : Fin 3) :
    cartHess S j a b = cartHess S j b a := by
  unfold cartHess
  rw [v_m_v_symm]
  congr 1
  rw [v_m_v_symm]

theorem cartGGG_swap12 (S : SplineC2CT R) (j : Nat) (a b c : Fin 3) :
    cartGGG S j a b c = cartGGG S j b a c := by
  unfold cartGGG t3_rows
  rw [t3_contract_swap12]
  congr 1
  rw [t3_contract_swap12]

theorem cartGGG_swap23 (S : SplineC2CT R) (j : Nat) (a b c : Fin 3) :
    cartGGG S j a b c = cartGGG S j a c b := by
  unfold cartGGG t3_rows
  rw [t3_contract_swap23]
  congr 1
  rw [t3_contract_swap23]

theorem phaseGGG_swap12 (sincos : R → R × R) (S : SplineC2CT R) (r : Fin 3 → R) (j : Nat)
    (a b c : Fin 3) : phaseGGG sincos S r j a b c = phaseGGG sincos S r j b a c := by
  unfold phaseGGG
  rw [cartGGG_swap12 S j a b c, cartHess_symm S j a b]
  apply Cplx.ext <;> simp only [Cplx.mul_re, Cplx.mul_im, Cplx.sub_re, Cplx.sub_im,
      Cplx.add_re, Cplx.add_im, Cplx.ofReal_re, Cplx.ofReal_im, Cplx.I_re, Cplx.I_im] <;> ring

theorem phaseGGG_swap23 (sincos : R → R × R) (S : SplineC2CT R) (r : Fin 3 → R) (j : Nat)
    (a b c : Fin 3) : phaseGGG sincos S r j a b c = phaseGGG sincos S r j a c b := by
  unfold phaseGGG
  rw [cartGGG_swap23 S j a b c, cartHess_symm S j b c]
  apply Cplx.ext <;> simp only [Cplx.mul_re, Cplx.mul_im, Cplx.sub_re, Cplx.sub_im,
      Cplx.add_re, Cplx.add_im, Cplx.ofReal_re, Cplx.ofReal_im, Cplx.I_re, Cplx.I_im] <;> ring

end ThirdDerivatives

section ThirdDerivativeValues
variable {R : Type} [CommRing R]

set_option maxHeartbeats 1000000 in
theorem assign_vghgh_val_ggg_sorted (sincos : R → R × R) (S : SplineC2CT R) (r : Fin 3 → R)
    (j : Nat) (a b c : Fin 3) (hab : a ≤ b) (hbc : b ≤ c) :
    (assign_vghgh_val sincos S r j).2.2.2 a (idx9 b c) = phaseGGG sincos S r j a b c := by
  fin_cases a <;> fin_cases b <;> fin_cases c <;>
  first
  | exact absurd hab (by decide)
  | exact absurd hbc (by decide)
  | (conv_lhs => whnf
     apply Cplx.ext <;>
      simp only [phaseGGG, blochPhase, cartGrad, rawGrad, kvec, psi_raw, shl_one,
        cartHess, cartGGG, t3_rows, Cplx.mul_re, Cplx.mul_im, Cplx.sub_re, Cplx.sub_im,
        Cplx.add_re, Cplx.add_im, Cplx.ofReal_re, Cplx.ofReal_im, Cplx.I_re, Cplx.I_im,
        Fin.val_zero, Fin.val_one, Fin.val_two, Nat.mul_zero, Nat.zero_add, Nat.mul_one,
        Nat.reduceMul, Nat.reduceAdd, Fin.isValue, Fin.zero_eta, Fin.mk_one, Fin.reduceFinMk]
        <;> ring)

theorem assign_vghgh_val_ggg (sincos : R → R × R) (S : SplineC2CT R) (r : Fin 3 → R)
    (j : Nat) (a b c : Fin 3) :
    (assign_vghgh_val sincos S r j).2.2.2 a (idx9 b c) = phaseGGG sincos S r j a b c := by
  have sorted := assign_vghgh_val_ggg_sorted sincos S r j
  have s12 := fun a b c => (assign_vghgh_val_ggg_symm sincos S r j a b c).1
  have s23 := fun a b c => (assign_vghgh_val_ggg_symm sincos S r j a b c).2
  have p12 := phaseGGG_swap12 sincos S r j
  have p23 := phaseGGG_swap23 sincos S r j
  rcases le_total a b with h1 | h1
  · rcases le_total b c with h2 | h2
    · exact sorted a b c h1 h2
    · rcases le_total a c with h3 | h3
      · rw [s23, p23]; exact sorted a c b h3 h2
      · rw [s23, p23, s12, p12]; exact sorted c a b h3 h1
  · rcases le_total a c with h2 | h2
    · rw [s12, p12]; exact sorted b a c h1 h2
    · rcases le_total b c with h3 | h3
      · rw [s12, p12, s23, p23]; exact sorted b c a h3 h2
      · rw [s12, p12, s23, p23, s12, p12]; exact sorted c b a h3 h1

end ThirdDerivativeValues

section ThirdDerivativeClaims
variable {R : Type} [CommRing R]

theorem assign_vghgh_inRange (sincos : R → R × R) (S : SplineC2CT R) (r : Fin 3 → R)
    (psi : List (Cplx R)) (dpsi : List (Fin 3 → Cplx R)) (grad_grad_psi : List (Fin 9 → Cplx R))
    (grad_grad_grad_psi : List (Fin 3 → Fin 9 → Cplx R)) (first last : Int)
    (hk : S.kPointsSize < 2 ^ 31) (hf : 0 ≤ first ∧ first < 2 ^ 31)
    (hl : 0 ≤ last ∧ last < 2 ^ 31)
    (hreads : ∀ i, InRange first last S.kPointsSize i → reads_vghgh S i)
    (hpsi : ∀ i, InRange first last S.kPointsSize i → i + S.first_spo < psi.length)
    (hdpsi : ∀ i, InRange first last S.kPointsSize i → i + S.first_spo < dpsi.length)
    (hgg : ∀ i, InRange first last S.kPointsSize i → i + S.first_spo < grad_grad_psi.length)
    (hggg : ∀ i, InRange first last S.kPointsSize i →
      i + S.first_spo < grad_grad_grad_psi.length) :
    ∃ out, assign_vghgh sincos S r psi dpsi grad_grad_psi grad_grad_grad_psi first last
        = some out ∧
      Upd (fun i => some (assign_vghgh_val sincos S r (i - S.first_spo)).1)
        (first.toNat + S.first_spo) (min last.toNat S.kPointsSize + S.first_spo) psi out.1 ∧
      Upd (fun i => some (assign_vghgh_val sincos S r (i - S.first_spo)).2.1)
        (first.toNat + S.first_spo) (min last.toNat S.kPointsSize + S.first_spo) dpsi out.2.1 ∧
      Upd (fun i => some (assign_vghgh_val sincos S r (i - S.first_spo)).2.2.1)
        (first.toNat + S.first_spo) (min last.toNat S.kPointsSize + S.first_spo)
          grad_grad_psi out.2.2.1 ∧
      Upd (fun i => some (assign_vghgh_val sincos S r (i - S.first_spo)).2.2.2)
        (first.toNat + S.first_spo) (min last.toNat S.kPointsSize + S.first_spo)
          grad_grad_grad_psi out.2.2.2 := by
  obtain ⟨b1, -, b3⟩ := loop_bounds hk hf.1 hf.2 hl.1 hl.2
  exact assign_vghgh_loop sincos S r psi dpsi grad_grad_psi grad_grad_grad_psi first last _ _
    b1 b3
    (fun i a b => hreads i ((inRange_iff hf.1 hl.1).mpr ⟨a, b⟩))
    (fun i a b => hpsi i ((inRange_iff hf.1 hl.1).mpr ⟨a, b⟩))
    (fun i a b => hdpsi i ((inRange_iff hf.1 hl.1).mpr ⟨a, b⟩))
    (fun i a b => hgg i ((inRange_iff hf.1 hl.1).mpr ⟨a, b⟩))
    (fun i a b => hggg i ((inRange_iff hf.1 hl.1).mpr ⟨a, b⟩))

/-- C5: for every `j` in the processed range of `assign_vghgh` and every triple `(a, b, c)`
of Cartesian directions, the call returns and the third-derivative output
`grad_grad_grad_psi[j + first_spo][a][3b + c]` equals
`(c + i s) * [T_abc - i (k_a F_bc + k_b F_ac + k_c F_ab)
  - (k_a k_b D_c + k_a k_c D_b + k_b k_c D_a) + i k_a k_b k_c psi_raw]`, where `T` is the
`t3_contract` of the raw third-derivative tensor with three rows of `G`, `F` the doubly
contracted raw Hessian and `D` the Cartesian raw gradient. -/
theorem assign_vghgh_third (sincos : R → R × R) (S : SplineC2CT R) (r : Fin 3 → R)
    (psi : List (Cplx R)) (dpsi : List (Fin 3 → Cplx R)) (grad_grad_psi : List (Fin 9 → Cplx R))
    (grad_grad_grad_psi : List (Fin 3 → Fin 9 → Cplx R)) (first last : Int) (j : Nat)
    (a b c : Fin 3)
    (hk : S.kPointsSize < 2 ^ 31) (hf : 0 ≤ first) (hl : last < 2 ^ 31)
    (hreads : ∀ i, InRange first last S.kPointsSize i → reads_vghgh S i)
    (hpsi : ∀ i, InRange first last S.kPointsSize i → i + S.first_spo < psi.length)
    (hdpsi : ∀ i, InRange first last S.kPointsSize i → i + S.first_spo < dpsi.length)
    (hgg : ∀ i, InRange first last S.kPointsSize i → i + S.first_spo < grad_grad_psi.length)
    (hggg : ∀ i, InRange first last S.kPointsSize i →
      i + S.first_spo < grad_grad_grad_psi.length)
    (hj : InRange first last S.kPointsSize j) :
    ∃ out t, assign_vghgh sincos S r psi dpsi grad_grad_psi grad_grad_grad_psi first last
        = some out ∧
      out.2.2.2[j + S.first_spo]? = some t ∧
      t a (idx9 b c) = phaseGGG sincos S r j a b c := by
  have hb := inRange_bounds hj hl
  obtain ⟨out, h1, -, -, -, h5⟩ := assign_vghgh_inRange sincos S r psi dpsi grad_grad_psi
    grad_grad_grad_psi first last hk ⟨hf, hb.1⟩ ⟨hb.2, hl⟩ hreads hpsi hdpsi hgg hggg
  have hj' := (inRange_iff hf hb.2).mp hj
  exact ⟨out, _, h1,
    Upd_get_in (f := fun j => (assign_vghgh_val sincos S r j).2.2.2) h5 hj'.1 hj'.2,
    assign_vghgh_val_ggg sincos S r j a b c⟩

theorem assign_vghgh_third_witness :
    ∃ out t, assign_vghgh sampleSincos sampleSet sampleR samplePsi sampleDpsi sampleGG
        sampleGGG 0 5 = some out ∧
      out.2.2.2[1 + sampleSet.first_spo]? = some t ∧
      t 2 (idx9 0 1) = phaseGGG sampleSincos sampleSet sampleR 1 2 0 1 :=
  assign_vghgh_third sampleSincos sampleSet sampleR samplePsi sampleDpsi sampleGG sampleGGG
    0 5 1 2 0 1 (by decide) (by decide) (by decide)
    (fun i hi => by have := sample_inRange hi; interval_cases i <;> decide)
    (fun i hi => by have := sample_inRange hi; interval_cases i <;> decide)
    (fun i hi => by have := sample_inRange hi; interval_cases i <;> decide)
    (fun i hi => by have := sample_inRange hi; interval_cases i <;> decide)
    (fun i hi => by have := sample_inRange hi; interval_cases i <;> decide)
    (by decide)

/-- C6: `assign_vghgh` writes a fully symmetric result: for every processed `j` the entry
`grad_grad_grad_psi[j + first_spo][a][3b + c]` is the same for all six orderings of the
direction indices `(a, b, c)`, and
`grad_grad_psi[j + first_spo][3a + b] = grad_grad_psi[j + first_spo][3b + a]`. -/
theorem assign_vghgh_symmetric (sincos : R → R × R) (S : SplineC2CT R) (r : Fin 3 → R)
    (psi : List (Cplx R)) (dpsi : List (Fin 3 → Cplx R)) (grad_grad_psi : List (Fin 9 → Cplx R))
    (grad_grad_grad_psi : List (Fin 3 → Fin 9 → Cplx R)) (first last : Int) (j : Nat)
    (hk : S.kPointsSize < 2 ^ 31) (hf : 0 ≤ first) (hl : last < 2 ^ 31)
    (hreads : ∀ i, InRange first last S.kPointsSize i → reads_vghgh S i)
    (hpsi : ∀ i, InRange first last S.kPointsSize i → i + S.first_spo < psi.length)
    (hdpsi : ∀ i, InRange first last S.kPointsSize i → i + S.first_spo < dpsi.length)
    (hgg : ∀ i, InRange first last S.kPointsSize i → i + S.first_spo < grad_grad_psi.length)
    (hggg : ∀ i, InRange first last S.kPointsSize i →
      i + S.first_spo < grad_grad_grad_psi.length)
    (hj : InRange first last S.kPointsSize j) :
    ∃ out H t, assign_vghgh sincos S r psi dpsi grad_grad_psi grad_grad_grad_psi first last
        = some out ∧
      out.2.2.1[j + S.first_spo]? = some H ∧ out.2.2.2[j + S.first_spo]? = some t ∧
      (∀ a b c : Fin 3, t a (idx9 b c) = t a (idx9 c b) ∧ t a (idx9 b c) = t b (idx9 a c) ∧
        t a (idx9 b c) = t b (idx9 c a) ∧ t a (idx9 b c) = t c (idx9 a b) ∧
        t a (idx9 b c) = t c (idx9 b a)) ∧
      (∀ a b : Fin 3, H (idx9 a b) = H (idx9 b a)) := by
  have hb := inRange_bounds hj hl
  obtain ⟨out, h1, -, -, h4, h5⟩ := assign_vghgh_inRange sincos S r psi dpsi grad_grad_psi
    grad_grad_grad_psi first last hk ⟨hf, hb.1⟩ ⟨hb.2, hl⟩ hreads hpsi hdpsi hgg hggg
  have hj' := (inRange_iff hf hb.2).mp hj
  have s12 := fun a b c => (assign_vghgh_val_ggg_symm sincos S r j a b c).1
  have s23 := fun a b c => (assign_vghgh_val_ggg_symm sincos S r j a b c).2
  refine ⟨out, _, _, h1,
    Upd_get_in (f := fun j => (assign_vghgh_val sincos S r j).2.2.1) h4 hj'.1 hj'.2,
    Upd_get_in (f := fun j => (assign_vghgh_val sincos S r j).2.2.2) h5 hj'.1 hj'.2,
    fun a b c => ⟨s23 a b c, s12 a b c, (s12 a b c).trans (s23 b a c),
      (s23 a b c).trans (s12 a c b), ((s12 a b c).trans (s23 b a c)).trans (s12 b c a)⟩,
    fun a b => assign_vghgh_val_gg_symm sincos S r j a b⟩

theorem assign_vghgh_symmetric_witness :
    ∃ out H t, assign_vghgh sampleSincos sampleSet sampleR samplePsi sampleDpsi sampleGG
        sampleGGG 0 5 = some out ∧
      out.2.2.1[1 + sampleSet.first_spo]? = some H ∧
      out.2.2.2[1 + sampleSet.first_spo]? = some t ∧
      (∀ a b c : Fin 3, t a (idx9 b c) = t a (idx9 c b) ∧ t a (idx9 b c) = t b (idx9 a c) ∧
        t a (idx9 b c) = t b (idx9 c a) ∧ t a (idx9 b c) = t c (idx9 a b) ∧
        t a (idx9 b c) = t c (idx9 b a)) ∧
      (∀ a b : Fin 3, H (idx9 a b) = H (idx9 b a)) :=
  assign_vghgh_symmetric sampleSincos sampleSet sampleR samplePsi sampleDpsi sampleGG sampleGGG
    0 5 1 (by decide) (by decide) (by decide)
    (fun i hi => by have := sample_inRange hi; interval_cases i <;> decide)
    (fun i hi => by have := sample_inRange hi; interval_cases i <;> decide)
    (fun i hi => by have := sample_inRange hi; interval_cases i <;> decide)
    (fun i hi => by have := sample_inRange hi; interval_cases i <;> decide)
    (fun i hi => by have := sample_inRange hi; interval_cases i <;> decide)
    (by decide)

end ThirdDerivativeClaims

section PrecomputedLaplacian
variable {R : Type} [CommRing R]
variable {α : Type}

theorem rd_map_range (f : Nat → R) (n i : Nat) (h : i < n) :
    rd ((List.range n).map f) i = f i := by
  simp [rd, h]

/-- Two buffers obtained from the same buffer by the same update are equal. -/
theorem Upd_unique {val : Nat → Option α} {lo hi : Nat} {xs ys zs : List α}
    (h1 : Upd val lo hi xs ys) (h2 : Upd val lo hi xs zs) : ys = zs := by
  apply List.ext_getElem?
  intro i
  rw [h1.2 i, h2.2 i]

theorem reads_vgl_from_l_cartesianState (S : SplineC2CT R) (j : Nat) (h : reads_vgl S j) :
    reads_vgl_from_l (cartesianState S) j := by
  obtain ⟨h1, h2, -, -, h5⟩ := h
  refine ⟨h1, h2, fun a => ?_, ?_, h5⟩
  · simp [cartesianState]; exact h2
  · simp [cartesianState]; exact h2

theorem assign_vgl_from_l_val_cartesianState (sincos : R → R × R) (S : SplineC2CT R)
    (r : Fin 3 → R) (j : Nat) (h : reads_vgl S j) :
    assign_vgl_from_l_val sincos (cartesianState S) r j = assign_vgl_val sincos S r j := by
  obtain ⟨-, h2, -, -, -⟩ := h
  have e1 : 2 * j < S.myV.length := by omega
  simp only [assign_vgl_from_l_val, assign_vgl_val, cartesianState, shl_one,
    rd_map_range _ _ _ e1, rd_map_range _ _ _ h2, symGG]
  rfl

/-- C7: `assign_vgl_from_l` agrees with `assign_vgl`: on the second state built from any raw
scratch state (`cartesianState`: same `myV`, `myG` replaced by `G * myG`,
`myL[ch] = SymTrace(myH[ch], symGG)`), `assign_vgl_from_l` returns and writes exactly the
same `psi`, `dpsi` and `d2psi` as `assign_vgl(first = 0, last = last_spo - first_spo)` on
the first state, provided `last_spo - first_spo <= kPoints.size()`. -/
theorem assign_vgl_from_l_agrees (sincos : R → R × R) (S : SplineC2CT R) (r : Fin 3 → R)
    (psi : List (Cplx R)) (dpsi : List (Fin 3 → Cplx R)) (d2psi : List (Cplx R))
    (hk : S.kPointsSize < 2 ^ 31) (ho : S.first_spo ≤ S.last_spo) (hs : S.last_spo < 2 ^ 64)
    (hN : S.last_spo - S.first_spo ≤ S.kPointsSize)
    (hreads : ∀ i, i < S.last_spo - S.first_spo → reads_vgl S i)
    (hpsi : S.last_spo ≤ psi.length) (hdpsi : S.last_spo ≤ dpsi.length)
    (hd2psi : S.last_spo ≤ d2psi.length) :
    ∃ out, assign_vgl_from_l sincos (cartesianState S) r psi dpsi d2psi = some out ∧
      assign_vgl sincos S r psi dpsi d2psi 0 ((S.last_spo - S.first_spo : Nat) : Int)
        = some out := by
  have hNat : (S.last_spo + 2 ^ 64 - S.first_spo) % 2 ^ 64 = S.last_spo - S.first_spo := by
    omega
  obtain ⟨out, h1, h2, h3, h4⟩ := assign_vgl_from_l_loop sincos (cartesianState S) r psi dpsi
    d2psi (S.last_spo - S.first_spo) hNat
    (fun i hi => reads_vgl_from_l_cartesianState S i (hreads i hi))
    (fun i hi => by show i + S.first_spo < psi.length; omega)
    (fun i hi => by show i + S.first_spo < dpsi.length; omega)
    (fun i hi => by show i + S.first_spo < d2psi.length; omega)
  have hi0 : toSizeT (protect_last S.kPointsSize ((S.last_spo - S.first_spo : Nat) : Int))
      = S.last_spo - S.first_spo := by
    rw [toSizeT_protect_last hk (by omega) (by omega), if_neg (by omega)]
    simp only [Int.toNat_ofNat]
    omega
  obtain ⟨out', g1, g2, g3, g4⟩ := assign_vgl_loop sincos S r psi dpsi d2psi 0
    ((S.last_spo - S.first_spo : Nat) : Int) 0 (S.last_spo - S.first_spo)
    (by decide) hi0 (fun i _ hi => hreads i hi) (fun i _ hi => by omega)
    (fun i _ hi => by omega) (fun i _ hi => by omega)
  have h2' : Upd (fun i => some (assign_vgl_from_l_val sincos (cartesianState S) r
      (i - S.first_spo)).1) S.first_spo (S.last_spo - S.first_spo + S.first_spo) psi out.1 := h2
  have h3' : Upd (fun i => some (assign_vgl_from_l_val sincos (cartesianState S) r
      (i - S.first_spo)).2.1) S.first_spo (S.last_spo - S.first_spo + S.first_spo) dpsi
      out.2.1 := h3
  have h4' : Upd (fun i => some (assign_vgl_from_l_val sincos (cartesianState S) r
      (i - S.first_spo)).2.2) S.first_spo (S.last_spo - S.first_spo + S.first_spo) d2psi
      out.2.2 := h4
  have hv : ∀ i, S.first_spo ≤ i → i < S.last_spo - S.first_spo + S.first_spo →
      assign_vgl_from_l_val sincos (cartesianState S) r (i - S.first_spo)
        = assign_vgl_val sincos S r (i - S.first_spo) :=
    fun i a b => assign_vgl_from_l_val_cartesianState sincos S r _ (hreads _ (by omega))
  have e1 : out.1 = out'.1 := Upd_unique
    (Upd_congr h2' (fun i => by omega) (fun i a b => by rw [hv i a b])) g2
  have e2 : out.2.1 = out'.2.1 := Upd_unique
    (Upd_congr h3' (fun i => by omega) (fun i a b => by rw [hv i a b])) g3
  have e3 : out.2.2 = out'.2.2 := Upd_unique
    (Upd_congr h4' (fun i => by omega) (fun i a b => by rw [hv i a b])) g4
  have e : out = out' := Prod.ext e1 (Prod.ext e2 e3)
  exact ⟨out, h1, e ▸ g1⟩

theorem assign_vgl_from_l_agrees_witness :
    ∃ out, assign_vgl_from_l sampleSincos (cartesianState sampleSet) sampleR samplePsi
        sampleDpsi samplePsi = some out ∧
      assign_vgl sampleSincos sampleSet sampleR samplePsi sampleDpsi samplePsi 0
        ((sampleSet.last_spo - sampleSet.first_spo : Nat) : Int) = some out :=
  assign_vgl_from_l_agrees sampleSincos sampleSet sampleR samplePsi sampleDpsi samplePsi
    (by decide) (by decide) (by decide) (by decide)
    (fun i hi => by
      have : i < 2 := hi
      interval_cases i <;> decide)
    (by decide) (by decide) (by decide)

end PrecomputedLaplacian

section RangeClamping
variable {R : Type} [CommRing R]
variable {α : Type}

/-- The loop bounds of a call with arbitrary `int` arguments: the processed orbitals. -/
theorem processed_iff {kps : Nat} {first last : Int} (hk : kps < 2 ^ 31)
    (hf : -2 ^ 31 ≤ first ∧ first < 2 ^ 31) (hl : -2 ^ 31 ≤ last ∧ last < 2 ^ 31) (j : Nat) :
    (toSizeT first ≤ j ∧ j < (if last < 0 then kps else min last.toNat kps)) ↔
      Processed first last kps j := by
  unfold Processed
  by_cases h0 : 0 ≤ first
  · rw [toSizeT_of_nonneg h0 hf.2]
    split_ifs <;> omega
  · rw [toSizeT_of_neg (by omega) hf.1]
    split_ifs <;> omega

theorem processed_lt {kps : Nat} {first last : Int} {j : Nat}
    (h : Processed first last kps j) : j < kps := by
  unfold Processed at h
  split_ifs at h <;> omega

omit [CommRing R] in
/-- A buffer update written with the processed orbitals. -/
theorem Upd_processed {f : Nat → α} {S : SplineC2CT R} {first last : Int} {xs ys : List α}
    (hk : S.kPointsSize < 2 ^ 31)
    (hf : -2 ^ 31 ≤ first ∧ first < 2 ^ 31) (hl : -2 ^ 31 ≤ last ∧ last < 2 ^ 31)
    (h : Upd (fun i => some (f (i - S.first_spo))) (toSizeT first + S.first_spo)
      ((if last < 0 then S.kPointsSize else min last.toNat S.kPointsSize) + S.first_spo)
      xs ys) (i : Nat) :
    ys[i]? = if S.first_spo ≤ i ∧ Processed first last S.kPointsSize (i - S.first_spo)
      then some (f (i - S.first_spo)) else xs[i]? := by
  rw [h.2 i]
  have e := processed_iff hk hf hl (i - S.first_spo)
  by_cases c : S.first_spo ≤ i ∧ Processed first last S.kPointsSize (i - S.first_spo)
  · rw [if_pos c, if_pos]
    have := e.mpr c.2
    omega
  · rw [if_neg c, if_neg]
    intro c'
    apply c
    refine ⟨by omega, e.mp ?_⟩
    omega

omit [CommRing R] in
theorem wellSized_reads {S : SplineC2CT R} (h : WellSized S) {j : Nat}
    (hj : j < S.kPointsSize) :
    reads_v S S.myV j ∧ reads_vgl S j ∧ reads_vgh S j ∧ reads_vghgh S j := by
  obtain ⟨h1, h2, h3, h4, h5, h6⟩ := h
  refine ⟨⟨fun a => ?_, ?_⟩, ⟨fun a => ?_, ?_, fun a => ?_, fun a => ?_, ?_⟩,
    ⟨fun a => ?_, ?_, fun a => ?_, fun a => ?_⟩,
    ⟨fun a => ?_, ?_, fun a => ?_, fun a => ?_, fun a => ?_⟩⟩ <;>
  first
  | exact Nat.lt_of_lt_of_le hj (h1 a)
  | exact Nat.lt_of_lt_of_le (by omega) (h4 a)
  | exact Nat.lt_of_lt_of_le (by omega) (h5 a)
  | exact Nat.lt_of_lt_of_le (by omega) (h6 a)
  | omega

/-- C8 as stated fails for a negative `last`: in `assign_v(first = 0, last = -1)` on two
orbitals no index satisfies `0 <= j < min(-1, 2)`, yet the call overwrites `psi[1]` and
`psi[2]` (the comparison `last > kPointsSize` is made in `size_t`). -/
theorem assign_v_negative_last :
    ¬ (∀ psi', assign_v sincosZero sampleSet originR sampleSet.myV samplePsi 0 (-1) = some psi' →
        ∀ i : Nat, (¬ ∃ j : Nat, InRange 0 (-1) sampleSet.kPointsSize j ∧
          i = j + sampleSet.first_spo) → psi'[i]? = samplePsi[i]?) := by
  intro h
  have h1 := h [0, ⟨1, 2⟩, ⟨3, 4⟩, 0] (by decide) 1 (by
    rintro ⟨j, hj, -⟩
    have := hj.2
    simp only [sampleSet] at this
    omega)
  revert h1
  decide

/-- C8 (amended): for every `first >= 0` and every `last`, on buffers that hold
`kPoints.size()` orbitals and no more are needed, `assign_v` completes; it writes
`psi[j + first_spo]` exactly for the orbitals `first <= j < min(last, kPoints.size())`
when `last >= 0` and for `first <= j < kPoints.size()` when `last < 0`, leaves every other
entry of `psi` unchanged, and in particular never writes at an index
`>= first_spo + kPoints.size()`. -/
theorem assign_v_clamped (sincos : R → R × R) (S : SplineC2CT R) (r : Fin 3 → R)
    (myV : List R) (psi : List (Cplx R)) (first last : Int)
    (hk : S.kPointsSize < 2 ^ 31) (hf : 0 ≤ first ∧ first < 2 ^ 31)
    (hl : -2 ^ 31 ≤ last ∧ last < 2 ^ 31)
    (hK : ∀ a : Fin 3, S.kPointsSize ≤ (S.myKcart a).length)
    (hV : 2 * S.kPointsSize ≤ myV.length)
    (hpsi : S.first_spo + S.kPointsSize ≤ psi.length) :
    ∃ psi', assign_v sincos S r myV psi first last = some psi' ∧
      psi'.length = psi.length ∧
      (∀ i, psi'[i]? =
        if S.first_spo ≤ i ∧ first ≤ ((i - S.first_spo : Nat) : Int) ∧
            ((i - S.first_spo : Nat) : Int) <
              (if last < 0 then (S.kPointsSize : Int) else min last (S.kPointsSize : Int))
        then some (assign_v_val sincos S r myV (i - S.first_spo)) else psi[i]?) ∧
      (∀ i, S.first_spo + S.kPointsSize ≤ i → psi'[i]? = psi[i]?) := by
  have hf' : -2 ^ 31 ≤ first ∧ first < 2 ^ 31 := ⟨by omega, hf.2⟩
  have hlt : ∀ i, toSizeT first ≤ i →
      i < (if last < 0 then S.kPointsSize else min last.toNat S.kPointsSize) →
      i < S.kPointsSize := fun i a b => processed_lt ((processed_iff hk hf' hl i).mp ⟨a, b⟩)
  obtain ⟨psi', h1, h2⟩ := assign_v_loop sincos S r myV psi first last _ _ rfl
    (toSizeT_protect_last hk hl.1 hl.2)
    (fun i a b => ⟨fun c => by have := hK c; have := hlt i a b; omega,
      by have := hlt i a b; omega⟩)
    (fun i a b => by have := hlt i a b; omega)
  have h3 := Upd_processed (f := assign_v_val sincos S r myV) hk hf' hl h2
  refine ⟨psi', h1, h2.1, fun i => ?_, fun i hi => ?_⟩
  · rw [h3 i]
    unfold Processed
    by_cases c : S.first_spo ≤ i ∧ first ≤ ((i - S.first_spo : Nat) : Int) ∧
        ((i - S.first_spo : Nat) : Int) <
          (if last < 0 then (S.kPointsSize : Int) else min last (S.kPointsSize : Int))
    · rw [if_pos c, if_pos ⟨c.1, hf.1, c.2⟩]
    · rw [if_neg c, if_neg (fun c' => c ⟨c'.1, c'.2.2⟩)]
  · rw [h3 i, if_neg]
    rintro ⟨-, hp⟩
    have := processed_lt hp
    omega

theorem assign_v_clamped_witness :
    ∃ psi', assign_v sincosZero sampleSet originR sampleSet.myV samplePsi 0 (-1) = some psi' ∧
      psi'.length = samplePsi.length ∧
      (∀ i, psi'[i]? =
        if sampleSet.first_spo ≤ i ∧ (0 : Int) ≤ ((i - sampleSet.first_spo : Nat) : Int) ∧
            ((i - sampleSet.first_spo : Nat) : Int) <
              (if (-1 : Int) < 0 then (sampleSet.kPointsSize : Int)
                else min (-1) (sampleSet.kPointsSize : Int))
        then some (assign_v_val sincosZero sampleSet originR sampleSet.myV
          (i - sampleSet.first_spo)) else samplePsi[i]?) ∧
      (∀ i, sampleSet.first_spo + sampleSet.kPointsSize ≤ i → psi'[i]? = samplePsi[i]?) :=
  assign_v_clamped sincosZero sampleSet originR sampleSet.myV samplePsi 0 (-1)
    (by decide) (by decide) (by decide) (by decide) (by decide) (by decide)

end RangeClamping

section OutputFrame
variable {R : Type} [CommRing R]
variable {α : Type}

omit [CommRing R] in
theorem Upd_written {f : Nat → α} {S : SplineC2CT R} {first last : Int} {xs ys : List α}
    (hk : S.kPointsSize < 2 ^ 31)
    (hf : -2 ^ 31 ≤ first ∧ first < 2 ^ 31) (hl : -2 ^ 31 ≤ last ∧ last < 2 ^ 31)
    (h : Upd (fun i => some (f (i - S.first_spo))) (toSizeT first + S.first_spo)
      ((if last < 0 then S.kPointsSize else min last.toNat S.kPointsSize) + S.first_spo)
      xs ys) (i : Nat) :
    ys[i]? = if Written S first last i then some (f (i - S.first_spo)) else xs[i]? :=
  Upd_processed hk hf hl h i

theorem assign_vgl_frame (sincos : R → R × R) (S : SplineC2CT R) (r : Fin 3 → R)
    (psi : List (Cplx R)) (dpsi : List (Fin 3 → Cplx R)) (d2psi : List (Cplx R))
    (first last : Int) (hk : S.kPointsSize < 2 ^ 31)
    (hf : -2 ^ 31 ≤ first ∧ first < 2 ^ 31) (hl : -2 ^ 31 ≤ last ∧ last < 2 ^ 31)
    (hS : WellSized S)
    (hpsi : S.first_spo + S.kPointsSize ≤ psi.length)
    (hdpsi : S.first_spo + S.kPointsSize ≤ dpsi.length)
    (hd2psi : S.first_spo + S.kPointsSize ≤ d2psi.length) :
    ∃ out, assign_vgl sincos S r psi dpsi d2psi first last = some out ∧
      (∀ i, out.1[i]? = if Written S first last i
        then some (assign_vgl_val sincos S r (i - S.first_spo)).1 else psi[i]?) ∧
      (∀ i, out.2.1[i]? = if Written S first last i
        then some (assign_vgl_val sincos S r (i - S.first_spo)).2.1 else dpsi[i]?) ∧
      (∀ i, out.2.2[i]? = if Written S first last i
        then some (assign_vgl_val sincos S r (i - S.first_spo)).2.2 else d2psi[i]?) := by
  have hlt : ∀ i, toSizeT first ≤ i →
      i < (if last < 0 then S.kPointsSize else min last.toNat S.kPointsSize) →
      i < S.kPointsSize := fun i a b => processed_lt ((processed_iff hk hf hl i).mp ⟨a, b⟩)
  obtain ⟨out, h1, h2, h3, h4⟩ := assign_vgl_loop sincos S r psi dpsi d2psi first last _ _ rfl
    (toSizeT_protect_last hk hl.1 hl.2)
    (fun i a b => (wellSized_reads hS (hlt i a b)).2.1)
    (fun i a b => by have := hlt i a b; omega)
    (fun i a b => by have := hlt i a b; omega)
    (fun i a b => by have := hlt i a b; omega)
  exact ⟨out, h1,
    Upd_written (f := fun j => (assign_vgl_val sincos S r j).1) hk hf hl h2,
    Upd_written (f := fun j => (assign_vgl_val sincos S r j).2.1) hk hf hl h3,
    Upd_written (f := fun j => (assign_vgl_val sincos S r j).2.2) hk hf hl h4⟩

theorem assign_vgh_frame (sincos : R → R × R) (S : SplineC2CT R) (r : Fin 3 → R)
    (psi : List (Cplx R)) (dpsi : List (Fin 3 → Cplx R)) (grad_grad_psi : List (Fin 9 → Cplx R))
    (first last : Int) (hk : S.kPointsSize < 2 ^ 31)
    (hf : -2 ^ 31 ≤ first ∧ first < 2 ^ 31) (hl : -2 ^ 31 ≤ last ∧ last < 2 ^ 31)
    (hS : WellSized S)
    (hpsi : S.first_spo + S.kPointsSize ≤ psi.length)
    (hdpsi : S.first_spo + S.kPointsSize ≤ dpsi.length)
    (hgg : S.first_spo + S.kPointsSize ≤ grad_grad_psi.length) :
    ∃ out, assign_vgh sincos S r psi dpsi grad_grad_psi first last = some out ∧
      (∀ i, out.1[i]? = if Written S first last i
        then some (assign_vgh_val sincos S r (i - S.first_spo)).1 else psi[i]?) ∧
      (∀ i, out.2.1[i]? = if Written S first last i
        then some (assign_vgh_val sincos S r (i - S.first_spo)).2.1 else dpsi[i]?) ∧
      (∀ i, out.2.2[i]? = if Written S first last i
        then some (assign_vgh_val sincos S r (i - S.first_spo)).2.2 else grad_grad_psi[i]?) := by
  have hlt : ∀ i, toSizeT first ≤ i →
      i < (if last < 0 then S.kPointsSize else min last.toNat S.kPointsSize) →
      i < S.kPointsSize := fun i a b => processed_lt ((processed_iff hk hf hl i).mp ⟨a, b⟩)
  obtain ⟨out, h1, h2, h3, h4⟩ := assign_vgh_loop sincos S r psi dpsi grad_grad_psi first last
    _ _ rfl (toSizeT_protect_last hk hl.1 hl.2)
    (fun i a b => (wellSized_reads hS (hlt i a b)).2.2.1)
    (fun i a b => by have := hlt i a b; omega)
    (fun i a b => by have := hlt i a b; omega)
    (fun i a b => by have := hlt i a b; omega)
  exact ⟨out, h1,
    Upd_written (f := fun j => (assign_vgh_val sincos S r j).1) hk hf hl h2,
    Upd_written (f := fun j => (assign_vgh_val sincos S r j).2.1) hk hf hl h3,
    Upd_written (f := fun j => (assign_vgh_val sincos S r j).2.2) hk hf hl h4⟩

theorem assign_vghgh_frame (sincos : R → R × R) (S : SplineC2CT R) (r : Fin 3 → R)
    (psi : List (Cplx R)) (dpsi : List (Fin 3 → Cplx R)) (grad_grad_psi : List (Fin 9 → Cplx R))
    (grad_grad_grad_psi : List (Fin 3 → Fin 9 → Cplx R))
    (first last : Int) (hk : S.kPointsSize < 2 ^ 31)
    (hf : -2 ^ 31 ≤ first ∧ first < 2 ^ 31) (hl : -2 ^ 31 ≤ last ∧ last < 2 ^ 31)
    (hS : WellSized S)
    (hpsi : S.first_spo + S.kPointsSize ≤ psi.length)
    (hdpsi : S.first_spo + S.kPointsSize ≤ dpsi.length)
    (hgg : S.first_spo + S.kPointsSize ≤ grad_grad_psi.length)
    (hggg : S.first_spo + S.kPointsSize ≤ grad_grad_grad_psi.length) :
    ∃ out, assign_vghgh sincos S r psi dpsi grad_grad_psi grad_grad_grad_psi first last
        = some out ∧
      (∀ i, out.1[i]? = if Written S first last i
        then some (assign_vghgh_val sincos S r (i - S.first_spo)).1 else psi[i]?) ∧
      (∀ i, out.2.1[i]? = if Written S first last i
        then some (assign_vghgh_val sincos S r (i - S.first_spo)).2.1 else dpsi[i]?) ∧
      (∀ i, out.2.2.1[i]? = if Written S first last i
        then some (assign_vghgh_val sincos S r (i - S.first_spo)).2.2.1
        else grad_grad_psi[i]?) ∧
      (∀ i, out.2.2.2[i]? = if Written S first last i
        then some (assign_vghgh_val sincos S r (i - S.first_spo)).2.2.2
        else grad_grad_grad_psi[i]?) := by
  have hlt : ∀ i, toSizeT first ≤ i →
      i < (if last < 0 then S.kPointsSize else min last.toNat S.kPointsSize) →
      i < S.kPointsSize := fun i a b => processed_lt ((processed_iff hk hf hl i).mp ⟨a, b⟩)
  obtain ⟨out, h1, h2, h3, h4, h5⟩ := assign_vghgh_loop sincos S r psi dpsi grad_grad_psi
    grad_grad_grad_psi first last _ _ rfl (toSizeT_protect_last_vghgh hk hl.1 hl.2)
    (fun i a b => (wellSized_reads hS (hlt i a b)).2.2.2)
    (fun i a b => by have := hlt i a b; omega)
    (fun i a b => by have := hlt i a b; omega)
    (fun i a b => by have := hlt i a b; omega)
    (fun i a b => by have := hlt i a b; omega)
  exact ⟨out, h1,
    Upd_written (f := fun j => (assign_vghgh_val sincos S r j).1) hk hf hl h2,
    Upd_written (f := fun j => (assign_vghgh_val sincos S r j).2.1) hk hf hl h3,
    Upd_written (f := fun j => (assign_vghgh_val sincos S r j).2.2.1) hk hf hl h4,
    Upd_written (f := fun j => (assign_vghgh_val sincos S r j).2.2.2) hk hf hl h5⟩

/-- C9 as stated fails for a negative `last`: in `assign_vghgh(first = 0, last = -1)` on two
orbitals no index satisfies `0 <= j < min(-1, 2)`, yet the call overwrites `psi[1]` (the
kernel takes a negative `last` for `kPoints.size()`). -/
theorem assign_vghgh_negative_last :
    ¬ (∀ out, assign_vghgh sincosZero sampleSet originR samplePsi sampleDpsi sampleGG
          sampleGGG 0 (-1) = some out →
        ∀ i : Nat, (¬ ∃ j : Nat, InRange 0 (-1) sampleSet.kPointsSize j ∧
          i = j + sampleSet.first_spo) → out.1[i]? = samplePsi[i]?) := by
  intro h
  have e : (assign_vghgh sincosZero sampleSet originR samplePsi sampleDpsi sampleGG
      sampleGGG 0 (-1)).map (fun o => o.1) = some [0, ⟨1, 2⟩, ⟨3, 4⟩, 0] := by decide
  cases hout : assign_vghgh sincosZero sampleSet originR samplePsi sampleDpsi sampleGG
      sampleGGG 0 (-1) with
  | none => rw [hout] at e; exact absurd e (by decide)
  | some out =>
    rw [hout] at e
    have e1 : out.1 = [0, ⟨1, 2⟩, ⟨3, 4⟩, 0] := by simpa using e
    have h1 := h out hout 1 (by
      rintro ⟨j, hj, -⟩
      have := hj.2
      simp only [sampleSet] at this
      omega)
    rw [e1] at h1
    revert h1
    decide

/-- C9 (amended): on an orbital set whose buffers hold `kPoints.size()` orbitals, each of
`assign_vgl`, `assign_vgh` and `assign_vghgh`, called with the `int` arguments `first` and
`last`, completes and overwrites its output vectors exactly at the indices `first_spo + j`
of the processed orbitals `j`: those with `0 <= first <= j < min(last, kPoints.size())` when
`last >= 0`, and with `0 <= first <= j < kPoints.size()` when `last < 0`. Every other entry
of every output vector is unchanged, and a written index is below
`first_spo + kPoints.size()`. -/
theorem derivative_kernels_frame (sincos : R → R × R) (S : SplineC2CT R) (r : Fin 3 → R)
    (psi : List (Cplx R)) (dpsi : List (Fin 3 → Cplx R)) (d2psi : List (Cplx R))
    (grad_grad_psi : List (Fin 9 → Cplx R))
    (grad_grad_grad_psi : List (Fin 3 → Fin 9 → Cplx R))
    (first last : Int) (hk : S.kPointsSize < 2 ^ 31)
    (hf : -2 ^ 31 ≤ first ∧ first < 2 ^ 31) (hl : -2 ^ 31 ≤ last ∧ last < 2 ^ 31)
    (hS : WellSized S)
    (hpsi : S.first_spo + S.kPointsSize ≤ psi.length)
    (hdpsi : S.first_spo + S.kPointsSize ≤ dpsi.length)
    (hd2psi : S.first_spo + S.kPointsSize ≤ d2psi.length)
    (hgg : S.first_spo + S.kPointsSize ≤ grad_grad_psi.length)
    (hggg : S.first_spo + S.kPointsSize ≤ grad_grad_grad_psi.length) :
    (∃ out, assign_vgl sincos S r psi dpsi d2psi first last = some out ∧
      (∀ i, out.1[i]? = if Written S first last i
        then some (assign_vgl_val sincos S r (i - S.first_spo)).1 else psi[i]?) ∧
      (∀ i, out.2.1[i]? = if Written S first last i
        then some (assign_vgl_val sincos S r (i - S.first_spo)).2.1 else dpsi[i]?) ∧
      (∀ i, out.2.2[i]? = if Written S first last i
        then some (assign_vgl_val sincos S r (i - S.first_spo)).2.2 else d2psi[i]?)) ∧
    (∃ out, assign_vgh sincos S r psi dpsi grad_grad_psi first last = some out ∧
      (∀ i, out.1[i]? = if Written S first last i
        then some (assign_vgh_val sincos S r (i - S.first_spo)).1 else psi[i]?) ∧
      (∀ i, out.2.1[i]? = if Written S first last i
        then some (assign_vgh_val sincos S r (i - S.first_spo)).2.1 else dpsi[i]?) ∧
      (∀ i, out.2.2[i]? = if Written S first last i
        then some (assign_vgh_val sincos S r (i - S.first_spo)).2.2
        else grad_grad_psi[i]?)) ∧
    (∃ out, assign_vghgh sincos S r psi dpsi grad_grad_psi grad_grad_grad_psi first last
        = some out ∧
      (∀ i, out.1[i]? = if Written S first last i
        then some (assign_vghgh_val sincos S r (i - S.first_spo)).1 else psi[i]?) ∧
      (∀ i, out.2.1[i]? = if Written S first last i
        then some (assign_vghgh_val sincos S r (i - S.first_spo)).2.1 else dpsi[i]?) ∧
      (∀ i, out.2.2.1[i]? = if Written S first last i
        then some (assign_vghgh_val sincos S r (i - S.first_spo)).2.2.1
        else grad_grad_psi[i]?) ∧
      (∀ i, out.2.2.2[i]? = if Written S first last i
        then some (assign_vghgh_val sincos S r (i - S.first_spo)).2.2.2
        else grad_grad_grad_psi[i]?)) ∧
    (∀ i, Written S first last i → i < S.first_spo + S.kPointsSize) :=
  ⟨assign_vgl_frame sincos S r psi dpsi d2psi first last hk hf hl hS hpsi hdpsi hd2psi,
   assign_vgh_frame sincos S r psi dpsi grad_grad_psi first last hk hf hl hS hpsi hdpsi hgg,
   assign_vghgh_frame sincos S r psi dpsi grad_grad_psi grad_grad_grad_psi first last hk hf hl
     hS hpsi hdpsi hgg hggg,
   fun i hi => by have := processed_lt hi.2; have := hi.1; omega⟩

theorem derivative_kernels_frame_witness :
    (∃ out, assign_vgl sincosZero sampleSet originR samplePsi sampleDpsi samplePsi 0 (-1) = some
          out ∧
      (∀ i, out.1[i]? = if Written sampleSet 0 (-1) i
        then some (assign_vgl_val sincosZero sampleSet originR (i - sampleSet.first_spo)).1 else
          samplePsi[i]?) ∧
      (∀ i, out.2.1[i]? = if Written sampleSet 0 (-1) i
        then some (assign_vgl_val sincosZero sampleSet originR (i - sampleSet.first_spo)).2.1 else
          sampleDpsi[i]?) ∧
      (∀ i, out.2.2[i]? = if Written sampleSet 0 (-1) i
        then some (assign_vgl_val sincosZero sampleSet originR (i - sampleSet.first_spo)).2.2 else
          samplePsi[i]?)) ∧
    (∃ out, assign_vgh sincosZero sampleSet originR samplePsi sampleDpsi sampleGG 0 (-1) = some out
          ∧
      (∀ i, out.1[i]? = if Written sampleSet 0 (-1) i
        then some (assign_vgh_val sincosZero sampleSet originR (i - sampleSet.first_spo)).1 else
          samplePsi[i]?) ∧
      (∀ i, out.2.1[i]? = if Written sampleSet 0 (-1) i
        then some (assign_vgh_val sincosZero sampleSet originR (i - sampleSet.first_spo)).2.1 else
          sampleDpsi[i]?) ∧
      (∀ i, out.2.2[i]? = if Written sampleSet 0 (-1) i
        then some (assign_vgh_val sincosZero sampleSet originR (i - sampleSet.first_spo)).2.2
        else sampleGG[i]?)) ∧
    (∃ out, assign_vghgh sincosZero sampleSet originR samplePsi sampleDpsi sampleGG
        sampleGGG 0 (-1)
        = some out ∧
      (∀ i, out.1[i]? = if Written sampleSet 0 (-1) i
        then some (assign_vghgh_val sincosZero sampleSet originR (i - sampleSet.first_spo)).1 else
          samplePsi[i]?) ∧
      (∀ i, out.2.1[i]? = if Written sampleSet 0 (-1) i
        then some (assign_vghgh_val sincosZero sampleSet originR (i - sampleSet.first_spo)).2.1
          else sampleDpsi[i]?) ∧
      (∀ i, out.2.2.1[i]? = if Written sampleSet 0 (-1) i
        then some (assign_vghgh_val sincosZero sampleSet originR (i - sampleSet.first_spo)).2.2.1
        else sampleGG[i]?) ∧
      (∀ i, out.2.2.2[i]? = if Written sampleSet 0 (-1) i
        then some (assign_vghgh_val sincosZero sampleSet originR (i - sampleSet.first_spo)).2.2.2
        else sampleGGG[i]?)) ∧
    (∀ i, Written sampleSet 0 (-1) i → i < sampleSet.first_spo + sampleSet.kPointsSize) :=
  derivative_kernels_frame sincosZero sampleSet originR samplePsi sampleDpsi samplePsi sampleGG
    sampleGGG 0 (-1) (by decide) (by decide) (by decide) (by decide) (by decide) (by decide)
    (by decide) (by decide) (by decide)

end OutputFrame

section ThreadIndependence
variable {R : Type} [CommRing R]

omit [CommRing R] in
theorem evaluate3d_spec (spline : MultiBspline R) (ru : Fin 3 → R) (vals : List R)
    (p q : Nat) (hlen : spline.num_splines ≤ vals.length) :
    ∃ vals', evaluate3d spline ru vals (p : Int) (q : Int) = some vals' ∧
      Upd (fun i => some (spline.value ru i)) p (min q spline.num_splines) vals vals' := by
  obtain ⟨ys, h1, h2⟩ := forLoop_store1 (fun i => some (spline.value ru i)) 0
    (min q spline.num_splines - p) p vals (fun i _ _ => ⟨_, rfl⟩) (fun i _ _ => by omega)
  refine ⟨ys, ?_, Upd_congr h2 (fun i => by omega) (fun i _ _ => rfl)⟩
  have e : (if (q : Int) > (spline.num_splines : Int) then (spline.num_splines : Int)
      else (q : Int)).toNat = min q spline.num_splines := by
    split_ifs <;> omega
  simp only [evaluate3d, forRange, e, Int.toNat_ofNat]
  exact h1

theorem assign_v_val_congr (sincos : R → R × R) (S S' : SplineC2CT R) (r : Fin 3 → R)
    (myV myV' : List R) (j : Nat) (hK : S'.myKcart = S.myKcart)
    (h0 : rd myV' (2 * j) = rd myV (2 * j)) (h1 : rd myV' (2 * j + 1) = rd myV (2 * j + 1)) :
    assign_v_val sincos S' r myV' j = assign_v_val sincos S r myV j := by
  simp only [assign_v_val, hK, h0, h1]

theorem rd_of_getElem? {xs : List R} {i : Nat} {v : R} (h : xs[i]? = some v) :
    rd xs i = v := by
  simp [rd, h]

theorem orbitalValue_eq (sincos : R → R × R) (spline : MultiBspline R) (S S' : SplineC2CT R)
    (r ru : Fin 3 → R) (myV : List R) (j : Nat) (hK : S'.myKcart = S.myKcart)
    (h0 : myV[2 * j]? = some (spline.value ru (2 * j)))
    (h1 : myV[2 * j + 1]? = some (spline.value ru (2 * j + 1))) :
    assign_v_val sincos S' r myV j = orbitalValue sincos spline S r ru j := by
  unfold orbitalValue
  apply assign_v_val_congr sincos S S' r _ _ j hK
  · rw [rd_of_getElem? h0, rd_map_range _ _ _ (by omega)]
  · rw [rd_of_getElem? h1, rd_map_range _ _ _ (by omega)]

/-- One thread of `evaluateValue` on the channels `[2p, 2q)`: the scratch keeps its length
and `psi` receives the orbital values of the orbitals `p <= j < min(q, kPoints.size())`. -/
theorem evaluateValue_body_spec (sincos : R → R × R) (spline : MultiBspline R)
    (S S0 : SplineC2CT R) (r ru : Fin 3 → R) (psi0 : List (Cplx R)) (p q : Nat)
    (hp : p ≤ q) (hq : q < 2 ^ 30) (hk : S.kPointsSize < 2 ^ 31)
    (hS : S0.kPointsSize = S.kPointsSize ∧ S0.first_spo = S.first_spo ∧
      S0.myKcart = S.myKcart)
    (hchan : 2 * S.kPointsSize ≤ spline.num_splines)
    (hV : spline.num_splines ≤ S0.myV.length)
    (hK : ∀ a : Fin 3, S.kPointsSize ≤ (S.myKcart a).length)
    (hpsi : ∀ j, p ≤ j → j < min q S.kPointsSize → j + S.first_spo < psi0.length) :
    ∃ st, evaluateValue_body sincos spline r ru (2 * (p : Int)) (2 * (q : Int)) (S0, psi0)
        = some st ∧
      (st.1.kPointsSize = S.kPointsSize ∧ st.1.first_spo = S.first_spo ∧
        st.1.myKcart = S.myKcart) ∧
      st.1.myV.length = S0.myV.length ∧
      Upd (fun i => some (orbitalValue sincos spline S r ru (i - S.first_spo)))
        (p + S.first_spo) (min q S.kPointsSize + S.first_spo) psi0 st.2 := by
  obtain ⟨V, e1, e2⟩ := evaluate3d_spec spline ru S0.myV (2 * p) (2 * q) hV
  have hVlen : V.length = S0.myV.length := e2.1
  have hVget : ∀ c, 2 * p ≤ c → c < min (2 * q) spline.num_splines →
      V[c]? = some (spline.value ru c) := fun c a b => by
    rw [e2.2 c, if_pos ⟨a, b⟩]
  have d1 : Int.tdiv (2 * (p : Int)) 2 = (p : Int) := by
    rw [Int.tdiv_eq_ediv (by omega) (by omega)]; omega
  have d2 : Int.tdiv (2 * (q : Int)) 2 = (q : Int) := by
    rw [Int.tdiv_eq_ediv (by omega) (by omega)]; omega
  have b1 : toSizeT (p : Int) = p := by
    rw [toSizeT_of_nonneg (by omega) (by omega)]; omega
  have b2 : toSizeT (protect_last ({ S0 with myV := V } : SplineC2CT R).kPointsSize (q : Int))
      = min q S.kPointsSize := by
    show toSizeT (protect_last S0.kPointsSize (q : Int)) = _
    rw [hS.1, toSizeT_protect_last hk (by omega) (by omega), if_neg (by omega)]
    omega
  obtain ⟨psi', g1, g2⟩ := assign_v_loop sincos ({ S0 with myV := V } : SplineC2CT R) r V psi0
    (p : Int) (q : Int) p (min q S.kPointsSize) b1 b2
    (fun j a b => ⟨fun c => by
        show j < (S0.myKcart c).length
        rw [hS.2.2]; have := hK c; omega, by omega⟩)
    (fun j a b => by
      show j + S0.first_spo < psi0.length
      rw [hS.2.1]; exact hpsi j a b)
  have g2' : Upd (fun i => some (assign_v_val sincos ({ S0 with myV := V } : SplineC2CT R) r V
      (i - S.first_spo))) (p + S.first_spo) (min q S.kPointsSize + S.first_spo) psi0 psi' := by
    have := g2
    simp only [hS.2.1] at this
    exact this
  refine ⟨({ S0 with myV := V }, psi'), ?_, hS, hVlen, Upd_congr g2' (fun i => Iff.rfl)
    (fun i a b => ?_)⟩
  · simp only [evaluateValue_body, Nat.cast_ofNat, Int.natCast_mul] at e1 ⊢
    have e1' : evaluate3d spline ru S0.myV (2 * (p : Int)) (2 * (q : Int)) = some V := by
      simpa using e1
    simp only [e1', d1, d2]
    show (assign_v sincos ({ S0 with myV := V } : SplineC2CT R) r V psi0 p q).bind _ = _
    rw [g1]; rfl
  · show some _ = some _
    congr 1
    apply orbitalValue_eq sincos spline S _ r ru V _ hS.2.2
    · exact hVget _ (by omega) (by omega)
    · exact hVget _ (by omega) (by omega)

theorem covered_cons (sh : Int × Int) (rest : List (Int × Int)) (kps j : Nat) :
    Covered (sh :: rest) kps j ↔
      (sh.1 ≤ 2 * (j : Int) ∧ 2 * (j : Int) < sh.2 ∧ j < kps) ∨ Covered rest kps j := by
  simp [Covered]

theorem isSplit_le : ∀ (L : List (Int × Int)) (a b : Int), IsSplit a b L → a ≤ b := by
  intro L
  induction L with
  | nil => intro a b h; exact le_of_eq h
  | cons sh rest ih =>
    intro a b h
    obtain ⟨-, h2, -, h4⟩ := h
    exact le_trans h2 (ih _ _ h4)

/-- The slices of a split of `[a, b)` with an even `a` have even, ordered end points inside
`[a, b]`. -/
theorem isSplit_shares : ∀ (L : List (Int × Int)) (a b : Int), IsSplit a b L → a % 2 = 0 →
    ∀ sh ∈ L, a ≤ sh.1 ∧ sh.1 ≤ sh.2 ∧ sh.2 ≤ b ∧ sh.1 % 2 = 0 ∧ sh.2 % 2 = 0 := by
  intro L
  induction L with
  | nil => intro a b _ _ sh hsh; simp at hsh
  | cons s rest ih =>
    intro a b h ha sh hsh
    obtain ⟨h1, h2, h3, h4⟩ := h
    have hle := isSplit_le rest _ _ h4
    rcases List.mem_cons.mp hsh with e | e
    · subst e
      exact ⟨by omega, by omega, hle, by omega, h3⟩
    · obtain ⟨g1, g2, g3, g4, g5⟩ := ih _ _ h4 h3 sh e
      exact ⟨by omega, g2, g3, g4, g5⟩

/-- The slices of a split of `[a, b)` cover exactly the orbitals of `[a, b)`. -/
theorem isSplit_covered : ∀ (L : List (Int × Int)) (a b : Int), IsSplit a b L →
    ∀ kps j : Nat, Covered L kps j ↔ (a ≤ 2 * (j : Int) ∧ 2 * (j : Int) < b ∧ j < kps) := by
  intro L
  induction L with
  | nil =>
    intro a b h kps j
    have : a = b := h
    simp only [Covered, List.not_mem_nil, false_and, exists_false, false_iff]
    omega
  | cons s rest ih =>
    intro a b h kps j
    obtain ⟨h1, h2, h3, h4⟩ := h
    have hle := isSplit_le rest _ _ h4
    rw [covered_cons, ih _ _ h4 kps j]
    omega

/-- The threads of `evaluateValue`, run one after the other over any list of channel ranges
`[2p, 2q)` with `p <= q <= n`: `psi` receives the orbital values of the covered orbitals. -/
theorem evaluateValue_fold (sincos : R → R × R) (spline : MultiBspline R)
    (S : SplineC2CT R) (r ru : Fin 3 → R) (n : Nat)
    (hn : n < 2 ^ 30) (hk : S.kPointsSize < 2 ^ 31)
    (hchan : 2 * S.kPointsSize ≤ spline.num_splines)
    (hK : ∀ a : Fin 3, S.kPointsSize ≤ (S.myKcart a).length) :
    ∀ (L : List (Int × Int)) (S0 : SplineC2CT R) (psi0 : List (Cplx R)),
      (∀ sh ∈ L, 0 ≤ sh.1 ∧ sh.1 ≤ sh.2 ∧ sh.2 ≤ 2 * (n : Int) ∧ sh.1 % 2 = 0 ∧ sh.2 % 2 = 0) →
      (S0.kPointsSize = S.kPointsSize ∧ S0.first_spo = S.first_spo ∧
        S0.myKcart = S.myKcart) →
      spline.num_splines ≤ S0.myV.length →
      min n S.kPointsSize + S.first_spo ≤ psi0.length →
      ∃ st, L.foldlM (fun st sh => evaluateValue_body sincos spline r ru sh.1 sh.2 st)
          (S0, psi0) = some st ∧
        st.2.length = psi0.length ∧
        ∀ i, st.2[i]? = if S.first_spo ≤ i ∧ Covered L S.kPointsSize (i - S.first_spo)
          then some (orbitalValue sincos spline S r ru (i - S.first_spo)) else psi0[i]? := by
  intro L
  induction L with
  | nil =>
    intro S0 psi0 _ _ _ _
    refine ⟨(S0, psi0), rfl, rfl, fun i => ?_⟩
    simp [Covered]
  | cons sh rest ih =>
    intro S0 psi0 hL hS hV hpsi
    obtain ⟨c1, c2, c3, c4, c5⟩ := hL sh (List.mem_cons_self _ _)
    obtain ⟨p, hp⟩ : ∃ p : Nat, sh.1 = 2 * (p : Int) := ⟨(sh.1 / 2).toNat, by omega⟩
    obtain ⟨q, hq⟩ : ∃ q : Nat, sh.2 = 2 * (q : Int) := ⟨(sh.2 / 2).toNat, by omega⟩
    obtain ⟨st1, e1, e2, e3, e4⟩ := evaluateValue_body_spec sincos spline S S0 r ru psi0 p q
      (by omega) (by omega) hk hS hchan hV hK (fun j a b => by omega)
    obtain ⟨st, f1, f2, f3⟩ := ih st1.1 st1.2
      (fun s hs => hL s (List.mem_cons_of_mem _ hs)) e2 (by rw [e3]; exact hV)
      (by rw [e4.1]; exact hpsi)
    refine ⟨st, ?_, by rw [f2, e4.1], fun i => ?_⟩
    · rw [List.foldlM_cons, hp, hq, e1]
      exact f1
    · rw [f3 i, e4.2 i]
      have hc := covered_cons sh rest S.kPointsSize (i - S.first_spo)
      rw [hp, hq] at hc
      by_cases k1 : S.first_spo ≤ i ∧ Covered rest S.kPointsSize (i - S.first_spo)
      · rw [if_pos k1, if_pos ⟨k1.1, hc.mpr (Or.inr k1.2)⟩]
      · rw [if_neg k1]
        by_cases k2 : p + S.first_spo ≤ i ∧ i < min q S.kPointsSize + S.first_spo
        · rw [if_pos k2, if_pos ⟨by omega, hc.mpr (Or.inl (by omega))⟩]
        · rw [if_neg k2, if_neg]
          rintro ⟨k3, k4⟩
          rcases hc.mp k4 with k5 | k5
          · exact k2 (by omega)
          · exact k1 ⟨k3, k5⟩

/-- C10: `evaluateValue` is independent of the number of worker threads: for every split of
the channel range `[0, 2 * psi.size())` into contiguous slices with even boundaries and
every order in which the thread bodies (kernel on `[first_t, last_t)`, then `assign_v` on
`[first_t / 2, last_t / 2)`) are executed, the call returns and produces exactly the `psi`
of the single-thread call over the whole range: the orbital values at the indices
`first_spo + j`, `j < min(psi.size(), kPoints.size())`, and the old entries elsewhere. -/
theorem evaluateValue_thread_independent (sincos : R → R × R) (spline : MultiBspline R)
    (toUnit_floor : (Fin 3 → R) → (Fin 3 → R)) (S : SplineC2CT R) (r : Fin 3 → R)
    (psi : List (Cplx R)) (shares order : List (Int × Int))
    (hperm : order.Perm shares) (hsplit : IsSplit 0 (2 * (psi.length : Int)) shares)
    (hn : psi.length < 2 ^ 30) (hk : S.kPointsSize < 2 ^ 31)
    (hchan : 2 * S.kPointsSize ≤ spline.num_splines)
    (hV : spline.num_splines ≤ S.myV.length)
    (hK : ∀ a : Fin 3, S.kPointsSize ≤ (S.myKcart a).length)
    (hpsi : min psi.length S.kPointsSize + S.first_spo ≤ psi.length) :
    ∃ st st1, evaluateValue sincos spline toUnit_floor S r psi order = some st ∧
      evaluateValue sincos spline toUnit_floor S r psi [(0, 2 * (psi.length : Int))]
        = some st1 ∧
      st.2 = st1.2 ∧
      ∀ i, st.2[i]? =
        if S.first_spo ≤ i ∧ i - S.first_spo < min psi.length S.kPointsSize
        then some (orbitalValue sincos spline S r (toUnit_floor r) (i - S.first_spo))
        else psi[i]? := by
  have hsh := isSplit_shares shares 0 _ hsplit (by decide)
  have hone : IsSplit 0 (2 * (psi.length : Int)) [(0, 2 * (psi.length : Int))] :=
    ⟨rfl, by omega, by omega, rfl⟩
  obtain ⟨st, a1, a2, a3⟩ := evaluateValue_fold sincos spline S r (toUnit_floor r) psi.length
    hn hk hchan hK order S psi
    (fun sh h => by
      obtain ⟨g1, g2, g3, g4, g5⟩ := hsh sh (hperm.mem_iff.mp h)
      exact ⟨g1, g2, g3, g4, g5⟩)
    ⟨rfl, rfl, rfl⟩ hV hpsi
  obtain ⟨st1, b1, b2, b3⟩ := evaluateValue_fold sincos spline S r (toUnit_floor r) psi.length
    hn hk hchan hK [(0, 2 * (psi.length : Int))] S psi
    (fun sh h => by
      obtain ⟨g1, g2, g3, g4, g5⟩ := isSplit_shares _ 0 _ hone (by decide) sh h
      exact ⟨g1, g2, g3, g4, g5⟩)
    ⟨rfl, rfl, rfl⟩ hV hpsi
  have cov : ∀ L : List (Int × Int), IsSplit 0 (2 * (psi.length : Int)) L → ∀ i,
      (S.first_spo ≤ i ∧ Covered L S.kPointsSize (i - S.first_spo)) ↔
      (S.first_spo ≤ i ∧ i - S.first_spo < min psi.length S.kPointsSize) := fun L hL i => by
    rw [isSplit_covered L 0 _ hL]
    omega
  have covp : ∀ i, Covered order S.kPointsSize i ↔ Covered shares S.kPointsSize i :=
    fun i => by
      unfold Covered
      constructor
      · rintro ⟨sh, h1, h2⟩; exact ⟨sh, hperm.mem_iff.mp h1, h2⟩
      · rintro ⟨sh, h1, h2⟩; exact ⟨sh, hperm.mem_iff.mpr h1, h2⟩
  have final : ∀ i, st.2[i]? =
      if S.first_spo ≤ i ∧ i - S.first_spo < min psi.length S.kPointsSize
      then some (orbitalValue sincos spline S r (toUnit_floor r) (i - S.first_spo))
      else psi[i]? := fun i => by
    rw [a3 i]
    have e := cov shares hsplit i
    by_cases c : S.first_spo ≤ i ∧ i - S.first_spo < min psi.length S.kPointsSize
    · rw [if_pos c, if_pos ⟨c.1, (covp _).mpr (e.mpr c).2⟩]
    · rw [if_neg c, if_neg]
      rintro ⟨c1, c2⟩
      exact c (e.mp ⟨c1, (covp _).mp c2⟩)
  refine ⟨st, st1, a1, b1, ?_, final⟩
  apply List.ext_getElem?
  intro i
  rw [final i, b3 i]
  have e := cov _ hone i
  by_cases c : S.first_spo ≤ i ∧ i - S.first_spo < min psi.length S.kPointsSize
  · rw [if_pos c, if_pos (e.mpr c)]
  · rw [if_neg c, if_neg (fun c' => c (e.mp c'))]

theorem evaluateValue_thread_independent_witness :
    ∃ st st1, evaluateValue sampleSincos sampleSpline id sampleSet sampleR samplePsi
        [(4, 8), (0, 4)] = some st ∧
      evaluateValue sampleSincos sampleSpline id sampleSet sampleR samplePsi
        [(0, 2 * (samplePsi.length : Int))] = some st1 ∧
      st.2 = st1.2 ∧
      ∀ i, st.2[i]? =
        if sampleSet.first_spo ≤ i ∧
          i - sampleSet.first_spo < min samplePsi.length sampleSet.kPointsSize
        then some (orbitalValue sampleSincos sampleSpline sampleSet sampleR (id sampleR)
          (i - sampleSet.first_spo))
        else samplePsi[i]? :=
  evaluateValue_thread_independent sampleSincos sampleSpline id sampleSet sampleR samplePsi
    [(0, 4), (4, 8)] [(4, 8), (0, 4)] (List.Perm.swap _ _ _) (by decide) (by decide)
    (by decide) (by decide) (by decide) (by decide) (by decide)

end ThreadIndependence

/-! ## The loops of the rotation -/

/-! ## The rotation of the spline coefficients -/

section RotationLoops

variable {R : Type} [CommRing R]
variable {α σ : Type}

/-- The last iteration of a loop, split off. -/
theorem forLoop_succ_last (body : Nat → σ → Option σ) :
    ∀ (n j : Nat) (s : σ),
      forLoop body (n + 1) j s = (forLoop body n j s).bind (body (j + n)) := by
  intro n
  induction n with
  | zero =>
    intro j s
    simp only [forLoop, Nat.add_zero, Option.some_bind]
    cases body j s <;> rfl
  | succ n ih =>
    intro j s
    rw [forLoop]
    cases h : body j s with
    | none => simp [forLoop, h]
    | some t =>
      simp only [Option.some_bind]
      rw [ih (j + 1) t]
      have e : j + 1 + n = j + (n + 1) := by omega
      rw [e]
      conv_rhs => rw [forLoop, h]
      rfl

/-- The loop over `k` of `applyRotation` accumulates the entry `(i, j)` of
`coef_copy x rot_mat`. -/
theorem rotation_accumulate_loop (coef_copy : List R) (rot_mat : ValueMatrix R)
    (N i j : Nat) :
    ∀ n : Nat, (∀ k, k < n → reads_rotation coef_copy rot_mat N i j k) →
      forRange 0 n (rotation_accumulate coef_copy rot_mat N i j) (0, 0)
        = some ((rotatedCoef coef_copy rot_mat N n i j).re,
            (rotatedCoef coef_copy rot_mat N n i j).im) := by
  intro n
  induction n with
  | zero =>
    intro _
    simp [forRange, forLoop, rotatedCoef]
  | succ n ih =>
    intro h
    have h1 := ih (fun k hk => h k (by omega))
    simp only [forRange, Nat.sub_zero] at h1 ⊢
    rw [forLoop_succ_last, h1]
    simp only [Option.some_bind, Nat.zero_add, rotation_accumulate, if_pos (h n (by omega)),
      rotatedCoef, Finset.sum_range_succ, Cplx.add_re, Cplx.add_im, Cplx.mul_re, Cplx.mul_im,
      coefPair]

/-- A buffer update extended over entries that keep their old value. -/
theorem Upd_extend {val : Nat → Option α} {lo hi hi' : Nat} {xs t : List α}
    (h : Upd val lo hi xs t) (hle : hi ≤ hi')
    (hv : ∀ n, hi ≤ n → n < hi' → val n = xs[n]?) : Upd val lo hi' xs t := by
  refine ⟨h.1, fun n => ?_⟩
  rw [h.2 n]
  by_cases c : lo ≤ n ∧ n < hi
  · rw [if_pos c, if_pos ⟨c.1, by omega⟩]
  · rw [if_neg c]
    by_cases c' : lo ≤ n ∧ n < hi'
    · rw [if_pos c', hv n (by omega) c'.2]
    · rw [if_neg c']

/-- Row and column of the entry `N * i + c` of a table with rows of length `N`. -/
theorem rotation_row_index (N i c : Nat) (hc : c < N) :
    (N * i + c) % N = c ∧ (N * i + c) / N = i := by
  have hN : 0 < N := by omega
  constructor
  · rw [Nat.mul_add_mod, Nat.mod_eq_of_lt hc]
  · rw [Nat.mul_add_div hN, Nat.div_eq_of_lt hc, Nat.add_zero]

/-- The body of the loop over `j`: the two stores of the coefficient pair of orbital `j`. -/
theorem rotation_store_step (coef_copy coefs t : List R) (rot_mat : ValueMatrix R)
    (N OSS i j : Nat) (hj : j < OSS) (hpad : 2 * OSS ≤ N)
    (hreads : ∀ k, k < OSS → reads_rotation coef_copy rot_mat N i j k)
    (hlen : N * i + N ≤ coefs.length)
    (hU : Upd (fun n => if n % N < 2 * OSS then some (rotatedAt coef_copy rot_mat N OSS n)
      else coefs[n]?) 0 (N * i + 2 * j) coefs t) :
    ∃ t', rotation_store coef_copy rot_mat N OSS i j t = some t' ∧
      Upd (fun n => if n % N < 2 * OSS then some (rotatedAt coef_copy rot_mat N OSS n)
        else coefs[n]?) 0 (N * i + 2 * (j + 1)) coefs t' := by
  have h0 := rotation_row_index N i (2 * j) (by omega)
  have h1 := rotation_row_index N i (2 * j + 1) (by omega)
  have v0 : (fun n => if n % N < 2 * OSS then some (rotatedAt coef_copy rot_mat N OSS n)
      else coefs[n]?) (N * i + 2 * j)
      = some (rotatedCoef coef_copy rot_mat N OSS i j).re := by
    have e : 2 * j % 2 = 0 := by omega
    have e2 : 2 * j / 2 = j := by omega
    simp only [h0.1, h0.2, rotatedAt, e, e2, if_pos (show 2 * j < 2 * OSS by omega), if_true]
  have v1 : (fun n => if n % N < 2 * OSS then some (rotatedAt coef_copy rot_mat N OSS n)
      else coefs[n]?) (N * i + 2 * j + 1)
      = some (rotatedCoef coef_copy rot_mat N OSS i j).im := by
    have e : (2 * j + 1) % 2 = 1 := by omega
    have e2 : (2 * j + 1) / 2 = j := by omega
    have e3 : N * i + 2 * j + 1 = N * i + (2 * j + 1) := by omega
    simp only [e3, h1.1, h1.2, rotatedAt, e, e2, if_pos (show 2 * j + 1 < 2 * OSS by omega),
      one_ne_zero, if_false]
  obtain ⟨s1, u1⟩ := Upd_step hU (Nat.zero_le _) v0 (by omega)
  obtain ⟨s2, u2⟩ := Upd_step u1 (Nat.zero_le _) v1 (by omega)
  refine ⟨(t.set (N * i + 2 * j) (rotatedCoef coef_copy rot_mat N OSS i j).re).set
    (N * i + 2 * j + 1) (rotatedCoef coef_copy rot_mat N OSS i j).im, ?_, ?_⟩
  · simp only [rotation_store, rotation_accumulate_loop coef_copy rot_mat N i j OSS hreads,
      Option.bind_eq_bind, Option.some_bind, s1]
    exact s2
  · have e : N * i + 2 * (j + 1) = N * i + 2 * j + 1 + 1 := by omega
    rw [e]; exact u2

/-- The two loops of `applyRotation`: every orbital coefficient of every basis row receives
its rotated value, every other entry of the table keeps its value. -/
theorem rotation_loops (coef_copy coefs : List R) (rot_mat : ValueMatrix R) (N OSS M : Nat)
    (hpad : 2 * OSS ≤ N)
    (hreads : ∀ i j k, i < M → j < OSS → k < OSS → reads_rotation coef_copy rot_mat N i j k)
    (hlen : N * M ≤ coefs.length) :
    ∃ c', forRange 0 M (fun i spl_coefs =>
        forRange 0 OSS (fun j spl_coefs =>
          rotation_store coef_copy rot_mat N OSS i j spl_coefs) spl_coefs) coefs = some c' ∧
      Upd (fun n => if n % N < 2 * OSS then some (rotatedAt coef_copy rot_mat N OSS n)
        else coefs[n]?) 0 (N * M) coefs c' := by
  have h := forLoop_inv (fun i spl_coefs =>
        forRange 0 OSS (fun j spl_coefs =>
          rotation_store coef_copy rot_mat N OSS i j spl_coefs) spl_coefs)
    (fun i t => Upd (fun n => if n % N < 2 * OSS
      then some (rotatedAt coef_copy rot_mat N OSS n) else coefs[n]?) 0 (N * i) coefs t)
    M 0 coefs (by simpa using Upd_refl _ 0 coefs) (by
      intro i t _ hi hU
      have hi' : i < M := by omega
      have hrow : N * i + N ≤ coefs.length := by
        have : N * (i + 1) ≤ N * M := Nat.mul_le_mul_left N (by omega)
        rw [Nat.mul_add, Nat.mul_one] at this
        omega
      have hin := forLoop_inv (fun j spl_coefs =>
          rotation_store coef_copy rot_mat N OSS i j spl_coefs)
        (fun j t => Upd (fun n => if n % N < 2 * OSS
          then some (rotatedAt coef_copy rot_mat N OSS n) else coefs[n]?) 0 (N * i + 2 * j)
          coefs t)
        OSS 0 t (by simpa using hU) (by
          intro j u _ hj hu
          exact rotation_store_step coef_copy coefs u rot_mat N OSS i j (by omega) hpad
            (fun k hk => hreads i j k hi' (by omega) hk) hrow hu)
      obtain ⟨t', e1, e2⟩ := hin
      refine ⟨t', by simpa [forRange] using e1, ?_⟩
      have e3 : N * (i + 1) = N * i + N := by rw [Nat.mul_add, Nat.mul_one]
      beta_reduce
      rw [e3]
      refine Upd_extend (by simpa using e2) (by omega) (fun n h1 h2 => ?_)
      have hc := rotation_row_index N i (n - N * i) (by omega)
      have e4 : N * i + (n - N * i) = n := by omega
      rw [e4] at hc
      rw [if_neg (by omega)])
  obtain ⟨c', e1, e2⟩ := h
  exact ⟨c', by simpa [forRange] using e1, by simpa using e2⟩

omit [CommRing R] in
/-- The reads of the rotation stay inside the checkpoint and the matrix. -/
theorem reads_rotation_of_ready (S : RotationSet R) (rot_mat : ValueMatrix R) (cp : List R)
    (hready : RotationReady S rot_mat) (hlen : S.spline.coefs_size ≤ cp.length)
    (i j k : Nat) (hi : i < S.spline.coefs_size / S.spline.num_splines)
    (hj : j < S.OrbitalSetSize) (hk : k < S.OrbitalSetSize) :
    reads_rotation cp rot_mat S.spline.num_splines i j k := by
  obtain ⟨hN, hpad, -, hr, hc, hd⟩ := hready
  have h1 : S.spline.num_splines * (i + 1) ≤
      S.spline.num_splines * (S.spline.coefs_size / S.spline.num_splines) :=
    Nat.mul_le_mul_left _ hi
  have h2 := Nat.mul_div_le S.spline.coefs_size S.spline.num_splines
  rw [Nat.mul_add, Nat.mul_one] at h1
  have h3 : (k + 1) * S.OrbitalSetSize ≤ S.OrbitalSetSize * S.OrbitalSetSize :=
    Nat.mul_le_mul_right _ hk
  rw [Nat.add_mul, Nat.one_mul] at h3
  refine ⟨by omega, ?_⟩
  rw [hd, hr, hc]
  omega

/-- A completed rotation: with a checkpoint `cp` in force that covers the table, the call
returns, keeps `cp` as the checkpoint, and the new table holds the rotated value in every
orbital column of every basis row and the old value everywhere else. -/
theorem applyRotation_with (NDEBUG : Bool) (S : RotationSet R) (rot_mat : ValueMatrix R)
    (use_stored_copy : Bool)
    (cp : List R) (hready : RotationReady S rot_mat)
    (hcp : rotation_checkpoint NDEBUG S use_stored_copy = .ok (some cp))
    (hlen : S.spline.coefs_size ≤ cp.length) :
    ∃ c', applyRotation NDEBUG S rot_mat use_stored_copy
        = ({ S with spline := { S.spline with coefs := c' }, coef_copy_ := some cp }, none) ∧
      c'.length = S.spline.coefs.length ∧
      ∀ n, c'[n]? = if IsRotated S n
        then some (rotatedAt cp rot_mat S.spline.num_splines S.OrbitalSetSize n)
        else S.spline.coefs[n]? := by
  have hr := reads_rotation_of_ready S rot_mat cp hready hlen
  obtain ⟨hN, hpad, hsz, hrow, hcol, hd⟩ := hready
  have h2 := Nat.mul_div_le S.spline.coefs_size S.spline.num_splines
  obtain ⟨c', e1, e2⟩ := rotation_loops cp S.spline.coefs rot_mat S.spline.num_splines
    S.OrbitalSetSize (S.spline.coefs_size / S.spline.num_splines) hpad
    (fun i j k hi hj hk => hr i j k hi hj hk) (by omega)
  refine ⟨c', ?_, e2.1, fun n => ?_⟩
  · simp only [applyRotation, if_neg (Nat.pos_iff_ne_zero.mp hN), hrow, hcol, ne_eq,
      not_true_eq_false, and_false, if_false, hcp, Option.getD_some, e1]
  · rw [e2.2 n]
    unfold IsRotated
    beta_reduce
    by_cases a : n < S.spline.num_splines * (S.spline.coefs_size / S.spline.num_splines)
    · by_cases b : n % S.spline.num_splines < 2 * S.OrbitalSetSize
      · rw [if_pos ⟨Nat.zero_le _, a⟩, if_pos b, if_pos ⟨a, b⟩]
      · rw [if_pos ⟨Nat.zero_le _, a⟩, if_neg b, if_neg (fun c => b c.2)]
    · rw [if_neg (fun c => a c.2), if_neg (fun c => a c.1)]

/-- The coefficient pair of orbital `j` in basis row `i` of a rotated table. -/
theorem coefPair_of_rotated (S : RotationSet R) (rot_mat : ValueMatrix R) (cp c' : List R)
    (hpad : 2 * S.OrbitalSetSize ≤ S.spline.num_splines)
    (h : ∀ n, c'[n]? = if IsRotated S n
        then some (rotatedAt cp rot_mat S.spline.num_splines S.OrbitalSetSize n)
        else S.spline.coefs[n]?)
    (i j : Nat) (hi : i < S.spline.coefs_size / S.spline.num_splines)
    (hj : j < S.OrbitalSetSize) :
    coefPair c' S.spline.num_splines i j
      = rotatedCoef cp rot_mat S.spline.num_splines S.OrbitalSetSize i j := by
  have h1 : S.spline.num_splines * (i + 1) ≤
      S.spline.num_splines * (S.spline.coefs_size / S.spline.num_splines) :=
    Nat.mul_le_mul_left _ hi
  rw [Nat.mul_add, Nat.mul_one] at h1
  have a0 := rotation_row_index S.spline.num_splines i (2 * j) (by omega)
  have a1 := rotation_row_index S.spline.num_splines i (2 * j + 1) (by omega)
  have r0 : IsRotated S (S.spline.num_splines * i + 2 * j) := ⟨by omega, by rw [a0.1]; omega⟩
  have r1 : IsRotated S (S.spline.num_splines * i + (2 * j + 1)) :=
    ⟨by omega, by rw [a1.1]; omega⟩
  have g0 := h (S.spline.num_splines * i + 2 * j)
  have g1 := h (S.spline.num_splines * i + (2 * j + 1))
  rw [if_pos r0] at g0
  rw [if_pos r1] at g1
  have e0 : 2 * j % 2 = 0 := by omega
  have e0' : 2 * j / 2 = j := by omega
  have e1 : (2 * j + 1) % 2 = 1 := by omega
  have e1' : (2 * j + 1) / 2 = j := by omega
  apply Cplx.ext
  · simp only [coefPair, rd, List.getD_eq_getElem?_getD, g0, Option.getD_some, rotatedAt, a0.1,
      a0.2, e0, e0', if_true]
  · rw [show S.spline.num_splines * i + (2 * j + 1) = S.spline.num_splines * i + 2 * j + 1
      from by omega] at g1
    simp only [coefPair, rd, List.getD_eq_getElem?_getD, g1, Option.getD_some, rotatedAt]
    rw [show S.spline.num_splines * i + 2 * j + 1 = S.spline.num_splines * i + (2 * j + 1)
      from by omega]
    simp only [a1.1, a1.2, e1, e1', one_ne_zero, if_false]

end RotationLoops

/-! ## The rotation and its checkpoint -/

section RotationClaims

variable {R : Type} [CommRing R]

theorem copy_n_full {α : Type} (src dst : List α) (n : Nat) (h1 : src.length = n)
    (h2 : dst.length = n) : copy_n src n dst = some src := by
  subst h1
  simp [copy_n, h2]

theorem copy_n_some {α : Type} (src dst : List α) (n : Nat) (h1 : n ≤ src.length)
    (h2 : n ≤ dst.length) : copy_n src n dst = some (src.take n ++ dst.drop n) := by
  simp [copy_n, h1, h2]

omit [CommRing R] in
theorem rotation_checkpoint_true (NDEBUG : Bool) (S : RotationSet R) :
    rotation_checkpoint NDEBUG S true = .ok S.coef_copy_ := rfl

omit [CommRing R] in
theorem rotation_checkpoint_false (NDEBUG : Bool) (S : RotationSet R) (cp0 : List R)
    (h0 : S.coef_copy_ = some cp0) (h1 : S.spline.coefs_size ≤ S.spline.coefs.length)
    (h2 : S.spline.coefs_size ≤ cp0.length) :
    rotation_checkpoint NDEBUG S false
      = .ok (some (S.spline.coefs.take S.spline.coefs_size ++ cp0.drop S.spline.coefs_size)) := by
  simp [rotation_checkpoint, h0, copy_n_some _ _ _ h1 h2]

omit [CommRing R] in
theorem rotation_checkpoint_false_full (NDEBUG : Bool) (S : RotationSet R) (cp0 : List R)
    (h0 : S.coef_copy_ = some cp0) (h1 : S.spline.coefs.length = S.spline.coefs_size)
    (h2 : cp0.length = S.spline.coefs_size) :
    rotation_checkpoint NDEBUG S false = .ok (some S.spline.coefs) := by
  simp [rotation_checkpoint, h0, copy_n_full _ _ _ h1 h2]

/-- C13: `applyRotation` computes `newCoef = coef_copy x rot_mat` on the orbital axis. With
`N = num_splines`, `M = coefs_size / N` and `cp` the checkpoint in force during the rotation
(the one that `rotation_checkpoint` leaves, covering the table), the call returns, `cp` is
the checkpoint afterwards, and for every basis row `i < M` and orbital `j < OrbitalSetSize`
the complex coefficient `(spl_coefs[N*i + 2j], spl_coefs[N*i + 2j + 1])` is the sum over
`k < OrbitalSetSize` of `(cp[N*i + 2k] + i cp[N*i + 2k + 1]) * rot_mat[k][j]`: only row `i`
of the checkpoint enters row `i` of the result. The table keeps its length and every entry
that is not an orbital coefficient (the padding, the tail after the last full row) keeps its
value. This holds whether or not `NDEBUG` is defined. -/
theorem applyRotation_value (NDEBUG : Bool) (S : RotationSet R) (rot_mat : ValueMatrix R)
    (use_stored_copy : Bool)
    (cp : List R) (hready : RotationReady S rot_mat)
    (hcp : rotation_checkpoint NDEBUG S use_stored_copy = .ok (some cp))
    (hlen : S.spline.coefs_size ≤ cp.length) :
    (applyRotation NDEBUG S rot_mat use_stored_copy).2 = none ∧
      (applyRotation NDEBUG S rot_mat use_stored_copy).1.coef_copy_ = some cp ∧
      (∀ i j, i < S.spline.coefs_size / S.spline.num_splines → j < S.OrbitalSetSize →
        coefPair (applyRotation NDEBUG S rot_mat use_stored_copy).1.spline.coefs S.spline.num_splines i j
          = ∑ k ∈ Finset.range S.OrbitalSetSize,
              coefPair cp S.spline.num_splines i k * rot_mat.entry k j) ∧
      (applyRotation NDEBUG S rot_mat use_stored_copy).1.spline.coefs.length = S.spline.coefs.length ∧
      ∀ n, ¬ IsRotated S n →
        (applyRotation NDEBUG S rot_mat use_stored_copy).1.spline.coefs[n]? = S.spline.coefs[n]? := by
  obtain ⟨c', e, hl, hv⟩ := applyRotation_with NDEBUG S rot_mat use_stored_copy cp hready hcp hlen
  rw [e]
  refine ⟨rfl, rfl, fun i j hi hj => ?_, hl, fun n hn => ?_⟩
  · exact coefPair_of_rotated S rot_mat cp c' hready.2.1 hv i j hi hj
  · show c'[n]? = _
    rw [hv n, if_neg hn]

/-- Witness of C13 on the sample table, rotating from the stored checkpoint. -/
theorem applyRotation_value_witness :
    (applyRotation false sampleRotationSet sampleRotation true).2 = none ∧
      (applyRotation false sampleRotationSet sampleRotation true).1.coef_copy_
        = some [1, 0, 0, 1, 0, 0, 2, 0, 0, 2, 0, 0] ∧
      (∀ i j, i < sampleRotationSet.spline.coefs_size / sampleRotationSet.spline.num_splines →
        j < sampleRotationSet.OrbitalSetSize →
        coefPair (applyRotation false sampleRotationSet sampleRotation true).1.spline.coefs
            sampleRotationSet.spline.num_splines i j
          = ∑ k ∈ Finset.range sampleRotationSet.OrbitalSetSize,
              coefPair [1, 0, 0, 1, 0, 0, 2, 0, 0, 2, 0, 0]
                sampleRotationSet.spline.num_splines i k * sampleRotation.entry k j) ∧
      (applyRotation false sampleRotationSet sampleRotation true).1.spline.coefs.length
        = sampleRotationSet.spline.coefs.length ∧
      ∀ n, ¬ IsRotated sampleRotationSet n →
        (applyRotation false sampleRotationSet sampleRotation true).1.spline.coefs[n]?
          = sampleRotationSet.spline.coefs[n]? :=
  applyRotation_value false sampleRotationSet sampleRotation true _ (by decide) rfl (by decide)

/-- C14: checkpoint handling in `applyRotation`, for a table with a checkpoint `cp0` of the
size of the table. With `use_stored_copy = false` the call returns, the checkpoint afterwards
is exactly the coefficient table as it was before the call (nothing of `cp0` is left) and
the rotation is applied to those coefficients. With `use_stored_copy = true` the call
returns, the checkpoint is still `cp0`, and the new orbital coefficients are computed from
`cp0` alone: a table `cur` of current coefficients in place of the given one leads to the
same orbital coefficients. This holds whether or not `NDEBUG` is defined. -/
theorem applyRotation_checkpoint (NDEBUG : Bool) (S : RotationSet R) (rot_mat : ValueMatrix R)
    (cp0 : List R)
    (hready : RotationReady S rot_mat) (h0 : S.coef_copy_ = some cp0)
    (hl : cp0.length = S.spline.coefs_size) :
    ((applyRotation NDEBUG S rot_mat false).2 = none ∧
      (applyRotation NDEBUG S rot_mat false).1.coef_copy_ = some S.spline.coefs ∧
      ∀ i j, i < S.spline.coefs_size / S.spline.num_splines → j < S.OrbitalSetSize →
        coefPair (applyRotation NDEBUG S rot_mat false).1.spline.coefs S.spline.num_splines i j
          = ∑ k ∈ Finset.range S.OrbitalSetSize,
              coefPair S.spline.coefs S.spline.num_splines i k * rot_mat.entry k j) ∧
    ((applyRotation NDEBUG S rot_mat true).2 = none ∧
      (applyRotation NDEBUG S rot_mat true).1.coef_copy_ = some cp0 ∧
      (∀ i j, i < S.spline.coefs_size / S.spline.num_splines → j < S.OrbitalSetSize →
        coefPair (applyRotation NDEBUG S rot_mat true).1.spline.coefs S.spline.num_splines i j
          = ∑ k ∈ Finset.range S.OrbitalSetSize,
              coefPair cp0 S.spline.num_splines i k * rot_mat.entry k j) ∧
      ∀ cur : List R, cur.length = S.spline.coefs_size →
        ∀ i j, i < S.spline.coefs_size / S.spline.num_splines → j < S.OrbitalSetSize →
          coefPair (applyRotation NDEBUG { S with spline := { S.spline with coefs := cur } }
              rot_mat true).1.spline.coefs S.spline.num_splines i j
            = coefPair (applyRotation NDEBUG S rot_mat true).1.spline.coefs
                S.spline.num_splines i j) := by
  have hf := rotation_checkpoint_false_full NDEBUG S cp0 h0 hready.2.2.1 hl
  have ht : rotation_checkpoint NDEBUG S true = .ok (some cp0) := by
    rw [rotation_checkpoint_true, h0]
  obtain ⟨c1, e1, -, v1⟩ := applyRotation_with NDEBUG S rot_mat false _ hready hf
    (by rw [hready.2.2.1])
  obtain ⟨c2, e2, -, v2⟩ := applyRotation_with NDEBUG S rot_mat true cp0 hready ht (by rw [hl])
  refine ⟨⟨by rw [e1], by rw [e1], fun i j hi hj => ?_⟩,
    by rw [e2], by rw [e2], fun i j hi hj => ?_, fun cur hcur i j hi hj => ?_⟩
  · rw [e1]
    exact coefPair_of_rotated S rot_mat _ c1 hready.2.1 v1 i j hi hj
  · rw [e2]
    exact coefPair_of_rotated S rot_mat cp0 c2 hready.2.1 v2 i j hi hj
  · have hready' : RotationReady { S with spline := { S.spline with coefs := cur } } rot_mat :=
      ⟨hready.1, hready.2.1, hcur, hready.2.2.2⟩
    have ht' : rotation_checkpoint NDEBUG { S with spline := { S.spline with coefs := cur } } true
        = .ok (some cp0) := by
      rw [rotation_checkpoint_true]; exact congrArg Except.ok h0
    obtain ⟨c3, e3, -, v3⟩ := applyRotation_with NDEBUG
      { S with spline := { S.spline with coefs := cur } } rot_mat true cp0 hready' ht'
      (by rw [hl])
    rw [e2, e3]
    exact (coefPair_of_rotated { S with spline := { S.spline with coefs := cur } } rot_mat cp0
      c3 hready.2.1 v3 i j hi hj).trans
      (coefPair_of_rotated S rot_mat cp0 c2 hready.2.1 v2 i j hi hj).symm

/-- Witness of C14 on the sample table and its checkpoint. -/
theorem applyRotation_checkpoint_witness :
    (applyRotation false sampleRotationSet sampleRotation false).1.coef_copy_
        = some sampleRotationSet.spline.coefs ∧
      (applyRotation false sampleRotationSet sampleRotation true).1.coef_copy_
        = some [1, 0, 0, 1, 0, 0, 2, 0, 0, 2, 0, 0] :=
  ⟨(applyRotation_checkpoint false sampleRotationSet sampleRotation _ (by decide) rfl
      (by decide)).1.2.1,
    (applyRotation_checkpoint false sampleRotationSet sampleRotation _ (by decide) rfl
      (by decide)).2.2.1⟩

/-- C15: `storeParamsBeforeRotation` takes a snapshot of the full coefficient table: the
call returns, the checkpoint afterwards has length `coefs_size` and `checkpoint[n] =
coefs[n]` for every `n < coefs_size`, padding included, and the spline (the live
coefficients with it) is unchanged, as are the other members. -/
theorem storeParamsBeforeRotation_snapshot (S : RotationSet R)
    (h : S.spline.coefs_size ≤ S.spline.coefs.length) :
    ∃ cp, storeParamsBeforeRotation S = .ok { S with coef_copy_ := some cp } ∧
      cp.length = S.spline.coefs_size ∧
      ∀ n, n < S.spline.coefs_size → cp[n]? = S.spline.coefs[n]? := by
  refine ⟨S.spline.coefs.take S.spline.coefs_size ++
    (List.replicate S.spline.coefs_size (0 : R)).drop S.spline.coefs_size, ?_, ?_, ?_⟩
  · simp only [storeParamsBeforeRotation]
    rw [copy_n_some _ _ _ h (by simp)]
  · simp [Nat.min_eq_left h]
  · intro n hn
    simp only [List.drop_replicate, Nat.sub_self, List.replicate_zero, List.append_nil]
    rw [List.getElem?_take_of_lt hn]

/-- Witness of C15 on the sample table. -/
theorem storeParamsBeforeRotation_snapshot_witness :
    ∃ cp, storeParamsBeforeRotation sampleRotationSet0
        = .ok { sampleRotationSet0 with coef_copy_ := some cp } ∧
      cp.length = sampleRotationSet0.spline.coefs_size ∧
      ∀ n, n < sampleRotationSet0.spline.coefs_size →
        cp[n]? = sampleRotationSet0.spline.coefs[n]? :=
  storeParamsBeforeRotation_snapshot sampleRotationSet0 (by decide)

/-- Counterexample to C16: in a build with `NDEBUG` defined the two `assert`s on the shape
are no statements, and the call with a matrix of two rows and three columns for two orbitals
(and `use_stored_copy = false`) returns: it has overwritten the checkpoint with the
coefficients and has rotated the coefficients with the first two columns of the matrix. -/
theorem applyRotation_accepts_wide_matrix :
    sampleWideMatrix.cols ≠ sampleRotationSet.OrbitalSetSize ∧
      (applyRotation true sampleRotationSet sampleWideMatrix false).2 = none ∧
      (applyRotation true sampleRotationSet sampleWideMatrix false).1.coef_copy_
        = some [1, 2, 3, 4, 9, 9, 5, 6, 7, 8, 9, 9] ∧
      sampleRotationSet.coef_copy_ = some [1, 0, 0, 1, 0, 0, 2, 0, 0, 2, 0, 0] ∧
      (applyRotation true sampleRotationSet sampleWideMatrix false).1.spline.coefs
        = [4, 6, 4, 6, 9, 9, 12, 14, 12, 14, 9, 9] ∧
      sampleRotationSet.spline.coefs = [1, 2, 3, 4, 9, 9, 5, 6, 7, 8, 9, 9] := by
  decide

/-- C16, amended: in a build that keeps assertions (`NDEBUG` not defined) `applyRotation`
rejects a wrongly shaped matrix. For every `rot_mat` whose row count or column count differs
from `OrbitalSetSize` the call ends at one of the two `assert`s on the shape, which is the
failure `ShapeMismatch`, before anything is stored: the object that the call leaves, spline
coefficients and checkpoint included, is the object it was given. (The spline has at least
one channel, so that the division before the `assert`s is defined.) -/
theorem applyRotation_shape_mismatch (S : RotationSet R) (rot_mat : ValueMatrix R)
    (use_stored_copy : Bool) (hN : 0 < S.spline.num_splines)
    (h : rot_mat.rows ≠ S.OrbitalSetSize ∨ rot_mat.cols ≠ S.OrbitalSetSize) :
    applyRotation false S rot_mat use_stored_copy = (S, some Failure.ShapeMismatch) := by
  simp only [applyRotation, if_neg (Nat.pos_iff_ne_zero.mp hN), true_and]
  by_cases hr : S.OrbitalSetSize = rot_mat.rows
  · have hc : S.OrbitalSetSize ≠ rot_mat.cols := by
      rcases h with h | h
      · exact absurd hr.symm h
      · exact fun e => h e.symm
    rw [if_neg (not_not.mpr hr), if_pos hc]
  · rw [if_pos hr]

/-- Witness of the amended C16: a matrix with two rows and three columns for two orbitals. -/
theorem applyRotation_shape_mismatch_witness :
    applyRotation false sampleRotationSet sampleWideMatrix false
      = (sampleRotationSet, some Failure.ShapeMismatch) :=
  applyRotation_shape_mismatch sampleRotationSet sampleWideMatrix false (by decide)
    (Or.inr (by decide))

/-- Counterexample to C17: on the sample table with no checkpoint (the function
`storeParamsBeforeRotation` never called) and a matrix of the right shape, the call
`applyRotation(rot_mat, false)` ends at `assert(coef_copy_ != nullptr)`: no checkpoint is
created and the coefficients are not rotated. With `NDEBUG` defined the call does not
succeed either: it ends at the copy through the null checkpoint. -/
theorem applyRotation_no_checkpoint :
    RotationReady sampleRotationSet0 sampleRotation ∧
      sampleRotationSet0.coef_copy_ = none ∧
      (applyRotation false sampleRotationSet0 sampleRotation false).2
        = some Failure.NoCheckpoint ∧
      (applyRotation false sampleRotationSet0 sampleRotation false).1.coef_copy_ = none ∧
      (applyRotation false sampleRotationSet0 sampleRotation false).1.spline.coefs
        = sampleRotationSet0.spline.coefs ∧
      (applyRotation true sampleRotationSet0 sampleRotation false).2
        = some Failure.OutOfBounds ∧
      (applyRotation true sampleRotationSet0 sampleRotation false).1.coef_copy_ = none ∧
      (applyRotation true sampleRotationSet0 sampleRotation false).1.spline.coefs
        = sampleRotationSet0.spline.coefs := by
  decide

/-- C17, amended: the rotation checkpoint is created by `storeParamsBeforeRotation` only.
For a table and a matrix of the right shape, in either build: (1) with no checkpoint, the
call `applyRotation(rot_mat, false)` ends at `assert(coef_copy_ != nullptr)` (with `NDEBUG`
defined: at the copy through the null checkpoint) and leaves the object as it was;
(2) after `storeParamsBeforeRotation` the same call returns and the checkpoint holds the
pre-rotation coefficients; (3) with an existing checkpoint `cp0` that
covers the table, the call returns and the checkpoint is overwritten in place: it keeps the
length of `cp0`, its first `coefs_size` entries are the pre-rotation coefficients and the
entries after them are those of `cp0`. -/
theorem checkpoint_lifecycle (NDEBUG : Bool) (S : RotationSet R) (rot_mat : ValueMatrix R)
    (hready : RotationReady S rot_mat) :
    (S.coef_copy_ = none →
      applyRotation NDEBUG S rot_mat false
        = (S, some (if NDEBUG then Failure.OutOfBounds else Failure.NoCheckpoint))) ∧
    (∃ S1, storeParamsBeforeRotation S = .ok S1 ∧
      (applyRotation NDEBUG S1 rot_mat false).2 = none ∧
      (applyRotation NDEBUG S1 rot_mat false).1.coef_copy_ = some S.spline.coefs) ∧
    (∀ cp0, S.coef_copy_ = some cp0 → S.spline.coefs_size ≤ cp0.length →
      (applyRotation NDEBUG S rot_mat false).2 = none ∧
      ∃ cp, (applyRotation NDEBUG S rot_mat false).1.coef_copy_ = some cp ∧
        cp.length = cp0.length ∧
        (∀ n, n < S.spline.coefs_size → cp[n]? = S.spline.coefs[n]?) ∧
        ∀ n, S.spline.coefs_size ≤ n → cp[n]? = cp0[n]?) := by
  have hsz := hready.2.2.1
  refine ⟨fun h0 => ?_, ?_, fun cp0 h0 hl => ?_⟩
  · obtain ⟨hN, -, -, hr, hc, -⟩ := hready
    cases NDEBUG <;>
      simp only [applyRotation, if_neg (Nat.pos_iff_ne_zero.mp hN), hr, hc, ne_eq,
        not_true_eq_false, and_false, if_false, rotation_checkpoint, h0, Bool.not_false,
        if_true, Bool.false_eq_true]
  · have e : storeParamsBeforeRotation S = .ok { S with coef_copy_ := some S.spline.coefs } := by
      simp only [storeParamsBeforeRotation]
      rw [copy_n_full _ _ _ hsz (by simp)]
    refine ⟨_, e, ?_⟩
    have hready' : RotationReady { S with coef_copy_ := some S.spline.coefs } rot_mat := hready
    obtain ⟨c1, e1, -, -⟩ := applyRotation_with NDEBUG { S with coef_copy_ := some S.spline.coefs }
      rot_mat false S.spline.coefs hready'
      (rotation_checkpoint_false_full NDEBUG _ S.spline.coefs rfl hsz hsz) (by
        show S.spline.coefs_size ≤ S.spline.coefs.length
        rw [hsz])
    rw [e1]
    exact ⟨rfl, rfl⟩
  · obtain ⟨c1, e1, -, -⟩ := applyRotation_with NDEBUG S rot_mat false _ hready
      (rotation_checkpoint_false NDEBUG S cp0 h0 (by rw [hsz]) hl) (by
        simp only [List.length_append, List.length_take, List.length_drop]
        omega)
    rw [e1]
    refine ⟨rfl, _, rfl, ?_, fun n hn => ?_, fun n hn => ?_⟩
    · simp only [List.length_append, List.length_take, List.length_drop]
      omega
    · rw [List.getElem?_append_left (by simp only [List.length_take]; omega),
        List.getElem?_take_of_lt hn]
    · rw [List.getElem?_append_right (by simp only [List.length_take]; omega)]
      simp only [List.length_take, List.getElem?_drop]
      congr 1
      omega

/-- Witness of the amended C17 on the sample table without a checkpoint. -/
theorem checkpoint_lifecycle_witness :
    applyRotation false sampleRotationSet0 sampleRotation false
        = (sampleRotationSet0, some Failure.NoCheckpoint) ∧
      ∃ S1, storeParamsBeforeRotation sampleRotationSet0 = .ok S1 ∧
        (applyRotation false S1 sampleRotation false).2 = none ∧
        (applyRotation false S1 sampleRotation false).1.coef_copy_
          = some sampleRotationSet0.spline.coefs :=
  ⟨(checkpoint_lifecycle false sampleRotationSet0 sampleRotation (by decide)).1 rfl,
    (checkpoint_lifecycle false sampleRotationSet0 sampleRotation (by decide)).2.1⟩

end RotationClaims

/-! ## The rotation round trip -/

section RoundTrip

variable {R : Type} [CommRing R]

/-- Two rotations in a row multiply the matrices: rotating by `A` and then by a right
inverse of `A` gives back the coefficient pair. -/
theorem rotatedCoef_inverse (c c1 : List R) (A B : ValueMatrix R) (N n i j : Nat)
    (hinv : IsInverse n A B) (hj : j < n)
    (h1 : ∀ k, k < n → coefPair c1 N i k = rotatedCoef c A N n i k) :
    rotatedCoef c1 B N n i j = coefPair c N i j := by
  unfold rotatedCoef
  rw [Finset.sum_congr rfl (fun k hk => by rw [h1 k (Finset.mem_range.mp hk)])]
  simp only [rotatedCoef, Finset.sum_mul]
  rw [Finset.sum_comm]
  simp only [mul_assoc, ← Finset.mul_sum]
  rw [Finset.sum_congr rfl (fun l hl => by rw [hinv l (Finset.mem_range.mp hl) j hj])]
  simp only [mul_ite, mul_one, mul_zero]
  rw [Finset.sum_ite_eq' (Finset.range n) j, if_pos (Finset.mem_range.mpr hj)]

omit [CommRing R] in
/-- An index of a rotated entry, split into basis row, orbital and real or imaginary part. -/
theorem isRotated_index (S : RotationSet R) (n : Nat) (h : IsRotated S n) :
    n / S.spline.num_splines < S.spline.coefs_size / S.spline.num_splines ∧
      n % S.spline.num_splines / 2 < S.OrbitalSetSize ∧
      S.spline.num_splines * (n / S.spline.num_splines) + 2 * (n % S.spline.num_splines / 2)
        + n % S.spline.num_splines % 2 = n := by
  obtain ⟨h1, h2⟩ := h
  have h3 := Nat.div_add_mod n S.spline.num_splines
  refine ⟨?_, by omega, by omega⟩
  by_cases hN : S.spline.num_splines = 0
  · rw [hN] at h1; simp at h1
  · exact (Nat.div_lt_iff_lt_mul (Nat.pos_of_ne_zero hN)).mpr (by rw [Nat.mul_comm]; exact h1)

/-- The entries of the conjugate transpose of a square matrix. -/
theorem conjTranspose_entry (A : ValueMatrix R) (n k j : Nat) (hr : A.rows = n)
    (hc : A.cols = n) (hk : k < n) (hj : j < n) :
    A.conjTranspose.entry k j = Cplx.conj (A.entry j k) := by
  have h3 : (k + 1) * n ≤ n * n := Nat.mul_le_mul_right _ hk
  rw [Nat.add_mul, Nat.one_mul] at h3
  have e1 : (k * n + j) % n = j := by
    rw [Nat.mul_comm, Nat.mul_add_mod, Nat.mod_eq_of_lt hj]
  have e2 : (k * n + j) / n = k := by
    rw [Nat.mul_comm, Nat.mul_add_div (by omega), Nat.div_eq_of_lt hj, Nat.add_zero]
  simp only [OhmmsMatrix.entry, OhmmsMatrix.conjTranspose, hr, hc,
    List.getD_eq_getElem?_getD]
  rw [List.getElem?_map, List.getElem?_range (by omega)]
  simp only [Option.map_some', Option.getD_some, e1, e2]

/-- The conjugate transpose of a unitary matrix is a right inverse of it. -/
theorem isInverse_conjTranspose (A : ValueMatrix R) (n : Nat) (hr : A.rows = n)
    (hc : A.cols = n) (h : IsUnitary n A) : IsInverse n A A.conjTranspose := by
  intro l hl j hj
  rw [← h l hl j hj]
  exact Finset.sum_congr rfl (fun k hk => by
    rw [conjTranspose_entry A n k j hr hc (Finset.mem_range.mp hk) hj])

/-- A rotation followed by the rotation with a right inverse, both with a fresh checkpoint,
gives back the table. -/
theorem applyRotation_inverse (NDEBUG : Bool) (S : RotationSet R) (A B : ValueMatrix R)
    (cp0 : List R)
    (hA : RotationReady S A) (h0 : S.coef_copy_ = some cp0)
    (hl : cp0.length = S.spline.coefs_size)
    (hB : B.rows = S.OrbitalSetSize ∧ B.cols = S.OrbitalSetSize ∧
      B.data.length = B.rows * B.cols)
    (hinv : IsInverse S.OrbitalSetSize A B) :
    (applyRotation NDEBUG S A false).2 = none ∧
      (applyRotation NDEBUG (applyRotation NDEBUG S A false).1 B false).2 = none ∧
      (applyRotation NDEBUG (applyRotation NDEBUG S A false).1 B false).1.spline.coefs = S.spline.coefs := by
  have hsz := hA.2.2.1
  obtain ⟨c1, e1, l1, v1⟩ := applyRotation_with NDEBUG S A false _ hA
    (rotation_checkpoint_false_full NDEBUG S cp0 h0 hsz hl) (by rw [hsz])
  rw [e1]
  have hB' : RotationReady
      { S with spline := { S.spline with coefs := c1 }, coef_copy_ := some S.spline.coefs } B :=
    ⟨hA.1, hA.2.1, l1.trans hsz, hB.1, hB.2.1, hB.2.2⟩
  obtain ⟨c2, e2, l2, v2⟩ := applyRotation_with NDEBUG
    { S with spline := { S.spline with coefs := c1 }, coef_copy_ := some S.spline.coefs } B
    false c1 hB' (rotation_checkpoint_false_full NDEBUG _ S.spline.coefs rfl (l1.trans hsz) hsz)
    (by show S.spline.coefs_size ≤ c1.length; rw [l1, hsz])
  rw [e2]
  refine ⟨rfl, rfl, ?_⟩
  show c2 = S.spline.coefs
  apply List.ext_getElem?
  intro n
  have v2' : ∀ n, c2[n]? = if IsRotated S n
      then some (rotatedAt c1 B S.spline.num_splines S.OrbitalSetSize n) else c1[n]? := v2
  rw [v2' n]
  by_cases hn : IsRotated S n
  · rw [if_pos hn]
    obtain ⟨hi, hj, hsplit⟩ := isRotated_index S n hn
    have hc := rotatedCoef_inverse S.spline.coefs c1 A B S.spline.num_splines S.OrbitalSetSize
      (n / S.spline.num_splines) (n % S.spline.num_splines / 2) hinv hj
      (fun k hk => coefPair_of_rotated S A _ c1 hA.2.1 v1 _ k hi hk)
    have hlt : n < S.spline.coefs.length := by
      have := Nat.mul_div_le S.spline.coefs_size S.spline.num_splines
      have := hn.1
      omega
    rw [List.getElem?_eq_getElem hlt]
    congr 1
    unfold rotatedAt
    rw [hc]
    by_cases hp : n % S.spline.num_splines % 2 = 0
    · rw [if_pos hp]
      simp only [coefPair, rd, List.getD_eq_getElem?_getD]
      rw [show S.spline.num_splines * (n / S.spline.num_splines)
        + 2 * (n % S.spline.num_splines / 2) = n from by omega,
        List.getElem?_eq_getElem hlt, Option.getD_some]
    · rw [if_neg hp]
      simp only [coefPair, rd, List.getD_eq_getElem?_getD]
      rw [show S.spline.num_splines * (n / S.spline.num_splines)
        + 2 * (n % S.spline.num_splines / 2) + 1 = n from by omega,
        List.getElem?_eq_getElem hlt, Option.getD_some]
  · rw [if_neg hn, v1 n, if_neg hn]

/-- C18: rotation round trip in exact arithmetic. For a coefficient table with an existing
checkpoint (of the size of the table) and an `OrbitalSetSize x OrbitalSetSize` matrix
`rot_mat`: for every matrix `inv` of the same shape with `rot_mat * inv` the identity, the
call `applyRotation(rot_mat, false)` followed by `applyRotation(inv, false)` returns both
times and leaves the coefficient table equal to the original one, entry for entry; and when
`rot_mat` is unitary its conjugate transpose serves as `inv`. This holds whether or not
`NDEBUG` is defined. -/
theorem rotation_round_trip (NDEBUG : Bool) (S : RotationSet R) (rot_mat : ValueMatrix R)
    (cp0 : List R)
    (hready : RotationReady S rot_mat) (h0 : S.coef_copy_ = some cp0)
    (hl : cp0.length = S.spline.coefs_size) :
    (∀ inv : ValueMatrix R, inv.rows = S.OrbitalSetSize → inv.cols = S.OrbitalSetSize →
      inv.data.length = inv.rows * inv.cols → IsInverse S.OrbitalSetSize rot_mat inv →
      (applyRotation NDEBUG S rot_mat false).2 = none ∧
        (applyRotation NDEBUG (applyRotation NDEBUG S rot_mat false).1 inv false).2 = none ∧
        (applyRotation NDEBUG (applyRotation NDEBUG S rot_mat false).1 inv false).1.spline.coefs
          = S.spline.coefs) ∧
    (IsUnitary S.OrbitalSetSize rot_mat →
      (applyRotation NDEBUG S rot_mat false).2 = none ∧
        (applyRotation NDEBUG (applyRotation NDEBUG S rot_mat false).1 rot_mat.conjTranspose false).2 = none ∧
        (applyRotation NDEBUG (applyRotation NDEBUG S rot_mat false).1 rot_mat.conjTranspose
          false).1.spline.coefs = S.spline.coefs) := by
  refine ⟨fun inv h1 h2 h3 hinv =>
    applyRotation_inverse NDEBUG S rot_mat inv cp0 hready h0 hl ⟨h1, h2, h3⟩ hinv, fun hu => ?_⟩
  have hr := hready.2.2.2.1
  have hc := hready.2.2.2.2.1
  refine applyRotation_inverse NDEBUG S rot_mat rot_mat.conjTranspose cp0 hready h0 hl
    ⟨hc, hr, ?_⟩ (isInverse_conjTranspose rot_mat S.OrbitalSetSize hr hc hu)
  simp [OhmmsMatrix.conjTranspose]

/-- Witness of C18: the sample matrix is unitary and its own inverse, and both round trips
restore the sample table. -/
theorem rotation_round_trip_witness :
    IsInverse 2 sampleRotation sampleRotation ∧ IsUnitary 2 sampleRotation ∧
      (applyRotation false (applyRotation false sampleRotationSet sampleRotation false).1 sampleRotation
        false).1.spline.coefs = sampleRotationSet.spline.coefs ∧
      (applyRotation false (applyRotation false sampleRotationSet sampleRotation false).1
        sampleRotation.conjTranspose false).1.spline.coefs = sampleRotationSet.spline.coefs :=
  ⟨by decide, by decide,
    ((rotation_round_trip false sampleRotationSet sampleRotation _ (by decide) rfl (by decide)).1
      sampleRotation rfl rfl rfl (by decide)).2.2,
    ((rotation_round_trip false sampleRotationSet sampleRotation _ (by decide) rfl (by decide)).2
      (by decide)).2.2⟩

end RoundTrip

/-! ## The archive round trip -/

section ArchiveClaims

variable {R A : Type}

/-- The sample archive keeps what it is given. -/
theorem sample_keepsEntries : KeepsEntries sampleReadEntry sampleWriteEntry := by
  intro a t t0 name _
  simp [sampleReadEntry, sampleWriteEntry, List.lookup]

/-- C19: archive round trip of `SplineC2CT`. The functions `write_splines` and
`read_splines` address the same entry, named `"spline_"` followed by `MyIndex`, and the flag
each returns is exactly the flag of the archive operation. Hence on an archive that keeps
its entries, a `write_splines` that succeeds followed by `read_splines` on a set with the
same `MyIndex` (whatever its coefficient table holds by then) returns true and leaves the
coefficient table equal to the one written. -/
theorem splines_round_trip (readEntry : A → SplineType R → String → Bool × SplineType R)
    (writeEntry : A → SplineType R → String → Bool × A) (S S1 : RotationSet R) (h5f : A)
    (hkeep : KeepsEntries readEntry writeEntry) (hidx : S1.MyIndex = S.MyIndex)
    (hw : (write_splines writeEntry S h5f).1 = true) :
    write_splines writeEntry S h5f = writeEntry h5f S.spline ("spline_" ++ toString S.MyIndex) ∧
      (read_splines readEntry S1 h5f).1
        = (readEntry h5f S1.spline ("spline_" ++ toString S.MyIndex)).1 ∧
      (read_splines readEntry S1 (write_splines writeEntry S h5f).2).1 = true ∧
      (read_splines readEntry S1 (write_splines writeEntry S h5f).2).2.spline = S.spline := by
  have h := hkeep h5f S.spline S1.spline ("spline_" ++ toString S.MyIndex) hw
  refine ⟨rfl, ?_, ?_, ?_⟩
  · simp only [read_splines, hidx]
  · simp only [read_splines, write_splines, hidx, h]
  · simp only [read_splines, write_splines, hidx, h]

/-- Witness of C19: the sample table written to an empty sample archive and read back into
a set whose table was rotated in between. -/
theorem splines_round_trip_witness :
    write_splines sampleWriteEntry sampleRotationSet []
        = sampleWriteEntry [] sampleRotationSet.spline
            ("spline_" ++ toString sampleRotationSet.MyIndex) ∧
      (read_splines sampleReadEntry (applyRotation false sampleRotationSet sampleRotation false).1
          ([] : List (String × SplineType Int))).1
        = (sampleReadEntry [] (applyRotation false sampleRotationSet sampleRotation false).1.spline
            ("spline_" ++ toString sampleRotationSet.MyIndex)).1 ∧
      (read_splines sampleReadEntry (applyRotation false sampleRotationSet sampleRotation false).1
          (write_splines sampleWriteEntry sampleRotationSet []).2).1 = true ∧
      (read_splines sampleReadEntry (applyRotation false sampleRotationSet sampleRotation false).1
          (write_splines sampleWriteEntry sampleRotationSet []).2).2.spline
        = sampleRotationSet.spline :=
  splines_round_trip sampleReadEntry sampleWriteEntry sampleRotationSet
    (applyRotation false sampleRotationSet sampleRotation false).1 [] sample_keepsEntries rfl rfl

end ArchiveClaims

/-! ## Determinant ratios -/

section DetRatiosClaims

/-- C11, the failing input: the sample set has `first_spo = 1` and two orbitals with the
values `1 + 2i` and `3 + 4i` at the origin, which `assign_v` writes to `psi[1]` and `psi[2]`.
With an inverse row of ones the claimed ratio is their sum `4 + 6i`, but the call returns
`1 + 2i`: the dot product is taken over `psi[0]` and `psi[1]`, without the offset
`first_spo`. With `first_spo = 0` the same data give `4 + 6i`. -/
theorem evaluateDetRatios_ignores_first_spo :
    (evaluateDetRatios sincosZero sampleSpline id (freshState sampleSet) [originR] sampleInv
        [(0, 8)]).map (fun st => (st.psi, st.ratios))
      = some ([0, ⟨1, 2⟩, ⟨3, 4⟩, 0], [⟨1, 2⟩]) ∧
    ∑ j ∈ Finset.range sampleSet.kPointsSize,
        rd [0, (⟨1, 2⟩ : Cplx Int), ⟨3, 4⟩, 0] (sampleSet.first_spo + j)
          * rd sampleInv (sampleSet.first_spo + j) = ⟨4, 6⟩ ∧
    (evaluateDetRatios sincosZero sampleSpline id (freshState sampleSetZero) [originR] sampleInv
        [(0, 8)]).map (fun st => (st.psi, st.ratios))
      = some ([⟨1, 2⟩, ⟨3, 4⟩, 0, 0], [⟨4, 6⟩]) := by
  decide

/-- C12, the failing input: with `first_spo = 0` and one position, a fresh instance returns
the ratio `4 + 6i`, with one thread and with two threads. The call with two threads leaves
`ratios_private` with one row and two columns, holding the partial sums `1 + 2i` and
`3 + 4i`. A call with one thread after it does not resize the matrix (it has rows enough),
writes the first column only, and the reduction adds the stale second column: the ratio
returned is `7 + 10i`. -/
theorem evaluateDetRatios_stale_columns :
    (evaluateDetRatios sincosZero sampleSpline id (freshState sampleSetZero) [originR] sampleInv
        [(0, 8)]).map (fun st => st.ratios) = some [⟨4, 6⟩] ∧
    (evaluateDetRatios sincosZero sampleSpline id (freshState sampleSetZero) [originR] sampleInv
        [(0, 2), (2, 8)]).map (fun st => (st.ratios, st.ratios_private.data))
      = some ([⟨4, 6⟩], [⟨1, 2⟩, ⟨3, 4⟩]) ∧
    ((evaluateDetRatios sincosZero sampleSpline id (freshState sampleSetZero) [originR] sampleInv
        [(0, 2), (2, 8)]).bind (fun st =>
          evaluateDetRatios sincosZero sampleSpline id st [originR] sampleInv [(0, 8)])).map
        (fun st => st.ratios) = some [⟨7, 10⟩] := by
  decide

end DetRatiosClaims

/-! ## The hybrid representation -/

section HybridLemmas

variable {R : Type} [CommRing R]

/-- The spline `evaluateValue` does not read what the scratch `myV` holds on entry: two
sets that differ in the scratch only produce the same `psi`. -/
theorem evaluateValue_scratch (sincos : R → R × R) (spline : MultiBspline R)
    (toUnit_floor : (Fin 3 → R) → (Fin 3 → R)) (S S0 : SplineC2CT R) (r : Fin 3 → R)
    (psi : List (Cplx R)) (shares : List (Int × Int))
    (hshares : ∀ sh ∈ shares, 0 ≤ sh.1 ∧ sh.1 ≤ sh.2 ∧ sh.2 ≤ 2 * (psi.length : Int) ∧
      sh.1 % 2 = 0 ∧ sh.2 % 2 = 0)
    (hn : psi.length < 2 ^ 30) (hk : S.kPointsSize < 2 ^ 31)
    (hchan : 2 * S.kPointsSize ≤ spline.num_splines)
    (hS : S0.kPointsSize = S.kPointsSize ∧ S0.first_spo = S.first_spo ∧
      S0.myKcart = S.myKcart)
    (hV : spline.num_splines ≤ S.myV.length) (hV0 : spline.num_splines ≤ S0.myV.length)
    (hK : ∀ a : Fin 3, S.kPointsSize ≤ (S.myKcart a).length)
    (hpsi : min psi.length S.kPointsSize + S.first_spo ≤ psi.length) :
    ∃ st st0, evaluateValue sincos spline toUnit_floor S r psi shares = some st ∧
      evaluateValue sincos spline toUnit_floor S0 r psi shares = some st0 ∧ st0.2 = st.2 := by
  obtain ⟨st, e, -, v⟩ := evaluateValue_fold sincos spline S r (toUnit_floor r) psi.length hn hk
    hchan hK shares S psi hshares ⟨rfl, rfl, rfl⟩ hV hpsi
  obtain ⟨st0, e0, -, v0⟩ := evaluateValue_fold sincos spline S r (toUnit_floor r) psi.length hn
    hk hchan hK shares S0 psi hshares hS hV0 hpsi
  refine ⟨st, st0, e, e0, ?_⟩
  apply List.ext_getElem?
  intro i
  rw [v i, v0 i]

end HybridLemmas

section HybridClaims

variable {R H : Type} [LinearOrderedCommRing R]

/-- C20: the three-way branch of `HybridRepCplx::evaluateValue` on the smoothing factor `f`
that the atomic-region engine returns with the raw values `myV_AO`. For a spline set whose
buffers are large enough and thread shares inside `[0, 2 * psi.size())` with even bounds
(so that the spline `evaluateValue` returns): (1) if `f < 0` the call returns and `psi` is
the `psi` of the spline `evaluateValue` alone, run on the set as it was before the engine
filled the scratch; (2) if `f == 1` the result is that of `assign_v` applied to the
atomic-region raw values over `[0, myV.size()/2)`, and the spline `evaluateValue` is not
invoked: the result is the same for every spline table and every list of shares; (3) for
any other `f` the output is `interpolate_buffer_v` applied to the `psi` of the spline
`evaluateValue` alone and to `psi_AO`, where `psi_AO` is `assign_v` of the atomic-region raw
values (written into `psi_AO` resized to `psi.size()`, before the spline call overwrites
the scratch). -/
theorem evaluateValue_three_way (sincos : R → R × R) (spline : MultiBspline R)
    (toUnit_floor : (Fin 3 → R) → (Fin 3 → R))
    (evaluate_v : H → (Fin 3 → R) → List R → H × R × List R)
    (interpolate_buffer_v : H → List (Cplx R) → List (Cplx R) → List (Cplx R))
    (X : HybridRepCplx R H) (r : Fin 3 → R) (psi : List (Cplx R))
    (shares : List (Int × Int))
    (hshares : ∀ sh ∈ shares, 0 ≤ sh.1 ∧ sh.1 ≤ sh.2 ∧ sh.2 ≤ 2 * (psi.length : Int) ∧
      sh.1 % 2 = 0 ∧ sh.2 % 2 = 0)
    (hn : psi.length < 2 ^ 30) (hk : X.base.kPointsSize < 2 ^ 31)
    (hchan : 2 * X.base.kPointsSize ≤ spline.num_splines)
    (hV : spline.num_splines ≤ X.base.myV.length)
    (hV0 : spline.num_splines ≤ (evaluate_v X.center r X.base.myV).2.2.length)
    (hK : ∀ a : Fin 3, X.base.kPointsSize ≤ (X.base.myKcart a).length)
    (hpsi : min psi.length X.base.kPointsSize + X.base.first_spo ≤ psi.length) :
    ((evaluate_v X.center r X.base.myV).2.1 < 0 →
      ∃ st, evaluateValue sincos spline toUnit_floor X.base r psi shares = some st ∧
        (HybridRepCplx.evaluateValue sincos spline toUnit_floor evaluate_v
          interpolate_buffer_v X r psi shares).map (fun out => out.2) = some st.2) ∧
    ((evaluate_v X.center r X.base.myV).2.1 = 1 →
      (HybridRepCplx.evaluateValue sincos spline toUnit_floor evaluate_v
          interpolate_buffer_v X r psi shares).map (fun out => out.2)
        = assign_v sincos { X.base with myV := (evaluate_v X.center r X.base.myV).2.2 } r
            (evaluate_v X.center r X.base.myV).2.2 psi 0
            (toInt ((evaluate_v X.center r X.base.myV).2.2.length / 2)) ∧
      ∀ (spline2 : MultiBspline R) (shares2 : List (Int × Int)),
        HybridRepCplx.evaluateValue sincos spline2 toUnit_floor evaluate_v
            interpolate_buffer_v X r psi shares2
          = HybridRepCplx.evaluateValue sincos spline toUnit_floor evaluate_v
            interpolate_buffer_v X r psi shares) ∧
    (¬ (evaluate_v X.center r X.base.myV).2.1 < 0 →
      (evaluate_v X.center r X.base.myV).2.1 ≠ 1 →
      ∃ st, evaluateValue sincos spline toUnit_floor X.base r psi shares = some st ∧
        (HybridRepCplx.evaluateValue sincos spline toUnit_floor evaluate_v
          interpolate_buffer_v X r psi shares).map (fun out => out.2)
        = (assign_v sincos { X.base with myV := (evaluate_v X.center r X.base.myV).2.2 } r
            (evaluate_v X.center r X.base.myV).2.2 (resizeVector X.psi_AO psi.length) 0
            (toInt ((evaluate_v X.center r X.base.myV).2.2.length / 2))).map
          (fun psi_AO =>
            interpolate_buffer_v (evaluate_v X.center r X.base.myV).1 st.2 psi_AO)) := by
  obtain ⟨st, st0, e, e0, hst⟩ := evaluateValue_scratch sincos spline toUnit_floor X.base
    { X.base with myV := (evaluate_v X.center r X.base.myV).2.2 } r psi shares hshares hn hk
    hchan ⟨rfl, rfl, rfl⟩ hV hV0 hK hpsi
  refine ⟨fun hf => ⟨st, e, ?_⟩, fun hf => ⟨?_, fun spline2 shares2 => ?_⟩,
    fun h1 h2 => ⟨st, e, ?_⟩⟩
  · have h : HybridRepCplx.evaluateValue sincos spline toUnit_floor evaluate_v
        interpolate_buffer_v X r psi shares = _ := if_pos hf
    rw [h, e0, Option.map_some', Option.map_some', hst]
  · have h0 : ¬ (evaluate_v X.center r X.base.myV).2.1 < 0 := by
      rw [hf]; exact not_lt.mpr zero_le_one
    have h : HybridRepCplx.evaluateValue sincos spline toUnit_floor evaluate_v
        interpolate_buffer_v X r psi shares
        = (assign_v sincos { X.base with myV := (evaluate_v X.center r X.base.myV).2.2 } r
            (evaluate_v X.center r X.base.myV).2.2 psi 0
            (toInt ((evaluate_v X.center r X.base.myV).2.2.length / 2))).map _ :=
      (if_neg h0).trans (if_pos hf)
    rw [h]
    generalize assign_v sincos { X.base with myV := (evaluate_v X.center r X.base.myV).2.2 } r
        (evaluate_v X.center r X.base.myV).2.2 psi 0
        (toInt ((evaluate_v X.center r X.base.myV).2.2.length / 2)) = a
    cases a <;> rfl
  · have h0 : ¬ (evaluate_v X.center r X.base.myV).2.1 < 0 := by
      rw [hf]; exact not_lt.mpr zero_le_one
    have h : HybridRepCplx.evaluateValue sincos spline toUnit_floor evaluate_v
        interpolate_buffer_v X r psi shares = _ := (if_neg h0).trans (if_pos hf)
    have h2 : HybridRepCplx.evaluateValue sincos spline2 toUnit_floor evaluate_v
        interpolate_buffer_v X r psi shares2 = _ := (if_neg h0).trans (if_pos hf)
    rw [h, h2]
  · have h : HybridRepCplx.evaluateValue sincos spline toUnit_floor evaluate_v
        interpolate_buffer_v X r psi shares
        = (assign_v sincos { X.base with myV := (evaluate_v X.center r X.base.myV).2.2 }
            r (evaluate_v X.center r X.base.myV).2.2 (resizeVector X.psi_AO psi.length) 0
            (toInt ((evaluate_v X.center r X.base.myV).2.2.length / 2))).bind
          (fun psi_AO =>
            (evaluateValue sincos spline toUnit_floor
              { X.base with myV := (evaluate_v X.center r X.base.myV).2.2 } r psi shares).map
              (fun st => (_, interpolate_buffer_v (evaluate_v X.center r X.base.myV).1 st.2
                psi_AO))) :=
      (if_neg h1).trans (if_neg h2)
    rw [h, e0]
    generalize assign_v sincos { X.base with myV := (evaluate_v X.center r X.base.myV).2.2 } r
        (evaluate_v X.center r X.base.myV).2.2 (resizeVector X.psi_AO psi.length) 0
        (toInt ((evaluate_v X.center r X.base.myV).2.2.length / 2)) = a
    cases a with
    | none => rfl
    | some psi_AO =>
      simp only [Option.some_bind, Option.map_some', hst]

/-- Witness of C20 on the sample hybrid set, with an engine that returns `-1`, `1` and `0`
for the three branches. -/
theorem evaluateValue_three_way_witness :
    (∃ st, evaluateValue sampleSincos sampleSpline id sampleHybrid.base sampleR samplePsi
        [(0, 4), (4, 8)] = some st ∧
      (HybridRepCplx.evaluateValue sampleSincos sampleSpline id (sampleEvaluateV (-1))
        sampleInterpolate sampleHybrid sampleR samplePsi [(0, 4), (4, 8)]).map
        (fun out => out.2) = some st.2) ∧
    (HybridRepCplx.evaluateValue sampleSincos sampleSpline id (sampleEvaluateV 1)
        sampleInterpolate sampleHybrid sampleR samplePsi [(0, 4), (4, 8)]).map
        (fun out => out.2)
      = assign_v sampleSincos
          { sampleHybrid.base with
            myV := (sampleEvaluateV 1 sampleHybrid.center sampleR sampleHybrid.base.myV).2.2 }
          sampleR (sampleEvaluateV 1 sampleHybrid.center sampleR sampleHybrid.base.myV).2.2
          samplePsi 0
          (toInt ((sampleEvaluateV 1 sampleHybrid.center sampleR
            sampleHybrid.base.myV).2.2.length / 2)) ∧
    (∃ st, evaluateValue sampleSincos sampleSpline id sampleHybrid.base sampleR samplePsi
        [(0, 4), (4, 8)] = some st ∧
      (HybridRepCplx.evaluateValue sampleSincos sampleSpline id (sampleEvaluateV 0)
        sampleInterpolate sampleHybrid sampleR samplePsi [(0, 4), (4, 8)]).map
        (fun out => out.2)
      = (assign_v sampleSincos
          { sampleHybrid.base with
            myV := (sampleEvaluateV 0 sampleHybrid.center sampleR sampleHybrid.base.myV).2.2 }
          sampleR (sampleEvaluateV 0 sampleHybrid.center sampleR sampleHybrid.base.myV).2.2
          (resizeVector sampleHybrid.psi_AO samplePsi.length) 0
          (toInt ((sampleEvaluateV 0 sampleHybrid.center sampleR
            sampleHybrid.base.myV).2.2.length / 2))).map
        (fun psi_AO => sampleInterpolate
          (sampleEvaluateV 0 sampleHybrid.center sampleR sampleHybrid.base.myV).1 st.2
          psi_AO)) :=
  ⟨(evaluateValue_three_way sampleSincos sampleSpline id (sampleEvaluateV (-1))
      sampleInterpolate sampleHybrid sampleR samplePsi [(0, 4), (4, 8)] (by decide) (by decide)
      (by decide) (by decide) (by decide) (by decide) (by decide) (by decide)).1 (by decide),
    ((evaluateValue_three_way sampleSincos sampleSpline id (sampleEvaluateV 1)
      sampleInterpolate sampleHybrid sampleR samplePsi [(0, 4), (4, 8)] (by decide) (by decide)
      (by decide) (by decide) (by decide) (by decide) (by decide) (by decide)).2.1 rfl).1,
    (evaluateValue_three_way sampleSincos sampleSpline id (sampleEvaluateV 0)
      sampleInterpolate sampleHybrid sampleR samplePsi [(0, 4), (4, 8)] (by decide) (by decide)
      (by decide) (by decide) (by decide) (by decide) (by decide) (by decide)).2.2 (by decide)
      (by decide)⟩

end HybridClaims

/-! ## The evaluation modes on the same scratch -/

section ModesAgree

variable {R : Type} [CommRing R]

theorem assign_vgh_val_psi (sincos : R → R × R) (S : SplineC2CT R) (r : Fin 3 → R) (j : Nat) :
    (assign_vgh_val sincos S r j).1 = assign_v_val sincos S r S.myV j := by
  conv_lhs => whnf
  conv_rhs => whnf
  apply Cplx.ext <;> simp only [shl_one] <;> ring

theorem assign_vgh_val_dpsi (sincos : R → R × R) (S : SplineC2CT R) (r : Fin 3 → R) (j : Nat)
    (a : Fin 3) :
    (assign_vgh_val sincos S r j).2.1 a = (assign_vgl_val sincos S r j).2.1 a := by
  fin_cases a <;>
  (conv_lhs => whnf
   conv_rhs => whnf)

theorem assign_vghgh_val_psi (sincos : R → R × R) (S : SplineC2CT R) (r : Fin 3 → R) (j : Nat) :
    (assign_vghgh_val sincos S r j).1 = assign_v_val sincos S r S.myV j := by
  conv_lhs => whnf
  conv_rhs => whnf
  apply Cplx.ext <;> simp only [shl_one] <;> ring

theorem assign_vghgh_val_dpsi (sincos : R → R × R) (S : SplineC2CT R) (r : Fin 3 → R) (j : Nat)
    (a : Fin 3) :
    (assign_vghgh_val sincos S r j).2.1 a = (assign_vgl_val sincos S r j).2.1 a := by
  fin_cases a <;>
  (conv_lhs => whnf
   conv_rhs => whnf)

end ModesAgree

/-! ## Orbitals with a zero k-vector -/

section ZeroTwist

variable {R : Type} [CommRing R]

/-- The phase factor of an orbital with a zero k-vector, when `sincos(0) = (0, 1)`. -/
theorem blochPhase_zero (sincos : R → R × R) (S : SplineC2CT R) (r : Fin 3 → R) (j : Nat)
    (hk : ∀ a : Fin 3, rd (S.myKcart a) j = 0) (hs : sincos 0 = (0, 1)) :
    blochPhase sincos S r j = 1 := by
  apply Cplx.ext <;>
    simp only [blochPhase, kvec, hk, mul_zero, add_zero, neg_zero, hs] <;> rfl

/-- The value written by `assign_v` for an orbital with a zero k-vector. -/
theorem assign_v_val_zero (sincos : R → R × R) (S : SplineC2CT R) (r : Fin 3 → R)
    (myV : List R) (j : Nat) (hk : ∀ a : Fin 3, rd (S.myKcart a) j = 0)
    (hs : sincos 0 = (0, 1)) :
    assign_v_val sincos S r myV j = psi_raw myV j := by
  rw [assign_v_val_eq, blochPhase_zero sincos S r j hk hs, mul_one]

/-- The gradient written by `assign_vgl` for an orbital with a zero k-vector. -/
theorem assign_vgl_val_dpsi_zero (sincos : R → R × R) (S : SplineC2CT R) (r : Fin 3 → R)
    (j : Nat) (hk : ∀ a : Fin 3, rd (S.myKcart a) j = 0) (hs : sincos 0 = (0, 1))
    (a : Fin 3) : (assign_vgl_val sincos S r j).2.1 a = cartGrad S j a := by
  rw [assign_vgl_val_dpsi, blochPhase_zero sincos S r j hk hs, one_mul]
  apply Cplx.ext <;> simp [kvec, hk]

/-- The Laplacian written by `assign_vgl` for an orbital with a zero k-vector and
`mKK[j] = 0`. -/
theorem assign_vgl_val_d2psi_zero (sincos : R → R × R) (S : SplineC2CT R) (r : Fin 3 → R)
    (j : Nat) (hk : ∀ a : Fin 3, rd (S.myKcart a) j = 0) (hKK : rd S.mKK j = 0)
    (hs : sincos 0 = (0, 1)) : (assign_vgl_val sincos S r j).2.2 = rawLap S j := by
  rw [assign_vgl_val_d2psi sincos S r j (by simp [kSq, kvec, hk, hKK]),
    blochPhase_zero sincos S r j hk hs, one_mul]
  apply Cplx.ext <;> simp [kSq, kDotGrad, kvec, hk]

/-- The Hessian written by `assign_vgh` for an orbital with a zero k-vector. -/
theorem assign_vgh_val_gg_zero (sincos : R → R × R) (S : SplineC2CT R) (r : Fin 3 → R)
    (j : Nat) (hk : ∀ a : Fin 3, rd (S.myKcart a) j = 0) (hs : sincos 0 = (0, 1))
    (a b : Fin 3) :
    (assign_vgh_val sincos S r j).2.2 (idx9 a b) = cartHess S j a b := by
  have h0 := hk 0
  have h1 := hk 1
  have h2 := hk 2
  fin_cases a <;> fin_cases b <;>
  (conv_lhs => whnf
   apply Cplx.ext <;>
    simp only [cartHess, shl_one, h0, h1, h2, mul_zero, add_zero, neg_zero, hs, zero_mul,
      sub_zero, one_mul, zero_add,
      Fin.val_zero, Fin.val_one, Fin.val_two, Nat.mul_zero, Nat.zero_add, Nat.mul_one,
      Nat.reduceMul, Nat.reduceAdd, Fin.isValue, Fin.zero_eta, Fin.mk_one, Fin.reduceFinMk])

/-- The Hessian written by `assign_vghgh` for an orbital with a zero k-vector. -/
theorem assign_vghgh_val_gg_zero (sincos : R → R × R) (S : SplineC2CT R) (r : Fin 3 → R)
    (j : Nat) (hk : ∀ a : Fin 3, rd (S.myKcart a) j = 0) (hs : sincos 0 = (0, 1))
    (a b : Fin 3) :
    (assign_vghgh_val sincos S r j).2.2.1 (idx9 a b) = cartHess S j a b := by
  have h0 := hk 0
  have h1 := hk 1
  have h2 := hk 2
  fin_cases a <;> fin_cases b <;>
  (conv_lhs => whnf
   apply Cplx.ext <;>
    simp only [cartHess, shl_one, h0, h1, h2, mul_zero, add_zero, neg_zero, hs, zero_mul,
      sub_zero, one_mul, zero_add,
      Fin.val_zero, Fin.val_one, Fin.val_two, Nat.mul_zero, Nat.zero_add, Nat.mul_one,
      Nat.reduceMul, Nat.reduceAdd, Fin.isValue, Fin.zero_eta, Fin.mk_one, Fin.reduceFinMk]
    <;> exact v_m_v_symm _ _ _ _ _ _ _ _ _ _ _ _)

/-- The third derivatives written by `assign_vghgh` for an orbital with a zero k-vector. -/
theorem assign_vghgh_val_ggg_zero (sincos : R → R × R) (S : SplineC2CT R) (r : Fin 3 → R)
    (j : Nat) (hk : ∀ a : Fin 3, rd (S.myKcart a) j = 0) (hs : sincos 0 = (0, 1))
    (a b c : Fin 3) :
    (assign_vghgh_val sincos S r j).2.2.2 a (idx9 b c) = cartGGG S j a b c := by
  rw [assign_vghgh_val_ggg, phaseGGG, blochPhase_zero sincos S r j hk hs, one_mul]
  apply Cplx.ext <;> simp [kvec, hk]

end ZeroTwist

/-! ## Agreement of the kernels and the zero-twist reduction -/

section KernelClaims

variable {R : Type} [CommRing R]

/-- The entries of `psi` after `assign_v` on the scratch of the set itself. -/
theorem assign_v_frame (sincos : R → R × R) (S : SplineC2CT R) (r : Fin 3 → R)
    (psi : List (Cplx R)) (first last : Int) (hk : S.kPointsSize < 2 ^ 31)
    (hf : -2 ^ 31 ≤ first ∧ first < 2 ^ 31) (hl : -2 ^ 31 ≤ last ∧ last < 2 ^ 31)
    (hS : WellSized S) (hpsi : S.first_spo + S.kPointsSize ≤ psi.length) :
    ∃ out, assign_v sincos S r S.myV psi first last = some out ∧
      ∀ i, out[i]? = if Written S first last i
        then some (assign_v_val sincos S r S.myV (i - S.first_spo)) else psi[i]? := by
  have hlt : ∀ i, toSizeT first ≤ i →
      i < (if last < 0 then S.kPointsSize else min last.toNat S.kPointsSize) →
      i < S.kPointsSize := fun i a b => processed_lt ((processed_iff hk hf hl i).mp ⟨a, b⟩)
  obtain ⟨out, h1, h2⟩ := assign_v_loop sincos S r S.myV psi first last _ _ rfl
    (toSizeT_protect_last hk hl.1 hl.2)
    (fun i a b => (wellSized_reads hS (hlt i a b)).1)
    (fun i a b => by have := hlt i a b; omega)
  exact ⟨out, h1, Upd_written (f := fun j => assign_v_val sincos S r S.myV j) hk hf hl h2⟩

omit [CommRing R] in
/-- The output index of a processed orbital is a written index. -/
theorem written_of_processed (S : SplineC2CT R) (first last : Int) (j : Nat)
    (h : Processed first last S.kPointsSize j) : Written S first last (j + S.first_spo) := by
  refine ⟨by omega, ?_⟩
  rw [Nat.add_sub_cancel]
  exact h

/-- C26: zero-twist reduction. For an orbital `j` in the processed range with
`k_j = (0, 0, 0)` and `mKK[j] = 0`, and `sincos(0) = (0, 1)` (so `s = 0`, `c = 1`), the four
kernels complete and the real parts of what they write at `first_spo + j` are computed from
the real channel `2j` alone, as a real-only evaluation computes them: `psi` has the real
part `myV[2j]`, the gradient the rows of `G` contracted with the raw gradient, the Laplacian
the `SymTrace` of the raw Hessian, the Hessian the `v_m_v` contractions and the third
derivatives the `t3_contract` contractions, none with a term in `k`. -/
theorem zero_twist_reduction (sincos : R → R × R) (S : SplineC2CT R) (r : Fin 3 → R)
    (psi : List (Cplx R)) (dpsi : List (Fin 3 → Cplx R)) (d2psi : List (Cplx R))
    (grad_grad_psi : List (Fin 9 → Cplx R))
    (grad_grad_grad_psi : List (Fin 3 → Fin 9 → Cplx R))
    (first last : Int) (j : Nat) (hk : S.kPointsSize < 2 ^ 31)
    (hf : -2 ^ 31 ≤ first ∧ first < 2 ^ 31) (hl : -2 ^ 31 ≤ last ∧ last < 2 ^ 31)
    (hS : WellSized S)
    (hpsi : S.first_spo + S.kPointsSize ≤ psi.length)
    (hdpsi : S.first_spo + S.kPointsSize ≤ dpsi.length)
    (hd2psi : S.first_spo + S.kPointsSize ≤ d2psi.length)
    (hgg : S.first_spo + S.kPointsSize ≤ grad_grad_psi.length)
    (hggg : S.first_spo + S.kPointsSize ≤ grad_grad_grad_psi.length)
    (hj : Processed first last S.kPointsSize j)
    (hk0 : ∀ a : Fin 3, rd (S.myKcart a) j = 0) (hKK : rd S.mKK j = 0)
    (hs : sincos 0 = (0, 1)) :
    (∃ out v, assign_v sincos S r S.myV psi first last = some out ∧
      out[j + S.first_spo]? = some v ∧ v.re = realValue S (2 * j)) ∧
    (∃ out v g l, assign_vgl sincos S r psi dpsi d2psi first last = some out ∧
      out.1[j + S.first_spo]? = some v ∧ out.2.1[j + S.first_spo]? = some g ∧
      out.2.2[j + S.first_spo]? = some l ∧
      v.re = realValue S (2 * j) ∧ (∀ a, (g a).re = realGrad S (2 * j) a) ∧
      l.re = realLap S (2 * j)) ∧
    (∃ out v g h, assign_vgh sincos S r psi dpsi grad_grad_psi first last = some out ∧
      out.1[j + S.first_spo]? = some v ∧ out.2.1[j + S.first_spo]? = some g ∧
      out.2.2[j + S.first_spo]? = some h ∧
      v.re = realValue S (2 * j) ∧ (∀ a, (g a).re = realGrad S (2 * j) a) ∧
      (∀ a b, (h (idx9 a b)).re = realHess S (2 * j) a b)) ∧
    (∃ out v g h t,
      assign_vghgh sincos S r psi dpsi grad_grad_psi grad_grad_grad_psi first last
        = some out ∧
      out.1[j + S.first_spo]? = some v ∧ out.2.1[j + S.first_spo]? = some g ∧
      out.2.2.1[j + S.first_spo]? = some h ∧ out.2.2.2[j + S.first_spo]? = some t ∧
      v.re = realValue S (2 * j) ∧ (∀ a, (g a).re = realGrad S (2 * j) a) ∧
      (∀ a b, (h (idx9 a b)).re = realHess S (2 * j) a b) ∧
      (∀ a b c, (t a (idx9 b c)).re = t3_rows S (2 * j) a b c)) := by
  have hw := written_of_processed S first last j hj
  have e : j + S.first_spo - S.first_spo = j := Nat.add_sub_cancel _ _
  obtain ⟨v, e0, p0⟩ := assign_v_frame sincos S r psi first last hk hf hl hS hpsi
  obtain ⟨vgl, e1, p1, g1, l1⟩ :=
    assign_vgl_frame sincos S r psi dpsi d2psi first last hk hf hl hS hpsi hdpsi hd2psi
  obtain ⟨vgh, e2, p2, g2, h2⟩ :=
    assign_vgh_frame sincos S r psi dpsi grad_grad_psi first last hk hf hl hS hpsi hdpsi hgg
  obtain ⟨vghgh, e3, p3, g3, h3, t3⟩ :=
    assign_vghgh_frame sincos S r psi dpsi grad_grad_psi grad_grad_grad_psi first last hk hf hl
      hS hpsi hdpsi hgg hggg
  have hv : (assign_v_val sincos S r S.myV j).re = realValue S (2 * j) := by
    rw [assign_v_val_zero sincos S r S.myV j hk0 hs]; rfl
  have hg : ∀ a, ((assign_vgl_val sincos S r j).2.1 a).re = realGrad S (2 * j) a := by
    intro a
    rw [assign_vgl_val_dpsi_zero sincos S r j hk0 hs a]
    simp [cartGrad, rawGrad, realGrad]
  refine ⟨⟨v, _, e0, by rw [p0, if_pos hw, e], hv⟩,
    ⟨vgl, _, _, _, e1, by rw [p1, if_pos hw, e], by rw [g1, if_pos hw, e],
      by rw [l1, if_pos hw, e], ?_, hg, ?_⟩,
    ⟨vgh, _, _, _, e2, by rw [p2, if_pos hw, e], by rw [g2, if_pos hw, e],
      by rw [h2, if_pos hw, e], ?_, ?_, ?_⟩,
    ⟨vghgh, _, _, _, _, e3, by rw [p3, if_pos hw, e], by rw [g3, if_pos hw, e],
      by rw [h3, if_pos hw, e], by rw [t3, if_pos hw, e], ?_, ?_, ?_, ?_⟩⟩
  · rw [assign_vgl_val_psi]; exact hv
  · rw [assign_vgl_val_d2psi_zero sincos S r j hk0 hKK hs]; rfl
  · rw [assign_vgh_val_psi]; exact hv
  · intro a; rw [assign_vgh_val_dpsi]; exact hg a
  · intro a b; rw [assign_vgh_val_gg_zero sincos S r j hk0 hs a b]; rfl
  · rw [assign_vghgh_val_psi]; exact hv
  · intro a; rw [assign_vghgh_val_dpsi]; exact hg a
  · intro a b; rw [assign_vghgh_val_gg_zero sincos S r j hk0 hs a b]; rfl
  · intro a b c; rw [assign_vghgh_val_ggg_zero sincos S r j hk0 hs a b c]; rfl

/-- Witness of C26: the first orbital of the sample set with a zero k-vector. -/
theorem zero_twist_reduction_witness :
    (∃ out v, assign_v sampleSincos sampleGammaSet sampleR sampleGammaSet.myV samplePsi 0 2
        = some out ∧
      out[0 + sampleGammaSet.first_spo]? = some v ∧ v.re = realValue sampleGammaSet (2 * 0)) ∧
    (∃ out v g l, assign_vgl sampleSincos sampleGammaSet sampleR samplePsi sampleDpsi samplePsi
        0 2 = some out ∧
      out.1[0 + sampleGammaSet.first_spo]? = some v ∧
      out.2.1[0 + sampleGammaSet.first_spo]? = some g ∧
      out.2.2[0 + sampleGammaSet.first_spo]? = some l ∧
      v.re = realValue sampleGammaSet (2 * 0) ∧
      (∀ a, (g a).re = realGrad sampleGammaSet (2 * 0) a) ∧
      l.re = realLap sampleGammaSet (2 * 0)) :=
  ⟨(zero_twist_reduction sampleSincos sampleGammaSet sampleR samplePsi sampleDpsi samplePsi
      sampleGG sampleGGG 0 2 0 (by decide) (by decide) (by decide) (by decide) (by decide)
      (by decide) (by decide) (by decide) (by decide) (by decide) (by decide) (by decide)
      rfl).1,
    (zero_twist_reduction sampleSincos sampleGammaSet sampleR samplePsi sampleDpsi samplePsi
      sampleGG sampleGGG 0 2 0 (by decide) (by decide) (by decide) (by decide) (by decide)
      (by decide) (by decide) (by decide) (by decide) (by decide) (by decide) (by decide)
      rfl).2.1⟩

end KernelClaims

/-! ## FreeParticleBuilder: the complex build -/

section BuilderClaims

variable {R : Type} [LinearOrderedCommRing R]

theorem magSq_nonneg (k : Fin 3 → R) : 0 ≤ magSq k := by
  unfold magSq
  have h0 := mul_self_nonneg (k 0)
  have h1 := mul_self_nonneg (k 1)
  have h2 := mul_self_nonneg (k 2)
  linarith

theorem magSq_zero : magSq (0 : Fin 3 → R) = 0 := by
  simp [magSq]

/-- The loop of the complex build: entry `ik` becomes `tvec + kpts_cart[ik - 1]`. -/
theorem complex_fill (tvec : Fin 3 → R) (klists : KContainer R) (npw : Int)
    (kpts : List (Fin 3 → R)) (hlen : kpts.length = npw.toNat)
    (hk : npw.toNat - 1 ≤ klists.kpts_cart.length) :
    ∃ out, createSPOSetFromXML_fill true tvec klists npw kpts = some out ∧
      Upd (fun i => (klists.kpts_cart[i - 1]?).map (fun k => tvec + k)) 1 (1 + (npw.toNat - 1))
        kpts out := by
  have h := forLoop_inv
    (fun ik kpts =>
        match klists.kpts_cart[ik - 1]? with
        | none => none
        | some k => store kpts ik (tvec + k))
    (fun i t => Upd (fun i => (klists.kpts_cart[i - 1]?).map (fun k => tvec + k)) 1 i kpts t)
    (npw.toNat - 1) 1 kpts (Upd_refl _ 1 kpts) (by
      intro i t h1 h2 hU
      have hi : i - 1 < klists.kpts_cart.length := by omega
      have e : klists.kpts_cart[i - 1]? = some (klists.kpts_cart[i - 1]) :=
        List.getElem?_eq_getElem hi
      have hs := Upd_step hU h1 (v := tvec + klists.kpts_cart[i - 1])
        (by simp only [e, Option.map_some']) (by omega)
      refine ⟨_, ?_, hs.2⟩
      simp only [e]
      exact hs.1)
  obtain ⟨out, e1, e2⟩ := h
  exact ⟨out, by simpa [createSPOSetFromXML_fill, forRange] using e1, e2⟩

/-- The vector of the complex build: the twist vector, followed by the twist vector added to
the first `npw - 1` vectors of the k-list. -/
theorem complex_build_kpts (k_cart : (Fin 3 → R) → (Fin 3 → R)) (norb : Int)
    (twist : Fin 3 → R) (klists : KContainer R) (h1 : 1 ≤ norb)
    (hk : norb.toNat - 1 ≤ klists.kpts_cart.length) :
    createSPOSetFromXML true k_cart norb twist klists
      = .ok (k_cart twist ::
          (klists.kpts_cart.take (norb.toNat - 1)).map (fun k => k_cart twist + k)) := by
  have hn : 0 < norb.toNat := by omega
  have hs : store (List.replicate norb.toNat (0 : Fin 3 → R)) 0 (k_cart twist)
      = some ((List.replicate norb.toNat (0 : Fin 3 → R)).set 0 (k_cart twist)) :=
    store_eq_some (by simpa using hn)
  obtain ⟨out, e1, e2⟩ := complex_fill (k_cart twist) klists norb
    ((List.replicate norb.toNat (0 : Fin 3 → R)).set 0 (k_cart twist)) (by simp) hk
  have hout : out = k_cart twist ::
      (klists.kpts_cart.take (norb.toNat - 1)).map (fun k => k_cart twist + k) := by
    apply List.ext_getElem?
    intro i
    rw [e2.2 i]
    rcases Nat.eq_zero_or_pos i with h0 | h0
    · subst h0
      rw [if_neg (by omega)]
      simp [hn]
    · obtain ⟨m, rfl⟩ : ∃ m, i = m + 1 := ⟨i - 1, by omega⟩
      rw [List.getElem?_cons_succ, List.getElem?_map, List.getElem?_take]
      by_cases hm : m < norb.toNat - 1
      · rw [if_pos ⟨by omega, by omega⟩, if_pos hm]
        simp
      · rw [if_neg (by omega), if_neg hm]
        simp only [Option.map_none']
        rw [List.getElem?_set_ne (by omega), List.getElem?_eq_none (by simp; omega)]
  simp only [createSPOSetFromXML, createSPOSetFromXML_npw, if_true, if_neg (not_lt.mpr
    (le_trans zero_le_one h1)), hs, e1, hout]

/-- Counterexample to C27: with a twist vector of half a reciprocal lattice vector and the
k-list `(b, -b)`, which is sorted by magnitude, the complex build gives the vectors
`b/2, 3b/2, -b/2` (in units of `b/2`: squared magnitudes `1, 9, 1`), which are not in
ascending order of magnitude. -/
theorem complex_build_not_sorted :
    (samplePairList.kpts_cart.map magSq).Sorted (fun a b => a ≤ b) ∧
      createSPOSetFromXML true id 3 sampleTwist samplePairList
        = .ok [![1, 0, 0], ![3, 0, 0], ![-1, 0, 0]] ∧
      ¬ ([![1, 0, 0], ![3, 0, 0], ![-1, 0, 0]].map (magSq : (Fin 3 → Int) → Int)).Sorted
        (fun a b => a ≤ b) := by
  decide

/-- C27, amended: the complex build. For every requested size `norb >= 1`, with at least
`norb - 1` entries in the k-list, the call returns a vector of exactly `norb` k-vectors,
`kpts[0]` is the Cartesian twist vector `tvec` and `kpts[i] = tvec + kpts_cart[i-1]` for
`1 <= i < norb`. Given the k-list sorted by ascending magnitude, the vectors `kpts[1..]` are
in ascending order of the magnitude of `kpts[i] - tvec`, and when the twist vector is zero
the k-vectors are sorted by ascending magnitude (for a nonzero twist they need not be). -/
theorem complex_build (k_cart : (Fin 3 → R) → (Fin 3 → R)) (norb : Int)
    (twist : Fin 3 → R) (klists : KContainer R) (h1 : 1 ≤ norb)
    (hk : norb.toNat - 1 ≤ klists.kpts_cart.length) :
    ∃ kpts, createSPOSetFromXML true k_cart norb twist klists = .ok kpts ∧
      (kpts.length : Int) = norb ∧ kpts[0]? = some (k_cart twist) ∧
      (∀ i : Nat, 1 ≤ i → (i : Int) < norb →
        ∃ k, klists.kpts_cart[i - 1]? = some k ∧ kpts[i]? = some (k_cart twist + k)) ∧
      ((klists.kpts_cart.map magSq).Sorted (fun a b => a ≤ b) →
        ((kpts.tail.map (fun k => magSq (k - k_cart twist))).Sorted (fun a b => a ≤ b)) ∧
        (k_cart twist = 0 → (kpts.map magSq).Sorted (fun a b => a ≤ b))) := by
  refine ⟨_, complex_build_kpts k_cart norb twist klists h1 hk, ?_, List.getElem?_cons_zero, ?_,
    ?_⟩
  · simp only [List.length_cons, List.length_map, List.length_take]
    rw [Nat.min_eq_left hk]
    omega
  · intro i hi1 hi2
    have hlt : i - 1 < klists.kpts_cart.length := by omega
    refine ⟨klists.kpts_cart[i - 1], List.getElem?_eq_getElem hlt, ?_⟩
    obtain ⟨m, rfl⟩ : ∃ m, i = m + 1 := ⟨i - 1, by omega⟩
    rw [List.getElem?_cons_succ, List.getElem?_map, List.getElem?_take,
      if_pos (by omega)]
    simp only [Nat.add_sub_cancel] at hlt ⊢
    rw [List.getElem?_eq_getElem hlt, Option.map_some']
  · intro hs
    refine ⟨?_, fun h0 => ?_⟩
    · have e : (fun k => magSq (k - k_cart twist)) ∘ (fun k => k_cart twist + k)
          = (magSq : (Fin 3 → R) → R) := by
        funext k
        simp only [Function.comp_apply, add_sub_cancel_left]
      rw [List.tail_cons, List.map_map, e, List.map_take]
      exact List.Pairwise.sublist (List.take_sublist _ _) hs
    · rw [h0]
      simp only [zero_add, List.map_id', List.map_cons, List.map_take]
      refine List.sorted_cons.mpr ⟨fun b hb => ?_, ?_⟩
      · rw [magSq_zero]
        obtain ⟨k, -, rfl⟩ := List.mem_map.mp (List.mem_of_mem_take hb)
        exact magSq_nonneg k
      · exact List.Pairwise.sublist (List.take_sublist _ _) hs

/-- Witness of the amended C27: three orbitals from the sample k-list, with the sample
twist. -/
theorem complex_build_witness :
    ∃ kpts, createSPOSetFromXML true id 3 sampleTwist sampleKLists = .ok kpts ∧
      (kpts.length : Int) = 3 ∧ kpts[0]? = some (id sampleTwist) ∧
      (∀ i : Nat, 1 ≤ i → (i : Int) < 3 →
        ∃ k, sampleKLists.kpts_cart[i - 1]? = some k ∧
          kpts[i]? = some (id sampleTwist + k)) ∧
      ((sampleKLists.kpts_cart.map magSq).Sorted (fun a b => a ≤ b) →
        ((kpts.tail.map (fun k => magSq (k - id sampleTwist))).Sorted (fun a b => a ≤ b)) ∧
        (id sampleTwist = 0 → (kpts.map magSq).Sorted (fun a b => a ≤ b))) :=
  complex_build id 3 sampleTwist sampleKLists (by decide) (by decide)

end BuilderClaims

/-! ## FreeParticleBuilder: the twist check of the real build -/

section TwistCheck

variable {R : Type} [LinearOrderedCommRing R]

/-- The twist check of the real build, as a proposition. -/
theorem twist_check_iff (twist : Fin 3 → R) :
    (List.finRange 3).any (fun ldim => decide (1 < |twist ldim| * 10 ^ 16)) = true ↔
      ∃ ldim : Fin 3, 1 < |twist ldim| * 10 ^ 16 := by
  simp [List.any_eq_true]

/-- The real build ends with the `throw` exactly when the twist check finds a component. -/
theorem real_build_throws_iff (k_cart : (Fin 3 → R) → (Fin 3 → R)) (norb : Int)
    (twist : Fin 3 → R) (klists : KContainer R) :
    createSPOSetFromXML false k_cart norb twist klists = .error .NoTwistForRealOrbitals ↔
      ∃ ldim : Fin 3, 1 < |twist ldim| * 10 ^ 16 := by
  rw [← twist_check_iff]
  by_cases h : (List.finRange 3).any (fun ldim => decide (1 < |twist ldim| * 10 ^ 16)) = true
  · simp only [createSPOSetFromXML, createSPOSetFromXML_npw, h, if_true, Bool.false_eq_true,
      if_false]
  · simp only [createSPOSetFromXML, createSPOSetFromXML_npw, h, if_false, Bool.false_eq_true,
      iff_false]
    split
    · exact fun e => by cases e
    · split
      · exact fun e => by cases e
      · split
        · exact fun e => by cases e
        · exact fun e => by cases e

end TwistCheck

section TwistClaim

variable {R : Type} [LinearOrderedField R]

/-- C28: the real build of `createSPOSetFromXML` fails with the `throw` if and only if some
component of the requested twist has an absolute value greater than `1e-16`. When it does,
the call ends with the `throw` whatever the lattice, the requested size and the k-lists are
(nothing of them has been used yet: no k-vector is selected before the check), and with an
all-zero twist the call never ends with the `throw`. -/
theorem real_build_twist (k_cart : (Fin 3 → R) → (Fin 3 → R)) (norb : Int)
    (twist : Fin 3 → R) (klists : KContainer R) :
    (createSPOSetFromXML false k_cart norb twist klists = .error .NoTwistForRealOrbitals ↔
      ∃ ldim : Fin 3, 1 / 10 ^ 16 < |twist ldim|) ∧
    ((∃ ldim : Fin 3, 1 / 10 ^ 16 < |twist ldim|) →
      ∀ (k_cart2 : (Fin 3 → R) → (Fin 3 → R)) (norb2 : Int) (klists2 : KContainer R),
        createSPOSetFromXML false k_cart2 norb2 twist klists2
          = .error .NoTwistForRealOrbitals) ∧
    createSPOSetFromXML false k_cart norb 0 klists ≠ .error .NoTwistForRealOrbitals := by
  have key : ∀ t : Fin 3 → R, (∃ ldim : Fin 3, 1 < |t ldim| * 10 ^ 16) ↔
      ∃ ldim : Fin 3, 1 / 10 ^ 16 < |t ldim| := fun t =>
    exists_congr (fun ldim => (div_lt_iff₀ (by positivity)).symm)
  refine ⟨(real_build_throws_iff k_cart norb twist klists).trans (key twist),
    fun h k_cart2 norb2 klists2 =>
      (real_build_throws_iff k_cart2 norb2 twist klists2).mpr ((key twist).mpr h), ?_⟩
  rw [Ne, real_build_throws_iff]
  rintro ⟨ldim, h⟩
  simp at h
  exact absurd h (by norm_num)

end TwistClaim

/-! ## FreeParticleBuilder: the selection of the real build -/

section Selection

variable {R : Type} [LinearOrderedCommRing R]

/-- The function `in_list` tests membership. -/
theorem in_list_iff (j : Int) (l : List Int) : in_list j l = true ↔ j ∈ l := by
  induction l with
  | nil => simp [in_list]
  | cons a l ih =>
    by_cases h : j = a
    · simp [in_list, h]
    · simp [in_list, h, ih]

omit [LinearOrderedCommRing R] in
/-- The selection loop of the real build, for `npw >= 2` and a k-list on whose indices
`minusk` is an involution without fixed points: the loop completes, and the selected indices
`sel` are increasing, their vectors fill `kpts[1..]` in order, no two of them are partners
and none is its own partner. -/
theorem select_loop (klists : KContainer R) (npw : Nat) (kpts0 : List (Fin 3 → R))
    (hnpw : 2 ≤ npw) (hlen : kpts0.length = npw)
    (hinv : ∀ j, j < klists.kpts.length → ∃ m : Nat, m < klists.kpts.length ∧ m ≠ j ∧
      klists.minusk[j]? = some (m : Int) ∧ klists.minusk[m]? = some (j : Int))
    (hcart : klists.kpts.length ≤ klists.kpts_cart.length) :
    ∃ st, ∃ sel : List Nat, forRange 0 klists.kpts.length (select_step klists (npw : Int))
        { kpts := kpts0, mkidx := List.replicate npw (0 : Int), ik := 1, broke := false }
          = some st ∧
      st.ik = sel.length + 1 ∧ st.ik ≤ npw ∧ st.kpts.length = npw ∧
      st.kpts[0]? = kpts0[0]? ∧
      (∀ i, i < sel.length →
        st.kpts[i + 1]? = (sel[i]?).bind (fun a => klists.kpts_cart[a]?)) ∧
      (∀ i, st.ik ≤ i → st.kpts[i]? = kpts0[i]?) ∧
      sel.Pairwise (fun a b => a < b) ∧ (∀ a ∈ sel, a < klists.kpts.length) ∧
      (∀ a ∈ sel, ∀ b ∈ sel, klists.minusk[a]? ≠ some (b : Int)) := by
  have h := forLoop_inv (select_step klists (npw : Int))
    (fun n st => ∃ sel : List Nat,
      st.ik = sel.length + 1 ∧ (st.broke = false → st.ik < npw) ∧ st.ik ≤ npw ∧
      st.kpts.length = npw ∧ st.mkidx.length = npw ∧
      st.kpts[0]? = kpts0[0]? ∧
      (∀ i, i < sel.length →
        st.kpts[i + 1]? = (sel[i]?).bind (fun a => klists.kpts_cart[a]?)) ∧
      (∀ i, st.ik ≤ i → st.kpts[i]? = kpts0[i]?) ∧
      (∀ i, i < sel.length →
        st.mkidx[i + 1]? = (sel[i]?).bind (fun a => klists.minusk[a]?)) ∧
      sel.Pairwise (fun a b => a < b) ∧ (∀ a ∈ sel, a < n) ∧
      (∀ a ∈ sel, ∀ b ∈ sel, klists.minusk[a]? ≠ some (b : Int)))
    klists.kpts.length 0
    { kpts := kpts0, mkidx := List.replicate npw (0 : Int), ik := 1, broke := false }
    ⟨[], rfl, fun _ => by show 1 < npw; omega, by show 1 ≤ npw; omega, hlen, by simp,
      rfl, fun i hi => absurd hi (by simp), fun i _ => rfl, fun i hi => absurd hi (by simp),
      List.Pairwise.nil, fun a ha => absurd ha (by simp), fun a ha => absurd ha (by simp)⟩
    (by
      intro n st _ hn ⟨sel, h1, h2, h3, h4, h5, h6, h7, h8, h9, h10, h11, h12⟩
      have hn' : n < klists.kpts.length := by omega
      by_cases hb : st.broke = true
      · refine ⟨st, by simp [select_step, hb], sel, h1, h2, h3, h4, h5, h6, h7, h8, h9, h10,
          fun a ha => Nat.lt_succ_of_lt (h11 a ha), h12⟩
      · have hb' : st.broke = false := by simpa using hb
        obtain ⟨m, hm1, hm2, hm3, hm4⟩ := hinv n hn'
        by_cases hin : in_list (n : Int) st.mkidx = true
        · refine ⟨st, by simp [select_step, hb', hm3, hin], sel, h1, h2, h3, h4, h5, h6, h7,
            h8, h9, h10, fun a ha => Nat.lt_succ_of_lt (h11 a ha), h12⟩
        · have hnot : ∀ x ∈ st.mkidx, x ≠ (n : Int) := fun x hx e =>
            hin ((in_list_iff _ _).mpr (e ▸ hx))
          have hik := h2 hb'
          have hc : klists.kpts_cart[n]? = some (klists.kpts_cart[n]) :=
            List.getElem?_eq_getElem (by omega)
          have hpart : ∀ a ∈ sel, klists.minusk[a]? ≠ some (n : Int) := by
            intro a ha e
            obtain ⟨i, hi, rfl⟩ := List.getElem_of_mem ha
            have hmk := h9 i hi
            rw [List.getElem?_eq_getElem hi, Option.some_bind, e] at hmk
            exact hnot _ (List.getElem?_mem hmk) rfl
          refine ⟨⟨st.kpts.set st.ik (klists.kpts_cart[n]), st.mkidx.set st.ik (m : Int),
              st.ik + 1, decide ((npw : Int) ≤ ((st.ik + 1 : Nat) : Int))⟩, ?_, sel ++ [n],
            ?_, ?_, ?_, ?_, ?_, ?_, ?_, ?_, ?_, ?_, ?_, ?_⟩
          · simp only [select_step, hb', Bool.false_eq_true, if_false, hm3, hin, hc,
              store_eq_some (show st.ik < st.kpts.length by omega),
              store_eq_some (show st.ik < st.mkidx.length by omega), Option.some_bind,
              Option.map_some']
          · simp [h1]
          · intro hbr
            have : ¬ ((npw : Int) ≤ ((st.ik + 1 : Nat) : Int)) := by simpa using hbr
            show st.ik + 1 < npw
            omega
          · show st.ik + 1 ≤ npw
            omega
          · simp [h4]
          · simp [h5]
          · show (st.kpts.set st.ik _)[0]? = _
            rw [List.getElem?_set_ne (by omega)]
            exact h6
          · intro i hi
            show (st.kpts.set st.ik _)[i + 1]? = _
            simp only [List.length_append, List.length_singleton] at hi
            by_cases hi' : i < sel.length
            · rw [List.getElem?_set_ne (by omega), h7 i hi', List.getElem?_append_left hi']
            · have e : i = sel.length := by omega
              subst e
              rw [← h1, List.getElem?_set_self (by omega),
                List.getElem?_append_right (Nat.le_refl _)]
              simp [hc]
          · intro i hi
            show (st.kpts.set st.ik _)[i]? = _
            have hi2 : st.ik + 1 ≤ i := hi
            rw [List.getElem?_set_ne (by omega)]
            exact h8 i (by omega)
          · intro i hi
            show (st.mkidx.set st.ik _)[i + 1]? = _
            simp only [List.length_append, List.length_singleton] at hi
            by_cases hi' : i < sel.length
            · rw [List.getElem?_set_ne (by omega), h9 i hi', List.getElem?_append_left hi']
            · have e : i = sel.length := by omega
              subst e
              rw [← h1, List.getElem?_set_self (by omega),
                List.getElem?_append_right (Nat.le_refl _)]
              simp [hm3]
          · rw [List.pairwise_append]
            exact ⟨h10, List.pairwise_singleton _ _, fun a ha b hb => by
              rw [List.mem_singleton] at hb
              subst hb
              exact h11 a ha⟩
          · intro a ha
            rcases List.mem_append.mp ha with ha | ha
            · exact Nat.lt_succ_of_lt (h11 a ha)
            · rw [List.mem_singleton] at ha
              omega
          · intro a ha b hb
            rcases List.mem_append.mp ha with ha1 | ha1
            · rcases List.mem_append.mp hb with hb1 | hb1
              · exact h12 a ha1 b hb1
              · rw [List.mem_singleton.mp hb1]
                exact hpart a ha1
            · rw [List.mem_singleton.mp ha1, hm3]
              rcases List.mem_append.mp hb with hb1 | hb1
              · intro e
                have e' : m = b := by
                  have := Option.some.inj e
                  exact_mod_cast this
                rw [← e'] at hb1
                exact hpart m hb1 hm4
              · rw [List.mem_singleton.mp hb1]
                intro e
                have := Option.some.inj e
                exact hm2 (by exact_mod_cast this))
  obtain ⟨st, e, sel, h1, -, h3, h4, -, h6, h7, h8, -, h10, h11, h12⟩ := h
  refine ⟨st, sel, by simpa [forRange] using e, h1, h3, h4, h6, h7, h8, h10, ?_, h12⟩
  intro a ha
  simpa using h11 a ha

/-- C29: the real build, for a twist that passes the check, a requested size `norb >= 2`
and a k-list on whose indices `minusk` is an involution without fixed points. The call
returns `npw` k-vectors, the first one the twist vector, and there is a list `sel` of k-list
indices, in increasing order (so pairwise distinct), whose vectors are `kpts[1..]` in that
order (the entries after them keep their initial zero): no two selected indices are
partners of each other, and none is its own partner, so of each pair of opposite k-points
with a selected member exactly one member is selected. -/
theorem real_build_selection (k_cart : (Fin 3 → R) → (Fin 3 → R)) (norb : Int)
    (twist : Fin 3 → R) (klists : KContainer R) (hnorb : 2 ≤ norb)
    (htw : ∀ ldim : Fin 3, |twist ldim| * 10 ^ 16 ≤ 1)
    (hinv : ∀ j, j < klists.kpts.length → ∃ m : Nat, m < klists.kpts.length ∧ m ≠ j ∧
      klists.minusk[j]? = some (m : Int) ∧ klists.minusk[m]? = some (j : Int))
    (hcart : klists.kpts.length ≤ klists.kpts_cart.length) :
    ∃ kpts, ∃ sel : List Nat,
      createSPOSetFromXML false k_cart norb twist klists = .ok kpts ∧
      (kpts.length : Int) = -((-(norb + 1)) / 2) ∧ kpts[0]? = some (k_cart twist) ∧
      sel.length + 1 ≤ kpts.length ∧
      (∀ i, i < sel.length →
        kpts[i + 1]? = (sel[i]?).bind (fun a => klists.kpts_cart[a]?)) ∧
      (∀ i, sel.length + 1 ≤ i → i < kpts.length → kpts[i]? = some 0) ∧
      sel.Pairwise (fun a b => a < b) ∧ (∀ a ∈ sel, a < klists.kpts.length) ∧
      (∀ a ∈ sel, ∀ b ∈ sel, klists.minusk[a]? ≠ some (b : Int)) := by
  have hchk : ¬ ((List.finRange 3).any (fun ldim => decide (1 < |twist ldim| * 10 ^ 16))
      = true) := by
    rw [twist_check_iff]
    rintro ⟨ldim, h⟩
    exact absurd (htw ldim) (not_le.mpr h)
  have hnpw : 2 ≤ (-((-(norb + 1)) / 2)).toNat := by omega
  have hcast : (((-((-(norb + 1)) / 2)).toNat : Nat) : Int) = -((-(norb + 1)) / 2) := by omega
  have hs : store (List.replicate (-((-(norb + 1)) / 2)).toNat (0 : Fin 3 → R)) 0 (k_cart twist)
      = some ((List.replicate (-((-(norb + 1)) / 2)).toNat (0 : Fin 3 → R)).set 0
          (k_cart twist)) :=
    store_eq_some (by simp only [List.length_replicate]; omega)
  obtain ⟨st, sel, e, h1, h3, h4, h6, h7, h8, h10, h11, h12⟩ := select_loop klists
    (-((-(norb + 1)) / 2)).toNat
    ((List.replicate (-((-(norb + 1)) / 2)).toNat (0 : Fin 3 → R)).set 0 (k_cart twist))
    hnpw (by simp) hinv hcart
  rw [hcast] at e
  refine ⟨st.kpts, sel, ?_, by rw [h4, hcast], ?_, by omega, h7, ?_, h10, h11, h12⟩
  · simp only [createSPOSetFromXML, createSPOSetFromXML_npw, Bool.false_eq_true, if_false,
      hchk, if_neg (show ¬ (-((-(norb + 1)) / 2) < 0) by omega), hs,
      createSPOSetFromXML_fill, e, Option.map_some']
  · rw [h6, List.getElem?_set_self (by simp only [List.length_replicate]; omega)]
  · intro i hi1 hi2
    rw [h8 i (by omega), List.getElem?_set_ne (by omega),
      List.getElem?_eq_getElem (by simp only [List.length_replicate]; omega)]
    simp

/-- Witness of C29: five real orbitals from the sample k-list of two pairs. -/
theorem real_build_selection_witness :
    ∃ kpts, ∃ sel : List Nat,
      createSPOSetFromXML false id 5 0 sampleKLists = .ok kpts ∧
      (kpts.length : Int) = -((-((5 : Int) + 1)) / 2) ∧
      kpts[0]? = some (id (0 : Fin 3 → Int)) ∧
      sel.length + 1 ≤ kpts.length ∧
      (∀ i, i < sel.length →
        kpts[i + 1]? = (sel[i]?).bind (fun a => sampleKLists.kpts_cart[a]?)) ∧
      (∀ i, sel.length + 1 ≤ i → i < kpts.length → kpts[i]? = some 0) ∧
      sel.Pairwise (fun a b => a < b) ∧ (∀ a ∈ sel, a < sampleKLists.kpts.length) ∧
      (∀ a ∈ sel, ∀ b ∈ sel, sampleKLists.minusk[a]? ≠ some (b : Int)) :=
  real_build_selection id 5 0 sampleKLists (by decide) (by decide) (by decide) (by decide)

end Selection

/-! ## HybridRepCplx: the archive flags and the members that abort -/

section HybridSmallClaims

variable {R H A : Type}

/-- C24: `HybridRepCplx::read_splines` and `write_splines`. The call returns true if and
only if the atomic-table operation returns true and the spline-table operation (made after
it, for the write on the archive that the atomic write left) returns true. When the
atomic-table operation fails the spline-table operation is not attempted: the result is the
same for every archive operation `readEntry` or `writeEntry`, the flag is false, a failed
read leaves the spline set as it was and a failed write leaves the archive as the atomic
write left it. -/
theorem hybrid_splines_flags (readAtomic : A → H → Bool × H) (writeAtomic : A → H → Bool × A)
    (readEntry : A → SplineType R → String → Bool × SplineType R)
    (writeEntry : A → SplineType R → String → Bool × A)
    (center : H) (S : RotationSet R) (h5f : A) :
    ((HybridRepCplx.read_splines readAtomic readEntry center S h5f).1 = true ↔
      (readAtomic h5f center).1 = true ∧ (read_splines readEntry S h5f).1 = true) ∧
    ((readAtomic h5f center).1 = true →
      (HybridRepCplx.read_splines readAtomic readEntry center S h5f).2.2
        = (read_splines readEntry S h5f).2) ∧
    ((readAtomic h5f center).1 = false →
      ∀ readEntry2 : A → SplineType R → String → Bool × SplineType R,
        HybridRepCplx.read_splines readAtomic readEntry2 center S h5f
          = (false, (readAtomic h5f center).2, S)) ∧
    ((HybridRepCplx.write_splines writeAtomic writeEntry center S h5f).1 = true ↔
      (writeAtomic h5f center).1 = true ∧
        (write_splines writeEntry S (writeAtomic h5f center).2).1 = true) ∧
    ((writeAtomic h5f center).1 = false →
      ∀ writeEntry2 : A → SplineType R → String → Bool × A,
        HybridRepCplx.write_splines writeAtomic writeEntry2 center S h5f
          = (false, (writeAtomic h5f center).2)) := by
  refine ⟨?_, fun h => ?_, fun h re => ?_, ?_, fun h we => ?_⟩
  · cases h : (readAtomic h5f center).1 <;> simp [HybridRepCplx.read_splines, h]
  · simp [HybridRepCplx.read_splines, h]
  · simp [HybridRepCplx.read_splines, h]
  · cases h : (writeAtomic h5f center).1 <;> simp [HybridRepCplx.write_splines, h]
  · simp [HybridRepCplx.write_splines, h]

end HybridSmallClaims

section HybridAbort

variable {R H : Type} [LinearOrderedCommRing R]

/-- C23: `HybridRepCplx::evaluateVGH` and `HybridRepCplx::evaluateVGHGH` are unsupported.
For every position, every content of the output buffers, every spline table and every
atomic-region engine, each call aborts with its diagnostic, with the object and the output
buffers as they were on entry (the engine has not been read and no entry written), and it
does not return. -/
theorem hybrid_vgh_vghgh_abort (sincos : R → R × R) (spline : MultiBsplineD R)
    (toUnit_floor : (Fin 3 → R) → (Fin 3 → R))
    (evaluate_vgh : H → (Fin 3 → R) → List R × (Fin 3 → List R) × (Fin 6 → List R) →
      H × Bool × (List R × (Fin 3 → List R) × (Fin 6 → List R)))
    (X : HybridRepCplx R H) (r : Fin 3 → R) (psi : List (Cplx R))
    (dpsi : List (Fin 3 → Cplx R)) (grad_grad_psi : List (Fin 9 → Cplx R))
    (grad_grad_grad_psi : List (Fin 3 → Fin 9 → Cplx R)) (shares : List (Int × Int)) :
    HybridRepCplx.evaluateVGH sincos spline toUnit_floor evaluate_vgh X r psi dpsi
        grad_grad_psi shares
      = Outcome.aborted "HybridRepCplx::evaluate_vgh not implemented!"
          (X, psi, dpsi, grad_grad_psi) ∧
    (∀ s, HybridRepCplx.evaluateVGH sincos spline toUnit_floor evaluate_vgh X r psi dpsi
        grad_grad_psi shares ≠ Outcome.returned s) ∧
    HybridRepCplx.evaluateVGHGH X psi dpsi grad_grad_psi grad_grad_grad_psi
      = Outcome.aborted "HybridRepCplx::evaluate_vghgh not implemented!"
          (X, psi, dpsi, grad_grad_psi, grad_grad_grad_psi) ∧
    (∀ s, HybridRepCplx.evaluateVGHGH X psi dpsi grad_grad_psi grad_grad_grad_psi
      ≠ Outcome.returned s) := by
  refine ⟨rfl, fun s h => ?_, rfl, fun s h => ?_⟩
  · have e : HybridRepCplx.evaluateVGH sincos spline toUnit_floor evaluate_vgh X r psi dpsi
        grad_grad_psi shares
      = Outcome.aborted "HybridRepCplx::evaluate_vgh not implemented!"
          (X, psi, dpsi, grad_grad_psi) := rfl
    rw [e] at h
    cases h
  · have e : HybridRepCplx.evaluateVGHGH X psi dpsi grad_grad_psi grad_grad_grad_psi
      = Outcome.aborted "HybridRepCplx::evaluate_vghgh not implemented!"
          (X, psi, dpsi, grad_grad_psi, grad_grad_grad_psi) := rfl
    rw [e] at h
    cases h

end HybridAbort

/-! ## HybridRepCplx: the scratch matrix of the batched evaluation -/

section LoopsMore

variable {σ : Type}

/-- A property of the state that every returning iteration keeps is kept by a returning
loop. -/
theorem forLoop_preserves (body : Nat → σ → Option σ) (P : σ → Prop)
    (hstep : ∀ i s t, body i s = some t → P s → P t) :
    ∀ (n j : Nat) (s t : σ), forLoop body n j s = some t → P s → P t := by
  intro n
  induction n with
  | zero =>
    intro j s t h hP
    have e : s = t := Option.some.inj h
    rw [← e]; exact hP
  | succ n ih =>
    intro j s t h hP
    have h1 : (body j s).bind (forLoop body n (j + 1)) = some t := h
    cases hb : body j s with
    | none => rw [hb] at h1; exact absurd h1 (by simp)
    | some u =>
      rw [hb] at h1
      exact ih (j + 1) u t h1 (hstep j s u hb hP)

end LoopsMore

section HybridRows

variable {R H : Type} [LinearOrderedCommRing R]

theorem hybrid_evaluateValue_multi_myV (sincos : R → R × R) (spline : MultiBspline R)
    (toUnit_floor : (Fin 3 → R) → (Fin 3 → R))
    (evaluate_v : H → (Fin 3 → R) → List R → H × R × List R)
    (interpolate_buffer_v : H → List (Cplx R) → List (Cplx R) → List (Cplx R))
    (X : HybridRepCplx R H) (r : Fin 3 → R) (psi : List (Cplx R))
    (shares : List (Int × Int)) (out : HybridRepCplx R H × List (Cplx R))
    (h : HybridRepCplx.evaluateValue sincos spline toUnit_floor evaluate_v
      interpolate_buffer_v X r psi shares = some out) :
    out.1.multi_myV = X.multi_myV := by
  by_cases h0 : (evaluate_v X.center r X.base.myV).2.1 < 0
  · have e : HybridRepCplx.evaluateValue sincos spline toUnit_floor evaluate_v
        interpolate_buffer_v X r psi shares = _ := if_pos h0
    rw [e] at h
    obtain ⟨st, -, rfl⟩ := Option.map_eq_some'.mp h
    rfl
  · by_cases h1 : (evaluate_v X.center r X.base.myV).2.1 = 1
    · have e : HybridRepCplx.evaluateValue sincos spline toUnit_floor evaluate_v
          interpolate_buffer_v X r psi shares = _ := (if_neg h0).trans (if_pos h1)
      rw [e] at h
      obtain ⟨st, -, rfl⟩ := Option.map_eq_some'.mp h
      rfl
    · have e : HybridRepCplx.evaluateValue sincos spline toUnit_floor evaluate_v
          interpolate_buffer_v X r psi shares = _ := (if_neg h0).trans (if_neg h1)
      rw [e] at h
      obtain ⟨ao, -, h2⟩ := Option.bind_eq_some.mp h
      obtain ⟨st, -, rfl⟩ := Option.map_eq_some'.mp h2
      rfl

theorem evaluateDetRatios_scalar_multi_myV (sincos : R → R × R) (spline : MultiBspline R)
    (toUnit_floor : (Fin 3 → R) → (Fin 3 → R))
    (evaluate_v : H → (Fin 3 → R) → List R → H × R × List R)
    (interpolate_buffer_v : H → List (Cplx R) → List (Cplx R) → List (Cplx R))
    (VP : VirtualParticleSet R) (psiinv : List (Cplx R)) (shares : List (Int × Int))
    (iat : Nat) (s t : HybridRepCplx R H × List (Cplx R) × List (Cplx R))
    (h : HybridRepCplx.evaluateDetRatios_scalar sincos spline toUnit_floor evaluate_v
      interpolate_buffer_v VP psiinv shares iat s = some t) :
    t.1.multi_myV = s.1.multi_myV := by
  obtain ⟨r, -, h1⟩ := Option.bind_eq_some.mp h
  obtain ⟨xp, h2, h3⟩ := Option.bind_eq_some.mp h1
  obtain ⟨ratios, -, rfl⟩ := Option.map_eq_some'.mp h3
  exact hybrid_evaluateValue_multi_myV sincos spline toUnit_floor evaluate_v
    interpolate_buffer_v s.1 r s.2.1 shares xp h2

theorem evaluateDetRatios_sphere_multi_myV (sincos : R → R × R) (spline : MultiBspline R)
    (toUnit_floor : (Fin 3 → R) → (Fin 3 → R))
    (interpolate_buffer_v : H → List (Cplx R) → List (Cplx R) → List (Cplx R))
    (f : R) (VP : VirtualParticleSet R) (psiinv : List (Cplx R)) (shares : List (Int × Int))
    (iat : Nat) (s t : HybridRepCplx R H × List (Cplx R) × List (Cplx R))
    (h : HybridRepCplx.evaluateDetRatios_sphere sincos spline toUnit_floor
      interpolate_buffer_v f VP psiinv shares iat s = some t) :
    t.1.multi_myV = s.1.multi_myV := by
  obtain ⟨r, -, h1⟩ := Option.bind_eq_some.mp h
  obtain ⟨xp, h2, h3⟩ := Option.bind_eq_some.mp h1
  obtain ⟨ratios, -, rfl⟩ := Option.map_eq_some'.mp h3
  by_cases h0 : f < 0
  · rw [if_pos h0] at h2
    obtain ⟨st, -, rfl⟩ := Option.map_eq_some'.mp h2
    rfl
  · rw [if_neg h0] at h2
    by_cases h4 : f = 1
    · rw [if_pos h4] at h2
      obtain ⟨st, -, rfl⟩ := Option.map_eq_some'.mp h2
      rfl
    · rw [if_neg h4] at h2
      obtain ⟨ao, -, h5⟩ := Option.bind_eq_some.mp h2
      obtain ⟨st, -, rfl⟩ := Option.map_eq_some'.mp h5
      rfl

theorem resizeScratch_rows (X : HybridRepCplx R H) (VP : VirtualParticleSet R)
    (psi : List (Cplx R)) :
    (HybridRepCplx.resizeScratch X VP psi).multi_myV.rows
      = max X.multi_myV.rows VP.R.length := by
  by_cases hlt : X.multi_myV.rows < VP.R.length
  · have e : HybridRepCplx.resizeScratch X VP psi = _ := if_pos hlt
    rw [e]
    show VP.R.length = _
    omega
  · have e : HybridRepCplx.resizeScratch X VP psi = _ := if_neg hlt
    rw [e]
    show X.multi_myV.rows = _
    omega

theorem resizeScratch_fields (X : HybridRepCplx R H) (VP : VirtualParticleSet R)
    (psi : List (Cplx R)) :
    (HybridRepCplx.resizeScratch X VP psi).base = X.base ∧
      (HybridRepCplx.resizeScratch X VP psi).center = X.center ∧
      (HybridRepCplx.resizeScratch X VP psi).psi_AO = resizeVector X.psi_AO psi.length := by
  by_cases hlt : X.multi_myV.rows < VP.R.length
  · have e : HybridRepCplx.resizeScratch X VP psi = _ := if_pos hlt
    rw [e]
    exact ⟨rfl, rfl, rfl⟩
  · have e : HybridRepCplx.resizeScratch X VP psi = _ := if_neg hlt
    rw [e]
    exact ⟨rfl, rfl, rfl⟩

theorem evaluateDetRatios_rows (sincos : R → R × R) (spline : MultiBspline R)
    (toUnit_floor : (Fin 3 → R) → (Fin 3 → R))
    (evaluate_v : H → (Fin 3 → R) → List R → H × R × List R)
    (evaluateValuesC2X : H → VirtualParticleSet R → OhmmsMatrix R → H × R × OhmmsMatrix R)
    (interpolate_buffer_v : H → List (Cplx R) → List (Cplx R) → List (Cplx R))
    (hrows : ∀ h VP M, (evaluateValuesC2X h VP M).2.2.rows = M.rows)
    (X : HybridRepCplx R H) (VP : VirtualParticleSet R) (psi psiinv ratios : List (Cplx R))
    (shares : List (Int × Int)) (out : HybridRepCplx R H × List (Cplx R) × List (Cplx R))
    (h : HybridRepCplx.evaluateDetRatios sincos spline toUnit_floor evaluate_v
      evaluateValuesC2X interpolate_buffer_v X VP psi psiinv ratios shares = some out) :
    out.1.multi_myV.rows
      = if VP.isOnSphere then max X.multi_myV.rows VP.R.length else X.multi_myV.rows := by
  by_cases hs : VP.isOnSphere = true
  · have e : HybridRepCplx.evaluateDetRatios sincos spline toUnit_floor evaluate_v
        evaluateValuesC2X interpolate_buffer_v X VP psi psiinv ratios shares = _ := if_pos hs
    rw [e] at h
    rw [if_pos hs]
    refine forLoop_preserves _ (fun s => s.1.multi_myV.rows = max X.multi_myV.rows VP.R.length)
      (fun i s t hst hP => ?_) _ _ _ _ h ?_
    · rw [← hP]
      exact congrArg OhmmsMatrix.rows (evaluateDetRatios_sphere_multi_myV sincos spline
        toUnit_floor interpolate_buffer_v _ VP psiinv shares i s t hst)
    · show (evaluateValuesC2X _ VP _).2.2.rows = _
      rw [hrows]
      exact resizeScratch_rows X VP psi
  · have e : HybridRepCplx.evaluateDetRatios sincos spline toUnit_floor evaluate_v
        evaluateValuesC2X interpolate_buffer_v X VP psi psiinv ratios shares = _ := if_neg hs
    rw [e] at h
    rw [if_neg hs]
    refine forLoop_preserves _ (fun s => s.1.multi_myV.rows = X.multi_myV.rows)
      (fun i s t hst hP => ?_) _ _ _ _ h rfl
    rw [← hP]
    exact congrArg OhmmsMatrix.rows (evaluateDetRatios_scalar_multi_myV sincos spline
      toUnit_floor evaluate_v interpolate_buffer_v VP psiinv shares i s t hst)

/-- C25: the scratch matrix `multi_myV` of the hybrid set only grows, for an atomic-region
engine whose `evaluateValuesC2X` fills the matrix without changing its row count. After a
returning call of `HybridRepCplx::evaluateDetRatios`, `multi_myV.rows()` is the maximum of
its previous value and `VP.getTotalNum()` when the virtual particles are on a sphere (hence
at least the batch size of the call), and its previous value otherwise; over every
sequence of returning calls it never decreases. -/
theorem multi_myV_rows_grow (sincos : R → R × R) (spline : MultiBspline R)
    (toUnit_floor : (Fin 3 → R) → (Fin 3 → R))
    (evaluate_v : H → (Fin 3 → R) → List R → H × R × List R)
    (evaluateValuesC2X : H → VirtualParticleSet R → OhmmsMatrix R → H × R × OhmmsMatrix R)
    (interpolate_buffer_v : H → List (Cplx R) → List (Cplx R) → List (Cplx R))
    (hrows : ∀ h VP M, (evaluateValuesC2X h VP M).2.2.rows = M.rows) :
    (∀ (X : HybridRepCplx R H) (VP : VirtualParticleSet R) (psi psiinv ratios : List (Cplx R))
        (shares : List (Int × Int)) (out : HybridRepCplx R H × List (Cplx R) × List (Cplx R)),
      HybridRepCplx.evaluateDetRatios sincos spline toUnit_floor evaluate_v
          evaluateValuesC2X interpolate_buffer_v X VP psi psiinv ratios shares = some out →
        out.1.multi_myV.rows
            = (if VP.isOnSphere then max X.multi_myV.rows VP.R.length else X.multi_myV.rows) ∧
          X.multi_myV.rows ≤ out.1.multi_myV.rows ∧
          (VP.isOnSphere = true → VP.R.length ≤ out.1.multi_myV.rows)) ∧
    (∀ (calls : List (VirtualParticleSet R × List (Cplx R) × List (Cplx R) × List (Cplx R) ×
          List (Int × Int)))
        (X Y : HybridRepCplx R H),
      calls.foldlM
          (fun X c =>
            (HybridRepCplx.evaluateDetRatios sincos spline toUnit_floor evaluate_v
              evaluateValuesC2X interpolate_buffer_v X c.1 c.2.1 c.2.2.1 c.2.2.2.1
              c.2.2.2.2).map (fun out => out.1))
          X = some Y →
        X.multi_myV.rows ≤ Y.multi_myV.rows) := by
  have one : ∀ (X : HybridRepCplx R H) (VP : VirtualParticleSet R)
      (psi psiinv ratios : List (Cplx R)) (shares : List (Int × Int))
      (out : HybridRepCplx R H × List (Cplx R) × List (Cplx R)),
      HybridRepCplx.evaluateDetRatios sincos spline toUnit_floor evaluate_v
          evaluateValuesC2X interpolate_buffer_v X VP psi psiinv ratios shares = some out →
        out.1.multi_myV.rows
            = (if VP.isOnSphere then max X.multi_myV.rows VP.R.length else X.multi_myV.rows) ∧
          X.multi_myV.rows ≤ out.1.multi_myV.rows ∧
          (VP.isOnSphere = true → VP.R.length ≤ out.1.multi_myV.rows) := by
    intro X VP psi psiinv ratios shares out h
    have e := evaluateDetRatios_rows sincos spline toUnit_floor evaluate_v evaluateValuesC2X
      interpolate_buffer_v hrows X VP psi psiinv ratios shares out h
    refine ⟨e, ?_, fun hs => ?_⟩
    · rw [e]; split_ifs
      · exact le_max_left _ _
      · exact le_refl _
    · rw [e, if_pos hs]; exact le_max_right _ _
  refine ⟨one, fun calls => ?_⟩
  induction calls with
  | nil =>
    intro X Y h
    have e : X = Y := Option.some.inj h
    rw [e]
  | cons c rest ih =>
    intro X Y h
    rw [List.foldlM_cons] at h
    obtain ⟨X1, h1, h2⟩ := Option.bind_eq_some.mp h
    obtain ⟨out, h3, rfl⟩ := Option.map_eq_some'.mp h1
    exact le_trans (one X c.1 c.2.1 c.2.2.1 c.2.2.2.1 c.2.2.2.2 out h3).2.1 (ih out.1 Y h2)

end HybridRows

/-- Witness of C25 on the sample hybrid set: a call for two virtual particles on a sphere
returns and leaves two rows; a following call for virtual particles that are not on a
sphere returns and keeps them. -/
theorem multi_myV_rows_grow_witness :
    (∃ out, HybridRepCplx.evaluateDetRatios sampleSincos sampleSpline id (sampleEvaluateV 0)
        (sampleEvaluateValuesC2X 0) sampleInterpolate sampleHybrid (sampleVP true) samplePsi
        sampleInv [0, 0] [(0, 4), (4, 8)] = some out ∧ out.1.multi_myV.rows = 2) ∧
    (∃ Y, [(sampleVP true, samplePsi, sampleInv, [0, 0], [(0, 4), (4, 8)]),
        (sampleVP false, samplePsi, sampleInv, [0, 0], [(0, 4), (4, 8)])].foldlM
        (fun X c =>
          (HybridRepCplx.evaluateDetRatios sampleSincos sampleSpline id (sampleEvaluateV 0)
            (sampleEvaluateValuesC2X 0) sampleInterpolate X c.1 c.2.1 c.2.2.1 c.2.2.2.1
            c.2.2.2.2).map (fun out => out.1))
        sampleHybrid = some Y ∧ sampleHybrid.multi_myV.rows ≤ Y.multi_myV.rows) :=
  ⟨⟨_, (Option.some_get (by decide)).symm,
      ((multi_myV_rows_grow sampleSincos sampleSpline id (sampleEvaluateV 0)
        (sampleEvaluateValuesC2X 0) sampleInterpolate (fun _ _ _ => rfl)).1 sampleHybrid
        (sampleVP true) samplePsi sampleInv [0, 0] [(0, 4), (4, 8)] _
        (Option.some_get (by decide)).symm).1⟩,
    ⟨_, (Option.some_get (by decide)).symm,
      (multi_myV_rows_grow sampleSincos sampleSpline id (sampleEvaluateV 0)
        (sampleEvaluateValuesC2X 0) sampleInterpolate (fun _ _ _ => rfl)).2 _ sampleHybrid _
        (Option.some_get (by decide)).symm⟩⟩

/-! ## HybridRepCplx: one call of evaluateValue -/

section DotLemmas

variable {R : Type} [CommRing R]

/-- The dot product of the leading `n` entries is their sum of products. -/
theorem simd_dot_sum (a b : List (Cplx R)) (n : Nat) (ha : n ≤ a.length)
    (hb : n ≤ b.length) :
    simd_dot a b 0 (n : Int) = some (∑ i in Finset.range n, rd a i * rd b i) := by
  obtain ⟨s, h, hP⟩ := forLoop_inv
    (fun i res =>
      if 0 + i < a.length ∧ 0 + i < b.length then
        some (res + rd a (0 + i) * rd b (0 + i))
      else none)
    (fun i res => res = ∑ k in Finset.range i, rd a k * rd b k) n 0 (0 : Cplx R)
    (by simp)
    (fun i t _ h2 hP => by
      refine ⟨t + rd a (0 + i) * rd b (0 + i), if_pos ⟨by omega, by omega⟩, ?_⟩
      beta_reduce
      rw [Finset.sum_range_succ, ← hP, Nat.zero_add])
  have e : simd_dot a b 0 (n : Int) = some s := by
    simp only [simd_dot, forRange, Int.toNat_ofNat, Nat.sub_zero]
    exact h
  rw [e, hP, Nat.zero_add]

theorem resizeVector_length {α : Type} [Zero α] (v : List α) (n : Nat) :
    (resizeVector v n).length = n := by
  simp only [resizeVector, List.length_append, List.length_take, List.length_replicate]
  omega

theorem resizeVector_self {α : Type} [Zero α] (v : List α) (n : Nat) (h : v.length = n) :
    resizeVector v n = v := by
  simp [resizeVector, ← h]

/-- The kernel `assign_v` looks at the orbital set only through `kPoints.size()`,
`first_spo` and the k-vectors. -/
theorem assign_v_congr (sincos : R → R × R) (S S1 : SplineC2CT R) (r : Fin 3 → R)
    (myV : List R) (psi : List (Cplx R)) (first last : Int)
    (h1 : S1.kPointsSize = S.kPointsSize) (h2 : S1.first_spo = S.first_spo)
    (h3 : S1.myKcart = S.myKcart) :
    assign_v sincos S1 r myV psi first last = assign_v sincos S r myV psi first last := by
  unfold assign_v assign_v_at reads_v assign_v_val
  simp only [h1, h2, h3]

/-- The call `assign_v(r, myV, psi, 0, myV.size() / 2)` returns when the buffers hold the
orbitals, and keeps the length of `psi`. -/
theorem assign_v_total (sincos : R → R × R) (S : SplineC2CT R) (r : Fin 3 → R)
    (myV : List R) (psi : List (Cplx R)) (hk : S.kPointsSize < 2 ^ 31)
    (hV : myV.length < 2 ^ 31) (hK : ∀ a : Fin 3, S.kPointsSize ≤ (S.myKcart a).length)
    (hpsi : S.kPointsSize + S.first_spo ≤ psi.length) :
    ∃ out, assign_v sincos S r myV psi 0 (toInt (myV.length / 2)) = some out ∧
      out.length = psi.length := by
  have hm : myV.length / 2 < 2 ^ 31 := by omega
  have hhi : toSizeT (protect_last S.kPointsSize (toInt (myV.length / 2)))
      = min (myV.length / 2) S.kPointsSize := by
    rw [toInt_of_lt hm, toSizeT_protect_last hk (by omega) (by omega), if_neg (by omega),
      Int.toNat_ofNat]
  obtain ⟨out, e, u⟩ := assign_v_loop sincos S r myV psi 0 (toInt (myV.length / 2)) 0
    (min (myV.length / 2) S.kPointsSize) rfl hhi
    (fun i _ hi => ⟨fun a => by have := hK a; omega, by omega⟩)
    (fun i _ hi => by omega)
  exact ⟨out, e, u.1⟩

/-- The orbital set that a returning `evaluateValue` leaves has the orbitals it had and a
scratch of the same length. -/
theorem evaluateValue_fold_state (sincos : R → R × R) (spline : MultiBspline R)
    (S : SplineC2CT R) (r ru : Fin 3 → R) (n : Nat)
    (hn : n < 2 ^ 30) (hk : S.kPointsSize < 2 ^ 31)
    (hchan : 2 * S.kPointsSize ≤ spline.num_splines)
    (hK : ∀ a : Fin 3, S.kPointsSize ≤ (S.myKcart a).length) :
    ∀ (L : List (Int × Int)) (S0 : SplineC2CT R) (psi0 : List (Cplx R)),
      (∀ sh ∈ L, 0 ≤ sh.1 ∧ sh.1 ≤ sh.2 ∧ sh.2 ≤ 2 * (n : Int) ∧ sh.1 % 2 = 0 ∧ sh.2 % 2 = 0) →
      (S0.kPointsSize = S.kPointsSize ∧ S0.first_spo = S.first_spo ∧
        S0.myKcart = S.myKcart) →
      spline.num_splines ≤ S0.myV.length →
      min n S.kPointsSize + S.first_spo ≤ psi0.length →
      ∀ st, L.foldlM (fun st sh => evaluateValue_body sincos spline r ru sh.1 sh.2 st)
          (S0, psi0) = some st →
        (st.1.kPointsSize = S.kPointsSize ∧ st.1.first_spo = S.first_spo ∧
          st.1.myKcart = S.myKcart) ∧ st.1.myV.length = S0.myV.length := by
  intro L
  induction L with
  | nil =>
    intro S0 psi0 _ hS _ _ st h
    have e : (S0, psi0) = st := Option.some.inj h
    rw [← e]
    exact ⟨hS, rfl⟩
  | cons sh rest ih =>
    intro S0 psi0 hL hS hV hpsi st h
    obtain ⟨c1, c2, c3, c4, c5⟩ := hL sh (List.mem_cons_self _ _)
    obtain ⟨p, hp⟩ : ∃ p : Nat, sh.1 = 2 * (p : Int) := ⟨(sh.1 / 2).toNat, by omega⟩
    obtain ⟨q, hq⟩ : ∃ q : Nat, sh.2 = 2 * (q : Int) := ⟨(sh.2 / 2).toNat, by omega⟩
    obtain ⟨st1, e1, e2, e3, e4⟩ := evaluateValue_body_spec sincos spline S S0 r ru psi0 p q
      (by omega) (by omega) hk hS hchan hV hK (fun j a b => by omega)
    have h2 : rest.foldlM (fun st sh => evaluateValue_body sincos spline r ru sh.1 sh.2 st)
        (st1.1, st1.2) = some st := by
      rw [List.foldlM_cons, hp, hq, e1] at h
      exact h
    obtain ⟨f1, f2⟩ := ih st1.1 st1.2 (fun s hs => hL s (List.mem_cons_of_mem _ hs)) e2
      (by rw [e3]; exact hV) (by rw [e4.1]; exact hpsi) st h2
    exact ⟨f1, f2.trans e3⟩

/-- The spline `evaluateValue` returns on every orbital set that has the orbitals of `S`
and a scratch as long as that of `S`; the `psi` it leaves is the same for all of them and
has the length of the `psi` given; the set it leaves has the same orbitals and scratch
length again. -/
theorem evaluateValue_total (sincos : R → R × R) (spline : MultiBspline R)
    (toUnit_floor : (Fin 3 → R) → (Fin 3 → R)) (S : SplineC2CT R) (r : Fin 3 → R)
    (psi : List (Cplx R)) (shares : List (Int × Int))
    (hshares : ∀ sh ∈ shares, 0 ≤ sh.1 ∧ sh.1 ≤ sh.2 ∧ sh.2 ≤ 2 * (psi.length : Int) ∧
      sh.1 % 2 = 0 ∧ sh.2 % 2 = 0)
    (hn : psi.length < 2 ^ 30) (hk : S.kPointsSize < 2 ^ 31)
    (hchan : 2 * S.kPointsSize ≤ spline.num_splines)
    (hV : spline.num_splines ≤ S.myV.length)
    (hK : ∀ a : Fin 3, S.kPointsSize ≤ (S.myKcart a).length)
    (hpsi : min psi.length S.kPointsSize + S.first_spo ≤ psi.length) :
    ∃ psiE : List (Cplx R), psiE.length = psi.length ∧
      ∀ S1 : SplineC2CT R,
        (S1.kPointsSize = S.kPointsSize ∧ S1.first_spo = S.first_spo ∧
          S1.myKcart = S.myKcart) → S1.myV.length = S.myV.length →
        ∃ st, evaluateValue sincos spline toUnit_floor S1 r psi shares = some st ∧
          st.2 = psiE ∧
          (st.1.kPointsSize = S.kPointsSize ∧ st.1.first_spo = S.first_spo ∧
            st.1.myKcart = S.myKcart) ∧ st.1.myV.length = S.myV.length := by
  obtain ⟨st, e, len, v⟩ := evaluateValue_fold sincos spline S r (toUnit_floor r) psi.length hn
    hk hchan hK shares S psi hshares ⟨rfl, rfl, rfl⟩ hV hpsi
  refine ⟨st.2, len, fun S1 hS hV1 => ?_⟩
  obtain ⟨st1, e1, -, v1⟩ := evaluateValue_fold sincos spline S r (toUnit_floor r) psi.length
    hn hk hchan hK shares S1 psi hshares hS (by rw [hV1]; exact hV) hpsi
  obtain ⟨f1, f2⟩ := evaluateValue_fold_state sincos spline S r (toUnit_floor r) psi.length
    hn hk hchan hK shares S1 psi hshares hS (by rw [hV1]; exact hV) hpsi st1 e1
  refine ⟨st1, e1, ?_, f1, f2.trans hV1⟩
  apply List.ext_getElem?
  intro i
  rw [v i, v1 i]

end DotLemmas

section HybridSteps

variable {R H : Type} [LinearOrderedCommRing R]

theorem store_ratio_eq (psi psiinv ratios : List (Cplx R)) (iat : Nat)
    (hn : psi.length < 2 ^ 31) (hinv : psi.length ≤ psiinv.length)
    (hr : iat < ratios.length) :
    store_ratio psi psiinv ratios iat
      = some (ratios.set iat (∑ j in Finset.range psi.length, rd psi j * rd psiinv j)) := by
  unfold store_ratio
  rw [toInt_of_lt hn, simd_dot_sum psi psiinv psi.length (le_refl _) hinv, Option.some_bind,
    store_eq_some hr]

/-- One call of `HybridRepCplx::evaluateValue` on a hybrid set whose spline base has the
orbitals of `S` and a scratch as long as that of `S`, for an engine that keeps the length
of the scratch and a blend that keeps the length of `psi`: the call returns, the base keeps
its orbitals and scratch length, `psi` keeps its length, and in each branch `psi` is given
by calls that do not depend on the contents of the scratch. -/
theorem hybrid_evaluateValue_step (sincos : R → R × R) (spline : MultiBspline R)
    (toUnit_floor : (Fin 3 → R) → (Fin 3 → R))
    (evaluate_v : H → (Fin 3 → R) → List R → H × R × List R)
    (interpolate_buffer_v : H → List (Cplx R) → List (Cplx R) → List (Cplx R))
    (S : SplineC2CT R) (X : HybridRepCplx R H) (r : Fin 3 → R) (psi : List (Cplx R))
    (shares : List (Int × Int))
    (hshares : ∀ sh ∈ shares, 0 ≤ sh.1 ∧ sh.1 ≤ sh.2 ∧ sh.2 ≤ 2 * (psi.length : Int) ∧
      sh.1 % 2 = 0 ∧ sh.2 % 2 = 0)
    (hn : psi.length < 2 ^ 30) (hk : S.kPointsSize < 2 ^ 31)
    (hchan : 2 * S.kPointsSize ≤ spline.num_splines)
    (hV : spline.num_splines ≤ S.myV.length) (hV31 : S.myV.length < 2 ^ 31)
    (hK : ∀ a : Fin 3, S.kPointsSize ≤ (S.myKcart a).length)
    (hpsi : S.kPointsSize + S.first_spo ≤ psi.length)
    (hX : X.base.kPointsSize = S.kPointsSize ∧ X.base.first_spo = S.first_spo ∧
      X.base.myKcart = S.myKcart)
    (hlen : (evaluate_v X.center r X.base.myV).2.2.length = S.myV.length)
    (hI : ∀ h p q, q.length = p.length → (interpolate_buffer_v h p q).length = p.length) :
    ∃ out, HybridRepCplx.evaluateValue sincos spline toUnit_floor evaluate_v
        interpolate_buffer_v X r psi shares = some out ∧
      ((out.1.base.kPointsSize = S.kPointsSize ∧ out.1.base.first_spo = S.first_spo ∧
        out.1.base.myKcart = S.myKcart) ∧ out.1.base.myV.length = S.myV.length) ∧
      out.2.length = psi.length ∧
      ((evaluate_v X.center r X.base.myV).2.1 < 0 →
        ∀ S1 : SplineC2CT R,
          (S1.kPointsSize = S.kPointsSize ∧ S1.first_spo = S.first_spo ∧
            S1.myKcart = S.myKcart) → S1.myV.length = S.myV.length →
          ∃ st, evaluateValue sincos spline toUnit_floor S1 r psi shares = some st ∧
            st.2 = out.2 ∧
            (st.1.kPointsSize = S.kPointsSize ∧ st.1.first_spo = S.first_spo ∧
              st.1.myKcart = S.myKcart) ∧ st.1.myV.length = S.myV.length) ∧
      ((evaluate_v X.center r X.base.myV).2.1 = 1 →
        ∀ S1 : SplineC2CT R,
          (S1.kPointsSize = S.kPointsSize ∧ S1.first_spo = S.first_spo ∧
            S1.myKcart = S.myKcart) →
          assign_v sincos S1 r (evaluate_v X.center r X.base.myV).2.2 psi 0
            (toInt (S.myV.length / 2)) = some out.2) ∧
      (¬ (evaluate_v X.center r X.base.myV).2.1 < 0 →
        (evaluate_v X.center r X.base.myV).2.1 ≠ 1 →
        ∃ ao : List (Cplx R), ao.length = psi.length ∧ out.1.psi_AO = ao ∧
          (∀ S1 : SplineC2CT R,
            (S1.kPointsSize = S.kPointsSize ∧ S1.first_spo = S.first_spo ∧
              S1.myKcart = S.myKcart) →
            assign_v sincos S1 r (evaluate_v X.center r X.base.myV).2.2
              (resizeVector X.psi_AO psi.length) 0 (toInt (S.myV.length / 2)) = some ao) ∧
          ∀ S1 : SplineC2CT R,
            (S1.kPointsSize = S.kPointsSize ∧ S1.first_spo = S.first_spo ∧
              S1.myKcart = S.myKcart) → S1.myV.length = S.myV.length →
            ∃ st, evaluateValue sincos spline toUnit_floor S1 r psi shares = some st ∧
              interpolate_buffer_v (evaluate_v X.center r X.base.myV).1 st.2 ao = out.2 ∧
              (st.1.kPointsSize = S.kPointsSize ∧ st.1.first_spo = S.first_spo ∧
                st.1.myKcart = S.myKcart) ∧ st.1.myV.length = S.myV.length) := by
  obtain ⟨psiE, lenE, hE⟩ := evaluateValue_total sincos spline toUnit_floor S r psi shares
    hshares hn hk hchan hV hK (by omega)
  have hB : ({ X.base with myV := (evaluate_v X.center r X.base.myV).2.2 } :
      SplineC2CT R).kPointsSize = S.kPointsSize ∧
      ({ X.base with myV := (evaluate_v X.center r X.base.myV).2.2 } :
        SplineC2CT R).first_spo = S.first_spo ∧
      ({ X.base with myV := (evaluate_v X.center r X.base.myV).2.2 } :
        SplineC2CT R).myKcart = S.myKcart := hX
  obtain ⟨st, e, e2, sh⟩ := hE { X.base with myV := (evaluate_v X.center r X.base.myV).2.2 }
    hB hlen
  have hAv : ∀ (t : List (Cplx R)), t.length = psi.length →
      ∃ t', t'.length = psi.length ∧ ∀ S1 : SplineC2CT R,
        (S1.kPointsSize = S.kPointsSize ∧ S1.first_spo = S.first_spo ∧
          S1.myKcart = S.myKcart) →
        assign_v sincos S1 r (evaluate_v X.center r X.base.myV).2.2 t 0
          (toInt (S.myV.length / 2)) = some t' := by
    intro t ht
    obtain ⟨t', a1, a2⟩ := assign_v_total sincos S r (evaluate_v X.center r X.base.myV).2.2 t
      hk (by rw [hlen]; exact hV31) hK (by rw [ht]; exact hpsi)
    rw [hlen] at a1
    exact ⟨t', a2.trans ht, fun S1 h1 =>
      (assign_v_congr sincos S S1 r _ t 0 _ h1.1 h1.2.1 h1.2.2).trans a1⟩
  by_cases h0 : (evaluate_v X.center r X.base.myV).2.1 < 0
  · have h : HybridRepCplx.evaluateValue sincos spline toUnit_floor evaluate_v
        interpolate_buffer_v X r psi shares = _ := if_pos h0
    refine ⟨_, (by rw [h, e]; rfl), sh, (congrArg List.length e2).trans lenE, fun _ S1 h1 h2 => ?_,
      fun h1 => absurd h0 (by rw [h1]; exact not_lt.mpr zero_le_one),
      fun h1 => absurd h0 h1⟩
    obtain ⟨st1, f1, f2, f3⟩ := hE S1 h1 h2
    exact ⟨st1, f1, f2.trans e2.symm, f3⟩
  · by_cases h1 : (evaluate_v X.center r X.base.myV).2.1 = 1
    · obtain ⟨t', a1, a2⟩ := hAv psi rfl
      have h : HybridRepCplx.evaluateValue sincos spline toUnit_floor evaluate_v
          interpolate_buffer_v X r psi shares
          = (assign_v sincos { X.base with myV := (evaluate_v X.center r X.base.myV).2.2 } r
              (evaluate_v X.center r X.base.myV).2.2 psi 0
              (toInt ((evaluate_v X.center r X.base.myV).2.2.length / 2))).map _ :=
        (if_neg h0).trans (if_pos h1)
      rw [hlen, a2 _ hB] at h
      refine ⟨_, h, ⟨hX, hlen⟩, a1, fun h2 => absurd h2 h0, fun _ S1 h2 => a2 S1 h2,
        fun _ h2 => absurd h1 h2⟩
    · obtain ⟨ao, a1, a2⟩ := hAv (resizeVector X.psi_AO psi.length)
        (resizeVector_length _ _)
      have h : HybridRepCplx.evaluateValue sincos spline toUnit_floor evaluate_v
          interpolate_buffer_v X r psi shares
          = (assign_v sincos { X.base with myV := (evaluate_v X.center r X.base.myV).2.2 }
              r (evaluate_v X.center r X.base.myV).2.2 (resizeVector X.psi_AO psi.length) 0
              (toInt ((evaluate_v X.center r X.base.myV).2.2.length / 2))).bind
            (fun psi_AO =>
              (evaluateValue sincos spline toUnit_floor
                { X.base with myV := (evaluate_v X.center r X.base.myV).2.2 } r psi
                shares).map
                (fun st => (_, interpolate_buffer_v (evaluate_v X.center r X.base.myV).1 st.2
                  psi_AO))) :=
        (if_neg h0).trans (if_neg h1)
      rw [hlen, a2 _ hB, e] at h
      refine ⟨_, h, sh, (hI _ _ _ (a1.trans ((congrArg List.length e2).trans lenE).symm)).trans
        ((congrArg List.length e2).trans lenE), fun h2 => absurd h2 h0,
        fun h2 => absurd h2 h1, fun _ _ => ⟨ao, a1, rfl, a2, fun S1 h2 h3 => ?_⟩⟩
      obtain ⟨st1, f1, f2, f3⟩ := hE S1 h2 h3
      refine ⟨st1, f1, ?_, f3⟩
      rw [f2, ← e2]

end HybridSteps

/-! ## HybridRepCplx: the loop of evaluateDetRatios -/

section HybridLoop

variable {R H : Type} [LinearOrderedCommRing R]

/-- A loop over the virtual particles whose iteration `iat` leaves in `psi` what
`HybridRepCplx::evaluateValue` leaves for the position `iat`, and in `ratios[iat]` the sum
of `psi[j] * psiinv[j]`: the loop returns, and the ratios are those of the sequence of
values. -/
theorem detRatios_loop (sincos : R → R × R) (spline : MultiBspline R)
    (toUnit_floor : (Fin 3 → R) → (Fin 3 → R))
    (evaluate_v : H → (Fin 3 → R) → List R → H × R × List R)
    (interpolate_buffer_v : H → List (Cplx R) → List (Cplx R) → List (Cplx R))
    (VP : VirtualParticleSet R) (psiinv : List (Cplx R)) (shares : List (Int × Int)) (L : Nat)
    (body : Nat → HybridRepCplx R H × List (Cplx R) × List (Cplx R) →
      Option (HybridRepCplx R H × List (Cplx R) × List (Cplx R)))
    (Rel : HybridRepCplx R H → HybridRepCplx R H → Prop)
    (hstep : ∀ (iat : Nat) (r : Fin 3 → R)
        (s : HybridRepCplx R H × List (Cplx R) × List (Cplx R)) (XA : HybridRepCplx R H),
      VP.R[iat]? = some r → Rel s.1 XA → s.2.1.length = L → iat < s.2.2.length →
      ∃ t out, body iat s = some t ∧
        HybridRepCplx.evaluateValue sincos spline toUnit_floor evaluate_v
          interpolate_buffer_v XA r s.2.1 shares = some out ∧
        Rel t.1 out.1 ∧ t.2.1 = out.2 ∧ out.2.length = L ∧
        t.2.2 = s.2.2.set iat (∑ j in Finset.range L, rd out.2 j * rd psiinv j)) :
    ∀ (m k : Nat) (s : HybridRepCplx R H × List (Cplx R) × List (Cplx R))
      (XA : HybridRepCplx R H),
      k + m = VP.R.length → Rel s.1 XA → s.2.1.length = L → VP.R.length ≤ s.2.2.length →
      ∃ t vals, forLoop body m k s = some t ∧
        valueSequence sincos spline toUnit_floor evaluate_v interpolate_buffer_v shares
          (VP.R.drop k) XA s.2.1 = some vals ∧
        vals.length = m ∧ t.2.2.length = s.2.2.length ∧
        (∀ i, i < m → t.2.2[k + i]?
          = some (∑ j in Finset.range L, rd (vals.getD i []) j * rd psiinv j)) ∧
        (∀ i, i < k ∨ k + m ≤ i → t.2.2[i]? = s.2.2[i]?) := by
  intro m
  induction m with
  | zero =>
    intro k s XA hk _ _ _
    refine ⟨s, [], rfl, ?_, rfl, rfl, fun i hi => absurd hi (Nat.not_lt_zero i),
      fun i _ => rfl⟩
    rw [List.drop_eq_nil_of_le (by omega)]
    rfl
  | succ m ih =>
    intro k s XA hk hrel hlen hrat
    have hkl : k < VP.R.length := by omega
    have hdrop : VP.R.drop k = VP.R[k] :: VP.R.drop (k + 1) := List.drop_eq_getElem_cons hkl
    obtain ⟨t1, out, eb, ea, rel1, p1, len1, r1⟩ := hstep k VP.R[k] s XA
      (List.getElem?_eq_getElem hkl) hrel hlen (by omega)
    obtain ⟨t, vals, fb, fa, vlen, rlen, rin, rout⟩ := ih (k + 1) t1 out.1 (by omega) rel1
      (by rw [p1]; exact len1) (by rw [r1, List.length_set]; exact hrat)
    rw [p1] at fa
    refine ⟨t, out.2 :: vals, ?_, ?_, by rw [List.length_cons, vlen], ?_, fun i hi => ?_,
      fun i hi => ?_⟩
    · show (body k s).bind (forLoop body m (k + 1)) = some t
      rw [eb]
      exact fb
    · rw [hdrop]
      show (HybridRepCplx.evaluateValue sincos spline toUnit_floor evaluate_v
        interpolate_buffer_v XA VP.R[k] s.2.1 shares).bind _ = _
      rw [ea, Option.some_bind, fa]
      rfl
    · rw [rlen, r1, List.length_set]
    · cases i with
      | zero =>
        rw [Nat.add_zero, rout k (Or.inl (by omega)), r1,
          List.getElem?_set_self (by omega)]
        rfl
      | succ i =>
        have e := rin i (by omega)
        rw [show k + (i + 1) = k + 1 + i by omega, e]
        rfl
    · rw [rout i (by omega), r1, List.getElem?_set_ne (by omega)]

/-- The iteration of the loop of `evaluateDetRatios` for virtual particles that are not on
a sphere. -/
theorem detRatios_scalar_step (sincos : R → R × R) (spline : MultiBspline R)
    (toUnit_floor : (Fin 3 → R) → (Fin 3 → R))
    (evaluate_v : H → (Fin 3 → R) → List R → H × R × List R)
    (interpolate_buffer_v : H → List (Cplx R) → List (Cplx R) → List (Cplx R))
    (S : SplineC2CT R) (VP : VirtualParticleSet R) (psiinv : List (Cplx R))
    (shares : List (Int × Int)) (L : Nat)
    (hshares : ∀ sh ∈ shares, 0 ≤ sh.1 ∧ sh.1 ≤ sh.2 ∧ sh.2 ≤ 2 * (L : Int) ∧
      sh.1 % 2 = 0 ∧ sh.2 % 2 = 0)
    (hn : L < 2 ^ 30) (hk : S.kPointsSize < 2 ^ 31)
    (hchan : 2 * S.kPointsSize ≤ spline.num_splines)
    (hV : spline.num_splines ≤ S.myV.length) (hV31 : S.myV.length < 2 ^ 31)
    (hK : ∀ a : Fin 3, S.kPointsSize ≤ (S.myKcart a).length)
    (hpsi : S.kPointsSize + S.first_spo ≤ L) (hinv : L ≤ psiinv.length)
    (hE : ∀ h r v, (evaluate_v h r v).2.2.length = v.length)
    (hI : ∀ h p q, q.length = p.length → (interpolate_buffer_v h p q).length = p.length)
    (iat : Nat) (r : Fin 3 → R)
    (s : HybridRepCplx R H × List (Cplx R) × List (Cplx R)) (XA : HybridRepCplx R H)
    (hR : VP.R[iat]? = some r)
    (hrel : s.1 = XA ∧ (XA.base.kPointsSize = S.kPointsSize ∧
      XA.base.first_spo = S.first_spo ∧ XA.base.myKcart = S.myKcart) ∧
      XA.base.myV.length = S.myV.length)
    (hlen : s.2.1.length = L) (hi : iat < s.2.2.length) :
    ∃ t out, HybridRepCplx.evaluateDetRatios_scalar sincos spline toUnit_floor evaluate_v
        interpolate_buffer_v VP psiinv shares iat s = some t ∧
      HybridRepCplx.evaluateValue sincos spline toUnit_floor evaluate_v
        interpolate_buffer_v XA r s.2.1 shares = some out ∧
      (t.1 = out.1 ∧ (out.1.base.kPointsSize = S.kPointsSize ∧
        out.1.base.first_spo = S.first_spo ∧ out.1.base.myKcart = S.myKcart) ∧
        out.1.base.myV.length = S.myV.length) ∧
      t.2.1 = out.2 ∧ out.2.length = L ∧
      t.2.2 = s.2.2.set iat (∑ j in Finset.range L, rd out.2 j * rd psiinv j) := by
  obtain ⟨rfl, hsh, hV1⟩ := hrel
  obtain ⟨out, ea, shp, len1, -, -, -⟩ := hybrid_evaluateValue_step sincos spline toUnit_floor
    evaluate_v interpolate_buffer_v S s.1 r s.2.1 shares (by rw [hlen]; exact hshares)
    (by rw [hlen]; exact hn) hk hchan hV hV31 hK (by rw [hlen]; exact hpsi) hsh
    ((hE _ _ _).trans hV1) hI
  refine ⟨(out.1, out.2, s.2.2.set iat (∑ j in Finset.range L, rd out.2 j * rd psiinv j)),
    out, ?_, ea, ⟨rfl, shp⟩, rfl, len1.trans hlen, rfl⟩
  unfold HybridRepCplx.evaluateDetRatios_scalar
  rw [hR, Option.some_bind, ea, Option.some_bind,
    store_ratio_eq out.2 psiinv s.2.2 iat (by rw [len1, hlen]; omega)
      (by rw [len1, hlen]; exact hinv) hi, Option.map_some', len1, hlen]

/-- The iteration of the loop of `evaluateDetRatios` for virtual particles on a sphere,
when the batched engine gave the smoothing factor `f`, the matrix `M` and the engine `cB`
and the scalar engine agrees with them at the position `iat`. -/
theorem detRatios_sphere_step (sincos : R → R × R) (spline : MultiBspline R)
    (toUnit_floor : (Fin 3 → R) → (Fin 3 → R))
    (evaluate_v : H → (Fin 3 → R) → List R → H × R × List R)
    (interpolate_buffer_v : H → List (Cplx R) → List (Cplx R) → List (Cplx R))
    (S : SplineC2CT R) (VP : VirtualParticleSet R) (psiinv : List (Cplx R))
    (shares : List (Int × Int)) (L : Nat) (f : R) (M : OhmmsMatrix R) (cB : H)
    (hshares : ∀ sh ∈ shares, 0 ≤ sh.1 ∧ sh.1 ≤ sh.2 ∧ sh.2 ≤ 2 * (L : Int) ∧
      sh.1 % 2 = 0 ∧ sh.2 % 2 = 0)
    (hn : L < 2 ^ 30) (hk : S.kPointsSize < 2 ^ 31)
    (hchan : 2 * S.kPointsSize ≤ spline.num_splines)
    (hV : spline.num_splines ≤ S.myV.length) (hV31 : S.myV.length < 2 ^ 31)
    (hK : ∀ a : Fin 3, S.kPointsSize ≤ (S.myKcart a).length)
    (hpsi : S.kPointsSize + S.first_spo ≤ L) (hinv : L ≤ psiinv.length)
    (hE : ∀ h r v, (evaluate_v h r v).2.2.length = v.length)
    (hI : ∀ h p q, q.length = p.length → (interpolate_buffer_v h p q).length = p.length)
    (hagree : ∀ iat r, VP.R[iat]? = some r → ∀ h v, v.length = S.myV.length →
      (evaluate_v h r v).2.1 = f ∧ (evaluate_v h r v).2.2 = myV_one M iat S.myV.length ∧
      interpolate_buffer_v (evaluate_v h r v).1 = interpolate_buffer_v cB)
    (iat : Nat) (r : Fin 3 → R)
    (s : HybridRepCplx R H × List (Cplx R) × List (Cplx R)) (XA : HybridRepCplx R H)
    (hR : VP.R[iat]? = some r)
    (hrel : ((s.1.base.kPointsSize = S.kPointsSize ∧ s.1.base.first_spo = S.first_spo ∧
        s.1.base.myKcart = S.myKcart) ∧ s.1.base.myV.length = S.myV.length) ∧
      ((XA.base.kPointsSize = S.kPointsSize ∧ XA.base.first_spo = S.first_spo ∧
        XA.base.myKcart = S.myKcart) ∧ XA.base.myV.length = S.myV.length) ∧
      s.1.center = cB ∧ s.1.multi_myV = M ∧
      (¬ f < 0 → f ≠ 1 → s.1.psi_AO = resizeVector XA.psi_AO L))
    (hlen : s.2.1.length = L) (hi : iat < s.2.2.length) :
    ∃ t out, HybridRepCplx.evaluateDetRatios_sphere sincos spline toUnit_floor
        interpolate_buffer_v f VP psiinv shares iat s = some t ∧
      HybridRepCplx.evaluateValue sincos spline toUnit_floor evaluate_v
        interpolate_buffer_v XA r s.2.1 shares = some out ∧
      (((t.1.base.kPointsSize = S.kPointsSize ∧ t.1.base.first_spo = S.first_spo ∧
          t.1.base.myKcart = S.myKcart) ∧ t.1.base.myV.length = S.myV.length) ∧
        ((out.1.base.kPointsSize = S.kPointsSize ∧ out.1.base.first_spo = S.first_spo ∧
          out.1.base.myKcart = S.myKcart) ∧ out.1.base.myV.length = S.myV.length) ∧
        t.1.center = cB ∧ t.1.multi_myV = M ∧
        (¬ f < 0 → f ≠ 1 → t.1.psi_AO = resizeVector out.1.psi_AO L)) ∧
      t.2.1 = out.2 ∧ out.2.length = L ∧
      t.2.2 = s.2.2.set iat (∑ j in Finset.range L, rd out.2 j * rd psiinv j) := by
  obtain ⟨hB, hA, hc, hM, hAO⟩ := hrel
  obtain ⟨g1, g2, g3⟩ := hagree iat r hR XA.center XA.base.myV hA.2
  obtain ⟨out, ea, shp, len1, b1, b2, b3⟩ := hybrid_evaluateValue_step sincos spline
    toUnit_floor evaluate_v interpolate_buffer_v S XA r s.2.1 shares
    (by rw [hlen]; exact hshares) (by rw [hlen]; exact hn) hk hchan hV hV31 hK
    (by rw [hlen]; exact hpsi) hA.1 ((hE _ _ _).trans hA.2) hI
  rw [g1] at b1 b2 b3
  rw [g3] at b3
  rw [g2] at b2 b3
  have hdot := store_ratio_eq out.2 psiinv s.2.2 iat (by rw [len1, hlen]; omega)
    (by rw [len1, hlen]; exact hinv) hi
  rw [len1, hlen] at hdot
  by_cases h0 : f < 0
  · obtain ⟨st, e1, e2, sh1⟩ := b1 h0 s.1.base hB.1 hB.2
    refine ⟨({ s.1 with base := st.1 }, out.2,
      s.2.2.set iat (∑ j in Finset.range L, rd out.2 j * rd psiinv j)), out, ?_, ea,
      ⟨sh1, shp, hc, hM, fun h => absurd h0 h⟩, rfl, len1.trans hlen, rfl⟩
    unfold HybridRepCplx.evaluateDetRatios_sphere
    rw [hR, Option.some_bind, if_pos h0, e1, Option.map_some', Option.some_bind, e2, hdot,
      Option.map_some']
  · by_cases h1 : f = 1
    · have e1 := b2 h1 s.1.base hB.1
      refine ⟨(s.1, out.2,
        s.2.2.set iat (∑ j in Finset.range L, rd out.2 j * rd psiinv j)), out, ?_, ea,
        ⟨hB, shp, hc, hM, fun _ h => absurd h1 h⟩, rfl, len1.trans hlen, rfl⟩
      unfold HybridRepCplx.evaluateDetRatios_sphere
      rw [hR, Option.some_bind, if_neg h0, if_pos h1, hM, hB.2, e1, Option.map_some',
        Option.some_bind, hdot, Option.map_some']
    · obtain ⟨ao, a1, a2, a3, a4⟩ := b3 h0 h1
      obtain ⟨st, e1, e2, sh1⟩ := a4 s.1.base hB.1 hB.2
      have e3 := a3 s.1.base hB.1
      rw [hlen, ← hAO h0 h1] at e3
      refine ⟨({ s.1 with base := st.1, psi_AO := ao }, out.2,
        s.2.2.set iat (∑ j in Finset.range L, rd out.2 j * rd psiinv j)), out, ?_, ea,
        ⟨sh1, shp, hc, hM, fun _ _ => ?_⟩, rfl, len1.trans hlen, rfl⟩
      · unfold HybridRepCplx.evaluateDetRatios_sphere
        rw [hR, Option.some_bind, if_neg h0, if_neg h1, hM, hB.2, e3, Option.some_bind, e1,
          Option.map_some', Option.some_bind, hc, e2, hdot, Option.map_some']
      · rw [a2, resizeVector_self ao L (a1.trans hlen)]

end HybridLoop

/-! ## HybridRepCplx: evaluateDetRatios against evaluateValue -/

section HybridRatios

variable {R H : Type} [LinearOrderedCommRing R]

/-- C22: `HybridRepCplx::evaluateDetRatios` is consistent with `evaluateValue`. For a
hybrid set whose buffers hold the orbitals, thread shares inside `[0, 2 * psi.size())`
with even bounds, `psiinv` at least as long as `psi`, `ratios` holding an entry per
virtual particle, an atomic-region engine that keeps the length of the scratch and a blend
that keeps the length of `psi`, the call returns, whether the virtual particles are on a
sphere or not, and so does the sequence of calls of `HybridRepCplx::evaluateValue` for the
virtual positions `0, 1, ...` in turn; for every `iat < VP.getTotalNum()`, `ratios[iat]` is
the sum over `j < psi.size()` of `psi_j * psiinv[j]`, where `psi` is the vector that
`evaluateValue` leaves for the position `iat`; the other entries of `ratios` are kept. On
a sphere this holds under the assumption that the scalar engine returns at each virtual
position the smoothing factor of the batched engine, the raw values of the row `iat` of
the batched matrix, and an engine that blends as the batched one does. -/
theorem detRatios_consistent (sincos : R → R × R) (spline : MultiBspline R)
    (toUnit_floor : (Fin 3 → R) → (Fin 3 → R))
    (evaluate_v : H → (Fin 3 → R) → List R → H × R × List R)
    (evaluateValuesC2X : H → VirtualParticleSet R → OhmmsMatrix R → H × R × OhmmsMatrix R)
    (interpolate_buffer_v : H → List (Cplx R) → List (Cplx R) → List (Cplx R))
    (X : HybridRepCplx R H) (VP : VirtualParticleSet R) (psi psiinv ratios : List (Cplx R))
    (shares : List (Int × Int))
    (hshares : ∀ sh ∈ shares, 0 ≤ sh.1 ∧ sh.1 ≤ sh.2 ∧ sh.2 ≤ 2 * (psi.length : Int) ∧
      sh.1 % 2 = 0 ∧ sh.2 % 2 = 0)
    (hn : psi.length < 2 ^ 30) (hk : X.base.kPointsSize < 2 ^ 31)
    (hchan : 2 * X.base.kPointsSize ≤ spline.num_splines)
    (hV : spline.num_splines ≤ X.base.myV.length) (hV31 : X.base.myV.length < 2 ^ 31)
    (hK : ∀ a : Fin 3, X.base.kPointsSize ≤ (X.base.myKcart a).length)
    (hpsi : X.base.kPointsSize + X.base.first_spo ≤ psi.length)
    (hinv : psi.length ≤ psiinv.length) (hrat : VP.R.length ≤ ratios.length)
    (hE : ∀ h r v, (evaluate_v h r v).2.2.length = v.length)
    (hI : ∀ h p q, q.length = p.length → (interpolate_buffer_v h p q).length = p.length)
    (res : H × R × OhmmsMatrix R)
    (hres : res = evaluateValuesC2X X.center VP
      (HybridRepCplx.resizeScratch X VP psi).multi_myV)
    (hagree : VP.isOnSphere = true → ∀ iat r, VP.R[iat]? = some r →
      ∀ h v, v.length = X.base.myV.length →
        (evaluate_v h r v).2.1 = res.2.1 ∧
        (evaluate_v h r v).2.2 = myV_one res.2.2 iat X.base.myV.length ∧
        interpolate_buffer_v (evaluate_v h r v).1 = interpolate_buffer_v res.1) :
    ∃ out vals,
      HybridRepCplx.evaluateDetRatios sincos spline toUnit_floor evaluate_v
        evaluateValuesC2X interpolate_buffer_v X VP psi psiinv ratios shares = some out ∧
      valueSequence sincos spline toUnit_floor evaluate_v interpolate_buffer_v shares VP.R X
        psi = some vals ∧
      vals.length = VP.R.length ∧ out.2.2.length = ratios.length ∧
      (∀ iat, iat < VP.R.length → out.2.2[iat]?
        = some (∑ j in Finset.range psi.length, rd (vals.getD iat []) j * rd psiinv j)) ∧
      (∀ i, VP.R.length ≤ i → out.2.2[i]? = ratios[i]?) := by
  by_cases hs : VP.isOnSphere = true
  · obtain ⟨fb, fc, fp⟩ := resizeScratch_fields X VP psi
    obtain ⟨Xr, hXr⟩ : ∃ Xr, Xr = HybridRepCplx.resizeScratch X VP psi := ⟨_, rfl⟩
    rw [← hXr] at fb fc fp hres
    have e : HybridRepCplx.evaluateDetRatios sincos spline toUnit_floor evaluate_v
        evaluateValuesC2X interpolate_buffer_v X VP psi psiinv ratios shares
        = forLoop (HybridRepCplx.evaluateDetRatios_sphere sincos spline toUnit_floor
            interpolate_buffer_v res.2.1 VP psiinv shares) VP.R.length 0
            ({ Xr with center := res.1, multi_myV := res.2.2 }, psi, ratios) := by
      rw [hres, hXr, ← fc, hXr]
      exact if_pos hs
    obtain ⟨t, vals, fbk, fa, vlen, rlen, rin, rout⟩ := detRatios_loop sincos spline
      toUnit_floor evaluate_v interpolate_buffer_v VP psiinv shares psi.length
      (HybridRepCplx.evaluateDetRatios_sphere sincos spline toUnit_floor
        interpolate_buffer_v res.2.1 VP psiinv shares)
      (fun XB XA =>
        ((XB.base.kPointsSize = X.base.kPointsSize ∧ XB.base.first_spo = X.base.first_spo ∧
          XB.base.myKcart = X.base.myKcart) ∧ XB.base.myV.length = X.base.myV.length) ∧
        ((XA.base.kPointsSize = X.base.kPointsSize ∧ XA.base.first_spo = X.base.first_spo ∧
          XA.base.myKcart = X.base.myKcart) ∧ XA.base.myV.length = X.base.myV.length) ∧
        XB.center = res.1 ∧ XB.multi_myV = res.2.2 ∧
        (¬ res.2.1 < 0 → res.2.1 ≠ 1 → XB.psi_AO = resizeVector XA.psi_AO psi.length))
      (fun iat r s XA a b c d => detRatios_sphere_step sincos spline toUnit_floor evaluate_v
        interpolate_buffer_v X.base VP psiinv shares psi.length res.2.1 res.2.2 res.1 hshares
        hn hk hchan hV hV31 hK hpsi hinv hE hI (hagree hs) iat r s XA a b c d)
      VP.R.length 0 ({ Xr with center := res.1, multi_myV := res.2.2 }, psi, ratios) X
      (by omega)
      ⟨⟨⟨by rw [← fb], by rw [← fb], by rw [← fb]⟩, by rw [← fb]⟩, ⟨⟨rfl, rfl, rfl⟩, rfl⟩,
        rfl, rfl, fun _ _ => fp⟩
      rfl hrat
    refine ⟨t, vals, e.trans fbk, fa, vlen, rlen, fun iat hi => ?_, fun i hi => ?_⟩
    · have := rin iat hi
      rw [Nat.zero_add] at this
      exact this
    · exact rout i (Or.inr (by omega))
  · have e : HybridRepCplx.evaluateDetRatios sincos spline toUnit_floor evaluate_v
        evaluateValuesC2X interpolate_buffer_v X VP psi psiinv ratios shares
        = forLoop (HybridRepCplx.evaluateDetRatios_scalar sincos spline toUnit_floor
            evaluate_v interpolate_buffer_v VP psiinv shares) VP.R.length 0
            (X, psi, ratios) := if_neg hs
    obtain ⟨t, vals, fbk, fa, vlen, rlen, rin, rout⟩ := detRatios_loop sincos spline
      toUnit_floor evaluate_v interpolate_buffer_v VP psiinv shares psi.length
      (HybridRepCplx.evaluateDetRatios_scalar sincos spline toUnit_floor evaluate_v
        interpolate_buffer_v VP psiinv shares)
      (fun XB XA => XB = XA ∧
        (XA.base.kPointsSize = X.base.kPointsSize ∧ XA.base.first_spo = X.base.first_spo ∧
          XA.base.myKcart = X.base.myKcart) ∧ XA.base.myV.length = X.base.myV.length)
      (fun iat r s XA a b c d => detRatios_scalar_step sincos spline toUnit_floor evaluate_v
        interpolate_buffer_v X.base VP psiinv shares psi.length hshares hn hk hchan hV hV31
        hK hpsi hinv hE hI iat r s XA a b c d)
      VP.R.length 0 (X, psi, ratios) X (by omega) ⟨rfl, ⟨rfl, rfl, rfl⟩, rfl⟩ rfl hrat
    refine ⟨t, vals, e.trans fbk, fa, vlen, rlen, fun iat hi => ?_, fun i hi => ?_⟩
    · have := rin iat hi
      rw [Nat.zero_add] at this
      exact this
    · exact rout i (Or.inr (by omega))

end HybridRatios

/-- The sample scalar engine agrees with the sample batched engine on the sample virtual
particle set. -/
theorem sample_engines_agree (f : Int) (iat : Nat) (r : Fin 3 → Int)
    (hr : (sampleVP true).R[iat]? = some r) (h : Unit) (v : List Int)
    (hv : v.length = sampleHybrid.base.myV.length) :
    (sampleEvaluateV f h r v).2.1
        = (sampleEvaluateValuesC2X f sampleHybrid.center (sampleVP true)
            (HybridRepCplx.resizeScratch sampleHybrid (sampleVP true) samplePsi).multi_myV).2.1 ∧
      (sampleEvaluateV f h r v).2.2
        = myV_one (sampleEvaluateValuesC2X f sampleHybrid.center (sampleVP true)
            (HybridRepCplx.resizeScratch sampleHybrid (sampleVP true)
              samplePsi).multi_myV).2.2 iat sampleHybrid.base.myV.length ∧
      sampleInterpolate (sampleEvaluateV f h r v).1
        = sampleInterpolate (sampleEvaluateValuesC2X f sampleHybrid.center (sampleVP true)
            (HybridRepCplx.resizeScratch sampleHybrid (sampleVP true)
              samplePsi).multi_myV).1 := by
  have hi : iat < 2 := by
    by_contra hc
    have e : (sampleVP true).R[iat]? = none :=
      List.getElem?_eq_none (by show 2 ≤ iat; omega)
    rw [e] at hr
    exact absurd hr (by simp)
  refine ⟨rfl, ?_, rfl⟩
  match v, hv with
  | [a, b, c, d], _ =>
    interval_cases iat <;> rfl

/-- Witness of C22 on the sample hybrid set, for two virtual particles on a sphere and an
engine in the blend region. -/
theorem detRatios_consistent_witness :
    ∃ out vals,
      HybridRepCplx.evaluateDetRatios sampleSincos sampleSpline id (sampleEvaluateV 0)
        (sampleEvaluateValuesC2X 0) sampleInterpolate sampleHybrid (sampleVP true) samplePsi
        sampleInv [0, 0] [(0, 4), (4, 8)] = some out ∧
      valueSequence sampleSincos sampleSpline id (sampleEvaluateV 0) sampleInterpolate
        [(0, 4), (4, 8)] (sampleVP true).R sampleHybrid samplePsi = some vals ∧
      vals.length = (sampleVP true).R.length ∧ out.2.2.length = [(0 : Cplx Int), 0].length ∧
      (∀ iat, iat < (sampleVP true).R.length → out.2.2[iat]?
        = some (∑ j in Finset.range samplePsi.length,
            rd (vals.getD iat []) j * rd sampleInv j)) ∧
      (∀ i, (sampleVP true).R.length ≤ i → out.2.2[i]? = [(0 : Cplx Int), 0][i]?) :=
  detRatios_consistent sampleSincos sampleSpline id (sampleEvaluateV 0)
    (sampleEvaluateValuesC2X 0) sampleInterpolate sampleHybrid (sampleVP true) samplePsi
    sampleInv [0, 0] [(0, 4), (4, 8)] (by decide) (by decide) (by decide) (by decide)
    (by decide) (by decide) (by decide) (by decide) (by decide) (by decide)
    (fun _ _ v => List.length_map v _)
    (fun _ p q hq => by simp [sampleInterpolate, hq])
    _ rfl (fun _ iat r hr h v hv => sample_engines_agree 0 iat r hr h v hv)

/-! ## The spline evaluateVGL -/

section SplineVGLLemmas

variable {R : Type} [CommRing R]

omit [CommRing R] in
theorem SameOrbitals.refl (S : SplineC2CT R) : SameOrbitals S S :=
  ⟨rfl, rfl, rfl, rfl, rfl, rfl, rfl⟩

omit [CommRing R] in
theorem SameOrbitals.trans {S0 S1 S2 : SplineC2CT R} (h1 : SameOrbitals S0 S1)
    (h2 : SameOrbitals S1 S2) : SameOrbitals S0 S2 :=
  ⟨h1.1.trans h2.1, h1.2.1.trans h2.2.1, h1.2.2.1.trans h2.2.2.1,
    h1.2.2.2.1.trans h2.2.2.2.1, h1.2.2.2.2.1.trans h2.2.2.2.2.1,
    h1.2.2.2.2.2.1.trans h2.2.2.2.2.2.1, h1.2.2.2.2.2.2.trans h2.2.2.2.2.2.2⟩

omit [CommRing R] in
/-- The kernel `evaluate3d_vgh` on the channels `[p, q)`: the orbitals are kept and the
three scratch arrays receive the values, gradients and Hessians of the channels
`p <= c < min(q, num_splines)`. -/
theorem evaluate3d_vgh_spec (spline : MultiBsplineD R) (ru : Fin 3 → R) (S0 : SplineC2CT R)
    (p q : Nat) (h : ScratchHolds spline.num_splines S0) :
    ∃ S1, evaluate3d_vgh spline ru S0 (p : Int) (q : Int) = some S1 ∧
      SameOrbitals S1 S0 ∧ S1.myL = S0.myL ∧
      Upd (fun c => some (spline.value ru c)) p (min q spline.num_splines) S0.myV S1.myV ∧
      (∀ a, Upd (fun c => some (spline.grad ru a c)) p (min q spline.num_splines) (S0.myG a)
        (S1.myG a)) ∧
      (∀ a, Upd (fun c => some (spline.hess ru a c)) p (min q spline.num_splines) (S0.myH a)
        (S1.myH a)) := by
  obtain ⟨hV, hG, hH⟩ := h
  obtain ⟨S1, e, o, l, u1, u2, u3⟩ := forLoop_inv
    (fun i (S : SplineC2CT R) =>
      if writes_vgh S i then
        some { S with
          myV := S.myV.set i (spline.value ru i)
          myG := fun a => (S.myG a).set i (spline.grad ru a i)
          myH := fun a => (S.myH a).set i (spline.hess ru a i) }
      else none)
    (fun i t => SameOrbitals t S0 ∧ t.myL = S0.myL ∧
      Upd (fun c => some (spline.value ru c)) p i S0.myV t.myV ∧
      (∀ a, Upd (fun c => some (spline.grad ru a c)) p i (S0.myG a) (t.myG a)) ∧
      (∀ a, Upd (fun c => some (spline.hess ru a c)) p i (S0.myH a) (t.myH a)))
    (min q spline.num_splines - p) p S0
    ⟨SameOrbitals.refl S0, rfl, Upd_refl _ _ _, fun a => Upd_refl _ _ _,
      fun a => Upd_refl _ _ _⟩
    (fun i t h1 h2 hP => by
      obtain ⟨o, l, u1, u2, u3⟩ := hP
      have hw : writes_vgh t i :=
        ⟨by rw [u1.1]; omega, fun a => by rw [(u2 a).1]; have := hG a; omega,
          fun a => by rw [(u3 a).1]; have := hH a; omega⟩
      refine ⟨_, if_pos hw, o, l, (Upd_step u1 h1 rfl (by omega)).2,
        fun a => (Upd_step (u2 a) h1 rfl (by have := hG a; omega)).2,
        fun a => (Upd_step (u3 a) h1 rfl (by have := hH a; omega)).2⟩)
  have eq : (if (q : Int) > (spline.num_splines : Int) then (spline.num_splines : Int)
      else (q : Int)).toNat = min q spline.num_splines := by
    split_ifs <;> omega
  refine ⟨S1, ?_, o, l, Upd_congr u1 (fun i => by omega) (fun i _ _ => rfl),
    fun a => Upd_congr (u2 a) (fun i => by omega) (fun i _ _ => rfl),
    fun a => Upd_congr (u3 a) (fun i => by omega) (fun i _ _ => rfl)⟩
  simp only [evaluate3d_vgh, forRange, eq, Int.toNat_ofNat]
  exact e

/-- The values that `assign_vgl` computes for the orbital `j` depend on the orbital set
through its orbitals and the entries `2j`, `2j + 1` of the scratch arrays only. -/
theorem assign_vgl_val_congr (sincos : R → R × R) (S S1 : SplineC2CT R) (r : Fin 3 → R)
    (j : Nat) (ho : SameOrbitals S1 S)
    (hV0 : rd S1.myV (2 * j) = rd S.myV (2 * j))
    (hV1 : rd S1.myV (2 * j + 1) = rd S.myV (2 * j + 1))
    (hG0 : ∀ a, rd (S1.myG a) (2 * j) = rd (S.myG a) (2 * j))
    (hG1 : ∀ a, rd (S1.myG a) (2 * j + 1) = rd (S.myG a) (2 * j + 1))
    (hH0 : ∀ a, rd (S1.myH a) (2 * j) = rd (S.myH a) (2 * j))
    (hH1 : ∀ a, rd (S1.myH a) (2 * j + 1) = rd (S.myH a) (2 * j + 1)) :
    assign_vgl_val sincos S1 r j = assign_vgl_val sincos S r j := by
  obtain ⟨-, -, -, o4, o5, o6, o7⟩ := ho
  simp only [assign_vgl_val, shl_one, o4, o5, o6, o7, hV0, hV1, hG0, hG1, hH0, hH1]

/-- On a scratch that holds the spline values of the channels `2j` and `2j + 1`,
`assign_vgl` computes the value, gradient and Laplacian of the orbital `j`. -/
theorem orbitalVGL_eq (sincos : R → R × R) (spline : MultiBsplineD R) (S S1 : SplineC2CT R)
    (r ru : Fin 3 → R) (j : Nat) (ho : SameOrbitals S1 S)
    (hV : ∀ c, 2 * j ≤ c → c < 2 * j + 2 → S1.myV[c]? = some (spline.value ru c))
    (hG : ∀ a c, 2 * j ≤ c → c < 2 * j + 2 → (S1.myG a)[c]? = some (spline.grad ru a c))
    (hH : ∀ a c, 2 * j ≤ c → c < 2 * j + 2 → (S1.myH a)[c]? = some (spline.hess ru a c)) :
    assign_vgl_val sincos S1 r j = orbitalVGL sincos spline S r ru j := by
  unfold orbitalVGL
  apply assign_vgl_val_congr sincos (splineScratch spline S ru j) S1 r j ho
  · rw [rd_of_getElem? (hV _ (by omega) (by omega))]
    exact (rd_map_range _ _ _ (by omega)).symm
  · rw [rd_of_getElem? (hV _ (by omega) (by omega))]
    exact (rd_map_range _ _ _ (by omega)).symm
  · intro a
    rw [rd_of_getElem? (hG a _ (by omega) (by omega))]
    exact (rd_map_range _ _ _ (by omega)).symm
  · intro a
    rw [rd_of_getElem? (hG a _ (by omega) (by omega))]
    exact (rd_map_range _ _ _ (by omega)).symm
  · intro a
    rw [rd_of_getElem? (hH a _ (by omega) (by omega))]
    exact (rd_map_range _ _ _ (by omega)).symm
  · intro a
    rw [rd_of_getElem? (hH a _ (by omega) (by omega))]
    exact (rd_map_range _ _ _ (by omega)).symm

/-- One thread of `evaluateVGL` on the channels `[2p, 2q)`: the orbitals and the lengths
of the scratch arrays are kept, and `psi`, `dpsi`, `d2psi` receive the value, gradient and
Laplacian of the orbitals `p <= j < min(q, kPoints.size())`. -/
theorem evaluateVGL_body_spec (sincos : R → R × R) (spline : MultiBsplineD R)
    (S S0 : SplineC2CT R) (r ru : Fin 3 → R) (psi0 : List (Cplx R))
    (dpsi0 : List (Fin 3 → Cplx R)) (d2psi0 : List (Cplx R)) (p q : Nat)
    (hp : p ≤ q) (hq : q < 2 ^ 30) (hk : S.kPointsSize < 2 ^ 31)
    (ho : SameOrbitals S0 S)
    (hchan : 2 * S.kPointsSize ≤ spline.num_splines)
    (hh : ScratchHolds spline.num_splines S0)
    (hK : ∀ a : Fin 3, S.kPointsSize ≤ (S.myKcart a).length)
    (hKK : S.kPointsSize ≤ S.mKK.length)
    (hpsi : ∀ j, p ≤ j → j < min q S.kPointsSize → j + S.first_spo < psi0.length)
    (hdpsi : ∀ j, p ≤ j → j < min q S.kPointsSize → j + S.first_spo < dpsi0.length)
    (hd2psi : ∀ j, p ≤ j → j < min q S.kPointsSize → j + S.first_spo < d2psi0.length) :
    ∃ st, evaluateVGL_body sincos spline r ru (2 * (p : Int)) (2 * (q : Int))
        (S0, psi0, dpsi0, d2psi0) = some st ∧
      SameOrbitals st.1 S ∧ ScratchHolds spline.num_splines st.1 ∧ st.1.myL = S0.myL ∧
      Upd (fun i => some (orbitalVGL sincos spline S r ru (i - S.first_spo)).1)
        (p + S.first_spo) (min q S.kPointsSize + S.first_spo) psi0 st.2.1 ∧
      Upd (fun i => some (orbitalVGL sincos spline S r ru (i - S.first_spo)).2.1)
        (p + S.first_spo) (min q S.kPointsSize + S.first_spo) dpsi0 st.2.2.1 ∧
      Upd (fun i => some (orbitalVGL sincos spline S r ru (i - S.first_spo)).2.2)
        (p + S.first_spo) (min q S.kPointsSize + S.first_spo) d2psi0 st.2.2.2 := by
  obtain ⟨S1, e1, o1, l1, u1, u2, u3⟩ := evaluate3d_vgh_spec spline ru S0 (2 * p) (2 * q) hh
  have o : SameOrbitals S1 S := SameOrbitals.trans o1 ho
  have hh1 : ScratchHolds spline.num_splines S1 :=
    ⟨by rw [u1.1]; exact hh.1, fun a => by rw [(u2 a).1]; exact hh.2.1 a,
      fun a => by rw [(u3 a).1]; exact hh.2.2 a⟩
  have d1 : Int.tdiv (2 * (p : Int)) 2 = (p : Int) := by
    rw [Int.tdiv_eq_ediv (by omega) (by omega)]; omega
  have d2 : Int.tdiv (2 * (q : Int)) 2 = (q : Int) := by
    rw [Int.tdiv_eq_ediv (by omega) (by omega)]; omega
  have b1 : toSizeT (p : Int) = p := by
    rw [toSizeT_of_nonneg (by omega) (by omega)]; omega
  have b2 : toSizeT (protect_last S1.kPointsSize (q : Int)) = min q S.kPointsSize := by
    rw [o.1, toSizeT_protect_last hk (by omega) (by omega), if_neg (by omega)]
    omega
  obtain ⟨out, g1, g2, g3, g4⟩ := assign_vgl_loop sincos S1 r psi0 dpsi0 d2psi0
    (p : Int) (q : Int) p (min q S.kPointsSize) b1 b2
    (fun j a b => ⟨fun c => by rw [o.2.2.2.2.2.1]; have := hK c; omega,
      by have := hh1.1; omega, fun c => by have := hh1.2.1 c; omega,
      fun c => by have := hh1.2.2 c; omega, by rw [o.2.2.2.2.2.2]; omega⟩)
    (fun j a b => by rw [o.2.1]; exact hpsi j a b)
    (fun j a b => by rw [o.2.1]; exact hdpsi j a b)
    (fun j a b => by rw [o.2.1]; exact hd2psi j a b)
  rw [o.2.1] at g2 g3 g4
  have hval : ∀ i, p + S.first_spo ≤ i → i < min q S.kPointsSize + S.first_spo →
      assign_vgl_val sincos S1 r (i - S.first_spo)
        = orbitalVGL sincos spline S r ru (i - S.first_spo) := by
    intro i a b
    apply orbitalVGL_eq sincos spline S S1 r ru _ o
    · intro c c1 c2
      rw [u1.2 c, if_pos ⟨by omega, by omega⟩]
    · intro x c c1 c2
      rw [(u2 x).2 c, if_pos ⟨by omega, by omega⟩]
    · intro x c c1 c2
      rw [(u3 x).2 c, if_pos ⟨by omega, by omega⟩]
  refine ⟨(S1, out), ?_, o, hh1, l1,
    Upd_congr g2 (fun i => Iff.rfl) (fun i a b => by rw [hval i a b]),
    Upd_congr g3 (fun i => Iff.rfl) (fun i a b => by rw [hval i a b]),
    Upd_congr g4 (fun i => Iff.rfl) (fun i a b => by rw [hval i a b])⟩
  have e1' : evaluate3d_vgh spline ru S0 (2 * (p : Int)) (2 * (q : Int)) = some S1 := by
    simpa using e1
  unfold evaluateVGL_body
  show (evaluate3d_vgh spline ru S0 (2 * (p : Int)) (2 * (q : Int))).bind _ = _
  rw [e1', Option.some_bind, d1, d2, g1]
  rfl

omit [CommRing R] in
/-- The entries of a buffer after the thread of the share `sh` and then the threads of the
shares `rest` have written it. -/
theorem covered_step {α : Type} (f : Nat → α) (sh : Int × Int) (rest : List (Int × Int))
    (kps fs p q : Nat) (hp : sh.1 = 2 * (p : Int)) (hq : sh.2 = 2 * (q : Int))
    (xs ys zs : List α)
    (h1 : Upd (fun i => some (f (i - fs))) (p + fs) (min q kps + fs) xs ys)
    (h2 : ∀ i, zs[i]? = if fs ≤ i ∧ Covered rest kps (i - fs) then some (f (i - fs))
      else ys[i]?) (i : Nat) :
    zs[i]? = if fs ≤ i ∧ Covered (sh :: rest) kps (i - fs) then some (f (i - fs))
      else xs[i]? := by
  rw [h2 i, h1.2 i]
  have hc := covered_cons sh rest kps (i - fs)
  rw [hp, hq] at hc
  by_cases k1 : fs ≤ i ∧ Covered rest kps (i - fs)
  · rw [if_pos k1, if_pos ⟨k1.1, hc.mpr (Or.inr k1.2)⟩]
  · rw [if_neg k1]
    by_cases k2 : p + fs ≤ i ∧ i < min q kps + fs
    · rw [if_pos k2, if_pos ⟨by omega, hc.mpr (Or.inl (by omega))⟩]
    · rw [if_neg k2, if_neg]
      rintro ⟨k3, k4⟩
      rcases hc.mp k4 with k5 | k5
      · exact k2 (by omega)
      · exact k1 ⟨k3, k5⟩

/-- The threads of `evaluateVGL`, run one after the other: the call returns, the orbitals
and the lengths of the scratch arrays are kept, and `psi`, `dpsi`, `d2psi` hold the value,
gradient and Laplacian of the orbitals that a share covers and their old entries
elsewhere. -/
theorem evaluateVGL_fold (sincos : R → R × R) (spline : MultiBsplineD R)
    (S : SplineC2CT R) (r ru : Fin 3 → R) (n : Nat)
    (hn : n < 2 ^ 30) (hk : S.kPointsSize < 2 ^ 31)
    (hchan : 2 * S.kPointsSize ≤ spline.num_splines)
    (hK : ∀ a : Fin 3, S.kPointsSize ≤ (S.myKcart a).length)
    (hKK : S.kPointsSize ≤ S.mKK.length) :
    ∀ (L : List (Int × Int)) (S0 : SplineC2CT R) (psi0 : List (Cplx R))
      (dpsi0 : List (Fin 3 → Cplx R)) (d2psi0 : List (Cplx R)),
      (∀ sh ∈ L, 0 ≤ sh.1 ∧ sh.1 ≤ sh.2 ∧ sh.2 ≤ 2 * (n : Int) ∧ sh.1 % 2 = 0 ∧ sh.2 % 2 = 0) →
      SameOrbitals S0 S → ScratchHolds spline.num_splines S0 →
      min n S.kPointsSize + S.first_spo ≤ psi0.length →
      min n S.kPointsSize + S.first_spo ≤ dpsi0.length →
      min n S.kPointsSize + S.first_spo ≤ d2psi0.length →
      ∃ st, L.foldlM (fun st sh => evaluateVGL_body sincos spline r ru sh.1 sh.2 st)
          (S0, psi0, dpsi0, d2psi0) = some st ∧
        SameOrbitals st.1 S ∧ ScratchHolds spline.num_splines st.1 ∧ st.1.myL = S0.myL ∧
        (st.2.1.length = psi0.length ∧ st.2.2.1.length = dpsi0.length ∧
          st.2.2.2.length = d2psi0.length) ∧
        (∀ i, st.2.1[i]? = if S.first_spo ≤ i ∧ Covered L S.kPointsSize (i - S.first_spo)
          then some (orbitalVGL sincos spline S r ru (i - S.first_spo)).1 else psi0[i]?) ∧
        (∀ i, st.2.2.1[i]? = if S.first_spo ≤ i ∧ Covered L S.kPointsSize (i - S.first_spo)
          then some (orbitalVGL sincos spline S r ru (i - S.first_spo)).2.1 else dpsi0[i]?) ∧
        (∀ i, st.2.2.2[i]? = if S.first_spo ≤ i ∧ Covered L S.kPointsSize (i - S.first_spo)
          then some (orbitalVGL sincos spline S r ru (i - S.first_spo)).2.2
          else d2psi0[i]?) := by
  intro L
  induction L with
  | nil =>
    intro S0 psi0 dpsi0 d2psi0 _ ho hh _ _ _
    refine ⟨(S0, psi0, dpsi0, d2psi0), rfl, ho, hh, rfl, ⟨rfl, rfl, rfl⟩, fun i => ?_,
      fun i => ?_, fun i => ?_⟩ <;> simp [Covered]
  | cons sh rest ih =>
    intro S0 psi0 dpsi0 d2psi0 hL ho hh hpsi hdpsi hd2psi
    obtain ⟨c1, c2, c3, c4, c5⟩ := hL sh (List.mem_cons_self _ _)
    obtain ⟨p, hp⟩ : ∃ p : Nat, sh.1 = 2 * (p : Int) := ⟨(sh.1 / 2).toNat, by omega⟩
    obtain ⟨q, hq⟩ : ∃ q : Nat, sh.2 = 2 * (q : Int) := ⟨(sh.2 / 2).toNat, by omega⟩
    obtain ⟨st1, e1, o1, hh1, l1, u1, u2, u3⟩ := evaluateVGL_body_spec sincos spline S S0 r ru
      psi0 dpsi0 d2psi0 p q (by omega) (by omega) hk ho hchan hh hK hKK
      (fun j a b => by omega) (fun j a b => by omega) (fun j a b => by omega)
    obtain ⟨st, f1, o2, hh2, l2, len, v1, v2, v3⟩ := ih st1.1 st1.2.1 st1.2.2.1 st1.2.2.2
      (fun s hs => hL s (List.mem_cons_of_mem _ hs)) o1 hh1
      (by rw [u1.1]; exact hpsi) (by rw [u2.1]; exact hdpsi) (by rw [u3.1]; exact hd2psi)
    refine ⟨st, ?_, o2, hh2, l2.trans l1,
      ⟨len.1.trans u1.1, len.2.1.trans u2.1, len.2.2.trans u3.1⟩,
      covered_step (fun j => (orbitalVGL sincos spline S r ru j).1) sh rest _ _ p q hp hq _ _ _
        u1 v1,
      covered_step (fun j => (orbitalVGL sincos spline S r ru j).2.1) sh rest _ _ p q hp hq _ _
        _ u2 v2,
      covered_step (fun j => (orbitalVGL sincos spline S r ru j).2.2) sh rest _ _ p q hp hq _ _
        _ u3 v3⟩
    rw [List.foldlM_cons, hp, hq, e1]
    exact f1

end SplineVGLLemmas

section SplineVGLTotal

variable {R : Type} [CommRing R]

/-- The value component of the orbital's value, gradient and Laplacian is the orbital
value. -/
theorem orbitalVGL_value (sincos : R → R × R) (spline : MultiBsplineD R) (S : SplineC2CT R)
    (r ru : Fin 3 → R) (j : Nat) :
    (orbitalVGL sincos spline S r ru j).1
      = orbitalValue sincos spline.toMultiBspline S r ru j := by
  unfold orbitalVGL orbitalValue
  rw [assign_vgl_val_psi]
  exact assign_v_val_congr sincos S (splineScratch spline S ru j) r _ _ j rfl rfl rfl

/-- The spline `evaluateVGL` returns on every orbital set that has the orbitals of `S` and
scratch arrays that hold the channels; the outputs are the same for all of them and have
the lengths of the buffers given. -/
theorem evaluateVGL_total (sincos : R → R × R) (spline : MultiBsplineD R)
    (toUnit_floor : (Fin 3 → R) → (Fin 3 → R)) (S : SplineC2CT R) (r : Fin 3 → R)
    (psi : List (Cplx R)) (dpsi : List (Fin 3 → Cplx R)) (d2psi : List (Cplx R))
    (shares : List (Int × Int))
    (hshares : ∀ sh ∈ shares, 0 ≤ sh.1 ∧ sh.1 ≤ sh.2 ∧ sh.2 ≤ 2 * (psi.length : Int) ∧
      sh.1 % 2 = 0 ∧ sh.2 % 2 = 0)
    (hn : psi.length < 2 ^ 30) (hk : S.kPointsSize < 2 ^ 31)
    (hchan : 2 * S.kPointsSize ≤ spline.num_splines)
    (hh : ScratchHolds spline.num_splines S)
    (hK : ∀ a : Fin 3, S.kPointsSize ≤ (S.myKcart a).length)
    (hKK : S.kPointsSize ≤ S.mKK.length)
    (hpsi : min psi.length S.kPointsSize + S.first_spo ≤ psi.length)
    (hdpsi : min psi.length S.kPointsSize + S.first_spo ≤ dpsi.length)
    (hd2psi : min psi.length S.kPointsSize + S.first_spo ≤ d2psi.length) :
    ∃ out : List (Cplx R) × List (Fin 3 → Cplx R) × List (Cplx R),
      (out.1.length = psi.length ∧ out.2.1.length = dpsi.length ∧
        out.2.2.length = d2psi.length) ∧
      (∀ i, out.1[i]? = if S.first_spo ≤ i ∧ Covered shares S.kPointsSize (i - S.first_spo)
        then some (orbitalValue sincos spline.toMultiBspline S r (toUnit_floor r)
          (i - S.first_spo)) else psi[i]?) ∧
      ∀ S1 : SplineC2CT R, SameOrbitals S1 S → ScratchHolds spline.num_splines S1 →
        ∃ st, evaluateVGL sincos spline toUnit_floor S1 r psi dpsi d2psi shares = some st ∧
          st.2 = out ∧ SameOrbitals st.1 S ∧ ScratchHolds spline.num_splines st.1 ∧
          st.1.myL = S1.myL := by
  obtain ⟨st, e, -, -, -, len, v1, v2, v3⟩ := evaluateVGL_fold sincos spline S r
    (toUnit_floor r) psi.length hn hk hchan hK hKK shares S psi dpsi d2psi hshares
    (SameOrbitals.refl S) hh hpsi hdpsi hd2psi
  refine ⟨st.2, len, fun i => ?_, fun S1 ho hh1 => ?_⟩
  · rw [v1 i, orbitalVGL_value]
  · obtain ⟨st1, e1, o1, h1, l1, -, w1, w2, w3⟩ := evaluateVGL_fold sincos spline S r
      (toUnit_floor r) psi.length hn hk hchan hK hKK shares S1 psi dpsi d2psi hshares ho hh1
      hpsi hdpsi hd2psi
    refine ⟨st1, e1, ?_, o1, h1, l1⟩
    apply Prod.ext
    · apply List.ext_getElem?
      intro i
      rw [v1 i, w1 i]
    · apply Prod.ext
      · apply List.ext_getElem?
        intro i
        rw [v2 i, w2 i]
      · apply List.ext_getElem?
        intro i
        rw [v3 i, w3 i]

/-- The function `evaluateVGL` leaves in `psi` what `evaluateValue` leaves there. -/
theorem evaluateVGL_value (sincos : R → R × R) (spline : MultiBsplineD R)
    (toUnit_floor : (Fin 3 → R) → (Fin 3 → R)) (S : SplineC2CT R) (r : Fin 3 → R)
    (psi : List (Cplx R)) (dpsi : List (Fin 3 → Cplx R)) (d2psi : List (Cplx R))
    (shares : List (Int × Int))
    (hshares : ∀ sh ∈ shares, 0 ≤ sh.1 ∧ sh.1 ≤ sh.2 ∧ sh.2 ≤ 2 * (psi.length : Int) ∧
      sh.1 % 2 = 0 ∧ sh.2 % 2 = 0)
    (hn : psi.length < 2 ^ 30) (hk : S.kPointsSize < 2 ^ 31)
    (hchan : 2 * S.kPointsSize ≤ spline.num_splines)
    (hh : ScratchHolds spline.num_splines S)
    (hK : ∀ a : Fin 3, S.kPointsSize ≤ (S.myKcart a).length)
    (hKK : S.kPointsSize ≤ S.mKK.length)
    (hpsi : min psi.length S.kPointsSize + S.first_spo ≤ psi.length)
    (hdpsi : min psi.length S.kPointsSize + S.first_spo ≤ dpsi.length)
    (hd2psi : min psi.length S.kPointsSize + S.first_spo ≤ d2psi.length) :
    ∃ stV stL,
      evaluateValue sincos spline.toMultiBspline toUnit_floor S r psi shares = some stV ∧
      evaluateVGL sincos spline toUnit_floor S r psi dpsi d2psi shares = some stL ∧
      stL.2.1 = stV.2 := by
  obtain ⟨out, -, v, hE⟩ := evaluateVGL_total sincos spline toUnit_floor S r psi dpsi d2psi
    shares hshares hn hk hchan hh hK hKK hpsi hdpsi hd2psi
  obtain ⟨stL, eL, e2, -⟩ := hE S (SameOrbitals.refl S) hh
  obtain ⟨stV, eV, -, w⟩ := evaluateValue_fold sincos spline.toMultiBspline S r
    (toUnit_floor r) psi.length hn hk hchan hK shares S psi hshares ⟨rfl, rfl, rfl⟩ hh.1 hpsi
  refine ⟨stV, stL, eV, eL, ?_⟩
  apply List.ext_getElem?
  intro i
  rw [e2, v i, w i]

end SplineVGLTotal

/-! ## Value and gradient across the evaluation modes -/

section KernelClaimsX

variable {R : Type} [CommRing R]

/-- C30: value and gradient agree across the evaluation modes. On an orbital set whose
buffers hold `kPoints.size()` orbitals, for every position `r`, every content of the scratch
arrays and every orbital range `[first, last)`, the four kernels complete, the vector `psi`
that `assign_vgl`, `assign_vgh` and `assign_vghgh` leave is the vector that `assign_v`
leaves on the same raw values, and the vector `dpsi` that `assign_vgh` and `assign_vghgh`
leave is the one that `assign_vgl` leaves. So, for a spline table whose channels the
scratch arrays hold and thread shares inside `[0, 2 * psi.size())` with even bounds,
`evaluateVGL` and `evaluateValue` return and leave the same `psi` at the same position. -/
theorem value_gradient_agree (sincos : R → R × R) (S : SplineC2CT R) (r : Fin 3 → R)
    (psi : List (Cplx R)) (dpsi : List (Fin 3 → Cplx R)) (d2psi : List (Cplx R))
    (grad_grad_psi : List (Fin 9 → Cplx R))
    (grad_grad_grad_psi : List (Fin 3 → Fin 9 → Cplx R))
    (first last : Int) (hk : S.kPointsSize < 2 ^ 31)
    (hf : -2 ^ 31 ≤ first ∧ first < 2 ^ 31) (hl : -2 ^ 31 ≤ last ∧ last < 2 ^ 31)
    (hS : WellSized S)
    (hpsi : S.first_spo + S.kPointsSize ≤ psi.length)
    (hdpsi : S.first_spo + S.kPointsSize ≤ dpsi.length)
    (hd2psi : S.first_spo + S.kPointsSize ≤ d2psi.length)
    (hgg : S.first_spo + S.kPointsSize ≤ grad_grad_psi.length)
    (hggg : S.first_spo + S.kPointsSize ≤ grad_grad_grad_psi.length) :
    (∃ v vgl vgh vghgh,
      assign_v sincos S r S.myV psi first last = some v ∧
      assign_vgl sincos S r psi dpsi d2psi first last = some vgl ∧
      assign_vgh sincos S r psi dpsi grad_grad_psi first last = some vgh ∧
      assign_vghgh sincos S r psi dpsi grad_grad_psi grad_grad_grad_psi first last
        = some vghgh ∧
      vgl.1 = v ∧ vgh.1 = v ∧ vghgh.1 = v ∧ vgh.2.1 = vgl.2.1 ∧ vghgh.2.1 = vgl.2.1) ∧
    ∀ (spline : MultiBsplineD R) (toUnit_floor : (Fin 3 → R) → (Fin 3 → R))
      (shares : List (Int × Int)),
      (∀ sh ∈ shares, 0 ≤ sh.1 ∧ sh.1 ≤ sh.2 ∧ sh.2 ≤ 2 * (psi.length : Int) ∧
        sh.1 % 2 = 0 ∧ sh.2 % 2 = 0) →
      psi.length < 2 ^ 30 → 2 * S.kPointsSize ≤ spline.num_splines →
      ScratchHolds spline.num_splines S →
      ∃ stV stL,
        evaluateValue sincos spline.toMultiBspline toUnit_floor S r psi shares = some stV ∧
        evaluateVGL sincos spline toUnit_floor S r psi dpsi d2psi shares = some stL ∧
        stL.2.1 = stV.2 := by
  obtain ⟨v, e0, p0⟩ := assign_v_frame sincos S r psi first last hk hf hl hS hpsi
  obtain ⟨vgl, e1, p1, g1, -⟩ :=
    assign_vgl_frame sincos S r psi dpsi d2psi first last hk hf hl hS hpsi hdpsi hd2psi
  obtain ⟨vgh, e2, p2, g2, -⟩ :=
    assign_vgh_frame sincos S r psi dpsi grad_grad_psi first last hk hf hl hS hpsi hdpsi hgg
  obtain ⟨vghgh, e3, p3, g3, -, -⟩ :=
    assign_vghgh_frame sincos S r psi dpsi grad_grad_psi grad_grad_grad_psi first last hk hf hl
      hS hpsi hdpsi hgg hggg
  refine ⟨⟨v, vgl, vgh, vghgh, e0, e1, e2, e3, ?_, ?_, ?_, ?_, ?_⟩,
    fun spline toUnit_floor shares hshares hn hchan hh =>
      evaluateVGL_value sincos spline toUnit_floor S r psi dpsi d2psi shares hshares hn hk
        hchan hh hS.1 hS.2.1 (by omega) (by omega) (by omega)⟩
  · apply List.ext_getElem?
    intro i
    rw [p1 i, p0 i, assign_vgl_val_psi]
  · apply List.ext_getElem?
    intro i
    rw [p2 i, p0 i, assign_vgh_val_psi]
  · apply List.ext_getElem?
    intro i
    rw [p3 i, p0 i, assign_vghgh_val_psi]
  · apply List.ext_getElem?
    intro i
    rw [g2 i, g1 i, funext (assign_vgh_val_dpsi sincos S r (i - S.first_spo))]
  · apply List.ext_getElem?
    intro i
    rw [g3 i, g1 i, funext (assign_vghgh_val_dpsi sincos S r (i - S.first_spo))]

/-- Witness of C30 on the sample set, for the whole orbital range and two threads. -/
theorem value_gradient_agree_witness :
    (∃ v vgl vgh vghgh,
      assign_v sampleSincos sampleSet sampleR sampleSet.myV samplePsi 0 2 = some v ∧
      assign_vgl sampleSincos sampleSet sampleR samplePsi sampleDpsi samplePsi 0 2
        = some vgl ∧
      assign_vgh sampleSincos sampleSet sampleR samplePsi sampleDpsi sampleGG 0 2 = some vgh ∧
      assign_vghgh sampleSincos sampleSet sampleR samplePsi sampleDpsi sampleGG sampleGGG 0 2
        = some vghgh ∧
      vgl.1 = v ∧ vgh.1 = v ∧ vghgh.1 = v ∧ vgh.2.1 = vgl.2.1 ∧ vghgh.2.1 = vgl.2.1) ∧
    ∃ stV stL,
      evaluateValue sampleSincos sampleSplineD.toMultiBspline id sampleSet sampleR samplePsi
        [(0, 4), (4, 8)] = some stV ∧
      evaluateVGL sampleSincos sampleSplineD id sampleSet sampleR samplePsi sampleDpsi
        samplePsi [(0, 4), (4, 8)] = some stL ∧
      stL.2.1 = stV.2 :=
  ⟨(value_gradient_agree sampleSincos sampleSet sampleR samplePsi sampleDpsi samplePsi
      sampleGG sampleGGG 0 2 (by decide) (by decide) (by decide) (by decide) (by decide)
      (by decide) (by decide) (by decide) (by decide)).1,
    (value_gradient_agree sampleSincos sampleSet sampleR samplePsi sampleDpsi samplePsi
      sampleGG sampleGGG 0 2 (by decide) (by decide) (by decide) (by decide) (by decide)
      (by decide) (by decide) (by decide) (by decide)).2 sampleSplineD id [(0, 4), (4, 8)]
      (by decide) (by decide) (by decide) (by decide)⟩

end KernelClaimsX

/-! ## HybridRepCplx::evaluateVGL -/

section FromL

variable {R : Type} [CommRing R]

/-- The kernel `assign_vgl_from_l` returns when the buffers hold the orbitals of
`[first_spo, last_spo)`, and keeps the lengths of its outputs. -/
theorem assign_vgl_from_l_total (sincos : R → R × R) (S : SplineC2CT R) (r : Fin 3 → R)
    (psi : List (Cplx R)) (dpsi : List (Fin 3 → Cplx R)) (d2psi : List (Cplx R))
    (hspo : S.first_spo ≤ S.last_spo) (h64 : S.last_spo < 2 ^ 64)
    (hN : S.last_spo - S.first_spo ≤ S.kPointsSize)
    (hK : ∀ a : Fin 3, S.kPointsSize ≤ (S.myKcart a).length)
    (hKK : S.kPointsSize ≤ S.mKK.length)
    (hV : 2 * S.kPointsSize ≤ S.myV.length)
    (hG : ∀ a : Fin 3, 2 * S.kPointsSize ≤ (S.myG a).length)
    (hL : 2 * S.kPointsSize ≤ S.myL.length)
    (hpsi : S.last_spo ≤ psi.length) (hdpsi : S.last_spo ≤ dpsi.length)
    (hd2psi : S.last_spo ≤ d2psi.length) :
    ∃ out, assign_vgl_from_l sincos S r psi dpsi d2psi = some out ∧
      out.1.length = psi.length ∧ out.2.1.length = dpsi.length ∧
      out.2.2.length = d2psi.length := by
  have hNe : (S.last_spo + 2 ^ 64 - S.first_spo) % 2 ^ 64 = S.last_spo - S.first_spo := by
    omega
  obtain ⟨out, e, u1, u2, u3⟩ := assign_vgl_from_l_loop sincos S r psi dpsi d2psi
    (S.last_spo - S.first_spo) hNe
    (fun i hi => ⟨fun a => by have := hK a; omega, by omega, fun a => by have := hG a; omega,
      by omega, by omega⟩)
    (fun i hi => by omega) (fun i hi => by omega) (fun i hi => by omega)
  exact ⟨out, e, u1.1, u2.1, u3.1⟩

end FromL

section HybridVGLX

variable {R H : Type} [LinearOrderedCommRing R]

/-- The three branches of `HybridRepCplx::evaluateVGL`, as equations between what the call
gives and what the wrapped calls give. -/
theorem hybrid_evaluateVGL_branches (sincos : R → R × R) (spline : MultiBsplineD R)
    (toUnit_floor : (Fin 3 → R) → (Fin 3 → R))
    (evaluate_vgl : H → (Fin 3 → R) → List R × (Fin 3 → List R) × List R →
      H × R × (List R × (Fin 3 → List R) × List R))
    (interpolate_buffer_vgl : H →
      List (Cplx R) × List (Fin 3 → Cplx R) × List (Cplx R) →
      List (Cplx R) × List (Fin 3 → Cplx R) × List (Cplx R) →
      List (Cplx R) × List (Fin 3 → Cplx R) × List (Cplx R))
    (X : HybridRepCplx R H) (r : Fin 3 → R) (psi : List (Cplx R))
    (dpsi : List (Fin 3 → Cplx R)) (d2psi : List (Cplx R)) (shares : List (Int × Int))
    (res : H × R × (List R × (Fin 3 → List R) × List R))
    (hres : evaluate_vgl X.center r (X.base.myV, X.base.myG, X.base.myL) = res)
    (base : SplineC2CT R)
    (hbase : base = { X.base with myV := res.2.2.1, myG := res.2.2.2.1, myL := res.2.2.2.2 }) :
    (res.2.1 < 0 →
      (HybridRepCplx.evaluateVGL sincos spline toUnit_floor evaluate_vgl
          interpolate_buffer_vgl X r psi dpsi d2psi shares).map (fun out => out.2)
        = (evaluateVGL sincos spline toUnit_floor base r psi dpsi d2psi shares).map
            (fun st => st.2)) ∧
    (res.2.1 = 1 →
      (HybridRepCplx.evaluateVGL sincos spline toUnit_floor evaluate_vgl
          interpolate_buffer_vgl X r psi dpsi d2psi shares).map (fun out => out.2)
        = assign_vgl_from_l sincos base r psi dpsi d2psi ∧
      ∀ (spline2 : MultiBsplineD R) (shares2 : List (Int × Int)),
        HybridRepCplx.evaluateVGL sincos spline2 toUnit_floor evaluate_vgl
            interpolate_buffer_vgl X r psi dpsi d2psi shares2
          = HybridRepCplx.evaluateVGL sincos spline toUnit_floor evaluate_vgl
            interpolate_buffer_vgl X r psi dpsi d2psi shares) ∧
    (¬ res.2.1 < 0 → res.2.1 ≠ 1 →
      (HybridRepCplx.evaluateVGL sincos spline toUnit_floor evaluate_vgl
          interpolate_buffer_vgl X r psi dpsi d2psi shares).map (fun out => out.2)
        = (assign_vgl_from_l sincos base r (resizeVector X.psi_AO psi.length)
            (resizeVector X.dpsi_AO psi.length) (resizeVector X.d2psi_AO psi.length)).bind
          (fun ao =>
            (evaluateVGL sincos spline toUnit_floor base r psi dpsi d2psi shares).map
              (fun st => interpolate_buffer_vgl res.1 st.2 ao))) := by
  subst hres hbase
  refine ⟨fun hf => ?_, fun hf => ⟨?_, fun spline2 shares2 => ?_⟩, fun h1 h2 => ?_⟩
  · have h : HybridRepCplx.evaluateVGL sincos spline toUnit_floor evaluate_vgl
        interpolate_buffer_vgl X r psi dpsi d2psi shares = _ := if_pos hf
    rw [h, Option.map_map]
    rfl
  · have h0 : ¬ (evaluate_vgl X.center r (X.base.myV, X.base.myG, X.base.myL)).2.1 < 0 := by
      rw [hf]; exact not_lt.mpr zero_le_one
    have h : HybridRepCplx.evaluateVGL sincos spline toUnit_floor evaluate_vgl
        interpolate_buffer_vgl X r psi dpsi d2psi shares = _ := (if_neg h0).trans (if_pos hf)
    rw [h, Option.map_map]
    have key : ∀ {α β : Type} (x : α) (a : Option β),
        Option.map ((fun out : α × β => out.2) ∘ fun out => (x, out)) a = a :=
      fun x a => by cases a <;> rfl
    exact key _ _
  · have h0 : ¬ (evaluate_vgl X.center r (X.base.myV, X.base.myG, X.base.myL)).2.1 < 0 := by
      rw [hf]; exact not_lt.mpr zero_le_one
    have h : HybridRepCplx.evaluateVGL sincos spline toUnit_floor evaluate_vgl
        interpolate_buffer_vgl X r psi dpsi d2psi shares = _ := (if_neg h0).trans (if_pos hf)
    have h2 : HybridRepCplx.evaluateVGL sincos spline2 toUnit_floor evaluate_vgl
        interpolate_buffer_vgl X r psi dpsi d2psi shares2 = _ := (if_neg h0).trans (if_pos hf)
    rw [h, h2]
  · have h : HybridRepCplx.evaluateVGL sincos spline toUnit_floor evaluate_vgl
        interpolate_buffer_vgl X r psi dpsi d2psi shares = _ := (if_neg h1).trans (if_neg h2)
    rw [h, Option.map_bind]
    congr 1
    funext ao
    rw [Function.comp_apply, Option.map_map]
    rfl

/-- C21: the three-way branch of `HybridRepCplx::evaluateVGL` on the smoothing factor `f`
that the atomic-region engine returns with `myV`, `myG`, `myL` filled; the thresholds are
those of `evaluateValue`. (1) If `f < 0` the outputs (and whether the call returns) are
exactly those of the spline `evaluateVGL`. (2) If `f == 1` they are those of
`assign_vgl_from_l` on the atomic-region value, gradient and Laplacian, and the spline
`evaluateVGL` is not invoked: the result is the same for every spline table and every list
of thread shares. (3) For any other `f` the outputs are `interpolate_buffer_vgl` applied to
the three outputs of the spline `evaluateVGL` and to `psi_AO`, `dpsi_AO`, `d2psi_AO`, which
`assign_vgl_from_l` fills (after a resize to `psi.size()`) from the atomic-region arrays
before the spline call: value, gradient and Laplacian are blended together. (4) When the
buffers are large enough and the engine keeps the lengths of the scratch arrays, the call
returns in each branch, and the outputs of the spline `evaluateVGL` in (1) and (3) are
those of the spline set as it was before the engine filled the scratch. -/
theorem evaluateVGL_three_way (sincos : R → R × R) (spline : MultiBsplineD R)
    (toUnit_floor : (Fin 3 → R) → (Fin 3 → R))
    (evaluate_vgl : H → (Fin 3 → R) → List R × (Fin 3 → List R) × List R →
      H × R × (List R × (Fin 3 → List R) × List R))
    (interpolate_buffer_vgl : H →
      List (Cplx R) × List (Fin 3 → Cplx R) × List (Cplx R) →
      List (Cplx R) × List (Fin 3 → Cplx R) × List (Cplx R) →
      List (Cplx R) × List (Fin 3 → Cplx R) × List (Cplx R))
    (X : HybridRepCplx R H) (r : Fin 3 → R) (psi : List (Cplx R))
    (dpsi : List (Fin 3 → Cplx R)) (d2psi : List (Cplx R)) (shares : List (Int × Int))
    (res : H × R × (List R × (Fin 3 → List R) × List R))
    (hres : evaluate_vgl X.center r (X.base.myV, X.base.myG, X.base.myL) = res)
    (base : SplineC2CT R)
    (hbase : base = { X.base with myV := res.2.2.1, myG := res.2.2.2.1, myL := res.2.2.2.2 }) :
    (res.2.1 < 0 →
      (HybridRepCplx.evaluateVGL sincos spline toUnit_floor evaluate_vgl
          interpolate_buffer_vgl X r psi dpsi d2psi shares).map (fun out => out.2)
        = (evaluateVGL sincos spline toUnit_floor base r psi dpsi d2psi shares).map
            (fun st => st.2)) ∧
    (res.2.1 = 1 →
      (HybridRepCplx.evaluateVGL sincos spline toUnit_floor evaluate_vgl
          interpolate_buffer_vgl X r psi dpsi d2psi shares).map (fun out => out.2)
        = assign_vgl_from_l sincos base r psi dpsi d2psi ∧
      ∀ (spline2 : MultiBsplineD R) (shares2 : List (Int × Int)),
        HybridRepCplx.evaluateVGL sincos spline2 toUnit_floor evaluate_vgl
            interpolate_buffer_vgl X r psi dpsi d2psi shares2
          = HybridRepCplx.evaluateVGL sincos spline toUnit_floor evaluate_vgl
            interpolate_buffer_vgl X r psi dpsi d2psi shares) ∧
    (¬ res.2.1 < 0 → res.2.1 ≠ 1 →
      (HybridRepCplx.evaluateVGL sincos spline toUnit_floor evaluate_vgl
          interpolate_buffer_vgl X r psi dpsi d2psi shares).map (fun out => out.2)
        = (assign_vgl_from_l sincos base r (resizeVector X.psi_AO psi.length)
            (resizeVector X.dpsi_AO psi.length) (resizeVector X.d2psi_AO psi.length)).bind
          (fun ao =>
            (evaluateVGL sincos spline toUnit_floor base r psi dpsi d2psi shares).map
              (fun st => interpolate_buffer_vgl res.1 st.2 ao))) ∧
    (VGLReady spline X.base psi dpsi d2psi shares →
      res.2.2.1.length = X.base.myV.length →
      (∀ a, (res.2.2.2.1 a).length = (X.base.myG a).length) →
      res.2.2.2.2.length = X.base.myL.length →
      ∃ out, HybridRepCplx.evaluateVGL sincos spline toUnit_floor evaluate_vgl
          interpolate_buffer_vgl X r psi dpsi d2psi shares = some out ∧
        (res.2.1 < 0 →
          ∃ st, evaluateVGL sincos spline toUnit_floor X.base r psi dpsi d2psi shares
              = some st ∧ out.2 = st.2) ∧
        (¬ res.2.1 < 0 → res.2.1 ≠ 1 →
          ∃ st ao, evaluateVGL sincos spline toUnit_floor X.base r psi dpsi d2psi shares
              = some st ∧
            assign_vgl_from_l sincos base r (resizeVector X.psi_AO psi.length)
              (resizeVector X.dpsi_AO psi.length) (resizeVector X.d2psi_AO psi.length)
              = some ao ∧
            out.2 = interpolate_buffer_vgl res.1 st.2 ao)) := by
  obtain ⟨A, B, C⟩ := hybrid_evaluateVGL_branches sincos spline toUnit_floor evaluate_vgl
    interpolate_buffer_vgl X r psi dpsi d2psi shares res hres base hbase
  refine ⟨A, B, C, fun hr e1 e2 e3 => ?_⟩
  obtain ⟨hshares, hn, hk, hchan, hh, hK, hKK, hL, hspo, hN, hpsi, hdpsi, hd2psi⟩ := hr
  have ob : SameOrbitals base X.base := by
    rw [hbase]; exact ⟨rfl, rfl, rfl, rfl, rfl, rfl, rfl⟩
  have bV : base.myV = res.2.2.1 := by rw [hbase]
  have bG : base.myG = res.2.2.2.1 := by rw [hbase]
  have bL : base.myL = res.2.2.2.2 := by rw [hbase]
  have bH : base.myH = X.base.myH := by rw [hbase]
  have hb : ScratchHolds spline.num_splines base :=
    ⟨by rw [bV, e1]; exact hh.1, fun a => by rw [bG, e2 a]; exact hh.2.1 a,
      fun a => by rw [bH]; exact hh.2.2 a⟩
  obtain ⟨outE, -, -, hE⟩ := evaluateVGL_total sincos spline toUnit_floor X.base r psi dpsi
    d2psi shares hshares hn hk hchan hh hK hKK (by omega) (by omega) (by omega)
  obtain ⟨st0, s0, s1, -⟩ := hE X.base (SameOrbitals.refl _) hh
  obtain ⟨st1, t0, t1, -⟩ := hE base ob hb
  have hfl : ∀ (p : List (Cplx R)) (d : List (Fin 3 → Cplx R)) (l : List (Cplx R)),
      X.base.last_spo ≤ p.length → X.base.last_spo ≤ d.length →
      X.base.last_spo ≤ l.length →
      ∃ ao, assign_vgl_from_l sincos base r p d l = some ao := by
    intro p d l hp hd hl
    obtain ⟨ao, a0, -⟩ := assign_vgl_from_l_total sincos base r p d l
      (by rw [ob.2.1, ob.2.2.1]; exact hspo)
      (by rw [ob.2.2.1]; have := hpsi.2; omega)
      (by rw [ob.2.1, ob.2.2.1, ob.1]; exact hN)
      (by rw [ob.1, ob.2.2.2.2.2.1]; exact hK) (by rw [ob.1, ob.2.2.2.2.2.2]; exact hKK)
      (by rw [ob.1, bV, e1]; have := hh.1; omega)
      (fun a => by rw [ob.1, bG, e2 a]; have := hh.2.1 a; omega)
      (by rw [ob.1, bL, e3]; exact hL)
      (by rw [ob.2.2.1]; exact hp) (by rw [ob.2.2.1]; exact hd) (by rw [ob.2.2.1]; exact hl)
    exact ⟨ao, a0⟩
  by_cases h0 : res.2.1 < 0
  · have h := A h0
    rw [t0] at h
    obtain ⟨out, ho, ho2⟩ := Option.map_eq_some'.mp h
    exact ⟨out, ho, fun _ => ⟨st0, s0, ho2.trans (t1.trans s1.symm)⟩,
      fun h1 => absurd h0 h1⟩
  · by_cases h1 : res.2.1 = 1
    · obtain ⟨af, f0⟩ := hfl psi dpsi d2psi hpsi.2 hdpsi.2 hd2psi.2
      have h := (B h1).1
      rw [f0] at h
      obtain ⟨out, ho, -⟩ := Option.map_eq_some'.mp h
      exact ⟨out, ho, fun h2 => absurd h2 h0, fun _ h2 => absurd h1 h2⟩
    · obtain ⟨ao, a0⟩ := hfl (resizeVector X.psi_AO psi.length)
        (resizeVector X.dpsi_AO psi.length) (resizeVector X.d2psi_AO psi.length)
        (by rw [resizeVector_length]; exact hpsi.2)
        (by rw [resizeVector_length]; exact hpsi.2)
        (by rw [resizeVector_length]; exact hpsi.2)
      have h := C h0 h1
      rw [a0, Option.some_bind, t0] at h
      obtain ⟨out, ho, ho2⟩ := Option.map_eq_some'.mp h
      refine ⟨out, ho, fun h2 => absurd h2 h0, fun _ _ => ⟨st0, ao, s0, a0, ?_⟩⟩
      rw [s1, ← t1]
      exact ho2

end HybridVGLX

/-- Witness of C21 on the sample hybrid set, with an engine that returns `-1`, `1` and `0`
for the three branches; the call in the blend region returns. -/
theorem evaluateVGL_three_way_witness :
    ((HybridRepCplx.evaluateVGL sampleSincos sampleSplineD id (sampleEvaluateVGL (-1))
        sampleInterpolateVGL sampleHybrid sampleR samplePsi sampleDpsi samplePsi
        [(0, 4), (4, 8)]).map (fun out => out.2)
      = (evaluateVGL sampleSincos sampleSplineD id sampleEngineBase
          sampleR samplePsi sampleDpsi samplePsi [(0, 4), (4, 8)]).map (fun st => st.2)) ∧
    ((HybridRepCplx.evaluateVGL sampleSincos sampleSplineD id (sampleEvaluateVGL 1)
        sampleInterpolateVGL sampleHybrid sampleR samplePsi sampleDpsi samplePsi
        [(0, 4), (4, 8)]).map (fun out => out.2)
      = assign_vgl_from_l sampleSincos sampleEngineBase
          sampleR samplePsi sampleDpsi samplePsi) ∧
    ((HybridRepCplx.evaluateVGL sampleSincos sampleSplineD id (sampleEvaluateVGL 0)
        sampleInterpolateVGL sampleHybrid sampleR samplePsi sampleDpsi samplePsi
        [(0, 4), (4, 8)]).map (fun out => out.2)
      = (assign_vgl_from_l sampleSincos sampleEngineBase
          sampleR (resizeVector sampleHybrid.psi_AO samplePsi.length)
          (resizeVector sampleHybrid.dpsi_AO samplePsi.length)
          (resizeVector sampleHybrid.d2psi_AO samplePsi.length)).bind
        (fun ao =>
          (evaluateVGL sampleSincos sampleSplineD id sampleEngineBase
            sampleR samplePsi sampleDpsi samplePsi [(0, 4), (4, 8)]).map
            (fun st => sampleInterpolateVGL () st.2 ao))) ∧
    (∃ out, HybridRepCplx.evaluateVGL sampleSincos sampleSplineD id (sampleEvaluateVGL 0)
        sampleInterpolateVGL sampleHybrid sampleR samplePsi sampleDpsi samplePsi
        [(0, 4), (4, 8)] = some out) :=
  ⟨(evaluateVGL_three_way sampleSincos sampleSplineD id (sampleEvaluateVGL (-1))
      sampleInterpolateVGL sampleHybrid sampleR samplePsi sampleDpsi samplePsi [(0, 4), (4, 8)]
      _ rfl _ rfl).1 (by decide),
    ((evaluateVGL_three_way sampleSincos sampleSplineD id (sampleEvaluateVGL 1)
      sampleInterpolateVGL sampleHybrid sampleR samplePsi sampleDpsi samplePsi [(0, 4), (4, 8)]
      _ rfl _ rfl).2.1 rfl).1,
    (evaluateVGL_three_way sampleSincos sampleSplineD id (sampleEvaluateVGL 0)
      sampleInterpolateVGL sampleHybrid sampleR samplePsi sampleDpsi samplePsi [(0, 4), (4, 8)]
      _ rfl _ rfl).2.2.1 (by decide) (by decide),
    ((evaluateVGL_three_way sampleSincos sampleSplineD id (sampleEvaluateVGL 0)
      sampleInterpolateVGL sampleHybrid sampleR samplePsi sampleDpsi samplePsi [(0, 4), (4, 8)]
      _ rfl _ rfl).2.2.2 (by decide) rfl (fun _ => List.length_map _ _) rfl).imp (fun _ h => h.1)⟩

/-! ## The real build: count, bounds and skip rule -/

section LoopFailure

variable {σ : Type}

/-- A loop one of whose iterations fails on every state fails. -/
theorem forLoop_none (body : Nat → σ → Option σ) (i : Nat) (hfail : ∀ s, body i s = none) :
    ∀ (n j : Nat) (s : σ), j ≤ i → i < j + n → forLoop body n j s = none := by
  intro n
  induction n with
  | zero => intro j s h1 h2; omega
  | succ n ih =>
    intro j s h1 h2
    show (body j s).bind (forLoop body n (j + 1)) = none
    by_cases e : j = i
    · rw [e, hfail s]; rfl
    · cases hb : body j s with
      | none => rfl
      | some t => exact ih (j + 1) t (by omega) (by omega)

end LoopFailure

section RealBuild

variable {R : Type} [LinearOrderedCommRing R]

/-- The count of k-points of the real build in integers: for `norb >= 1` the ceiling of
`(norb + 1) / 2` is `norb / 2 + 1`. -/
theorem real_npw_eq (norb : Int) (twist : Fin 3 → R)
    (htw : ∀ ldim : Fin 3, |twist ldim| * 10 ^ 16 ≤ 1) :
    createSPOSetFromXML_npw false norb twist = .ok (-((-(norb + 1)) / 2)) := by
  have hchk : ¬ ((List.finRange 3).any (fun ldim => decide (1 < |twist ldim| * 10 ^ 16))
      = true) := by
    rw [twist_check_iff]
    rintro ⟨ldim, h⟩
    exact absurd (htw ldim) (not_le.mpr h)
  simp only [createSPOSetFromXML_npw, Bool.false_eq_true, if_false, hchk]

omit [LinearOrderedCommRing R] in
/-- The selection loop keeps the lengths of `kpts` and `mkidx`. -/
theorem select_step_length (klists : KContainer R) (npw : Int) (jk : Nat)
    (s t : SelectState R) (h : select_step klists npw jk s = some t) :
    t.kpts.length = s.kpts.length ∧ t.mkidx.length = s.mkidx.length := by
  unfold select_step at h
  by_cases hb : s.broke = true
  · rw [if_pos hb] at h
    cases h; exact ⟨rfl, rfl⟩
  · rw [if_neg hb] at h
    cases hm : klists.minusk[jk]? with
    | none => rw [hm] at h; exact absurd h (by simp)
    | some jmk =>
      rw [hm] at h
      by_cases hin : in_list (jk : Int) s.mkidx = true
      · simp only [hin, if_true] at h
        cases h; exact ⟨rfl, rfl⟩
      · simp only [hin, Bool.false_eq_true, if_false] at h
        cases hc : klists.kpts_cart[jk]? with
        | none => rw [hc] at h; exact absurd h (by simp)
        | some k =>
          rw [hc] at h
          by_cases hik : s.ik < s.kpts.length
          · by_cases hik2 : s.ik < s.mkidx.length
            · simp only [store_eq_some hik, store_eq_some hik2, Option.some_bind,
                Option.map_some', Option.some.injEq] at h
              rw [← h]
              exact ⟨by simp, by simp⟩
            · simp only [store_eq_some hik, store_eq_none (not_lt.mp hik2), Option.some_bind,
                Option.map_none'] at h
              exact absurd h (by simp)
          · simp only [store_eq_none (not_lt.mp hik), Option.none_bind] at h
            exact absurd h (by simp)

/-- Every result of the real build has `npw` k-vectors. -/
theorem real_build_length (k_cart : (Fin 3 → R) → (Fin 3 → R)) (norb : Int)
    (twist : Fin 3 → R) (klists : KContainer R) (kpts : List (Fin 3 → R))
    (h : createSPOSetFromXML false k_cart norb twist klists = .ok kpts) :
    createSPOSetFromXML_npw false norb twist = .ok (kpts.length : Int) := by
  unfold createSPOSetFromXML at h
  cases hn : createSPOSetFromXML_npw false norb twist with
  | error e => rw [hn] at h; exact absurd h (by simp)
  | ok npw =>
    rw [hn] at h
    simp only at h
    by_cases hneg : npw < 0
    · rw [if_pos hneg] at h; exact absurd h (by simp)
    · rw [if_neg hneg] at h
      cases hs : store (List.replicate npw.toNat (0 : Fin 3 → R)) 0 (k_cart twist) with
      | none => rw [hs] at h; exact absurd h (by simp)
      | some k0 =>
        rw [hs] at h
        simp only at h
        have hk0 : k0.length = npw.toNat := by
          unfold store at hs
          by_cases hl : 0 < (List.replicate npw.toNat (0 : Fin 3 → R)).length
          · rw [if_pos hl] at hs
            cases hs; simp
          · rw [if_neg hl] at hs; exact absurd hs (by simp)
        cases hf : createSPOSetFromXML_fill false (k_cart twist) klists npw k0 with
        | none => rw [hf] at h; exact absurd h (by simp)
        | some k1 =>
          rw [hf] at h
          simp only [Except.ok.injEq] at h
          simp only [createSPOSetFromXML_fill, Bool.false_eq_true, if_false] at hf
          obtain ⟨st, hst, e⟩ := Option.map_eq_some'.mp hf
          have hp := forLoop_preserves (select_step klists npw)
            (fun st => st.kpts.length = npw.toNat)
            (fun i s t hst hP => (select_step_length klists npw i s t hst).1.trans hP)
            _ _ _ _ hst hk0
          rw [← h, ← e, hp]
          congr 1
          omega

end RealBuild

section RealBuild2

variable {R : Type} [LinearOrderedCommRing R]

omit [LinearOrderedCommRing R] in
/-- The first k-point of the list is skipped in every real build: `mkidx` starts as `npw`
zeros, and `in_list(0, mkidx)` finds the index `0` among them. -/
theorem select_step_first_skipped (klists : KContainer R) (npw : Nat)
    (kpts : List (Fin 3 → R)) (jmk : Int) (hnpw : 1 ≤ npw)
    (hm : klists.minusk[0]? = some jmk) :
    select_step klists (npw : Int) 0
        { kpts := kpts, mkidx := List.replicate npw (0 : Int), ik := 1, broke := false }
      = some { kpts := kpts, mkidx := List.replicate npw (0 : Int), ik := 1, broke := false } := by
  obtain ⟨m, rfl⟩ : ∃ m, npw = m + 1 := ⟨npw - 1, by omega⟩
  simp [select_step, hm, List.replicate_succ, in_list]

/-- The real build with one requested orbital (`npw = 1`) and a k-list of at least two
k-points writes `kpts[1]` in a vector of length one; with at most one k-point, and for every
`norb >= 2`, all accesses are inside their vectors. -/
theorem real_build_bounds (k_cart : (Fin 3 → R) → (Fin 3 → R)) (norb : Int)
    (twist : Fin 3 → R) (klists : KContainer R) (hnorb : 1 ≤ norb)
    (htw : ∀ ldim : Fin 3, |twist ldim| * 10 ^ 16 ≤ 1)
    (hmk : klists.kpts.length ≤ klists.minusk.length)
    (hcart : klists.kpts.length ≤ klists.kpts_cart.length) :
    (createSPOSetFromXML false k_cart norb twist klists = .error .OutOfBounds ↔
      norb = 1 ∧ 2 ≤ klists.kpts.length) ∧
    (¬ (norb = 1 ∧ 2 ≤ klists.kpts.length) →
      ∃ kpts, createSPOSetFromXML false k_cart norb twist klists = .ok kpts) := by
  have hnpw := real_npw_eq norb twist htw
  have hpos : ¬ (-((-(norb + 1)) / 2) < 0) := by omega
  have hs : store (List.replicate (-((-(norb + 1)) / 2)).toNat (0 : Fin 3 → R)) 0 (k_cart twist)
      = some ((List.replicate (-((-(norb + 1)) / 2)).toNat (0 : Fin 3 → R)).set 0
          (k_cart twist)) :=
    store_eq_some (by simp only [List.length_replicate]; omega)
  by_cases h1 : norb = 1
  · subst h1
    have hn2 : -((-((1 : Int) + 1)) / 2) = ((1 : Nat) : Int) := by decide
    rw [hn2] at hnpw
    have hs1 : store (List.replicate 1 (0 : Fin 3 → R)) 0 (k_cart twist)
        = some [k_cart twist] := rfl
    by_cases h2 : 2 ≤ klists.kpts.length
    · have hm0 : klists.minusk[0]? = some (klists.minusk[0]) :=
        List.getElem?_eq_getElem (by omega)
      have hm1 : klists.minusk[1]? = some (klists.minusk[1]) :=
        List.getElem?_eq_getElem (by omega)
      have hc1 : klists.kpts_cart[1]? = some (klists.kpts_cart[1]) :=
        List.getElem?_eq_getElem (by omega)
      obtain ⟨m, hm⟩ : ∃ m, klists.kpts.length = m + 2 := ⟨klists.kpts.length - 2, by omega⟩
      have hloop : forRange 0 klists.kpts.length (select_step klists ((1 : Nat) : Int))
          (⟨[k_cart twist], List.replicate 1 (0 : Int), 1, false⟩ : SelectState R) = none := by
        rw [forRange, hm]
        show (select_step klists ((1 : Nat) : Int) 0 _).bind _ = none
        rw [select_step_first_skipped klists 1 _ _ (le_refl 1) hm0, Option.some_bind]
        show (select_step klists ((1 : Nat) : Int) 1 _).bind _ = none
        have hfail : select_step klists ((1 : Nat) : Int) 1
            (⟨[k_cart twist], List.replicate 1 (0 : Int), 1, false⟩ : SelectState R) = none := by
          simp [select_step, hm1, hc1, in_list, store]
        rw [hfail]; rfl
      have e : createSPOSetFromXML false k_cart 1 twist klists = .error .OutOfBounds := by
        simp only [createSPOSetFromXML, hnpw, Int.toNat_ofNat, hs1,
          if_neg (show ¬ (((1 : Nat) : Int) < 0) by decide),
          createSPOSetFromXML_fill, Bool.false_eq_true, if_false, hloop, Option.map_none']
      exact ⟨⟨fun _ => ⟨rfl, h2⟩, fun _ => e⟩, fun h => absurd ⟨rfl, h2⟩ h⟩
    · have hloop : forRange 0 klists.kpts.length (select_step klists ((1 : Nat) : Int))
          (⟨[k_cart twist], List.replicate 1 (0 : Int), 1, false⟩ : SelectState R)
          = some (⟨[k_cart twist], List.replicate 1 (0 : Int), 1, false⟩ : SelectState R) := by
        rw [forRange]
        by_cases h0 : klists.kpts.length = 0
        · rw [h0]; rfl
        · have h1 : klists.kpts.length = 1 := by omega
          have hm0 : klists.minusk[0]? = some (klists.minusk[0]) :=
            List.getElem?_eq_getElem (by omega)
          rw [h1]
          show (select_step klists ((1 : Nat) : Int) 0 _).bind _ = _
          rw [select_step_first_skipped klists 1 _ _ (le_refl 1) hm0, Option.some_bind]
          rfl
      have e : createSPOSetFromXML false k_cart 1 twist klists = .ok [k_cart twist] := by
        simp only [createSPOSetFromXML, hnpw, Int.toNat_ofNat, hs1,
          if_neg (show ¬ (((1 : Nat) : Int) < 0) by decide),
          createSPOSetFromXML_fill, Bool.false_eq_true, if_false, hloop, Option.map_some']
      exact ⟨⟨fun h => by rw [e] at h; exact absurd h (by simp), fun h => absurd h.2 h2⟩,
        fun _ => ⟨_, e⟩⟩
  · have hn : 2 ≤ (-((-(norb + 1)) / 2)).toNat := by omega
    have hcast : (((-((-(norb + 1)) / 2)).toNat : Nat) : Int) = -((-(norb + 1)) / 2) := by
      omega
    have h := forLoop_inv (select_step klists (-((-(norb + 1)) / 2)))
      (fun _ st => st.kpts.length = (-((-(norb + 1)) / 2)).toNat ∧
        st.mkidx.length = (-((-(norb + 1)) / 2)).toNat ∧
        (st.broke = false → st.ik < (-((-(norb + 1)) / 2)).toNat))
      klists.kpts.length 0
      ⟨(List.replicate (-((-(norb + 1)) / 2)).toNat (0 : Fin 3 → R)).set 0 (k_cart twist),
        List.replicate (-((-(norb + 1)) / 2)).toNat (0 : Int), 1, false⟩
      ⟨by simp, by simp, fun _ => by show 1 < _; omega⟩
      (by
        intro n st _ hn2 ⟨a, b, c⟩
        by_cases hb : st.broke = true
        · exact ⟨st, by simp [select_step, hb], a, b, c⟩
        · have hb2 : st.broke = false := by simpa using hb
          have hm : klists.minusk[n]? = some (klists.minusk[n]) :=
            List.getElem?_eq_getElem (by omega)
          have hc : klists.kpts_cart[n]? = some (klists.kpts_cart[n]) :=
            List.getElem?_eq_getElem (by omega)
          by_cases hin : in_list (n : Int) st.mkidx = true
          · exact ⟨st, by simp [select_step, hb2, hm, hin], a, b, c⟩
          · have hik := c hb2
            refine ⟨⟨st.kpts.set st.ik (klists.kpts_cart[n]),
              st.mkidx.set st.ik (klists.minusk[n]), st.ik + 1,
              decide (-((-(norb + 1)) / 2) ≤ ((st.ik + 1 : Nat) : Int))⟩, ?_, ?_, ?_, ?_⟩
            · simp only [select_step, hb2, Bool.false_eq_true, if_false, hm, hin, hc,
                store_eq_some (show st.ik < st.kpts.length by omega),
                store_eq_some (show st.ik < st.mkidx.length by omega), Option.some_bind,
                Option.map_some']
            · simp [a]
            · simp [b]
            · intro hbr
              have : ¬ (-((-(norb + 1)) / 2) ≤ ((st.ik + 1 : Nat) : Int)) := by simpa using hbr
              show st.ik + 1 < _
              omega)
    obtain ⟨st, hst, -⟩ := h
    have e : createSPOSetFromXML false k_cart norb twist klists = .ok st.kpts := by
      have hst2 : forRange 0 klists.kpts.length (select_step klists (-((-(norb + 1)) / 2))) _
          = some st := hst
      simp only [createSPOSetFromXML, hnpw, if_neg hpos, hs, createSPOSetFromXML_fill,
        Bool.false_eq_true, if_false, hst2, Option.map_some']
    exact ⟨⟨fun h => by rw [e] at h; exact absurd h (by simp), fun h => absurd h.1 h1⟩,
      fun _ => ⟨_, e⟩⟩

end RealBuild2

section RealBuild3

variable {R : Type} [LinearOrderedCommRing R]

/-- The integer expression for `npw` is the ceiling of the rational `(norb + 1) / 2`. -/
theorem ceil_half (norb : Int) : ⌈((norb : ℚ) + 1) / 2⌉ = -((-(norb + 1)) / 2) := by
  rw [Int.ceil_eq_iff]
  obtain ⟨q, hq | hq⟩ := Int.even_or_odd' norb
  · have e : -((-(norb + 1)) / 2) = q + 1 := by omega
    rw [e, hq]; push_cast
    constructor <;> linarith
  · have e : -((-(norb + 1)) / 2) = q + 1 := by omega
    rw [e, hq]; push_cast
    constructor <;> linarith

/-- C36: the k-point count of the real build. For every requested size `norb` (in
particular every `norb >= 1`) and a twist that passes the check, `npw` is the ceiling of `(norb + 1) / 2`, which is
`norb / 2 + 1` in integer division; its `2 * npw - 1` orbitals cover the request, one
k-point less would not, no smaller count covers it, and every vector of k-points that the
build returns has exactly `npw` entries. -/
theorem real_build_count (norb : Int) (twist : Fin 3 → R)
    (htw : ∀ ldim : Fin 3, |twist ldim| * 10 ^ 16 ≤ 1) :
    ∃ npw : Int, createSPOSetFromXML_npw false norb twist = .ok npw ∧
      npw = ⌈((norb : ℚ) + 1) / 2⌉ ∧ npw = norb / 2 + 1 ∧
      norb ≤ 2 * npw - 1 ∧ 2 * (npw - 1) - 1 < norb ∧
      (∀ m : Int, norb ≤ 2 * m - 1 → npw ≤ m) ∧
      ∀ (k_cart : (Fin 3 → R) → (Fin 3 → R)) (klists : KContainer R) (kpts : List (Fin 3 → R)),
        createSPOSetFromXML false k_cart norb twist klists = .ok kpts →
        (kpts.length : Int) = npw := by
  refine ⟨-((-(norb + 1)) / 2), real_npw_eq norb twist htw, (ceil_half norb).symm, by omega,
    by omega, by omega, fun m hm => by omega, ?_⟩
  intro k_cart klists kpts h
  have h2 := real_build_length k_cart norb twist klists kpts h
  rw [real_npw_eq norb twist htw] at h2
  exact (Except.ok.inj h2).symm

/-- Witness of C36: three requested orbitals and a zero twist give two k-points. -/
theorem real_build_count_witness :
    ∃ npw : Int, createSPOSetFromXML_npw false 3 (0 : Fin 3 → Int) = .ok npw ∧
      npw = ⌈(((3 : Int) : ℚ) + 1) / 2⌉ ∧ npw = 3 / 2 + 1 ∧
      3 ≤ 2 * npw - 1 ∧ 2 * (npw - 1) - 1 < 3 ∧
      (∀ m : Int, 3 ≤ 2 * m - 1 → npw ≤ m) ∧
      ∀ (k_cart : (Fin 3 → Int) → (Fin 3 → Int)) (klists : KContainer Int)
        (kpts : List (Fin 3 → Int)),
        createSPOSetFromXML false k_cart 3 0 klists = .ok kpts →
        (kpts.length : Int) = npw :=
  real_build_count 3 0 (by decide)

end RealBuild3

/-- C34: the skip rule of the real build does not hold for the first k-point of the list.
On the sample k-list of two pairs with three requested orbitals (`npw = 2`) the first
iteration, at which nothing has been chosen yet, leaves the state unchanged (the k-point 0
is skipped), and the build returns `kpts[1] = kpts_cart[1]`, not `kpts_cart[0]`; on the
sample shell, where the partner of k-point 0 is k-point 2, the build returns the k-points 1
and 2 in place of 0 and 1. -/
theorem real_build_skips_first :
    (select_step sampleKLists 2 0 ⟨[0, 0], [0, 0], 1, false⟩).map
        (fun st => (st.kpts, st.mkidx, st.ik, st.broke)) = some ([0, 0], [0, 0], 1, false) ∧
    createSPOSetFromXML false id 3 0 sampleKLists = .ok [0, ![-2, 0, 0]] ∧
    sampleKLists.kpts_cart[0]? = some ![2, 0, 0] ∧
    createSPOSetFromXML false id 5 0 sampleShellList = .ok [0, ![0, 2, 0], ![-2, 0, 0]] ∧
    sampleShellList.kpts_cart[0]? = some ![2, 0, 0] := by
  decide

/-- C35: the real build with one requested orbital writes outside `kpts`. For `norb = 1`
the count `npw` is 1, so `kpts` and `mkidx` have length 1 while `ik` starts at 1; on the
sample k-list of one pair the iteration `jk = 1` stores to `kpts[1]`, and the build ends
with an access outside a vector. -/
theorem real_build_one_orbital :
    createSPOSetFromXML_npw false 1 (0 : Fin 3 → Int) = .ok 1 ∧
    (select_step samplePairList 1 1 ⟨[0], [0], 1, false⟩).isNone = true ∧
    createSPOSetFromXML false id 1 0 samplePairList = .error .OutOfBounds := by
  decide

/-! ## The Hessian of assign_vgh and of assign_vghgh, and its trace -/

section HessianValues
variable {R : Type} [CommRing R]

/-- The Hessian entry `(a, b)` that `assign_vgh` writes: the raw Hessian contracted with the
rows `a` and `b` of `G`, the cross term with the k-vector component `a` and the gradient
component `b` counted twice, and the product of the k-vector components. -/
theorem assign_vgh_val_gg (sincos : R → R × R) (S : SplineC2CT R) (r : Fin 3 → R)
    (j : Nat) (a b : Fin 3) :
    (assign_vgh_val sincos S r j).2.2 (idx9 a b) = blochPhase sincos S r j *
      (cartHess S j a b
        - Cplx.ofReal 2 * Cplx.I * Cplx.ofReal (kvec S j a) * cartGrad S j b
        - Cplx.ofReal (kvec S j a * kvec S j b) * psi_raw S.myV j) := by
  fin_cases a <;> fin_cases b <;>
  (conv_lhs => whnf
   apply Cplx.ext <;>
    simp only [blochPhase, cartGrad, rawGrad, kvec, psi_raw, shl_one,
      cartHess, Cplx.mul_re, Cplx.mul_im, Cplx.sub_re, Cplx.sub_im,
      Cplx.add_re, Cplx.add_im, Cplx.ofReal_re, Cplx.ofReal_im, Cplx.I_re, Cplx.I_im,
      Fin.val_zero, Fin.val_one, Fin.val_two, Nat.mul_zero, Nat.zero_add, Nat.mul_one,
      Nat.reduceMul, Nat.reduceAdd, Fin.isValue, Fin.zero_eta, Fin.mk_one, Fin.reduceFinMk]
      <;> ring)

/-- The Hessian entry `(a, b)` that `assign_vghgh` writes is the second derivative of the
phase-modulated field. -/
theorem assign_vghgh_val_gg (sincos : R → R × R) (S : SplineC2CT R) (r : Fin 3 → R)
    (j : Nat) (a b : Fin 3) :
    (assign_vghgh_val sincos S r j).2.2.1 (idx9 a b) = phaseHess sincos S r j a b := by
  fin_cases a <;> fin_cases b <;>
  (conv_lhs => whnf
   apply Cplx.ext <;>
    simp only [phaseHess, blochPhase, cartGrad, rawGrad, kvec, psi_raw, shl_one,
      cartHess, v_m_v, Cplx.mul_re, Cplx.mul_im, Cplx.sub_re, Cplx.sub_im,
      Cplx.add_re, Cplx.add_im, Cplx.ofReal_re, Cplx.ofReal_im, Cplx.I_re, Cplx.I_im,
      Fin.val_zero, Fin.val_one, Fin.val_two, Nat.mul_zero, Nat.zero_add, Nat.mul_one,
      Nat.reduceMul, Nat.reduceAdd, Fin.isValue, Fin.zero_eta, Fin.mk_one, Fin.reduceFinMk]
      <;> ring)

end HessianValues

section HessianTrace
variable {R : Type} [CommRing R]

/-- The diagonal Hessian entries of `assign_vgh` and of `assign_vghgh` agree. -/
theorem assign_vgh_val_gg_diag (sincos : R → R × R) (S : SplineC2CT R) (r : Fin 3 → R)
    (j : Nat) (a : Fin 3) :
    (assign_vgh_val sincos S r j).2.2 (idx9 a a)
      = (assign_vghgh_val sincos S r j).2.2.1 (idx9 a a) := by
  rw [assign_vgh_val_gg, assign_vghgh_val_gg, phaseHess]
  apply Cplx.ext <;>
    simp only [Cplx.mul_re, Cplx.mul_im, Cplx.sub_re, Cplx.sub_im,
      Cplx.add_re, Cplx.add_im, Cplx.ofReal_re, Cplx.ofReal_im, Cplx.I_re, Cplx.I_im] <;> ring

/-- The difference of the Hessian entries `(a, b)` of `assign_vgh` and of `assign_vghgh`:
the phase factor times `i (k_b D_a - k_a D_b)`. -/
theorem assign_vgh_val_gg_sub (sincos : R → R × R) (S : SplineC2CT R) (r : Fin 3 → R)
    (j : Nat) (a b : Fin 3) :
    (assign_vgh_val sincos S r j).2.2 (idx9 a b)
        - (assign_vghgh_val sincos S r j).2.2.1 (idx9 a b)
      = blochPhase sincos S r j * (Cplx.I *
          (Cplx.ofReal (kvec S j b) * cartGrad S j a
            - Cplx.ofReal (kvec S j a) * cartGrad S j b)) := by
  rw [assign_vgh_val_gg, assign_vghgh_val_gg, phaseHess]
  apply Cplx.ext <;>
    simp only [Cplx.mul_re, Cplx.mul_im, Cplx.sub_re, Cplx.sub_im,
      Cplx.add_re, Cplx.add_im, Cplx.ofReal_re, Cplx.ofReal_im, Cplx.I_re, Cplx.I_im] <;> ring

/-- When `GGt` holds the products of the columns of `G`, `GGt(3m + n) = sum_a G(3a + m) *
G(3a + n)`, the `SymTrace` of a raw Hessian against `symGG` is the sum over `a` of its
`v_m_v` with row `a` of `G` taken twice. -/
theorem rawLap_eq_trace (S : SplineC2CT R) (j : Nat)
    (hGGt : ∀ m n : Fin 3, S.GGt (3 * m.val + n.val)
      = S.G m.val * S.G n.val + S.G (3 + m.val) * S.G (3 + n.val)
        + S.G (6 + m.val) * S.G (6 + n.val)) :
    rawLap S j = cartHess S j 0 0 + cartHess S j 1 1 + cartHess S j 2 2 := by
  have h00 := hGGt 0 0
  have h01 := hGGt 0 1
  have h02 := hGGt 0 2
  have h10 := hGGt 1 0
  have h11 := hGGt 1 1
  have h12 := hGGt 1 2
  have h20 := hGGt 2 0
  have h21 := hGGt 2 1
  have h22 := hGGt 2 2
  simp only [Fin.val_zero, Fin.val_one, Fin.val_two, Nat.mul_zero, Nat.zero_add, Nat.mul_one,
    Nat.reduceMul, Nat.reduceAdd, Nat.add_zero] at h00 h01 h02 h10 h11 h12 h20 h21 h22
  have s0 : symGG S 0 = S.GGt 0 := rfl
  have s1 : symGG S 1 = S.GGt 1 + S.GGt 3 := rfl
  have s2 : symGG S 2 = S.GGt 2 + S.GGt 6 := rfl
  have s3 : symGG S 3 = S.GGt 4 := rfl
  have s4 : symGG S 4 = S.GGt 5 + S.GGt 7 := rfl
  have s5 : symGG S 5 = S.GGt 8 := rfl
  apply Cplx.ext <;>
    simp only [rawLap, cartHess, SymTrace, s0, s1, s2, s3, s4, s5, v_m_v, Cplx.add_re,
      Cplx.add_im, Fin.val_zero, Fin.val_one, Fin.val_two, Nat.mul_zero, Nat.zero_add,
      Nat.mul_one, Nat.reduceMul, Nat.reduceAdd, h00, h01, h02, h10, h11, h12, h20, h21,
      h22] <;>
    ring

/-- The Laplacian that `assign_vgl` computes is the trace of the Hessian that `assign_vgh`
and `assign_vghgh` compute. -/
theorem laplacian_trace_val (sincos : R → R × R) (S : SplineC2CT R) (r : Fin 3 → R) (j : Nat)
    (hKK : rd S.mKK j = -(kSq S j))
    (hTr : rawLap S j = cartHess S j 0 0 + cartHess S j 1 1 + cartHess S j 2 2) :
    (assign_vgl_val sincos S r j).2.2
        = (assign_vgh_val sincos S r j).2.2 0 + (assign_vgh_val sincos S r j).2.2 4
          + (assign_vgh_val sincos S r j).2.2 8 ∧
    (assign_vgl_val sincos S r j).2.2
        = (assign_vghgh_val sincos S r j).2.2.1 0 + (assign_vghgh_val sincos S r j).2.2.1 4
          + (assign_vghgh_val sincos S r j).2.2.1 8 := by
  have e0 : (0 : Fin 9) = idx9 0 0 := rfl
  have e4 : (4 : Fin 9) = idx9 1 1 := rfl
  have e8 : (8 : Fin 9) = idx9 2 2 := rfl
  have key : (assign_vgl_val sincos S r j).2.2
      = (assign_vghgh_val sincos S r j).2.2.1 0 + (assign_vghgh_val sincos S r j).2.2.1 4
        + (assign_vghgh_val sincos S r j).2.2.1 8 := by
    rw [e0, e4, e8, assign_vghgh_val_gg, assign_vghgh_val_gg, assign_vghgh_val_gg,
      assign_vgl_val_d2psi sincos S r j hKK, hTr]
    simp only [phaseHess, kSq, kDotGrad]
    apply Cplx.ext <;>
      simp only [Cplx.mul_re, Cplx.mul_im, Cplx.sub_re, Cplx.sub_im,
        Cplx.add_re, Cplx.add_im, Cplx.ofReal_re, Cplx.ofReal_im, Cplx.I_re, Cplx.I_im] <;>
      ring
  refine ⟨?_, key⟩
  rw [key, e0, e4, e8, assign_vgh_val_gg_diag, assign_vgh_val_gg_diag, assign_vgh_val_gg_diag]

end HessianTrace

/-- C32: the Hessians of `assign_vgh` and of `assign_vghgh` differ off the diagonal. At one
orbital on the unit cubic lattice with `k = (1, 0, 0)` and a raw gradient whose only
non-zero entry is the imaginary y-component, the nine entries written by `assign_vgh` are
zero except `xy = 2`, so they are not symmetric, and the nine entries written by
`assign_vghgh` from the same data are zero except `xy = yx = 1`. -/
theorem assign_vgh_vghgh_hessians_differ :
    (assign_vgh sincosZero offDiagSet originR [0] [0] [0] 0 1).map
        (fun out => out.2.2.map (fun H => (List.finRange 9).map H))
      = some [[⟨0, 0⟩, ⟨2, 0⟩, ⟨0, 0⟩, ⟨0, 0⟩, ⟨0, 0⟩, ⟨0, 0⟩, ⟨0, 0⟩, ⟨0, 0⟩, ⟨0, 0⟩]] ∧
    (assign_vghgh sincosZero offDiagSet originR [0] [0] [0] [0] 0 1).map
        (fun out => out.2.2.1.map (fun H => (List.finRange 9).map H))
      = some [[⟨0, 0⟩, ⟨1, 0⟩, ⟨0, 0⟩, ⟨1, 0⟩, ⟨0, 0⟩, ⟨0, 0⟩, ⟨0, 0⟩, ⟨0, 0⟩, ⟨0, 0⟩]] := by
  decide

section LaplacianTrace
variable {R : Type} [CommRing R]

/-- C33: the Laplacian is the trace of the Hessian. On a well-sized orbital set whose
`mKK[j]` is `-(k_j . k_j)` and whose `SymTrace` of the raw Hessian against `symGG` is the
sum over `a` of the `v_m_v` with row `a` of `G` taken twice (both channels, every processed
orbital), the three kernels `assign_vgl`, `assign_vgh` and `assign_vghgh` return, and at
every written index the `d2psi` of `assign_vgl` is the sum of the entries 0, 4 and 8 of the
`grad_grad_psi` of `assign_vgh`, and also of the `grad_grad_psi` of `assign_vghgh`. -/
theorem laplacian_is_hessian_trace (sincos : R → R × R) (S : SplineC2CT R) (r : Fin 3 → R)
    (psi : List (Cplx R)) (dpsi : List (Fin 3 → Cplx R)) (d2psi : List (Cplx R))
    (grad_grad_psi : List (Fin 9 → Cplx R))
    (grad_grad_grad_psi : List (Fin 3 → Fin 9 → Cplx R))
    (first last : Int) (hk : S.kPointsSize < 2 ^ 31)
    (hf : -2 ^ 31 ≤ first ∧ first < 2 ^ 31) (hl : -2 ^ 31 ≤ last ∧ last < 2 ^ 31)
    (hS : WellSized S)
    (hpsi : S.first_spo + S.kPointsSize ≤ psi.length)
    (hdpsi : S.first_spo + S.kPointsSize ≤ dpsi.length)
    (hd2psi : S.first_spo + S.kPointsSize ≤ d2psi.length)
    (hgg : S.first_spo + S.kPointsSize ≤ grad_grad_psi.length)
    (hggg : S.first_spo + S.kPointsSize ≤ grad_grad_grad_psi.length)
    (hKK : ∀ j, Processed first last S.kPointsSize j → rd S.mKK j = -(kSq S j))
    (hTr : ∀ j, Processed first last S.kPointsSize j →
      rawLap S j = cartHess S j 0 0 + cartHess S j 1 1 + cartHess S j 2 2) :
    ∃ outL outH outG,
      assign_vgl sincos S r psi dpsi d2psi first last = some outL ∧
      assign_vgh sincos S r psi dpsi grad_grad_psi first last = some outH ∧
      assign_vghgh sincos S r psi dpsi grad_grad_psi grad_grad_grad_psi first last
        = some outG ∧
      ∀ i, Written S first last i → ∃ (l : Cplx R) (H H' : Fin 9 → Cplx R),
        outL.2.2[i]? = some l ∧ outH.2.2[i]? = some H ∧ outG.2.2.1[i]? = some H' ∧
        l = H 0 + H 4 + H 8 ∧ l = H' 0 + H' 4 + H' 8 := by
  obtain ⟨outL, eL, -, -, hL⟩ := assign_vgl_frame sincos S r psi dpsi d2psi first last hk hf hl
    hS hpsi hdpsi hd2psi
  obtain ⟨outH, eH, -, -, hH⟩ := assign_vgh_frame sincos S r psi dpsi grad_grad_psi first last
    hk hf hl hS hpsi hdpsi hgg
  obtain ⟨outG, eG, -, -, hG, -⟩ := assign_vghgh_frame sincos S r psi dpsi grad_grad_psi
    grad_grad_grad_psi first last hk hf hl hS hpsi hdpsi hgg hggg
  refine ⟨outL, outH, outG, eL, eH, eG, ?_⟩
  intro i hi
  have tr := laplacian_trace_val sincos S r (i - S.first_spo) (hKK _ hi.2) (hTr _ hi.2)
  exact ⟨_, _, _, by rw [hL i, if_pos hi], by rw [hH i, if_pos hi], by rw [hG i, if_pos hi],
    tr.1, tr.2⟩

end LaplacianTrace

/-- Witness of C33: one orbital on the unit cubic lattice with `k = (1, 0, 0)` and
`mKK = [-1]`. -/
theorem laplacian_is_hessian_trace_witness :
    ∃ outL outH outG,
      assign_vgl sincosZero offDiagSet originR [0] [0] [0] 0 1 = some outL ∧
      assign_vgh sincosZero offDiagSet originR [0] [0] [0] 0 1 = some outH ∧
      assign_vghgh sincosZero offDiagSet originR [0] [0] [0] [0] 0 1 = some outG ∧
      ∀ i, Written offDiagSet 0 1 i → ∃ (l : Cplx Int) (H H' : Fin 9 → Cplx Int),
        outL.2.2[i]? = some l ∧ outH.2.2[i]? = some H ∧ outG.2.2.1[i]? = some H' ∧
        l = H 0 + H 4 + H 8 ∧ l = H' 0 + H' 4 + H' 8 :=
  laplacian_is_hessian_trace sincosZero offDiagSet originR [0] [0] [0] [0] [0] 0 1
    (by decide) (by decide) (by decide) (by decide) (by decide) (by decide) (by decide)
    (by decide) (by decide)
    (fun j hj => by
      have h : j < 1 := processed_lt hj
      interval_cases j; decide)
    (fun j hj => by
      have h : j < 1 := processed_lt hj
      interval_cases j; decide)

/-! ## The modulus under the Bloch phase -/

section Modulus
variable {R : Type} [CommRing R]

theorem Cplx.normSq_mul (a b : Cplx R) :
    Cplx.normSq (a * b) = Cplx.normSq a * Cplx.normSq b := by
  simp only [Cplx.normSq, Cplx.mul_re, Cplx.mul_im]; ring

/-- The squared modulus of the phase factor is `s^2 + c^2`. -/
theorem normSq_blochPhase (sincos : R → R × R) (S : SplineC2CT R) (r : Fin 3 → R) (j : Nat) :
    Cplx.normSq (blochPhase sincos S r j)
      = (sincos (-(r 0 * kvec S j 0 + r 1 * kvec S j 1 + r 2 * kvec S j 2))).1 ^ 2
        + (sincos (-(r 0 * kvec S j 0 + r 1 * kvec S j 1 + r 2 * kvec S j 2))).2 ^ 2 := by
  simp only [Cplx.normSq, blochPhase]; ring

/-- The phase factor of `unitPhase` is one. -/
theorem blochPhase_unitPhase (S : SplineC2CT R) (r : Fin 3 → R) (j : Nat) :
    blochPhase unitPhase S r j = 1 := rfl

/-- A value that is the phase factor times a factor `P` has the squared modulus of `P`
when `s^2 + c^2 = 1`. -/
theorem normSq_phase_mul (sincos : R → R × R) (S : SplineC2CT R) (r : Fin 3 → R) (j : Nat)
    (hsc : (sincos (-(r 0 * kvec S j 0 + r 1 * kvec S j 1 + r 2 * kvec S j 2))).1 ^ 2
        + (sincos (-(r 0 * kvec S j 0 + r 1 * kvec S j 1 + r 2 * kvec S j 2))).2 ^ 2 = 1)
    (P : Cplx R) :
    Cplx.normSq (blochPhase sincos S r j * P) = Cplx.normSq (blochPhase unitPhase S r j * P) := by
  rw [Cplx.normSq_mul, normSq_blochPhase, hsc, blochPhase_unitPhase, one_mul, one_mul]

/-- The Laplacian written by `assign_vgl` without an assumption on `mKK`: the phase factor
times `lcart + mKK[j] * psi_raw - 2 i (k . D)`. -/
theorem assign_vgl_val_d2psi_raw (sincos : R → R × R) (S : SplineC2CT R) (r : Fin 3 → R)
    (j : Nat) :
    (assign_vgl_val sincos S r j).2.2 = blochPhase sincos S r j *
      (rawLap S j + Cplx.ofReal (rd S.mKK j) * psi_raw S.myV j
        - Cplx.ofReal 2 * Cplx.I * kDotGrad S j) := by
  apply Cplx.ext <;>
    simp [assign_vgl_val, blochPhase, cartGrad, rawGrad, kvec, psi_raw, shl_one, rawLap,
      kDotGrad, symGG]

omit [CommRing R] in
/-- Every flat index of a `Tensor<_, 3>` is `3a + b`. -/
theorem idx9_surj (n : Fin 9) : ∃ a b : Fin 3, n = idx9 a b := by
  revert n; decide

/-- The squared moduli of the values that the bodies of the four kernels compute at orbital
`j`, when `s^2 + c^2 = 1` at the angle of the orbital: each is the squared modulus of the
value computed with `(s, c) = (0, 1)`, and for the orbital value that is
`myV[2j]^2 + myV[2j+1]^2`. -/
theorem modulus_val (sincos : R → R × R) (S : SplineC2CT R) (r : Fin 3 → R) (j : Nat)
    (hsc : (sincos (-(r 0 * kvec S j 0 + r 1 * kvec S j 1 + r 2 * kvec S j 2))).1 ^ 2
        + (sincos (-(r 0 * kvec S j 0 + r 1 * kvec S j 1 + r 2 * kvec S j 2))).2 ^ 2 = 1) :
    (∀ myV : List R, Cplx.normSq (assign_v_val sincos S r myV j)
        = rd myV (2 * j) ^ 2 + rd myV (2 * j + 1) ^ 2) ∧
    (∀ a, Cplx.normSq ((assign_vgl_val sincos S r j).2.1 a)
        = Cplx.normSq ((assign_vgl_val unitPhase S r j).2.1 a)) ∧
    Cplx.normSq (assign_vgl_val sincos S r j).2.2
        = Cplx.normSq (assign_vgl_val unitPhase S r j).2.2 ∧
    (∀ n, Cplx.normSq ((assign_vgh_val sincos S r j).2.2 n)
        = Cplx.normSq ((assign_vgh_val unitPhase S r j).2.2 n)) ∧
    (∀ n, Cplx.normSq ((assign_vghgh_val sincos S r j).2.2.1 n)
        = Cplx.normSq ((assign_vghgh_val unitPhase S r j).2.2.1 n)) ∧
    (∀ a n, Cplx.normSq ((assign_vghgh_val sincos S r j).2.2.2 a n)
        = Cplx.normSq ((assign_vghgh_val unitPhase S r j).2.2.2 a n)) := by
  refine ⟨?_, ?_, ?_, ?_, ?_, ?_⟩
  · intro myV
    rw [assign_v_val_eq, Cplx.normSq_mul, normSq_blochPhase, hsc, mul_one]
    simp only [Cplx.normSq, psi_raw]; ring
  · intro a
    rw [assign_vgl_val_dpsi, assign_vgl_val_dpsi]
    exact normSq_phase_mul sincos S r j hsc _
  · rw [assign_vgl_val_d2psi_raw, assign_vgl_val_d2psi_raw]
    exact normSq_phase_mul sincos S r j hsc _
  · intro n
    obtain ⟨a, b, rfl⟩ := idx9_surj n
    rw [assign_vgh_val_gg, assign_vgh_val_gg]
    exact normSq_phase_mul sincos S r j hsc _
  · intro n
    obtain ⟨a, b, rfl⟩ := idx9_surj n
    rw [assign_vghgh_val_gg, assign_vghgh_val_gg]
    exact normSq_phase_mul sincos S r j hsc _
  · intro a n
    obtain ⟨b, c, rfl⟩ := idx9_surj n
    rw [assign_vghgh_val_ggg, assign_vghgh_val_ggg]
    exact normSq_phase_mul sincos S r j hsc _

end Modulus

section ModulusClaim
variable {R : Type} [CommRing R]

/-- C39: the Bloch phase preserves the modulus. On a well-sized orbital set, with
`s^2 + c^2 = 1` at the angle `-(r . k_j)` of every processed orbital, the four kernels
return, and at every written index `i = first_spo + j`: the value written by `assign_v` has
`Re^2 + Im^2 = myV[2j]^2 + myV[2j+1]^2`, and each gradient and Laplacian component written
by `assign_vgl`, each Hessian component written by `assign_vgh` and by `assign_vghgh`, and
each third-derivative component written by `assign_vghgh` has the squared modulus of the
pair the kernel body has computed before the rotation, which is what the body stores when
`(s, c) = (0, 1)`. -/
theorem bloch_phase_modulus (sincos : R → R × R) (S : SplineC2CT R) (r : Fin 3 → R)
    (psi : List (Cplx R)) (dpsi : List (Fin 3 → Cplx R)) (d2psi : List (Cplx R))
    (grad_grad_psi : List (Fin 9 → Cplx R))
    (grad_grad_grad_psi : List (Fin 3 → Fin 9 → Cplx R))
    (first last : Int) (hk : S.kPointsSize < 2 ^ 31)
    (hf : -2 ^ 31 ≤ first ∧ first < 2 ^ 31) (hl : -2 ^ 31 ≤ last ∧ last < 2 ^ 31)
    (hS : WellSized S)
    (hpsi : S.first_spo + S.kPointsSize ≤ psi.length)
    (hdpsi : S.first_spo + S.kPointsSize ≤ dpsi.length)
    (hd2psi : S.first_spo + S.kPointsSize ≤ d2psi.length)
    (hgg : S.first_spo + S.kPointsSize ≤ grad_grad_psi.length)
    (hggg : S.first_spo + S.kPointsSize ≤ grad_grad_grad_psi.length)
    (hsc : ∀ j, Processed first last S.kPointsSize j →
      (sincos (-(r 0 * kvec S j 0 + r 1 * kvec S j 1 + r 2 * kvec S j 2))).1 ^ 2
        + (sincos (-(r 0 * kvec S j 0 + r 1 * kvec S j 1 + r 2 * kvec S j 2))).2 ^ 2 = 1) :
    ∃ outV outL outH outG,
      assign_v sincos S r S.myV psi first last = some outV ∧
      assign_vgl sincos S r psi dpsi d2psi first last = some outL ∧
      assign_vgh sincos S r psi dpsi grad_grad_psi first last = some outH ∧
      assign_vghgh sincos S r psi dpsi grad_grad_psi grad_grad_grad_psi first last
        = some outG ∧
      ∀ i, Written S first last i →
        ∃ (v : Cplx R) (g : Fin 3 → Cplx R) (l : Cplx R) (H H' : Fin 9 → Cplx R)
          (T : Fin 3 → Fin 9 → Cplx R),
          outV[i]? = some v ∧ outL.2.1[i]? = some g ∧ outL.2.2[i]? = some l ∧
          outH.2.2[i]? = some H ∧ outG.2.2.1[i]? = some H' ∧ outG.2.2.2[i]? = some T ∧
          Cplx.normSq v = rd S.myV (2 * (i - S.first_spo)) ^ 2
            + rd S.myV (2 * (i - S.first_spo) + 1) ^ 2 ∧
          (∀ a, Cplx.normSq (g a)
            = Cplx.normSq ((assign_vgl_val unitPhase S r (i - S.first_spo)).2.1 a)) ∧
          Cplx.normSq l = Cplx.normSq (assign_vgl_val unitPhase S r (i - S.first_spo)).2.2 ∧
          (∀ n, Cplx.normSq (H n)
            = Cplx.normSq ((assign_vgh_val unitPhase S r (i - S.first_spo)).2.2 n)) ∧
          (∀ n, Cplx.normSq (H' n)
            = Cplx.normSq ((assign_vghgh_val unitPhase S r (i - S.first_spo)).2.2.1 n)) ∧
          (∀ a n, Cplx.normSq (T a n)
            = Cplx.normSq ((assign_vghgh_val unitPhase S r (i - S.first_spo)).2.2.2 a n)) := by
  obtain ⟨outV, eV, hV⟩ := assign_v_frame sincos S r psi first last hk hf hl hS hpsi
  obtain ⟨outL, eL, -, hLg, hL⟩ := assign_vgl_frame sincos S r psi dpsi d2psi first last hk hf
    hl hS hpsi hdpsi hd2psi
  obtain ⟨outH, eH, -, -, hH⟩ := assign_vgh_frame sincos S r psi dpsi grad_grad_psi first last
    hk hf hl hS hpsi hdpsi hgg
  obtain ⟨outG, eG, -, -, hG, hT⟩ := assign_vghgh_frame sincos S r psi dpsi grad_grad_psi
    grad_grad_grad_psi first last hk hf hl hS hpsi hdpsi hgg hggg
  refine ⟨outV, outL, outH, outG, eV, eL, eH, eG, ?_⟩
  intro i hi
  obtain ⟨m1, m2, m3, m4, m5, m6⟩ := modulus_val sincos S r (i - S.first_spo) (hsc _ hi.2)
  exact ⟨_, _, _, _, _, _, by rw [hV i, if_pos hi], by rw [hLg i, if_pos hi],
    by rw [hL i, if_pos hi], by rw [hH i, if_pos hi], by rw [hG i, if_pos hi],
    by rw [hT i, if_pos hi], m1 S.myV, m2, m3, m4, m5, m6⟩

end ModulusClaim

/-- Witness of C39: the first sample orbital at a position where `(s, c) = (1, 0)`. -/
theorem bloch_phase_modulus_witness :
    ∃ outV outL outH outG,
      assign_v sampleSincos sampleSet sampleQuarterR sampleSet.myV samplePsi 0 1 = some outV ∧
      assign_vgl sampleSincos sampleSet sampleQuarterR samplePsi sampleDpsi samplePsi 0 1
        = some outL ∧
      assign_vgh sampleSincos sampleSet sampleQuarterR samplePsi sampleDpsi sampleGG 0 1
        = some outH ∧
      assign_vghgh sampleSincos sampleSet sampleQuarterR samplePsi sampleDpsi sampleGG
        sampleGGG 0 1 = some outG ∧
      ∀ i, Written sampleSet 0 1 i →
        ∃ (v : Cplx Int) (g : Fin 3 → Cplx Int) (l : Cplx Int) (H H' : Fin 9 → Cplx Int)
          (T : Fin 3 → Fin 9 → Cplx Int),
          outV[i]? = some v ∧ outL.2.1[i]? = some g ∧ outL.2.2[i]? = some l ∧
          outH.2.2[i]? = some H ∧ outG.2.2.1[i]? = some H' ∧ outG.2.2.2[i]? = some T ∧
          Cplx.normSq v = rd sampleSet.myV (2 * (i - sampleSet.first_spo)) ^ 2
            + rd sampleSet.myV (2 * (i - sampleSet.first_spo) + 1) ^ 2 ∧
          (∀ a, Cplx.normSq (g a) = Cplx.normSq
            ((assign_vgl_val unitPhase sampleSet sampleQuarterR
              (i - sampleSet.first_spo)).2.1 a)) ∧
          Cplx.normSq l = Cplx.normSq
            (assign_vgl_val unitPhase sampleSet sampleQuarterR (i - sampleSet.first_spo)).2.2 ∧
          (∀ n, Cplx.normSq (H n) = Cplx.normSq
            ((assign_vgh_val unitPhase sampleSet sampleQuarterR
              (i - sampleSet.first_spo)).2.2 n)) ∧
          (∀ n, Cplx.normSq (H' n) = Cplx.normSq
            ((assign_vghgh_val unitPhase sampleSet sampleQuarterR
              (i - sampleSet.first_spo)).2.2.1 n)) ∧
          (∀ a n, Cplx.normSq (T a n) = Cplx.normSq
            ((assign_vghgh_val unitPhase sampleSet sampleQuarterR
              (i - sampleSet.first_spo)).2.2.2 a n)) :=
  bloch_phase_modulus sampleSincos sampleSet sampleQuarterR samplePsi sampleDpsi samplePsi
    sampleGG sampleGGG 0 1 (by decide) (by decide) (by decide) (by decide) (by decide)
    (by decide) (by decide) (by decide) (by decide)
    (fun j hj => by
      have h : j < 1 := by
        have := hj.2.2; simp only [sampleSet] at this; omega
      interval_cases j; decide)

/-! ## The range of assign_vgl_from_l -/

section NoClamp
variable {R : Type} [CommRing R]

/-- The call `assign_vgl_from_l` fails on an access outside a buffer when its range
`last_spo - first_spo` exceeds the number of entries of `mKK`. -/
theorem assign_vgl_from_l_none (sincos : R → R × R) (S : SplineC2CT R) (r : Fin 3 → R)
    (psi : List (Cplx R)) (dpsi : List (Fin 3 → Cplx R)) (d2psi : List (Cplx R))
    (hspo : S.first_spo ≤ S.last_spo) (h64 : S.last_spo < 2 ^ 64)
    (hN : S.mKK.length < S.last_spo - S.first_spo) :
    assign_vgl_from_l sincos S r psi dpsi d2psi = none := by
  have hNe : (S.last_spo + 2 ^ 64 - S.first_spo) % 2 ^ 64 = S.last_spo - S.first_spo := by
    omega
  have hr : ¬ reads_vgl_from_l S S.mKK.length := fun h => absurd h.2.2.2.2 (lt_irrefl _)
  simp only [assign_vgl_from_l, forRange, hNe]
  exact forLoop_none _ S.mKK.length (fun s => by simp [assign_vgl_from_l_at, hr]) _ 0 _
    (Nat.zero_le _) (by omega)

/-- C40: `assign_vgl_from_l` has no range clamp. With `first_spo <= last_spo` and k-point
arrays (`myKcart`, `mKK`) of exactly `kPoints.size()` entries: if the range
`last_spo - first_spo` exceeds `kPoints.size()` the reads of the loop leave their buffers
(some orbital slot of the range is not readable, and the call ends on an access outside a
buffer); if it does not, and the scratch and output buffers hold the range, the call
returns with `psi`, `dpsi` and `d2psi` replaced exactly at the indices
`first_spo .. last_spo - 1` by the values of the orbital slots `0 .. last_spo - first_spo
- 1`, all other entries unchanged, while `assign_v(r, myV, psi, 0, myV.size() / 2)` replaces
`psi` exactly at `first_spo .. first_spo + min(myV.size() / 2, kPoints.size()) - 1`; the two
index sets are the same if and only if
`last_spo - first_spo = min(myV.size() / 2, kPoints.size())`. -/
theorem assign_vgl_from_l_no_clamp (sincos : R → R × R) (S : SplineC2CT R) (r : Fin 3 → R)
    (psi : List (Cplx R)) (dpsi : List (Fin 3 → Cplx R)) (d2psi : List (Cplx R))
    (hspo : S.first_spo ≤ S.last_spo) (h64 : S.last_spo < 2 ^ 64)
    (hk : S.kPointsSize < 2 ^ 31) (hV : S.myV.length < 2 ^ 31)
    (hK : ∀ a : Fin 3, (S.myKcart a).length = S.kPointsSize)
    (hKK : S.mKK.length = S.kPointsSize) :
    (S.kPointsSize < S.last_spo - S.first_spo →
      (¬ ∀ j, j < S.last_spo - S.first_spo → reads_vgl_from_l S j) ∧
      assign_vgl_from_l sincos S r psi dpsi d2psi = none) ∧
    (S.last_spo - S.first_spo ≤ S.kPointsSize →
      2 * (S.last_spo - S.first_spo) ≤ S.myV.length →
      (∀ a : Fin 3, 2 * (S.last_spo - S.first_spo) ≤ (S.myG a).length) →
      2 * (S.last_spo - S.first_spo) ≤ S.myL.length →
      S.last_spo ≤ psi.length → S.last_spo ≤ dpsi.length → S.last_spo ≤ d2psi.length →
      min (S.myV.length / 2) S.kPointsSize + S.first_spo ≤ psi.length →
      (∀ j, j < S.last_spo - S.first_spo → reads_vgl_from_l S j) ∧
      ∃ out outV, assign_vgl_from_l sincos S r psi dpsi d2psi = some out ∧
        Upd (fun i => some (assign_vgl_from_l_val sincos S r (i - S.first_spo)).1)
          S.first_spo S.last_spo psi out.1 ∧
        Upd (fun i => some (assign_vgl_from_l_val sincos S r (i - S.first_spo)).2.1)
          S.first_spo S.last_spo dpsi out.2.1 ∧
        Upd (fun i => some (assign_vgl_from_l_val sincos S r (i - S.first_spo)).2.2)
          S.first_spo S.last_spo d2psi out.2.2 ∧
        assign_v sincos S r S.myV psi 0 (toInt (S.myV.length / 2)) = some outV ∧
        Upd (fun i => some (assign_v_val sincos S r S.myV (i - S.first_spo)))
          S.first_spo (min (S.myV.length / 2) S.kPointsSize + S.first_spo) psi outV ∧
        ((∀ i, (S.first_spo ≤ i ∧ i < S.last_spo) ↔
            (S.first_spo ≤ i ∧ i < min (S.myV.length / 2) S.kPointsSize + S.first_spo)) ↔
          S.last_spo - S.first_spo = min (S.myV.length / 2) S.kPointsSize)) := by
  have hNe : (S.last_spo + 2 ^ 64 - S.first_spo) % 2 ^ 64 = S.last_spo - S.first_spo := by
    omega
  refine ⟨fun hgt => ⟨fun h => ?_, ?_⟩, ?_⟩
  · have := (h S.kPointsSize hgt).2.2.2.2
    omega
  · exact assign_vgl_from_l_none sincos S r psi dpsi d2psi hspo h64 (by omega)
  · intro hN h2V h2G h2L hpsi hdpsi hd2psi hpsiV
    have hreads : ∀ j, j < S.last_spo - S.first_spo → reads_vgl_from_l S j :=
      fun i hi => ⟨fun a => by have := hK a; omega, by omega,
        fun a => by have := h2G a; omega, by omega, by omega⟩
    obtain ⟨out, e, u1, u2, u3⟩ := assign_vgl_from_l_loop sincos S r psi dpsi d2psi
      (S.last_spo - S.first_spo) hNe hreads
      (fun i hi => by omega) (fun i hi => by omega) (fun i hi => by omega)
    have hlast : S.last_spo - S.first_spo + S.first_spo = S.last_spo := by omega
    rw [hlast] at u1 u2 u3
    have hm : S.myV.length / 2 < 2 ^ 31 := by omega
    have hhi : toSizeT (protect_last S.kPointsSize (toInt (S.myV.length / 2)))
        = min (S.myV.length / 2) S.kPointsSize := by
      rw [toInt_of_lt hm, toSizeT_protect_last hk (by omega) (by omega), if_neg (by omega),
        Int.toNat_ofNat]
    obtain ⟨outV, eV, uV⟩ := assign_v_loop sincos S r S.myV psi 0 (toInt (S.myV.length / 2)) 0
      (min (S.myV.length / 2) S.kPointsSize) rfl hhi
      (fun i _ hi => ⟨fun a => by have := hK a; omega, by omega⟩)
      (fun i _ hi => by omega)
    rw [Nat.zero_add] at uV
    refine ⟨hreads, out, outV, e, u1, u2, u3, eV, uV, ?_⟩
    constructor
    · intro h
      by_contra hne
      rcases Nat.lt_or_gt_of_ne hne with h1 | h1
      · have := (h S.last_spo).mpr ⟨hspo, by omega⟩
        omega
      · have := (h (min (S.myV.length / 2) S.kPointsSize + S.first_spo)).mp ⟨by omega, by omega⟩
        omega
    · intro h i
      constructor <;> intro ⟨a, b⟩ <;> exact ⟨a, by omega⟩

end NoClamp

/-- Witness of C40: the sample set with the range `[1, 4)`, longer than
`kPoints.size() = 2`, on which the call fails, and the sample set itself, whose range
`[1, 3)` is `kPoints.size()` long. -/
theorem assign_vgl_from_l_no_clamp_witness :
    ((¬ ∀ j, j < sampleSetLong.last_spo - sampleSetLong.first_spo →
        reads_vgl_from_l sampleSetLong j) ∧
      assign_vgl_from_l sampleSincos sampleSetLong sampleR samplePsi sampleDpsi samplePsi
        = none) ∧
    ((∀ j, j < sampleSet.last_spo - sampleSet.first_spo → reads_vgl_from_l sampleSet j) ∧
      ∃ out outV,
        assign_vgl_from_l sampleSincos sampleSet sampleR samplePsi sampleDpsi samplePsi
          = some out ∧
        Upd (fun i => some
            (assign_vgl_from_l_val sampleSincos sampleSet sampleR (i - sampleSet.first_spo)).1)
          sampleSet.first_spo sampleSet.last_spo samplePsi out.1 ∧
        Upd (fun i => some
            (assign_vgl_from_l_val sampleSincos sampleSet sampleR
              (i - sampleSet.first_spo)).2.1)
          sampleSet.first_spo sampleSet.last_spo sampleDpsi out.2.1 ∧
        Upd (fun i => some
            (assign_vgl_from_l_val sampleSincos sampleSet sampleR
              (i - sampleSet.first_spo)).2.2)
          sampleSet.first_spo sampleSet.last_spo samplePsi out.2.2 ∧
        assign_v sampleSincos sampleSet sampleR sampleSet.myV samplePsi 0
          (toInt (sampleSet.myV.length / 2)) = some outV ∧
        Upd (fun i => some
            (assign_v_val sampleSincos sampleSet sampleR sampleSet.myV
              (i - sampleSet.first_spo)))
          sampleSet.first_spo
          (min (sampleSet.myV.length / 2) sampleSet.kPointsSize + sampleSet.first_spo)
          samplePsi outV ∧
        ((∀ i, (sampleSet.first_spo ≤ i ∧ i < sampleSet.last_spo) ↔
            (sampleSet.first_spo ≤ i ∧
              i < min (sampleSet.myV.length / 2) sampleSet.kPointsSize
                + sampleSet.first_spo)) ↔
          sampleSet.last_spo - sampleSet.first_spo
            = min (sampleSet.myV.length / 2) sampleSet.kPointsSize)) :=
  ⟨(assign_vgl_from_l_no_clamp sampleSincos sampleSetLong sampleR samplePsi sampleDpsi
      samplePsi (by decide) (by decide) (by decide) (by decide) (by decide) (by decide)).1
      (by decide),
    (assign_vgl_from_l_no_clamp sampleSincos sampleSet sampleR samplePsi sampleDpsi samplePsi
      (by decide) (by decide) (by decide) (by decide) (by decide) (by decide)).2
      (by decide) (by decide) (by decide) (by decide) (by decide) (by decide) (by decide)
      (by decide)⟩

/-! ## The frame of applyRotation -/

section LoopFrame

variable {σ α : Type}

/-- A property of the state that every iteration of the range keeps, if it returns, holds
after a loop that returns. -/
theorem forLoop_preserves_in (body : Nat → σ → Option σ) (P : σ → Prop) :
    ∀ (n j : Nat) (s t : σ),
      (∀ i u v, j ≤ i → i < j + n → body i u = some v → P u → P v) →
      forLoop body n j s = some t → P s → P t := by
  intro n
  induction n with
  | zero =>
    intro j s t _ h hP
    have e : s = t := Option.some.inj h
    rw [← e]; exact hP
  | succ n ih =>
    intro j s t hstep h hP
    have h1 : (body j s).bind (forLoop body n (j + 1)) = some t := h
    obtain ⟨u, hu, hrest⟩ := Option.bind_eq_some.mp h1
    exact ih (j + 1) u t (fun i a b h2 h3 => hstep i a b (by omega) (by omega))
      hrest (hstep j s u (le_refl j) (by omega) hu hP)

/-- A store that succeeds sets one entry. -/
theorem store_inv {xs ys : List α} {i : Nat} {v : α} (h : store xs i v = some ys) :
    ys = xs.set i v := by
  unfold store at h
  by_cases c : i < xs.length
  · rw [if_pos c] at h; exact (Option.some.inj h).symm
  · rw [if_neg c] at h; exact absurd h (by simp)

end LoopFrame

section PaddingFrame

variable {R : Type} [CommRing R]

/-- The body of the loop over `j` of `applyRotation`, when it completes, changes at most the
two entries of the coefficient pair of orbital `j` in basis row `i`. -/
theorem rotation_store_sets (coef_copy : List R) (rot_mat : ValueMatrix R)
    (N OSS i j : Nat) (t t' : List R)
    (h : rotation_store coef_copy rot_mat N OSS i j t = some t') :
    t'.length = t.length ∧
      ∀ n, n ≠ N * i + 2 * j → n ≠ N * i + 2 * j + 1 → t'[n]? = t[n]? := by
  simp only [rotation_store, Option.bind_eq_bind] at h
  obtain ⟨newval, -, h1⟩ := Option.bind_eq_some.mp h
  obtain ⟨s1, hs1, hs2⟩ := Option.bind_eq_some.mp h1
  rw [store_inv hs2, store_inv hs1]
  refine ⟨by simp, fun n a b => ?_⟩
  rw [List.getElem?_set_ne (fun e => b e.symm), List.getElem?_set_ne (fun e => a e.symm)]

/-- The entries of the coefficient table that are not orbital coefficients keep their value
in every outcome of `applyRotation`, and the table keeps its length. -/
theorem applyRotation_frame (NDEBUG : Bool) (S : RotationSet R) (rot_mat : ValueMatrix R)
    (use_stored_copy : Bool) (hpad : 2 * S.OrbitalSetSize ≤ S.spline.num_splines) :
    (applyRotation NDEBUG S rot_mat use_stored_copy).1.spline.coefs.length = S.spline.coefs.length ∧
    ∀ n, ¬ IsRotated S n →
      (applyRotation NDEBUG S rot_mat use_stored_copy).1.spline.coefs[n]? = S.spline.coefs[n]? := by
  by_cases hN : S.spline.num_splines = 0
  · have e : applyRotation NDEBUG S rot_mat use_stored_copy = (S, some .DivisionByZero) := by
      simp only [applyRotation, hN, if_true]
    rw [e]; exact ⟨rfl, fun _ _ => rfl⟩
  by_cases h1 : NDEBUG = false ∧ S.OrbitalSetSize ≠ rot_mat.rows
  · have e : applyRotation NDEBUG S rot_mat use_stored_copy = (S, some .ShapeMismatch) := by
      simp only [applyRotation, if_neg hN, if_pos h1]
    rw [e]; exact ⟨rfl, fun _ _ => rfl⟩
  by_cases h2 : NDEBUG = false ∧ S.OrbitalSetSize ≠ rot_mat.cols
  · have e : applyRotation NDEBUG S rot_mat use_stored_copy = (S, some .ShapeMismatch) := by
      simp only [applyRotation, if_neg hN, if_neg h1, if_pos h2]
    rw [e]; exact ⟨rfl, fun _ _ => rfl⟩
  cases hc : rotation_checkpoint NDEBUG S use_stored_copy with
  | error err =>
    have e : applyRotation NDEBUG S rot_mat use_stored_copy = (S, some err) := by
      simp only [applyRotation, if_neg hN, if_neg h1, if_neg h2, hc]
    rw [e]; exact ⟨rfl, fun _ _ => rfl⟩
  | ok cp =>
    cases hl : forRange 0 (S.spline.coefs_size / S.spline.num_splines) (fun i spl_coefs =>
        forRange 0 S.OrbitalSetSize (fun j spl_coefs =>
          rotation_store (cp.getD []) rot_mat S.spline.num_splines S.OrbitalSetSize i j
            spl_coefs) spl_coefs) S.spline.coefs with
    | none =>
      have e : applyRotation NDEBUG S rot_mat use_stored_copy
          = ({ S with coef_copy_ := cp }, some .OutOfBounds) := by
        simp only [applyRotation, if_neg hN, if_neg h1, if_neg h2, hc, hl]
      rw [e]; exact ⟨rfl, fun _ _ => rfl⟩
    | some c' =>
      have e : applyRotation NDEBUG S rot_mat use_stored_copy
          = ({ S with spline := { S.spline with coefs := c' }, coef_copy_ := cp }, none) := by
        simp only [applyRotation, if_neg hN, if_neg h1, if_neg h2, hc, hl]
      rw [e]
      show c'.length = S.spline.coefs.length ∧
        ∀ n, ¬ IsRotated S n → c'[n]? = S.spline.coefs[n]?
      refine forLoop_preserves_in _
        (fun t => t.length = S.spline.coefs.length ∧
          ∀ n, ¬ IsRotated S n → t[n]? = S.spline.coefs[n]?)
        _ 0 S.spline.coefs c' ?_ hl ⟨rfl, fun _ _ => rfl⟩
      intro i u v _ hi hiv hu
      refine forLoop_preserves_in _
        (fun t => t.length = S.spline.coefs.length ∧
          ∀ n, ¬ IsRotated S n → t[n]? = S.spline.coefs[n]?)
        _ 0 u v ?_ hiv hu
      intro j a b _ hj hab ha
      obtain ⟨l1, l2⟩ := rotation_store_sets _ _ _ _ _ _ _ _ hab
      have hi' : i < S.spline.coefs_size / S.spline.num_splines := by omega
      have hrow : S.spline.num_splines * (i + 1) ≤
          S.spline.num_splines * (S.spline.coefs_size / S.spline.num_splines) :=
        Nat.mul_le_mul_left _ hi'
      rw [Nat.mul_add, Nat.mul_one] at hrow
      have a0 := rotation_row_index S.spline.num_splines i (2 * j) (by omega)
      have a1 := rotation_row_index S.spline.num_splines i (2 * j + 1) (by omega)
      have r0 : IsRotated S (S.spline.num_splines * i + 2 * j) :=
        ⟨by omega, by rw [a0.1]; omega⟩
      have r1 : IsRotated S (S.spline.num_splines * i + 2 * j + 1) :=
        ⟨by omega, by rw [Nat.add_assoc, a1.1]; omega⟩
      refine ⟨l1.trans ha.1, fun n hn => ?_⟩
      rw [l2 n (fun e => hn (e ▸ r0)) (fun e => hn (e ▸ r1))]
      exact ha.2 n hn

/-- C38: `applyRotation` leaves the padding untouched. With rows of `N = num_splines`
entries that hold the `2 * OrbitalSetSize` orbital coefficients, for every matrix `rot_mat`
and either value of `use_stored_copy`, with `NDEBUG` defined or not, in every outcome of
the call (a return or a failed check), the entry `N * i + c` of the coefficient table with `2 * OrbitalSetSize <= c < N`
and every entry at an index `n >= N * M`, `M = coefs_size / N`, is after the call what it
was before, and the table keeps its length. -/
theorem applyRotation_padding (NDEBUG : Bool) (S : RotationSet R) (rot_mat : ValueMatrix R)
    (use_stored_copy : Bool) (hpad : 2 * S.OrbitalSetSize ≤ S.spline.num_splines) :
    (∀ i c, 2 * S.OrbitalSetSize ≤ c → c < S.spline.num_splines →
      (applyRotation NDEBUG S rot_mat use_stored_copy).1.spline.coefs[S.spline.num_splines * i + c]?
        = S.spline.coefs[S.spline.num_splines * i + c]?) ∧
    (∀ n, S.spline.num_splines * (S.spline.coefs_size / S.spline.num_splines) ≤ n →
      (applyRotation NDEBUG S rot_mat use_stored_copy).1.spline.coefs[n]? = S.spline.coefs[n]?) ∧
    (applyRotation NDEBUG S rot_mat use_stored_copy).1.spline.coefs.length
      = S.spline.coefs.length := by
  obtain ⟨hl, hf⟩ := applyRotation_frame NDEBUG S rot_mat use_stored_copy hpad
  refine ⟨fun i c h1 h2 => hf _ (fun h => ?_), fun n hn => hf n (fun h => ?_), hl⟩
  · have := h.2
    rw [(rotation_row_index S.spline.num_splines i c h2).1] at this
    omega
  · have := h.1
    omega

end PaddingFrame

/-- Witness of C38: the sample table, with rows of six entries for two orbitals. -/
theorem applyRotation_padding_witness :
    (∀ i c, 2 * sampleRotationSet.OrbitalSetSize ≤ c → c < sampleRotationSet.spline.num_splines →
      (applyRotation false sampleRotationSet sampleRotation false).1.spline.coefs[
          sampleRotationSet.spline.num_splines * i + c]?
        = sampleRotationSet.spline.coefs[sampleRotationSet.spline.num_splines * i + c]?) ∧
    (∀ n, sampleRotationSet.spline.num_splines *
        (sampleRotationSet.spline.coefs_size / sampleRotationSet.spline.num_splines) ≤ n →
      (applyRotation false sampleRotationSet sampleRotation false).1.spline.coefs[n]?
        = sampleRotationSet.spline.coefs[n]?) ∧
    (applyRotation false sampleRotationSet sampleRotation false).1.spline.coefs.length
      = sampleRotationSet.spline.coefs.length :=
  applyRotation_padding false sampleRotationSet sampleRotation false (by decide)

/-! ## Rotations relative to the checkpoint -/

section Relative

variable {R : Type} [CommRing R]

/-- Rotating by the identity gives back the coefficient pair. -/
theorem rotatedCoef_identity (c : List R) (I : ValueMatrix R) (N n i j : Nat) (hj : j < n)
    (hid : ∀ l, l < n → ∀ j, j < n → I.entry l j = if l = j then 1 else 0) :
    rotatedCoef c I N n i j = coefPair c N i j := by
  unfold rotatedCoef
  rw [Finset.sum_congr rfl (fun k hk => by rw [hid k (Finset.mem_range.mp hk) j hj])]
  simp only [mul_ite, mul_one, mul_zero]
  rw [Finset.sum_ite_eq' (Finset.range n) j, if_pos (Finset.mem_range.mpr hj)]

/-- Two rotations in a row multiply the matrices. -/
theorem rotatedCoef_twice (c c1 : List R) (A B : ValueMatrix R) (N n i j : Nat)
    (h1 : ∀ k, k < n → coefPair c1 N i k = rotatedCoef c A N n i k) :
    rotatedCoef c1 B N n i j
      = ∑ l ∈ Finset.range n, coefPair c N i l *
          ∑ k ∈ Finset.range n, A.entry l k * B.entry k j := by
  unfold rotatedCoef
  rw [Finset.sum_congr rfl (fun k hk => by rw [h1 k (Finset.mem_range.mp hk)])]
  simp only [rotatedCoef, Finset.sum_mul]
  rw [Finset.sum_comm]
  simp only [mul_assoc, ← Finset.mul_sum]

/-- The rotated value at an index whose coefficient pair the rotation gives back is the
entry of the table. -/
theorem rotatedAt_of_pair (S : RotationSet R) (cp tbl : List R) (rot_mat : ValueMatrix R)
    (n : Nat) (hn : IsRotated S n) (hlt : n < tbl.length)
    (hc : rotatedCoef cp rot_mat S.spline.num_splines S.OrbitalSetSize
        (n / S.spline.num_splines) (n % S.spline.num_splines / 2)
      = coefPair tbl S.spline.num_splines (n / S.spline.num_splines)
          (n % S.spline.num_splines / 2)) :
    some (rotatedAt cp rot_mat S.spline.num_splines S.OrbitalSetSize n) = tbl[n]? := by
  obtain ⟨-, -, hsplit⟩ := isRotated_index S n hn
  rw [List.getElem?_eq_getElem hlt]
  congr 1
  unfold rotatedAt
  rw [hc]
  by_cases hp : n % S.spline.num_splines % 2 = 0
  · rw [if_pos hp]
    simp only [coefPair, rd, List.getD_eq_getElem?_getD]
    rw [show S.spline.num_splines * (n / S.spline.num_splines)
      + 2 * (n % S.spline.num_splines / 2) = n from by omega,
      List.getElem?_eq_getElem hlt, Option.getD_some]
  · rw [if_neg hp]
    simp only [coefPair, rd, List.getD_eq_getElem?_getD]
    rw [show S.spline.num_splines * (n / S.spline.num_splines)
      + 2 * (n % S.spline.num_splines / 2) + 1 = n from by omega,
      List.getElem?_eq_getElem hlt, Option.getD_some]

/-- C37: rotations with the stored copy are relative to the checkpoint. Starting from a
table `C0` whose checkpoint is `C0`, for all `OrbitalSetSize x OrbitalSetSize` matrices `R1`
and `R2`: `applyRotation(R1, false)` returns; followed by `applyRotation(R2, true)` it
leaves the whole table equal to the one that `applyRotation(R2, true)` alone leaves, with
orbital coefficients `C0 x R2`; followed by `applyRotation(R2, false)` it leaves the orbital
coefficients `C0 x (R1 x R2)`, the entry `(l, j)` of `R1 x R2` being the sum over `k` of
`R1[l][k] * R2[k][j]`; and `applyRotation(I, false)` with a matrix `I` whose entries are
those of the identity leaves the table unchanged. This holds whether or not `NDEBUG` is
defined. -/
theorem rotation_relative_to_checkpoint (NDEBUG : Bool) (S : RotationSet R) (R1 R2 : ValueMatrix R)
    (h1 : RotationReady S R1) (h2 : RotationReady S R2)
    (h0 : S.coef_copy_ = some S.spline.coefs) :
    (applyRotation NDEBUG S R1 false).2 = none ∧
    ((applyRotation NDEBUG (applyRotation NDEBUG S R1 false).1 R2 true).2 = none ∧
      (applyRotation NDEBUG (applyRotation NDEBUG S R1 false).1 R2 true).1.spline.coefs
        = (applyRotation NDEBUG S R2 true).1.spline.coefs ∧
      ∀ i j, i < S.spline.coefs_size / S.spline.num_splines → j < S.OrbitalSetSize →
        coefPair (applyRotation NDEBUG (applyRotation NDEBUG S R1 false).1 R2 true).1.spline.coefs
            S.spline.num_splines i j
          = ∑ k ∈ Finset.range S.OrbitalSetSize,
              coefPair S.spline.coefs S.spline.num_splines i k * R2.entry k j) ∧
    ((applyRotation NDEBUG (applyRotation NDEBUG S R1 false).1 R2 false).2 = none ∧
      ∀ i j, i < S.spline.coefs_size / S.spline.num_splines → j < S.OrbitalSetSize →
        coefPair (applyRotation NDEBUG (applyRotation NDEBUG S R1 false).1 R2 false).1.spline.coefs
            S.spline.num_splines i j
          = ∑ l ∈ Finset.range S.OrbitalSetSize,
              coefPair S.spline.coefs S.spline.num_splines i l *
                ∑ k ∈ Finset.range S.OrbitalSetSize, R1.entry l k * R2.entry k j) ∧
    (∀ I : ValueMatrix R, RotationReady S I →
      (∀ l, l < S.OrbitalSetSize → ∀ j, j < S.OrbitalSetSize →
        I.entry l j = if l = j then 1 else 0) →
      (applyRotation NDEBUG S I false).2 = none ∧
        (applyRotation NDEBUG S I false).1.spline.coefs = S.spline.coefs) := by
  have hsz := h1.2.2.1
  have hpad := h1.2.1
  have hM := Nat.mul_div_le S.spline.coefs_size S.spline.num_splines
  obtain ⟨c1, e1, l1, v1⟩ := applyRotation_with NDEBUG S R1 false _ h1
    (rotation_checkpoint_false_full NDEBUG S S.spline.coefs h0 hsz hsz) (by rw [hsz])
  rw [e1]
  have hS1 : RotationReady
      { S with spline := { S.spline with coefs := c1 }, coef_copy_ := some S.spline.coefs } R2 :=
    ⟨h2.1, h2.2.1, l1.trans hsz, h2.2.2.2.1, h2.2.2.2.2.1, h2.2.2.2.2.2⟩
  refine ⟨rfl, ?_, ?_, ?_⟩
  · obtain ⟨c2, e2, l2, v2⟩ := applyRotation_with NDEBUG
      { S with spline := { S.spline with coefs := c1 }, coef_copy_ := some S.spline.coefs } R2
      true S.spline.coefs hS1 (rotation_checkpoint_true NDEBUG _) (by show S.spline.coefs_size ≤ _; rw [hsz])
    obtain ⟨c3, e3, l3, v3⟩ := applyRotation_with NDEBUG S R2 true S.spline.coefs h2
      (by rw [rotation_checkpoint_true, h0]) (by rw [hsz])
    have v2' : ∀ n, c2[n]? = if IsRotated S n
        then some (rotatedAt S.spline.coefs R2 S.spline.num_splines S.OrbitalSetSize n)
        else c1[n]? := v2
    rw [e2, e3]
    refine ⟨rfl, ?_, fun i j hi hj => ?_⟩
    · show c2 = c3
      apply List.ext_getElem?
      intro n
      rw [v2' n, v3 n]
      by_cases hn : IsRotated S n
      · rw [if_pos hn, if_pos hn]
      · rw [if_neg hn, if_neg hn, v1 n, if_neg hn]
    · exact coefPair_of_rotated S R2 S.spline.coefs c2 hpad
        (fun n => by rw [v2' n]; by_cases hn : IsRotated S n
                     · rw [if_pos hn, if_pos hn]
                     · rw [if_neg hn, if_neg hn, v1 n, if_neg hn]) i j hi hj
  · obtain ⟨c4, e4, l4, v4⟩ := applyRotation_with NDEBUG
      { S with spline := { S.spline with coefs := c1 }, coef_copy_ := some S.spline.coefs } R2
      false c1 hS1 (rotation_checkpoint_false_full NDEBUG _ S.spline.coefs rfl (l1.trans hsz) hsz)
      (by show S.spline.coefs_size ≤ c1.length; rw [l1, hsz])
    have v4' : ∀ n, c4[n]? = if IsRotated S n
        then some (rotatedAt c1 R2 S.spline.num_splines S.OrbitalSetSize n)
        else c1[n]? := v4
    rw [e4]
    refine ⟨rfl, fun i j hi hj => ?_⟩
    show coefPair c4 S.spline.num_splines i j = _
    have hp : coefPair c4 S.spline.num_splines i j
        = rotatedCoef c1 R2 S.spline.num_splines S.OrbitalSetSize i j :=
      coefPair_of_rotated S R2 c1 c4 hpad
        (fun n => by rw [v4' n]; by_cases hn : IsRotated S n
                     · rw [if_pos hn, if_pos hn]
                     · rw [if_neg hn, if_neg hn, v1 n, if_neg hn]) i j hi hj
    rw [hp]
    exact rotatedCoef_twice S.spline.coefs c1 R1 R2 S.spline.num_splines S.OrbitalSetSize i j
      (fun k hk => coefPair_of_rotated S R1 _ c1 hpad v1 i k hi hk)
  · intro I hI hid
    obtain ⟨c5, e5, l5, v5⟩ := applyRotation_with NDEBUG S I false _ hI
      (rotation_checkpoint_false_full NDEBUG S S.spline.coefs h0 hsz hsz) (by rw [hsz])
    rw [e5]
    refine ⟨rfl, ?_⟩
    show c5 = S.spline.coefs
    apply List.ext_getElem?
    intro n
    rw [v5 n]
    by_cases hn : IsRotated S n
    · rw [if_pos hn]
      obtain ⟨hi, hj, -⟩ := isRotated_index S n hn
      exact rotatedAt_of_pair S S.spline.coefs S.spline.coefs I n hn
        (by have := hn.1; omega)
        (rotatedCoef_identity S.spline.coefs I S.spline.num_splines S.OrbitalSetSize _ _ hj hid)
    · rw [if_neg hn]

end Relative

/-- Witness of C37: the sample table with its own checkpoint, the sample unitary matrix as
`R1`, the shear as `R2`, and the identity with two rows. -/
theorem rotation_relative_to_checkpoint_witness :
    (applyRotation false sampleRotationSetC0 sampleRotation false).2 = none ∧
    (applyRotation false (applyRotation false sampleRotationSetC0 sampleRotation false).1 sampleShear
        true).1.spline.coefs = (applyRotation false sampleRotationSetC0 sampleShear true).1.spline.coefs ∧
    (∀ i j, i < sampleRotationSetC0.spline.coefs_size / sampleRotationSetC0.spline.num_splines →
      j < sampleRotationSetC0.OrbitalSetSize →
      coefPair (applyRotation false (applyRotation false sampleRotationSetC0 sampleRotation false).1
          sampleShear false).1.spline.coefs sampleRotationSetC0.spline.num_splines i j
        = ∑ l ∈ Finset.range sampleRotationSetC0.OrbitalSetSize,
            coefPair sampleRotationSetC0.spline.coefs sampleRotationSetC0.spline.num_splines
              i l *
              ∑ k ∈ Finset.range sampleRotationSetC0.OrbitalSetSize,
                sampleRotation.entry l k * sampleShear.entry k j) ∧
    (applyRotation false sampleRotationSetC0 sampleIdentity false).1.spline.coefs
      = sampleRotationSetC0.spline.coefs :=
  ⟨(rotation_relative_to_checkpoint false sampleRotationSetC0 sampleRotation sampleShear
      (by decide) (by decide) rfl).1,
    (rotation_relative_to_checkpoint false sampleRotationSetC0 sampleRotation sampleShear
      (by decide) (by decide) rfl).2.1.2.1,
    (rotation_relative_to_checkpoint false sampleRotationSetC0 sampleRotation sampleShear
      (by decide) (by decide) rfl).2.2.1.2,
    ((rotation_relative_to_checkpoint false sampleRotationSetC0 sampleRotation sampleShear
      (by decide) (by decide) rfl).2.2.2 sampleIdentity (by decide) (by decide)).2⟩

/-- The sample rotations evaluated: the stored-copy rotation by the shear after the unitary
rotation gives the shear of the checkpoint, and the two cumulative rotations give the
product. -/
theorem sample_rotations_evaluated :
    (applyRotation false (applyRotation false sampleRotationSetC0 sampleRotation false).1 sampleShear
        true).1.spline.coefs = [1, 2, 4, 6, 9, 9, 5, 6, 12, 14, 9, 9] ∧
    (applyRotation false sampleRotationSetC0 sampleRotation false).1.spline.coefs
      = [4, -3, -2, 1, 9, 9, 8, -7, -6, 5, 9, 9] ∧
    (applyRotation false (applyRotation false sampleRotationSetC0 sampleRotation false).1 sampleShear
        false).1.spline.coefs = [4, -3, 2, -2, 9, 9, 8, -7, 2, -2, 9, 9] := by
  decide

/-! ## The blend of the hybrid representation -/

section BlendLemmas

variable {R : Type} [CommRing R]

theorem interpolate_buffer_v_length (f : R) (psi psi_AO : List (Cplx R)) :
    (HybridRepCenterOrbitals.interpolate_buffer_v f psi psi_AO).length = psi.length := by
  simp [HybridRepCenterOrbitals.interpolate_buffer_v]

theorem interpolate_buffer_v_rd (f : R) (psi psi_AO : List (Cplx R)) (i : Nat)
    (h : i < psi.length) :
    rd (HybridRepCenterOrbitals.interpolate_buffer_v f psi psi_AO) i
      = Cplx.ofReal f * rd psi_AO i + Cplx.ofReal (1 - f) * rd psi i :=
  rd_map_range _ _ _ h

end BlendLemmas

section BlendContinuity

variable {R H : Type} [LinearOrderedField R]

/-- C31: hybrid blend continuity at the fast-path boundary, with the blend of the spec
(`interpolate_buffer_v` with the smoothing factor as weight). For a hybrid set, a position
and atomic raw values `v`, let `psiA` be what `evaluateValue` leaves in `psi` when the
engine reports the factor 1 (the atomic values of the orbitals at the written indices), and
`psiS` what the spline set alone leaves. For every engine that reports a factor
`0 <= f < 1`, keeps it as its blend weight and fills the scratch with the same `v`, the call
returns through the blend branch, and at every written index the entry of `psi` is
`f * psiA[i] + (1 - f) * psiS[i]`; hence for every `eps > 0` there is a `delta > 0` such
that `1 - delta < f < 1` puts the real and the imaginary part of every written entry within
`eps` of those of `psiA`. -/
theorem hybrid_blend_continuous (sincos : R → R × R) (spline : MultiBspline R)
    (toUnit_floor : (Fin 3 → R) → (Fin 3 → R)) (weight : H → R)
    (S : SplineC2CT R) (X : HybridRepCplx R H) (r : Fin 3 → R) (psi : List (Cplx R))
    (shares : List (Int × Int)) (v : List R)
    (hshares : ∀ sh ∈ shares, 0 ≤ sh.1 ∧ sh.1 ≤ sh.2 ∧ sh.2 ≤ 2 * (psi.length : Int) ∧
      sh.1 % 2 = 0 ∧ sh.2 % 2 = 0)
    (hn : psi.length < 2 ^ 30) (hk : S.kPointsSize < 2 ^ 31)
    (hchan : 2 * S.kPointsSize ≤ spline.num_splines)
    (hV : spline.num_splines ≤ S.myV.length) (hV31 : S.myV.length < 2 ^ 31)
    (hK : ∀ a : Fin 3, S.kPointsSize ≤ (S.myKcart a).length)
    (hpsi : S.kPointsSize + S.first_spo ≤ psi.length)
    (hX : X.base.kPointsSize = S.kPointsSize ∧ X.base.first_spo = S.first_spo ∧
      X.base.myKcart = S.myKcart)
    (hv : v.length = S.myV.length) :
    ∃ psiA psiS : List (Cplx R),
      Upd (fun i => some (assign_v_val sincos S r v (i - S.first_spo))) S.first_spo
        (min (v.length / 2) S.kPointsSize + S.first_spo) psi psiA ∧
      (evaluateValue sincos spline toUnit_floor S r psi shares).map (fun st => st.2)
        = some psiS ∧
      (∀ evaluate_v : H → (Fin 3 → R) → List R → H × R × List R,
        (evaluate_v X.center r X.base.myV).2.2 = v →
        (evaluate_v X.center r X.base.myV).2.1 = 1 →
        (HybridRepCplx.evaluateValue sincos spline toUnit_floor evaluate_v
          (fun h p q => HybridRepCenterOrbitals.interpolate_buffer_v (weight h) p q)
          X r psi shares).map (fun out => out.2) = some psiA) ∧
      (∀ evaluate_v : H → (Fin 3 → R) → List R → H × R × List R,
        (evaluate_v X.center r X.base.myV).2.2 = v →
        weight (evaluate_v X.center r X.base.myV).1 = (evaluate_v X.center r X.base.myV).2.1 →
        0 ≤ (evaluate_v X.center r X.base.myV).2.1 →
        (evaluate_v X.center r X.base.myV).2.1 < 1 →
        ∃ out, HybridRepCplx.evaluateValue sincos spline toUnit_floor evaluate_v
            (fun h p q => HybridRepCenterOrbitals.interpolate_buffer_v (weight h) p q)
            X r psi shares = some out ∧
          out.2.length = psiA.length ∧
          ∀ i, S.first_spo ≤ i → i < min (v.length / 2) S.kPointsSize + S.first_spo →
            rd out.2 i = Cplx.ofReal (evaluate_v X.center r X.base.myV).2.1 * rd psiA i
              + Cplx.ofReal (1 - (evaluate_v X.center r X.base.myV).2.1) * rd psiS i) ∧
      ∀ ε : R, 0 < ε → ∃ δ : R, 0 < δ ∧
        ∀ evaluate_v : H → (Fin 3 → R) → List R → H × R × List R,
          (evaluate_v X.center r X.base.myV).2.2 = v →
          weight (evaluate_v X.center r X.base.myV).1
            = (evaluate_v X.center r X.base.myV).2.1 →
          0 ≤ (evaluate_v X.center r X.base.myV).2.1 →
          (evaluate_v X.center r X.base.myV).2.1 < 1 →
          1 - δ < (evaluate_v X.center r X.base.myV).2.1 →
          ∃ out, HybridRepCplx.evaluateValue sincos spline toUnit_floor evaluate_v
              (fun h p q => HybridRepCenterOrbitals.interpolate_buffer_v (weight h) p q)
              X r psi shares = some out ∧
            ∀ i, S.first_spo ≤ i → i < min (v.length / 2) S.kPointsSize + S.first_spo →
              |(rd out.2 i).re - (rd psiA i).re| < ε ∧
              |(rd out.2 i).im - (rd psiA i).im| < ε := by
  have hm : v.length / 2 < 2 ^ 31 := by omega
  have hhi : toSizeT (protect_last S.kPointsSize (toInt (v.length / 2)))
      = min (v.length / 2) S.kPointsSize := by
    rw [toInt_of_lt hm, toSizeT_protect_last hk (by omega) (by omega), if_neg (by omega),
      Int.toNat_ofNat]
  obtain ⟨psiA, eA, uA⟩ := assign_v_loop sincos S r v psi 0 (toInt (v.length / 2)) 0
    (min (v.length / 2) S.kPointsSize) rfl hhi
    (fun i _ hi => ⟨fun a => by have := hK a; omega, by omega⟩)
    (fun i _ hi => by omega)
  obtain ⟨ao, eAO, uAO⟩ := assign_v_loop sincos S r v (resizeVector X.psi_AO psi.length) 0
    (toInt (v.length / 2)) 0 (min (v.length / 2) S.kPointsSize) rfl hhi
    (fun i _ hi => ⟨fun a => by have := hK a; omega, by omega⟩)
    (fun i _ hi => by rw [resizeVector_length]; omega)
  rw [Nat.zero_add] at uA uAO
  obtain ⟨psiS, lenS, hS⟩ := evaluateValue_total sincos spline toUnit_floor S r psi shares
    hshares hn hk hchan hV hK (by omega)
  obtain ⟨stS, eS, eS2, -⟩ := hS S ⟨rfl, rfl, rfl⟩ rfl
  have hI : ∀ (h : H) (p q : List (Cplx R)), q.length = p.length →
      (HybridRepCenterOrbitals.interpolate_buffer_v (weight h) p q).length = p.length :=
    fun h p q _ => interpolate_buffer_v_length _ _ _
  -- the blend branch, entry by entry
  have blend : ∀ evaluate_v : H → (Fin 3 → R) → List R → H × R × List R,
      (evaluate_v X.center r X.base.myV).2.2 = v →
      weight (evaluate_v X.center r X.base.myV).1 = (evaluate_v X.center r X.base.myV).2.1 →
      0 ≤ (evaluate_v X.center r X.base.myV).2.1 →
      (evaluate_v X.center r X.base.myV).2.1 < 1 →
      ∃ out, HybridRepCplx.evaluateValue sincos spline toUnit_floor evaluate_v
          (fun h p q => HybridRepCenterOrbitals.interpolate_buffer_v (weight h) p q)
          X r psi shares = some out ∧
        out.2.length = psiA.length ∧
        ∀ i, S.first_spo ≤ i → i < min (v.length / 2) S.kPointsSize + S.first_spo →
          rd out.2 i = Cplx.ofReal (evaluate_v X.center r X.base.myV).2.1 * rd psiA i
            + Cplx.ofReal (1 - (evaluate_v X.center r X.base.myV).2.1) * rd psiS i := by
    intro E hEv hw h0 hlt
    obtain ⟨out, e, -, lenOut, -, -, b3⟩ := hybrid_evaluateValue_step sincos spline toUnit_floor
      E (fun h p q => HybridRepCenterOrbitals.interpolate_buffer_v (weight h) p q)
      S X r psi shares hshares hn hk hchan hV hV31 hK hpsi hX (by rw [hEv]; exact hv) hI
    obtain ⟨ao1, -, -, hao, hst⟩ := b3 (not_lt.mpr h0) (ne_of_lt hlt)
    have h1 := hao S ⟨rfl, rfl, rfl⟩
    rw [hEv, ← hv, eAO] at h1
    obtain ⟨st, e1, e2, -⟩ := hst S ⟨rfl, rfl, rfl⟩ rfl
    rw [eS] at e1
    have e3 : st.2 = psiS := by rw [← Option.some.inj e1]; exact eS2
    rw [e3, ← Option.some.inj h1, hw] at e2
    refine ⟨out, e, lenOut.trans uA.1.symm, fun i hi1 hi2 => ?_⟩
    have gA := uA.2 i
    have gO := uAO.2 i
    rw [if_pos ⟨hi1, hi2⟩] at gA gO
    rw [← e2, interpolate_buffer_v_rd _ _ _ _ (by rw [lenS]; omega), rd_of_getElem? gA,
      rd_of_getElem? gO]
  refine ⟨psiA, psiS, uA, by rw [eS]; exact congrArg some eS2, ?_, blend, ?_⟩
  · intro E hEv hE1
    obtain ⟨out, e, -, -, -, b1, -⟩ := hybrid_evaluateValue_step sincos spline toUnit_floor
      E (fun h p q => HybridRepCenterOrbitals.interpolate_buffer_v (weight h) p q)
      S X r psi shares hshares hn hk hchan hV hV31 hK hpsi hX (by rw [hEv]; exact hv) hI
    have h1 := b1 hE1 S ⟨rfl, rfl, rfl⟩
    rw [hEv, ← hv, eA] at h1
    rw [e, Option.map_some', Option.some.inj h1]
  · intro ε hε
    have hMnn : 0 ≤ ∑ i ∈ Finset.range psi.length,
        (|(rd psiS i).re - (rd psiA i).re| + |(rd psiS i).im - (rd psiA i).im|) :=
      Finset.sum_nonneg (fun i _ => add_nonneg (abs_nonneg _) (abs_nonneg _))
    have hM1 : 0 < (∑ i ∈ Finset.range psi.length,
        (|(rd psiS i).re - (rd psiA i).re| + |(rd psiS i).im - (rd psiA i).im|)) + 1 := by
      linarith
    refine ⟨ε / ((∑ i ∈ Finset.range psi.length,
        (|(rd psiS i).re - (rd psiA i).re| + |(rd psiS i).im - (rd psiA i).im|)) + 1),
      div_pos hε hM1, ?_⟩
    intro E hEv hw h0 hlt hδ
    obtain ⟨out, e, -, hval⟩ := blend E hEv hw h0 hlt
    refine ⟨out, e, fun i hi1 hi2 => ?_⟩
    have hi : i ∈ Finset.range psi.length := Finset.mem_range.mpr (by omega)
    have hle := Finset.single_le_sum
      (f := fun i => |(rd psiS i).re - (rd psiA i).re| + |(rd psiS i).im - (rd psiA i).im|)
      (fun i _ => add_nonneg (abs_nonneg _) (abs_nonneg _)) hi
    have hf : 0 < 1 - (E X.center r X.base.myV).2.1 := by linarith
    have hfd : (1 - (E X.center r X.base.myV).2.1) * ((∑ i ∈ Finset.range psi.length,
        (|(rd psiS i).re - (rd psiA i).re| + |(rd psiS i).im - (rd psiA i).im|)) + 1) < ε := by
      rw [← lt_div_iff₀ hM1]
      linarith
    have hre : (rd out.2 i).re - (rd psiA i).re
        = (1 - (E X.center r X.base.myV).2.1) * ((rd psiS i).re - (rd psiA i).re) := by
      rw [hval i hi1 hi2]
      simp only [Cplx.add_re, Cplx.mul_re, Cplx.ofReal_re, Cplx.ofReal_im]
      ring
    have him : (rd out.2 i).im - (rd psiA i).im
        = (1 - (E X.center r X.base.myV).2.1) * ((rd psiS i).im - (rd psiA i).im) := by
      rw [hval i hi1 hi2]
      simp only [Cplx.add_im, Cplx.mul_im, Cplx.ofReal_re, Cplx.ofReal_im]
      ring
    have a1 := abs_nonneg ((rd psiS i).re - (rd psiA i).re)
    have a2 := abs_nonneg ((rd psiS i).im - (rd psiA i).im)
    beta_reduce at hle
    constructor
    · rw [hre, abs_mul, abs_of_pos hf]
      exact lt_of_le_of_lt (mul_le_mul_of_nonneg_left (by linarith) hf.le) hfd
    · rw [him, abs_mul, abs_of_pos hf]
      exact lt_of_le_of_lt (mul_le_mul_of_nonneg_left (by linarith) hf.le) hfd

end BlendContinuity

/-- Witness of C31: the rational sample set with an engine that reports `f` and fills the
scratch with tens, whatever `f` is. -/
theorem hybrid_blend_continuous_witness :
    ∃ psiA : List (Cplx ℚ),
      (HybridRepCplx.evaluateValue unitPhase sampleSplineQ id (sampleEngineQ 1)
        (fun h p q => HybridRepCenterOrbitals.interpolate_buffer_v (id h) p q)
        sampleHybridQ 0 [0, 0] [(0, 4)]).map (fun out => out.2) = some psiA ∧
      ∀ ε : ℚ, 0 < ε → ∃ δ : ℚ, 0 < δ ∧ ∀ f : ℚ, 0 ≤ f → f < 1 → 1 - δ < f →
        ∃ out, HybridRepCplx.evaluateValue unitPhase sampleSplineQ id (sampleEngineQ f)
            (fun h p q => HybridRepCenterOrbitals.interpolate_buffer_v (id h) p q)
            sampleHybridQ 0 [0, 0] [(0, 4)] = some out ∧
          ∀ i, i < 2 →
            |(rd out.2 i).re - (rd psiA i).re| < ε ∧
            |(rd out.2 i).im - (rd psiA i).im| < ε := by
  obtain ⟨psiA, psiS, -, -, b1, -, ep⟩ := hybrid_blend_continuous unitPhase sampleSplineQ id id
    sampleSetQ sampleHybridQ 0 [0, 0] [(0, 4)] [10, 10, 10, 10]
    (by decide) (by decide) (by decide) (by decide) (by decide) (by decide) (by decide)
    (by decide) ⟨rfl, rfl, rfl⟩ rfl
  refine ⟨psiA, b1 (sampleEngineQ 1) rfl rfl, fun ε hε => ?_⟩
  obtain ⟨δ, hδ, h⟩ := ep ε hε
  exact ⟨δ, hδ, fun f h0 h1 h2 =>
    let ⟨out, e, hb⟩ := h (sampleEngineQ f) rfl rfl h0 h1 h2
    ⟨out, e, fun i hi => hb i (Nat.zero_le i) hi⟩⟩

end qmcplusplus
